import Mathlib

/-!
# A shallow embedding of the ray tracer (xiangy3/RayTracer)

The C++ `float` is modelled by an arbitrary linearly ordered field `K`
(the rationals for running the model, the reals for the exact statements).
The functions of the C math library and of GLM that are not field
operations (`sqrt`, `pow`, `acos`, `atan2`, `fmod`) are not part of the
repository; they are passed to the model as a record `MathOps K`.  Where a
theorem needs one of them to be exact at some argument it says so in a
hypothesis (`IsSqrtAt`).

Function-local `static` buffers of the source are modelled by explicit state
passing (`Statics`).  Members of a `HitRecord` that its constructor does not
set are modelled as zero.  The local variable `colorForPixel` of
`raytraceScene`, which is declared without initialiser, is an explicit
argument of the model (`start`).
-/

namespace Raytrace

/-! ## Math library collaborators -/

/-- The non-field operations of `<cmath>` used by the source. -/
structure MathOps (K : Type) where
  sqrt : K → K
  pow : K → K → K
  acos : K → K
  atan2 : K → K → K
  fmod : K → K → K

/-- The operation `M.sqrt` returns the non-negative square root of `x`
(required only when `x` is non-negative). -/
def IsSqrtAt {K : Type} [LinearOrderedField K] (M : MathOps K) (x : K) : Prop :=
  0 ≤ x → 0 ≤ M.sqrt x ∧ M.sqrt x * M.sqrt x = x

/-! ## glm::vec3 -/

/-- The type `glm::vec3`. -/
structure Vec3 (K : Type) where
  x : K
  y : K
  z : K
deriving DecidableEq, Repr

/-- The type `color` is `glm::vec3`. -/
abbrev color (K : Type) := Vec3 K

section VecOps

variable {K : Type} [LinearOrderedField K]

instance : Zero (Vec3 K) := ⟨⟨0, 0, 0⟩⟩
instance : Add (Vec3 K) := ⟨fun a b => ⟨a.x + b.x, a.y + b.y, a.z + b.z⟩⟩
instance : Sub (Vec3 K) := ⟨fun a b => ⟨a.x - b.x, a.y - b.y, a.z - b.z⟩⟩
instance : Neg (Vec3 K) := ⟨fun a => ⟨-a.x, -a.y, -a.z⟩⟩
/-- Component-wise product `vec3 * vec3`. -/
instance : Mul (Vec3 K) := ⟨fun a b => ⟨a.x * b.x, a.y * b.y, a.z * b.z⟩⟩
/-- The product `float * vec3`. -/
instance : HMul K (Vec3 K) (Vec3 K) := ⟨fun s a => ⟨s * a.x, s * a.y, s * a.z⟩⟩
/-- The product `vec3 * float`. -/
instance : HMul (Vec3 K) K (Vec3 K) := ⟨fun a s => ⟨a.x * s, a.y * s, a.z * s⟩⟩
/-- The quotient `vec3 / float`. -/
instance : HDiv (Vec3 K) K (Vec3 K) := ⟨fun a s => ⟨a.x / s, a.y / s, a.z / s⟩⟩

/-- The constant `black` (the colour (0, 0, 0)). -/
def black : color K := ⟨0, 0, 0⟩

/-- The function `glm::dot`. -/
def dot (a b : Vec3 K) : K := a.x * b.x + a.y * b.y + a.z * b.z

/-- The function `glm::cross`. -/
def cross (a b : Vec3 K) : Vec3 K :=
  ⟨a.y * b.z - b.y * a.z, a.z * b.x - b.z * a.x, a.x * b.y - b.x * a.y⟩

/-- The function `glm::length`: `sqrt(dot(v, v))`. -/
def length (M : MathOps K) (v : Vec3 K) : K := M.sqrt (dot v v)

/-- The function `glm::distance`: `length(p1 - p0)`. -/
def distance (M : MathOps K) (p0 p1 : Vec3 K) : K := length M (p1 - p0)

/-- The function `glm::normalize`: `v * inversesqrt(dot(v, v))`. -/
def normalize (M : MathOps K) (v : Vec3 K) : Vec3 K := v * (1 / M.sqrt (dot v v))

/-- The scalar `glm::clamp(x, lo, hi)`: `min(max(x, lo), hi)`. -/
def clamp (x lo hi : K) : K := min (max x lo) hi

/-- The function `glm::clamp` on a `vec3` with scalar bounds. -/
def clampV (v : Vec3 K) (lo hi : K) : Vec3 K :=
  ⟨clamp v.x lo hi, clamp v.y lo hi, clamp v.z lo hi⟩

/-- Component access `v[i]`. -/
def Vec3.get (v : Vec3 K) (i : Nat) : K :=
  if i = 0 then v.x else if i = 1 then v.y else v.z

end VecOps

/-! ## Utilities.cpp -/

section Utilities

variable {K : Type} [LinearOrderedField K]

/-- The constant `FLT_MAX` of `<cfloat>`, the "no hit" sentinel. -/
def FLT_MAX : K := 340282346638528859811704183484516925440

/-- The constant `EPSILON` of Defs.h (1.0E-3f). -/
def EPSILON : K := 1 / 1000

/-- The function `inRangeExclusive(val, lo, hi)`. -/
def inRangeExclusive (val lo hi : K) : Bool := decide (val > lo) && decide (val < hi)

/-- The vector overload `std::vector<float> quadratic(float A, float B, float C)`. -/
def quadratic (M : MathOps K) (A B C : K) : List K :=
  if (B * B - 4 * A * C) > 0 then
    let fResult := (-B + M.sqrt (B * B - 4 * A * C)) / (2 * A)
    let sResult := (-B - M.sqrt (B * B - 4 * A * C)) / (2 * A)
    [min fResult sResult, max fResult sResult]
  else if (B * B - 4 * A * C) = 0 then
    let fResult := (-B + M.sqrt (B * B - 4 * A * C)) / (2 * A)
    [fResult]
  else
    []

/-- The array overload `int quadratic(float A, float B, float C, float roots[2])`:
the returned pair is the return value and the contents of `roots` after the
call (`roots` holds the contents before the call). -/
def quadraticArr (M : MathOps K) (A B C : K) (roots : K × K) : Int × (K × K) :=
  if (B * B - 4 * A * C) > 0 then
    let fResult := (-B + M.sqrt (B * B - 4 * A * C)) / (2 * A)
    let sResult := (-B - M.sqrt (B * B - 4 * A * C)) / (2 * A)
    (2, (min fResult sResult, max fResult sResult))
  else if (B * B - 4 * A * C) = 0 then
    let fResult := (-B + M.sqrt (B * B - 4 * A * C)) / (2 * A)
    (1, (fResult, roots.2))
  else
    (-1, roots)

/-- The function `normalizeRadians`, with `M_PI = acos(-1)`. -/
def normalizeRadians (M : MathOps K) (rads : K) : K :=
  let tRads := M.fmod rads (2 * M.acos (-1))
  if tRads < 0 then 2 * M.acos (-1) + tRads else tRads

/-- The function `cosBetween(vec3, vec3)`. -/
def cosBetween (M : MathOps K) (v1 v2 : Vec3 K) : K :=
  dot v1 v2 / (length M v1 * length M v2)

/-- The function `normalFrom3Points(pt0, pt1, pt2)`. -/
def normalFrom3Points (M : MathOps K) (pt0 pt1 pt2 : Vec3 K) : Vec3 K :=
  let v1 := pt1 - pt0
  let v2 := pt2 - pt0
  let v3 := cross v1 v2
  v3 / length M v3

end Utilities

/-! ## Running the model on rational numbers -/

/-- Integer square root by downward search from `k`. -/
def isqrtAux (n : Nat) : Nat → Nat
  | 0 => 0
  | k + 1 => if (k + 1) * (k + 1) ≤ n then k + 1 else isqrtAux n k

/-- Square root on the rationals, exact on squares of rationals. -/
def ratSqrt (q : ℚ) : ℚ := (isqrtAux q.num.toNat q.num.toNat : ℚ) / (isqrtAux q.den q.den : ℚ)

/-- Math operations on the rationals: `sqrt` is exact on squares; the
transcendental functions are not used by the runs below and return 0. -/
def ratOps : MathOps ℚ :=
  ⟨ratSqrt, fun _ _ => 0, fun _ => 0, fun _ _ => 0, fun _ _ => 0⟩

/-! ## ColorAndMaterials, Image, HitRecord, Ray -/

/-- The struct `Material` (its fields as used by ColorAndMaterials.cpp). -/
structure Material (K : Type) where
  ambient : color K
  diffuse : color K
  specular : color K
  shininess : K
  alpha : K

/-- The struct `Image`, a texture.  Only `getPixel(u, v)` is used by the ray
tracer; its body is not part of the sources, so an image is its lookup function. -/
structure Image (K : Type) where
  getPixel : K → K → color K

/-- The struct `HitRecord`.  A null `texture` pointer is `none`. -/
structure HitRecord (K : Type) where
  t : K
  interceptPoint : Vec3 K
  surfaceNormal : Vec3 K
  material : Material K
  texture : Option (Image K)
  u : K
  v : K

/-- The struct `Ray`. -/
structure Ray (K : Type) where
  origin : Vec3 K
  direction : Vec3 K

section Basic

variable {K : Type} [LinearOrderedField K]

/-- The constructor `HitRecord()`: `t = FLT_MAX`, `texture = nullptr`; the other
fields, which the constructor does not set, are zero in the model. -/
def HitRecord.new : HitRecord K :=
  { t := FLT_MAX, interceptPoint := 0, surfaceNormal := 0,
    material := ⟨0, 0, 0, 0, 0⟩, texture := none, u := 0, v := 0 }

/-- The constructor `Ray(rayOrigin, rayDirection)`: the direction is normalised. -/
def Ray.new (M : MathOps K) (rayOrigin rayDirection : Vec3 K) : Ray K :=
  { origin := rayOrigin, direction := normalize M rayDirection }

/-- The method `Ray::getPoint`. -/
def Ray.getPoint (r : Ray K) (t : K) : Vec3 K := r.origin + t * r.direction

end Basic

/-! ## IShape.h / IShape.cpp: planar shapes -/

/-- The struct `IPlane`. -/
structure IPlane (K : Type) where
  a : Vec3 K
  n : Vec3 K

/-- The struct `IDisk`. -/
structure IDisk (K : Type) where
  center : Vec3 K
  n : Vec3 K
  radius : K

/-- The struct `IRect`. -/
structure IRect (K : Type) where
  width : K
  height : K
  center : Vec3 K
  W2 : K
  H2 : K
  n : Vec3 K
  plane : IPlane K

/-- The struct `IBox`. -/
structure IBox (K : Type) where
  rects : List (IRect K)

/-- The struct `IConvexPolygon`.  It derives from `IPlane` and declares a
second member `n` that hides `IPlane::n`; the base object is the field `plane`. -/
structure IConvexPolygon (K : Type) where
  plane : IPlane K
  v : List (Vec3 K)
  n : Vec3 K

/-- The struct `ITriangle`. -/
structure ITriangle (K : Type) where
  a : Vec3 K
  b : Vec3 K
  c : Vec3 K
  plane : IPlane K

section Planar

variable {K : Type} [LinearOrderedField K]

/-- The constructor `IPlane(point, normal)`. -/
def IPlane.new (M : MathOps K) (point normal : Vec3 K) : IPlane K :=
  { a := point, n := normalize M normal }

/-- The constructor `IPlane(p0, p1, p2)`. -/
def IPlane.ofPoints (M : MathOps K) (p0 p1 p2 : Vec3 K) : IPlane K :=
  { a := p1, n := normalize M (cross (p2 - p1) (p0 - p1)) }

/-- The constructor `IPlane(vertices)`. -/
def IPlane.ofVertices (M : MathOps K) (vertices : List (Vec3 K)) : IPlane K :=
  { a := vertices.getD 0 0,
    n := normalize M (cross (vertices.getD 2 0 - vertices.getD 1 0)
                            (vertices.getD 0 0 - vertices.getD 1 0)) }

/-- The method `IPlane::findClosestIntersection`; the result is the in/out
parameter `hit` after the call. -/
def IPlane.findClosestIntersection (p : IPlane K) (ray : Ray K) (hit : HitRecord K) :
    HitRecord K :=
  let denom := dot ray.direction p.n
  if denom = 0 then
    { hit with t := FLT_MAX }
  else
    let num := dot (p.a - ray.origin) p.n
    let hit1 := { hit with t := num / denom }
    if hit1.t < 0 then
      { hit1 with t := FLT_MAX }
    else
      { hit1 with interceptPoint := ray.getPoint hit1.t, surfaceNormal := p.n }

/-- The method `IDisk::findClosestIntersection`. -/
def IDisk.findClosestIntersection (M : MathOps K) (d : IDisk K) (ray : Ray K)
    (hit : HitRecord K) : HitRecord K :=
  let p := IPlane.new M d.center d.n
  let hit1 := p.findClosestIntersection ray hit
  if hit1.t ≠ FLT_MAX ∧ distance M d.center hit1.interceptPoint > d.radius then
    { hit1 with t := FLT_MAX }
  else
    hit1

/-- The constructor `IRect(position, normal, W, H)`. -/
def IRect.new (M : MathOps K) (position normal : Vec3 K) (W H : K) : IRect K :=
  { width := W, height := H, center := position, n := normal,
    plane := IPlane.new M position normal, W2 := W / 2, H2 := H / 2 }

/-- The method `IRect::findClosestIntersection`. -/
def IRect.findClosestIntersection (r : IRect K) (ray : Ray K) (hit : HitRecord K) :
    HitRecord K :=
  let hit1 := r.plane.findClosestIntersection ray hit
  if hit1.t = FLT_MAX then hit1
  else if |r.n.get 0| = 1 then
    if (!inRangeExclusive (hit1.interceptPoint.get 1) (r.center.get 1 - r.W2) (r.center.get 1 + r.W2)
        || !inRangeExclusive (hit1.interceptPoint.get 2) (r.center.get 2 - r.H2) (r.center.get 2 + r.H2))
    then { hit1 with t := FLT_MAX } else hit1
  else if |r.n.get 1| = 1 then
    if (!inRangeExclusive (hit1.interceptPoint.get 0) (r.center.get 0 - r.W2) (r.center.get 0 + r.W2)
        || !inRangeExclusive (hit1.interceptPoint.get 2) (r.center.get 2 - r.H2) (r.center.get 2 + r.H2))
    then { hit1 with t := FLT_MAX } else hit1
  else if |r.n.get 2| = 1 then
    if (!inRangeExclusive (hit1.interceptPoint.get 0) (r.center.get 0 - r.W2) (r.center.get 0 + r.W2)
        || !inRangeExclusive (hit1.interceptPoint.get 1) (r.center.get 1 - r.H2) (r.center.get 1 + r.H2))
    then { hit1 with t := FLT_MAX } else hit1
  else hit1

/-- The constructor `IBox(center, size)`. -/
def IBox.new (M : MathOps K) (center size : Vec3 K) : IBox K :=
  let sizeDiv2 : Vec3 K := ((1 / 2 : K) * size : Vec3 K)
  { rects :=
      [ IRect.new M (center + ⟨sizeDiv2.x, 0, 0⟩) ⟨1, 0, 0⟩ size.y size.z,
        IRect.new M (center - ⟨sizeDiv2.x, 0, 0⟩) ⟨-1, 0, 0⟩ size.y size.z,
        IRect.new M (center + ⟨0, sizeDiv2.y, 0⟩) ⟨0, 1, 0⟩ size.x size.z,
        IRect.new M (center - ⟨0, sizeDiv2.y, 0⟩) ⟨0, -1, 0⟩ size.x size.z,
        IRect.new M (center + ⟨0, 0, sizeDiv2.z⟩) ⟨0, 0, 1⟩ size.x size.y,
        IRect.new M (center - ⟨0, 0, sizeDiv2.z⟩) ⟨0, 0, -1⟩ size.x size.y ] }

/-- The method `IBox::findClosestIntersection`: one loop iteration per rectangle. -/
def IBox.findClosestIntersection (b : IBox K) (ray : Ray K) (theHit : HitRecord K) :
    HitRecord K :=
  b.rects.foldl
    (fun theHit rect =>
      let thisHit := rect.findClosestIntersection ray HitRecord.new
      if thisHit.t < theHit.t then thisHit else theHit)
    theHit

/-- The constructor `IConvexPolygon(vertices)`. -/
def IConvexPolygon.new (M : MathOps K) (vertices : List (Vec3 K)) : IConvexPolygon K :=
  { plane := IPlane.ofVertices M vertices, v := vertices,
    n := normalFrom3Points M (vertices.getD 0 0) (vertices.getD 1 0) (vertices.getD 2 0) }

/-- The method `IConvexPolygon::isInside`: the loop updates the pair
`(insideOnFrontSide, insideOnBackSide)`. -/
def IConvexPolygon.isInside (p : IConvexPolygon K) (point : Vec3 K) : Bool :=
  let flags := (List.range p.v.length).foldl
    (fun (flags : Bool × Bool) i =>
      let pointRay := point - p.v.getD i 0
      let edgeRay := p.v.getD ((i + 1) % p.v.length) 0 - p.v.getD i 0
      let f1 := if dot (cross edgeRay pointRay) p.n < 0 then false else flags.1
      let f2 := if dot (cross edgeRay pointRay) p.n > 0 then false else flags.2
      (f1, f2))
    (true, true)
  flags.1 || flags.2

/-- The method `IConvexPolygon::findClosestIntersection`. -/
def IConvexPolygon.findClosestIntersection (p : IConvexPolygon K) (ray : Ray K)
    (hit : HitRecord K) : HitRecord K :=
  let hit1 := p.plane.findClosestIntersection ray hit
  let hit2 := { hit1 with surfaceNormal := p.n }
  if hit2.t < FLT_MAX ∧ ¬ p.isInside hit2.interceptPoint then
    { hit2 with t := FLT_MAX }
  else hit2

/-- The constructor `ITriangle(A, B, C)`. -/
def ITriangle.new (M : MathOps K) (A B C : Vec3 K) : ITriangle K :=
  { a := A, b := B, c := C, plane := IPlane.ofPoints M A B C }

/-- The method `ITriangle::inside`. -/
def ITriangle.inside (M : MathOps K) (tr : ITriangle K) (pt : Vec3 K) : Bool :=
  let n := cross (tr.b - tr.a) (tr.c - tr.a)
  let n2 := M.pow (length M n) 2
  let na := cross (tr.c - tr.b) (pt - tr.b)
  let nb := cross (tr.a - tr.c) (pt - tr.c)
  let nc := cross (tr.b - tr.a) (pt - tr.a)
  let alpha := dot n na / n2
  let beta := dot n nb / n2
  let gamma := dot n nc / n2
  inRangeExclusive beta 0 1 && inRangeExclusive gamma 0 1 && inRangeExclusive alpha 0 1

/-- The method `ITriangle::findClosestIntersection`. -/
def ITriangle.findClosestIntersection (M : MathOps K) (tr : ITriangle K) (ray : Ray K)
    (hit : HitRecord K) : HitRecord K :=
  let hit1 := tr.plane.findClosestIntersection ray hit
  let hit2 := { hit1 with surfaceNormal := tr.plane.n }
  if ¬ tr.inside M hit2.interceptPoint then { hit2 with t := FLT_MAX } else hit2

end Planar

/-! ## IShape.h / IShape.cpp: quadric surfaces -/

/-- The struct `QuadricParameters`. -/
structure QuadricParameters (K : Type) where
  A : K
  B : K
  C : K
  D : K
  E : K
  F : K
  G : K
  H : K
  I : K
  J : K

/-- The struct `IQuadricSurface`. -/
structure IQuadricSurface (K : Type) where
  center : Vec3 K
  qParams : QuadricParameters K
  twoA : K
  twoB : K
  twoC : K

/-- The struct `ISphere`. -/
structure ISphere (K : Type) extends IQuadricSurface K

/-- The struct `IEllipsoid`. -/
structure IEllipsoid (K : Type) extends IQuadricSurface K

/-- The struct `ICone`. -/
structure ICone (K : Type) extends IQuadricSurface K where
  radius : K
  length : K

/-- The struct `IConeY`. -/
structure IConeY (K : Type) extends ICone K

/-- The struct `ICylinder`. -/
structure ICylinder (K : Type) extends IQuadricSurface K where
  radius : K
  length : K

/-- The struct `ICylinderY`. -/
structure ICylinderY (K : Type) extends ICylinder K

/-- The struct `ICylinderX`. -/
structure ICylinderX (K : Type) extends ICylinder K

/-- The struct `ICloseCylinderY`. -/
structure ICloseCylinderY (K : Type) extends ICylinderY K where
  topDisk : IDisk K
  bottomDisk : IDisk K

/-- An array `HitRecord hits[2]`. -/
structure HitBuf (K : Type) where
  h0 : HitRecord K
  h1 : HitRecord K

/-- The function-local `static HitRecord hits[2]` buffers of IShape.cpp, one per
function that declares one. -/
structure Statics (K : Type) where
  quadric : HitBuf K
  coneY : HitBuf K
  cylinderY : HitBuf K
  cylinderX : HitBuf K

section Quadric

variable {K : Type} [LinearOrderedField K]

/-- Read access `hits[i]`. -/
def HitBuf.get (b : HitBuf K) (i : Nat) : HitRecord K := if i = 0 then b.h0 else b.h1

/-- Update of the entry `hits[i]`. -/
def HitBuf.modify (b : HitBuf K) (i : Nat) (f : HitRecord K → HitRecord K) : HitBuf K :=
  if i = 0 then { b with h0 := f b.h0 } else { b with h1 := f b.h1 }

/-- The contents of a `static HitRecord hits[2]` before its first use. -/
def HitBuf.init : HitBuf K := ⟨HitRecord.new, HitRecord.new⟩

/-- The static buffers at program start. -/
def Statics.init : Statics K := ⟨HitBuf.init, HitBuf.init, HitBuf.init, HitBuf.init⟩

/-- The constructor `QuadricParameters()`. -/
def QuadricParameters.default : QuadricParameters K := ⟨1, 1, 1, 0, 0, 0, 0, 0, 0, -1⟩

/-- The function `QuadricParameters::cylinderXQParams`. -/
def QuadricParameters.cylinderXQParams (R : K) : QuadricParameters K :=
  let R2 := R * R
  ⟨0, 1 / R2, 1 / R2, 0, 0, 0, 0, 0, 0, -1⟩

/-- The function `QuadricParameters::cylinderYQParams`. -/
def QuadricParameters.cylinderYQParams (R : K) : QuadricParameters K :=
  let R2 := R * R
  ⟨1 / R2, 0, 1 / R2, 0, 0, 0, 0, 0, 0, -1⟩

/-- The function `QuadricParameters::cylinderZQParams`. -/
def QuadricParameters.cylinderZQParams (R : K) : QuadricParameters K :=
  let R2 := R * R
  ⟨1 / R2, 1 / R2, 0, 0, 0, 0, 0, 0, 0, -1⟩

/-- The function `QuadricParameters::sphereQParams`. -/
def QuadricParameters.sphereQParams (R : K) : QuadricParameters K :=
  let R2 := R * R
  ⟨1, 1, 1, 0, 0, 0, 0, 0, 0, -R2⟩

/-- The function `QuadricParameters::ellipsoidQParams`. -/
def QuadricParameters.ellipsoidQParams (sz : Vec3 K) : QuadricParameters K :=
  let size : Vec3 K := ⟨1 / (sz.x * sz.x), 1 / (sz.y * sz.y), 1 / (sz.z * sz.z)⟩
  ⟨size.x, size.y, size.z, 0, 0, 0, 0, 0, 0, -1⟩

/-- The function `QuadricParameters::coneYQParams`. -/
def QuadricParameters.coneYQParams (R : K) : QuadricParameters K :=
  let R2 := R * R
  ⟨1 / R2, -1, 1 / R2, 0, 0, 0, 0, 0, 0, 0⟩

/-- The constructor `IQuadricSurface(params, position)`. -/
def IQuadricSurface.new (params : QuadricParameters K) (position : Vec3 K) :
    IQuadricSurface K :=
  { center := position, qParams := params,
    twoA := 2 * params.A, twoB := 2 * params.B, twoC := 2 * params.C }

/-- The constructor `ISphere(position, radius)`. -/
def ISphere.new (position : Vec3 K) (radius : K) : ISphere K :=
  ⟨IQuadricSurface.new (QuadricParameters.sphereQParams radius) position⟩

/-- The constructor `IEllipsoid(position, sz)`. -/
def IEllipsoid.new (position sz : Vec3 K) : IEllipsoid K :=
  ⟨IQuadricSurface.new (QuadricParameters.ellipsoidQParams sz) position⟩

/-- The constructor `IConeY(pos, rad, len)`. -/
def IConeY.new (pos : Vec3 K) (rad len : K) : IConeY K :=
  ⟨{ toIQuadricSurface := IQuadricSurface.new (QuadricParameters.coneYQParams rad) pos,
     radius := rad, length := len }⟩

/-- The constructor `ICylinderY(pos, rad, len)`. -/
def ICylinderY.new (pos : Vec3 K) (rad len : K) : ICylinderY K :=
  ⟨{ toIQuadricSurface := IQuadricSurface.new (QuadricParameters.cylinderYQParams rad) pos,
     radius := rad, length := len }⟩

/-- The constructor `ICylinderX(pos, rad, len)`. -/
def ICylinderX.new (pos : Vec3 K) (rad len : K) : ICylinderX K :=
  ⟨{ toIQuadricSurface := IQuadricSurface.new (QuadricParameters.cylinderXQParams rad) pos,
     radius := rad, length := len }⟩

/-- The constructor `ICloseCylinderY(pos, rad, len)`. -/
def ICloseCylinderY.new (pos : Vec3 K) (rad len : K) : ICloseCylinderY K :=
  let base : ICylinderY K := ICylinderY.new pos rad len
  { toICylinderY := base,
    topDisk := ⟨⟨base.center.x, base.center.y + len / 2, base.center.z⟩, ⟨0, 1, 0⟩, base.radius⟩,
    bottomDisk := ⟨⟨base.center.x, base.center.y - len / 2, base.center.z⟩, ⟨0, -1, 0⟩, base.radius⟩ }

/-- The method `IQuadricSurface::computeAqBqCq`; the result is `(Aq, Bq, Cq)`. -/
def IQuadricSurface.computeAqBqCq (q : IQuadricSurface K) (ray : Ray K) : K × K × K :=
  let Ro := ray.origin - q.center
  let Rd := ray.direction
  let A := q.qParams.A
  let B := q.qParams.B
  let C := q.qParams.C
  let D := q.qParams.D
  let E := q.qParams.E
  let F := q.qParams.F
  let G := q.qParams.G
  let H := q.qParams.H
  let I := q.qParams.I
  let J := q.qParams.J
  let Aq := A * (Rd.x * Rd.x) + B * (Rd.y * Rd.y) + C * (Rd.z * Rd.z) +
    D * (Rd.x * Rd.y) + E * (Rd.x * Rd.z) + F * (Rd.y * Rd.z)
  let Bq := q.twoA * Ro.x * Rd.x + q.twoB * Ro.y * Rd.y + q.twoC * Ro.z * Rd.z +
    D * (Ro.x * Rd.y + Ro.y * Rd.x) + E * (Ro.x * Rd.z + Ro.z * Rd.x) +
    F * (Ro.y * Rd.z + Ro.z * Rd.y) + G * Rd.x + H * Rd.y + I * Rd.z
  let Cq := A * (Ro.x * Ro.x) + B * (Ro.y * Ro.y) + C * (Ro.z * Ro.z) +
    D * (Ro.x * Ro.y) + E * (Ro.x * Ro.z) + F * (Ro.y * Ro.z) +
    G * Ro.x + H * Ro.y + I * Ro.z + J
  (Aq, Bq, Cq)

/-- The method `ISphere::computeAqBqCq`. -/
def ISphere.computeAqBqCq (s : ISphere K) (ray : Ray K) : K × K × K :=
  let I := s.qParams.I
  let J := s.qParams.J
  let Ro := ray.origin - s.center
  let Rd := ray.direction
  let Aq := (Rd.x * Rd.x) + (Rd.y * Rd.y) + (Rd.z * Rd.z)
  let Bq := 2 * Ro.x * Rd.x + 2 * Ro.y * Rd.y + 2 * Ro.z * Rd.z
  let Cq := (Ro.x * Ro.x) + (Ro.y * Ro.y) + (Ro.z * Ro.z) + I * Ro.z + J
  (Aq, Bq, Cq)

/-- The method `ICylinder::computeAqBqCq`. -/
def ICylinder.computeAqBqCq (c : ICylinder K) (ray : Ray K) : K × K × K :=
  let A := c.qParams.A
  let B := c.qParams.B
  let C := c.qParams.C
  let I := c.qParams.I
  let J := c.qParams.J
  let Ro := ray.origin - c.center
  let Rd := ray.direction
  let Aq := A * (Rd.x * Rd.x) + B * (Rd.y * Rd.y) + C * (Rd.z * Rd.z)
  let Bq := c.twoA * Ro.x * Rd.x + c.twoB * Ro.y * Rd.y + c.twoC * Ro.z * Rd.z
  let Cq := A * (Ro.x * Ro.x) + B * (Ro.y * Ro.y) + C * (Ro.z * Ro.z) + I * Ro.z + J
  (Aq, Bq, Cq)

/-- The method `IEllipsoid::computeAqBqCq`. -/
def IEllipsoid.computeAqBqCq (e : IEllipsoid K) (ray : Ray K) : K × K × K :=
  let A := e.qParams.A
  let B := e.qParams.B
  let C := e.qParams.C
  let I := e.qParams.I
  let J := e.qParams.J
  let Ro := ray.origin - e.center
  let Rd := ray.direction
  let Aq := A * (Rd.x * Rd.x) + B * (Rd.y * Rd.y) + C * (Rd.z * Rd.z)
  let Bq := 2 * A * Ro.x * Rd.x + 2 * B * Ro.y * Rd.y + 2 * C * Ro.z * Rd.z
  let Cq := A * (Ro.x * Ro.x) + B * (Ro.y * Ro.y) + C * (Ro.z * Ro.z) + I * Ro.z + J
  (Aq, Bq, Cq)

/-- The method `IQuadricSurface::normal`. -/
def IQuadricSurface.normal (M : MathOps K) (q : IQuadricSurface K) (P : Vec3 K) : Vec3 K :=
  let D := q.qParams.D
  let E := q.qParams.E
  let F := q.qParams.F
  let G := q.qParams.G
  let H := q.qParams.H
  let I := q.qParams.I
  let pt := P - q.center
  let normal : Vec3 K :=
    ⟨q.twoA * pt.x + D * pt.y + E * pt.z + G,
     q.twoB * pt.y + D * pt.x + F * pt.z + H,
     q.twoC * pt.z + E * pt.x + F * pt.y + I⟩
  normalize M normal

/-- One iteration (index `i`) of the loop of `IQuadricSurface::findIntersections`;
the loop state is `(numIntersections, hits)`. -/
def IQuadricSurface.findIntersectionsStep (M : MathOps K) (q : IQuadricSurface K)
    (ray : Ray K) (roots : K × K) (acc : Nat × HitBuf K) (i : Nat) : Nat × HitBuf K :=
  let numIntersections := acc.1
  let hits := acc.2
  let root := if i = 0 then roots.1 else roots.2
  if root > 0 then
    let t := root
    let intercept := ray.origin + t * ray.direction
    (numIntersections + 1,
      hits.modify numIntersections (fun h =>
        { h with t := t, interceptPoint := intercept,
                 surfaceNormal := q.normal M intercept }))
  else acc

/-- The method `IQuadricSurface::findIntersections`.  The virtual call
`computeAqBqCq(ray, Aq, Bq, Cq)` is the argument `abc`, supplied by the
caller according to the dynamic type.  The local array `roots` starts as
`(0, 0)`.  The result is the return value and the array `hits` after the call. -/
def IQuadricSurface.findIntersections (M : MathOps K) (q : IQuadricSurface K)
    (abc : Ray K → K × K × K) (ray : Ray K) (hits : HitBuf K) : Nat × HitBuf K :=
  let Aq := (abc ray).1
  let Bq := (abc ray).2.1
  let Cq := (abc ray).2.2
  let r := quadraticArr M Aq Bq Cq (0, 0)
  let numRoots := r.1
  let roots := r.2
  (List.range numRoots.toNat).foldl (q.findIntersectionsStep M ray roots) (0, hits)

/-- The method `IQuadricSurface::findClosestIntersection`; `hits` is its static
buffer.  The result is `hit` and the buffer after the call. -/
def IQuadricSurface.findClosestIntersection (M : MathOps K) (q : IQuadricSurface K)
    (abc : Ray K → K × K × K) (ray : Ray K) (hit : HitRecord K) (hits : HitBuf K) :
    HitRecord K × HitBuf K :=
  let hit0 := { hit with t := FLT_MAX }
  let r := q.findIntersections M abc ray hits
  let numIntercepts := r.1
  let hits1 := r.2
  if numIntercepts = 1 ∧ hits1.h0.t > 0 then
    ({ hit0 with t := hits1.h0.t, interceptPoint := hits1.h0.interceptPoint,
                 surfaceNormal := q.normal M hits1.h0.interceptPoint }, hits1)
  else if numIntercepts = 2 then
    if hits1.h0.t > 0 then
      ({ hit0 with t := hits1.h0.t, interceptPoint := hits1.h0.interceptPoint,
                   surfaceNormal := q.normal M hits1.h0.interceptPoint }, hits1)
    else if hits1.h1.t > 0 then
      ({ hit0 with t := hits1.h1.t, interceptPoint := hits1.h1.interceptPoint,
                   surfaceNormal := q.normal M hits1.h1.interceptPoint }, hits1)
    else (hit0, hits1)
  else (hit0, hits1)

/-- The method `IConeY::findClosestIntersection`; `hits` is its static buffer.
The loop returns at the first index whose intercept passes the test. -/
def IConeY.findClosestIntersection (M : MathOps K) (c : IConeY K) (ray : Ray K)
    (hit : HitRecord K) (hits : HitBuf K) : HitRecord K × HitBuf K :=
  let r := c.toIQuadricSurface.findIntersections M c.toIQuadricSurface.computeAqBqCq ray hits
  let numHits := r.1
  let hits1 := r.2
  match (List.range numHits).find? (fun i =>
      decide ((hits1.get i).interceptPoint.y < c.center.y) &&
      decide ((hits1.get i).interceptPoint.y > c.center.y - c.length / 2)) with
  | some i => (if (hits1.get i).t < hit.t then hits1.get i else hit, hits1)
  | none => ({ hit with t := FLT_MAX }, hits1)

/-- The method `ICylinderY::findClosestIntersection`; `hits` is its static buffer. -/
def ICylinderY.findClosestIntersection (M : MathOps K) (c : ICylinderY K) (ray : Ray K)
    (hit : HitRecord K) (hits : HitBuf K) : HitRecord K × HitBuf K :=
  let r := c.toIQuadricSurface.findIntersections M c.toICylinder.computeAqBqCq ray hits
  let numHits := r.1
  let hits1 := r.2
  match (List.range numHits).find? (fun i =>
      decide ((hits1.get i).interceptPoint.y < c.center.y + c.length / 2) &&
      decide ((hits1.get i).interceptPoint.y > c.center.y - c.length / 2)) with
  | some i => (hits1.get i, hits1)
  | none => ({ hit with t := FLT_MAX }, hits1)

/-- The method `ICylinderX::findClosestIntersection`; `hits` is its static buffer. -/
def ICylinderX.findClosestIntersection (M : MathOps K) (c : ICylinderX K) (ray : Ray K)
    (hit : HitRecord K) (hits : HitBuf K) : HitRecord K × HitBuf K :=
  let r := c.toIQuadricSurface.findIntersections M c.toICylinder.computeAqBqCq ray hits
  let numHits := r.1
  let hits1 := r.2
  match (List.range numHits).find? (fun i =>
      decide ((hits1.get i).interceptPoint.x ≤ c.center.x + c.length / 2) &&
      decide ((hits1.get i).interceptPoint.x ≥ c.center.x - c.length / 2)) with
  | some i => (hits1.get i, hits1)
  | none => ({ hit with t := FLT_MAX }, hits1)

/-- The method `ICloseCylinderY::findClosestIntersection`; `hits` is the static
buffer of `ICylinderY::findClosestIntersection`, which it calls. -/
def ICloseCylinderY.findClosestIntersection (M : MathOps K) (c : ICloseCylinderY K)
    (ray : Ray K) (hit : HitRecord K) (hits : HitBuf K) : HitRecord K × HitBuf K :=
  let hit1 := c.topDisk.findClosestIntersection M ray HitRecord.new
  let hit2 := c.bottomDisk.findClosestIntersection M ray HitRecord.new
  let r3 := c.toICylinderY.findClosestIntersection M ray HitRecord.new hits
  let hit3 := r3.1
  let hitA := if hit1.t < hit.t then hit1 else hit
  let hitB := if hit2.t < hitA.t then hit2 else hitA
  let hitC := if hit3.t < hitB.t then hit3 else hitB
  (hitC, r3.2)

end Quadric

/-! ## IShape (virtual dispatch) and VisibleIShape -/

/-- The concrete classes derived from the abstract class `IShape`; an
`IShapePtr` points to one of them. -/
inductive IShape (K : Type) where
  | plane (s : IPlane K)
  | disk (s : IDisk K)
  | rect (s : IRect K)
  | box (s : IBox K)
  | convexPolygon (s : IConvexPolygon K)
  | triangle (s : ITriangle K)
  | quadricSurface (s : IQuadricSurface K)
  | sphere (s : ISphere K)
  | ellipsoid (s : IEllipsoid K)
  | coneY (s : IConeY K)
  | cylinderY (s : ICylinderY K)
  | cylinderX (s : ICylinderX K)
  | closeCylinderY (s : ICloseCylinderY K)

/-- The struct `VisibleIShape`. -/
structure VisibleIShape (K : Type) where
  material : Material K
  shape : IShape K
  texture : Option (Image K)
  lu : K
  ru : K
  lv : K
  rv : K

section Shapes

variable {K : Type} [LinearOrderedField K]

/-- The virtual method `IShape::findClosestIntersection`, dispatched on the
dynamic type.  The result is `hit` and the static buffers after the call. -/
def IShape.findClosestIntersection (M : MathOps K) (shape : IShape K) (ray : Ray K)
    (hit : HitRecord K) (st : Statics K) : HitRecord K × Statics K :=
  match shape with
  | .plane s => (s.findClosestIntersection ray hit, st)
  | .disk s => (s.findClosestIntersection M ray hit, st)
  | .rect s => (s.findClosestIntersection ray hit, st)
  | .box s => (s.findClosestIntersection ray hit, st)
  | .convexPolygon s => (s.findClosestIntersection ray hit, st)
  | .triangle s => (s.findClosestIntersection M ray hit, st)
  | .quadricSurface s =>
      let r := s.findClosestIntersection M s.computeAqBqCq ray hit st.quadric
      (r.1, { st with quadric := r.2 })
  | .sphere s =>
      let r := s.toIQuadricSurface.findClosestIntersection M s.computeAqBqCq ray hit st.quadric
      (r.1, { st with quadric := r.2 })
  | .ellipsoid s =>
      let r := s.toIQuadricSurface.findClosestIntersection M s.computeAqBqCq ray hit st.quadric
      (r.1, { st with quadric := r.2 })
  | .coneY s =>
      let r := s.findClosestIntersection M ray hit st.coneY
      (r.1, { st with coneY := r.2 })
  | .cylinderY s =>
      let r := s.findClosestIntersection M ray hit st.cylinderY
      (r.1, { st with cylinderY := r.2 })
  | .cylinderX s =>
      let r := s.findClosestIntersection M ray hit st.cylinderX
      (r.1, { st with cylinderX := r.2 })
  | .closeCylinderY s =>
      let r := s.findClosestIntersection M ray hit st.cylinderY
      (r.1, { st with cylinderY := r.2 })

/-- The texture coordinates computed by `ICylinderY::getTexCoords`,
`ICylinderX::getTexCoords` and `ICloseCylinderY::getTexCoords` (same body). -/
def ICylinder.getTexCoords (M : MathOps K) (c : ICylinder K) (pt : Vec3 K) : K × K :=
  let angle := normalizeRadians M (M.atan2 (pt.z - c.center.z) (pt.x - c.center.x))
  let bottom := c.center.y - c.length / 2
  (angle / (2 * M.acos (-1)), (pt.y - bottom) / c.length)

/-- The virtual method `IShape::getTexCoords`; the result is `(u, v)` after the
call.  The base method, `ISphere` and `IConeY` set both to 0. -/
def IShape.getTexCoords (M : MathOps K) (shape : IShape K) (pt : Vec3 K) : K × K :=
  match shape with
  | .cylinderY s => s.toICylinder.getTexCoords M pt
  | .cylinderX s => s.toICylinder.getTexCoords M pt
  | .closeCylinderY s => s.toICylinder.getTexCoords M pt
  | _ => (0, 0)

/-- The constructor `VisibleIShape(shapePtr, mat)`. -/
def VisibleIShape.new (shapePtr : IShape K) (mat : Material K) : VisibleIShape K :=
  { material := mat, shape := shapePtr, texture := none, lu := 0, lv := 0, ru := 1, rv := 1 }

/-- The method `VisibleIShape::findClosestIntersection`. -/
def VisibleIShape.findClosestIntersection (M : MathOps K) (vs : VisibleIShape K)
    (ray : Ray K) (hit : HitRecord K) (st : Statics K) : HitRecord K × Statics K :=
  let r := vs.shape.findClosestIntersection M ray hit st
  if r.1.t < FLT_MAX then ({ r.1 with material := vs.material }, r.2) else r

/-- One iteration of the loop of `VisibleIShape::findIntersection`, for the
surface `s`; the loop state is `theHit` and the static buffers. -/
def VisibleIShape.findIntersectionStep (M : MathOps K) (ray : Ray K)
    (acc : HitRecord K × Statics K) (s : VisibleIShape K) : HitRecord K × Statics K :=
  let theHit := acc.1
  let r := s.findClosestIntersection M ray HitRecord.new acc.2
  let thisHit := r.1
  if thisHit.t < theHit.t ∧ thisHit.t > 0 then
    let theHit1 := { thisHit with material := s.material, texture := s.texture }
    if theHit1.texture.isSome then
      let uv := s.shape.getTexCoords M theHit1.interceptPoint
      ({ theHit1 with u := uv.1, v := uv.2 }, r.2)
    else (theHit1, r.2)
  else (theHit, r.2)

/-- The static method `VisibleIShape::findIntersection`. -/
def VisibleIShape.findIntersection (M : MathOps K) (ray : Ray K)
    (surfaces : List (VisibleIShape K)) (st : Statics K) : HitRecord K × Statics K :=
  surfaces.foldl (VisibleIShape.findIntersectionStep M ray)
    ({ (HitRecord.new : HitRecord K) with t := FLT_MAX }, st)

end Shapes

/-! ## Light.h / Light.cpp -/

/-- The struct `LightAttenuationParameters`. -/
structure LightAttenuationParameters (K : Type) where
  constant : K
  linear : K
  quadratic : K

/-- The struct `LightColor`. -/
structure LightColor (K : Type) where
  ambient : color K
  diffuse : color K
  specular : color K

/-- The struct `PositionalLight` (with the member `isOn` of its base `LightSource`). -/
structure PositionalLight (K : Type) where
  isOn : Bool
  lightPosition : Vec3 K
  attenuationIsTurnedOn : Bool
  isTiedToWorld : Bool
  attenuationParams : LightAttenuationParameters K
  lightColorComponents : LightColor K

/-- The struct `SpotLight`. -/
structure SpotLight (K : Type) extends PositionalLight K where
  fov : K
  spotDirection : Vec3 K

/-- What a `PositionalLightPtr` points to: a `PositionalLight` or a `SpotLight`. -/
inductive Light (K : Type) where
  | positional (l : PositionalLight K)
  | spot (l : SpotLight K)

/-- The struct `Frame` (the cached matrix `inverse` is not modelled). -/
structure Frame (K : Type) where
  u : Vec3 K
  v : Vec3 K
  w : Vec3 K
  origin : Vec3 K

/-- The struct `RaytracingCamera` (data members). -/
structure RaytracingCamera (K : Type) where
  cameraFrame : Frame K
  fov : K
  left : K
  right : K
  bottom : K
  top : K
  nx : K
  ny : K

/-- The struct `IScene`; the pointers it holds are replaced by the objects. -/
structure IScene (K : Type) where
  lights : List (Light K)
  visibleObjects : List (VisibleIShape K)
  transparentObjects : List (VisibleIShape K)
  camera : RaytracingCamera K

/-- The struct `RayTracer`. -/
structure RayTracer (K : Type) where
  defaultColor : color K
  antiAliasing : Int

section Lights

variable {K : Type} [LinearOrderedField K]

/-- The method `LightAttenuationParameters::factor`. -/
def LightAttenuationParameters.factor (p : LightAttenuationParameters K) (distance : K) : K :=
  1 / (p.constant + p.linear * distance + p.quadratic * distance * distance)

/-- The constant `noEffectAttenuationParams`. -/
def noEffectAttenuationParams : LightAttenuationParameters K := ⟨1, 0, 0⟩

/-- The constructor `PositionalLight(position, lightColor)`. -/
def PositionalLight.new (position : Vec3 K) (lightColor : LightColor K) : PositionalLight K :=
  { isOn := true, lightPosition := position, attenuationIsTurnedOn := false,
    isTiedToWorld := true, attenuationParams := noEffectAttenuationParams,
    lightColorComponents := lightColor }

/-- The function `ambientColor`. -/
def ambientColor (mat light : color K) : color K := clampV (mat * light) 0 1

/-- The function `diffuseColor`. -/
def diffuseColor (mat light : color K) (l n : Vec3 K) : color K :=
  clampV (mat * light * dot l n) 0 1

/-- The function `specularColor`. -/
def specularColor (M : MathOps K) (mat light : color K) (shininess : K) (r v : Vec3 K) :
    color K :=
  let maxNum := max 0 (dot v r)
  clampV (mat * light * M.pow maxNum shininess) 0 1

/-- The function `totalColor`. -/
def totalColor (M : MathOps K) (mat : Material K) (lightColor : LightColor K)
    (v n lightPos intersectionPt : Vec3 K) (attenuationOn : Bool)
    (ATparams : LightAttenuationParameters K) : color K :=
  let l := normalize M (lightPos - intersectionPt)
  let r := normalize M ((2 * dot l n) * n - l)
  let ambient := ambientColor mat.ambient lightColor.ambient
  let diffuse := diffuseColor mat.diffuse lightColor.diffuse l n
  let specular := specularColor M mat.specular lightColor.specular mat.shininess r v
  let dist := distance M lightPos intersectionPt
  if attenuationOn then
    clampV (ambient + diffuse * ATparams.factor dist + specular * ATparams.factor dist) 0 1
  else
    clampV (ambient + diffuse + specular) 0 1

/-- The method `PositionalLight::illuminate`. -/
def PositionalLight.illuminate (M : MathOps K) (l : PositionalLight K)
    (interceptWorldCoords normal : Vec3 K) (material : Material K) (eyeFrame : Frame K)
    (inShadow : Bool) : color K :=
  if !l.isOn then black
  else if inShadow then
    ambientColor material.ambient l.lightColorComponents.ambient
  else
    let v := normalize M (eyeFrame.origin - interceptWorldCoords)
    totalColor M material l.lightColorComponents v normal l.lightPosition
      interceptWorldCoords l.attenuationIsTurnedOn l.attenuationParams

/-- The method `SpotLight::illuminate`. -/
def SpotLight.illuminate (M : MathOps K) (l : SpotLight K)
    (interceptWorldCoords normal : Vec3 K) (material : Material K) (eyeFrame : Frame K)
    (inShadow : Bool) : color K :=
  if !l.isOn then black
  else
    let a := interceptWorldCoords - l.lightPosition
    let angleBetween := M.acos (cosBetween M a l.spotDirection)
    if angleBetween ≤ l.fov / 2 then
      if inShadow then
        ambientColor material.ambient l.lightColorComponents.ambient
      else
        let v := normalize M (eyeFrame.origin - interceptWorldCoords)
        totalColor M material l.lightColorComponents v normal l.lightPosition
          interceptWorldCoords l.attenuationIsTurnedOn l.attenuationParams
    else black

/-- The member `lightPosition` read through a `PositionalLightPtr`. -/
def Light.lightPosition (l : Light K) : Vec3 K :=
  match l with
  | .positional p => p.lightPosition
  | .spot s => s.lightPosition

/-- The virtual method `illuminate` called through a `PositionalLightPtr`. -/
def Light.illuminate (M : MathOps K) (l : Light K) (interceptWorldCoords normal : Vec3 K)
    (material : Material K) (eyeFrame : Frame K) (inShadow : Bool) : color K :=
  match l with
  | .positional p => p.illuminate M interceptWorldCoords normal material eyeFrame inShadow
  | .spot s => s.illuminate M interceptWorldCoords normal material eyeFrame inShadow

end Lights

/-! ## RayTracer.cpp -/

/-- What one invocation of `traceIndividualRay` yields: the returned colour, the
static buffers afterwards, and (a ghost field) the values of `recursionLevel` of
all invocations it caused, itself first. -/
structure TraceResult (K : Type) where
  color : color K
  calls : List Int
  statics : Statics K

section Tracer

variable {K : Type} [LinearOrderedField K]

/-- One iteration of the loop of `RayTracer::getLightColor`, for the light
`light1`; the loop state is `finalResult` and the static buffers. -/
def RayTracer.getLightColorStep (M : MathOps K) (theScene : IScene K) (theHit : HitRecord K)
    (acc : color K × Statics K) (light1 : Light K) : color K × Statics K :=
  let finalResult := acc.1
  let shadowDirection1 := light1.lightPosition - theHit.interceptPoint
  let shadowRay1 := Ray.new M (theHit.interceptPoint + (EPSILON : K) * theHit.surfaceNormal)
    shadowDirection1
  let r := VisibleIShape.findIntersection M shadowRay1 theScene.visibleObjects acc.2
  let shadowHit1 := r.1
  let disShadowToLight1 := distance M theHit.interceptPoint light1.lightPosition
  let resultColor :=
    if shadowHit1.t < disShadowToLight1 then
      light1.illuminate M theHit.interceptPoint theHit.surfaceNormal theHit.material
        theScene.camera.cameraFrame true
    else
      light1.illuminate M theHit.interceptPoint theHit.surfaceNormal theHit.material
        theScene.camera.cameraFrame false
  (finalResult + resultColor, r.2)

/-- The method `RayTracer::getLightColor`. -/
def RayTracer.getLightColor (M : MathOps K) (_rt : RayTracer K) (_ray : Ray K)
    (theScene : IScene K) (theHit : HitRecord K) (result : color K) (st : Statics K) :
    color K × Statics K :=
  theScene.lights.foldl (RayTracer.getLightColorStep M theScene theHit) (result, st)

/-- Lines 75-84 of `RayTracer::traceIndividualRay`: the colour `result` after the
textured or untextured shading of the opaque hit. -/
def RayTracer.shadeHit (M : MathOps K) (rt : RayTracer K) (ray : Ray K) (theScene : IScene K)
    (theHit : HitRecord K) (result : color K) (st : Statics K) : color K × Statics K :=
  match theHit.texture with
  | some texture =>
      let u := clamp theHit.u 0 1
      let v := clamp theHit.v 0 1
      let textureColor := texture.getPixel u v
      let r := rt.getLightColor M ray theScene theHit result st
      (result + (r.1 * (1 / 2 : K) + textureColor * (1 / 2 : K)), r.2)
  | none =>
      let r := rt.getLightColor M ray theScene theHit result st
      (result + r.1, r.2)

/-- Line 88 of `RayTracer::traceIndividualRay`, the transparency blend
`result += result * (1 - material.alpha) + material.alpha*(material.ambient)`:
the value of `result` after the statement. -/
def RayTracer.blendAssignment (material : Material K) (result : color K) : color K :=
  result + (result * (1 - material.alpha) + material.alpha * material.ambient)

/-- Lines 85-90 of `RayTracer::traceIndividualRay`: the colour `result` after the
transparency step. -/
def RayTracer.blendTransparent (theHit transHit : HitRecord K) (result : color K) : color K :=
  if transHit.t < FLT_MAX then
    if theHit.t > transHit.t then
      let material := transHit.material
      RayTracer.blendAssignment material result
    else result
  else result

/-- The method `RayTracer::traceIndividualRay`.  The C++ recursion is bounded by
`fuel` (the number of nested invocations allowed); `none` means that the fuel
ran out.  `recursionLevel` is a C++ `int`. -/
def RayTracer.traceIndividualRay (M : MathOps K) (rt : RayTracer K) :
    Nat → Ray K → IScene K → Int → Statics K → Option (TraceResult K)
  | 0, _, _, _, _ => none
  | fuel + 1, ray, theScene, recursionLevel, st =>
    let r1 := VisibleIShape.findIntersection M ray theScene.visibleObjects st
    let theHit := r1.1
    let r2 := VisibleIShape.findIntersection M ray theScene.transparentObjects r1.2
    let transHit := r2.1
    let result : color K := ⟨0, 0, 0⟩
    if theHit.t < FLT_MAX then
      let r3 := rt.shadeHit M ray theScene theHit result r2.2
      let result1 := RayTracer.blendTransparent theHit transHit r3.1
      if recursionLevel = 0 then
        some ⟨result1, [recursionLevel], r3.2⟩
      else
        let reflectionDirection :=
          ray.direction - (2 * dot ray.direction theHit.surfaceNormal) * theHit.surfaceNormal
        let reflectionRay :=
          Ray.new M (theHit.interceptPoint + (EPSILON : K) * theHit.surfaceNormal)
            reflectionDirection
        match RayTracer.traceIndividualRay M rt fuel reflectionRay theScene
            (recursionLevel - 1) r3.2 with
        | none => none
        | some r => some ⟨result1 + r.color * (1 / 2 : K), recursionLevel :: r.calls, r.statics⟩
    else
      some ⟨result, [recursionLevel], r2.2⟩

end Tracer

/-! ## Camera.cpp, Defs.cpp: the camera frame -/

section Camera

variable {K : Type} [LinearOrderedField K]

/-- The method `Frame::setFrame` (the cached matrix `inverse` is not modelled). -/
def Frame.setFrame (f : Frame K) (O U V W : Vec3 K) : Frame K :=
  { f with origin := O, u := U, v := V, w := W }

/-- The method `RaytracingCamera::changeConfiguration`. -/
def RaytracingCamera.changeConfiguration (M : MathOps K) (cam : RaytracingCamera K)
    (viewingPos lookAtPt up : Vec3 K) : RaytracingCamera K :=
  let viewingDirection := lookAtPt - viewingPos
  let w := normalize M (-viewingDirection)
  let u := normalize M (cross up w)
  let v := normalize M (cross w u)
  { cam with cameraFrame := cam.cameraFrame.setFrame viewingPos u v w }

end Camera

/-! ## IScene.cpp: the scene as vectors of pointers -/

/-- The objects that the pointers of a scene point to, by address. -/
structure Heap (K : Type) where
  shapes : Nat → VisibleIShape K
  lights : Nat → Light K
  cameras : Nat → RaytracingCamera K

/-- The data members of the struct `IScene` as the source declares them: vectors of
`PositionalLightPtr` and `VisibleIShapePtr` and a `RaytracingCamera *`, every pointer
an address into a `Heap`. -/
structure IScenePtrs where
  lights : List Nat
  visibleObjects : List Nat
  transparentObjects : List Nat
  camera : Nat
deriving DecidableEq, Repr

/-- The method `IScene::addObject(const VisibleIShapePtr &obj)`. -/
def IScenePtrs.addObject {K : Type} (s : IScenePtrs) (h : Heap K) (obj : Nat) : Heap K × IScenePtrs :=
  (h, { s with visibleObjects := s.visibleObjects ++ [obj] })

/-- The method `IScene::addTransparentObject`: writes `obj->material.alpha`, then
appends the pointer. -/
def IScenePtrs.addTransparentObject {K : Type} (s : IScenePtrs) (h : Heap K) (obj : Nat) (alpha : K) :
    Heap K × IScenePtrs :=
  let old := h.shapes obj
  let changed : VisibleIShape K := { old with material := { old.material with alpha := alpha } }
  ({ h with shapes := Function.update h.shapes obj changed },
   { s with transparentObjects := s.transparentObjects ++ [obj] })

/-- The method `IScene::addObject(const PositionalLightPtr &light)`. -/
def IScenePtrs.addObjectLight {K : Type} (s : IScenePtrs) (h : Heap K) (light : Nat) :
    Heap K × IScenePtrs :=
  (h, { s with lights := s.lights ++ [light] })

/-- The method `IScene::changeCamera`. -/
def IScenePtrs.changeCamera {K : Type} (s : IScenePtrs) (h : Heap K) (cam : Nat) : Heap K × IScenePtrs :=
  (h, { s with camera := cam })

/-- The scene that the ray tracer reads: every pointer followed to its object. -/
def IScenePtrs.deref {K : Type} (s : IScenePtrs) (h : Heap K) : IScene K :=
  { lights := s.lights.map h.lights,
    visibleObjects := s.visibleObjects.map h.shapes,
    transparentObjects := s.transparentObjects.map h.shapes,
    camera := h.cameras s.camera }

/-! ## Division by zero: the quadric intersection on float special values -/

/-- A `float` as far as its special values matter: a finite number (computed exactly, as
everywhere in this development), `+inf`, `-inf` or a NaN. -/
inductive XFloat (K : Type) where
  | fin (x : K)
  | pinf
  | ninf
  | nan
deriving DecidableEq, Repr

/-- A `glm::vec3` whose components may be special values. -/
structure XVec3 (K : Type) where
  x : XFloat K
  y : XFloat K
  z : XFloat K
deriving DecidableEq, Repr

/-- The members `t` and `interceptPoint` of a `HitRecord` whose floats may be special
values.  The member `surfaceNormal` is left out: no branch reads it. -/
structure XHit (K : Type) where
  t : XFloat K
  interceptPoint : XVec3 K
deriving DecidableEq, Repr

section FloatValues

variable {K : Type} [LinearOrderedField K]

/-- The float quotient `a / b` of two finite numbers.  A zero divisor gives NaN for a
zero dividend and otherwise an infinity whose sign is the sign of `a` times the sign
of the zero; `negZero` tells that the zero divisor is `-0`. -/
def XFloat.div (negZero : Bool) (a b : K) : XFloat K :=
  if b = 0 then
    if a = 0 then .nan
    else if decide (0 < a) = negZero then .ninf else .pinf
  else .fin (a / b)

/-- The float comparison `a < b`: false when either side is a NaN. -/
def XFloat.lt : XFloat K → XFloat K → Bool
  | .fin a, .fin b => decide (a < b)
  | .fin _, .pinf => true
  | .ninf, .fin _ => true
  | .ninf, .pinf => true
  | _, _ => false

/-- The float comparison `a <= b`: false when either side is a NaN. -/
def XFloat.le : XFloat K → XFloat K → Bool
  | .fin a, .fin b => decide (a ≤ b)
  | .fin _, .pinf => true
  | .ninf, .fin _ => true
  | .ninf, .pinf => true
  | .ninf, .ninf => true
  | .pinf, .pinf => true
  | _, _ => false

/-- The function `std::min(a, b)`: `(b < a) ? b : a`. -/
def XFloat.min (a b : XFloat K) : XFloat K := if XFloat.lt b a then b else a

/-- The function `std::max(a, b)`: `(a < b) ? b : a`. -/
def XFloat.max (a b : XFloat K) : XFloat K := if XFloat.lt a b then b else a

/-- The float product `t * d` with a finite `d`: an infinity times zero is a NaN. -/
def XFloat.mulFin (t : XFloat K) (d : K) : XFloat K :=
  match t with
  | .fin x => .fin (x * d)
  | .pinf => if d = 0 then .nan else if 0 < d then .pinf else .ninf
  | .ninf => if d = 0 then .nan else if 0 < d then .ninf else .pinf
  | .nan => .nan

/-- The float sum `o + x` with a finite `o`. -/
def XFloat.addFin (o : K) (x : XFloat K) : XFloat K :=
  match x with
  | .fin y => .fin (o + y)
  | .pinf => .pinf
  | .ninf => .ninf
  | .nan => .nan

/-- The constructor `HitRecord()` on the members kept in `XHit`. -/
def XHit.new : XHit K := ⟨.fin FLT_MAX, ⟨.fin 0, .fin 0, .fin 0⟩⟩

/-- Read access `hits[i]` on an array `HitRecord hits[2]`. -/
def XHit.get (hits : XHit K × XHit K) (i : Nat) : XHit K := if i = 0 then hits.1 else hits.2

/-- The array overload `int quadratic(float A, float B, float C, float roots[2])` with the
float semantics of the two divisions by `2 * A`; `negA` tells that `A`, when it
is zero, is `-0`.  For `A ≠ 0` this is `quadraticArr`. -/
def quadraticArrX (M : MathOps K) (negA : Bool) (A B C : K) (roots : XFloat K × XFloat K) :
    Int × (XFloat K × XFloat K) :=
  if (B * B - 4 * A * C) > 0 then
    let fResult := XFloat.div negA (-B + M.sqrt (B * B - 4 * A * C)) (2 * A)
    let sResult := XFloat.div negA (-B - M.sqrt (B * B - 4 * A * C)) (2 * A)
    (2, (XFloat.min fResult sResult, XFloat.max fResult sResult))
  else if (B * B - 4 * A * C) = 0 then
    let fResult := XFloat.div negA (-B + M.sqrt (B * B - 4 * A * C)) (2 * A)
    (1, (fResult, roots.2))
  else
    (-1, roots)

/-- One iteration (index `i`) of the loop of `IQuadricSurface::findIntersections` with
float semantics; the loop state is `(numIntersections, hits)`. -/
def IQuadricSurface.findIntersectionsStepX (ray : Ray K) (roots : XFloat K × XFloat K)
    (acc : Nat × (XHit K × XHit K)) (i : Nat) : Nat × (XHit K × XHit K) :=
  let numIntersections := acc.1
  let hits := acc.2
  let root := if i = 0 then roots.1 else roots.2
  if XFloat.lt (.fin 0) root then
    let t := root
    let stored : XHit K :=
      ⟨t, ⟨XFloat.addFin ray.origin.x (XFloat.mulFin t ray.direction.x),
           XFloat.addFin ray.origin.y (XFloat.mulFin t ray.direction.y),
           XFloat.addFin ray.origin.z (XFloat.mulFin t ray.direction.z)⟩⟩
    (numIntersections + 1,
      if numIntersections = 0 then (stored, hits.2) else (hits.1, stored))
  else acc

/-- The method `IQuadricSurface::findIntersections` with float semantics; `abc` is the
virtual call `computeAqBqCq`. -/
def IQuadricSurface.findIntersectionsX (M : MathOps K) (abc : Ray K → K × K × K)
    (negA : Bool) (ray : Ray K) (hits : XHit K × XHit K) : Nat × (XHit K × XHit K) :=
  let Aq := (abc ray).1
  let Bq := (abc ray).2.1
  let Cq := (abc ray).2.2
  let r := quadraticArrX M negA Aq Bq Cq (.fin 0, .fin 0)
  let numRoots := r.1
  let roots := r.2
  (List.range numRoots.toNat).foldl (IQuadricSurface.findIntersectionsStepX ray roots) (0, hits)

/-- The method `IQuadricSurface::findClosestIntersection` with float semantics. -/
def IQuadricSurface.findClosestIntersectionX (M : MathOps K) (abc : Ray K → K × K × K)
    (negA : Bool) (ray : Ray K) (hit : XHit K) (hits : XHit K × XHit K) :
    XHit K × (XHit K × XHit K) :=
  let hit0 : XHit K := { hit with t := .fin FLT_MAX }
  let r := IQuadricSurface.findIntersectionsX M abc negA ray hits
  let numIntercepts := r.1
  let hits1 := r.2
  if numIntercepts = 1 ∧ XFloat.lt (.fin 0) hits1.1.t = true then
    (⟨hits1.1.t, hits1.1.interceptPoint⟩, hits1)
  else if numIntercepts = 2 then
    if XFloat.lt (.fin 0) hits1.1.t = true then
      (⟨hits1.1.t, hits1.1.interceptPoint⟩, hits1)
    else if XFloat.lt (.fin 0) hits1.2.t = true then
      (⟨hits1.2.t, hits1.2.interceptPoint⟩, hits1)
    else (hit0, hits1)
  else (hit0, hits1)

/-- The method `IConeY::findClosestIntersection` with float semantics. -/
def IConeY.findClosestIntersectionX (M : MathOps K) (c : IConeY K) (negA : Bool) (ray : Ray K)
    (hit : XHit K) (hits : XHit K × XHit K) : XHit K × (XHit K × XHit K) :=
  let r := IQuadricSurface.findIntersectionsX M c.toIQuadricSurface.computeAqBqCq negA ray hits
  let numHits := r.1
  let hits1 := r.2
  match (List.range numHits).find? (fun i =>
      XFloat.lt (XHit.get hits1 i).interceptPoint.y (.fin c.center.y) &&
      XFloat.lt (.fin (c.center.y - c.length / 2)) (XHit.get hits1 i).interceptPoint.y) with
  | some i => (if XFloat.lt (XHit.get hits1 i).t hit.t then XHit.get hits1 i else hit, hits1)
  | none => ({ hit with t := .fin FLT_MAX }, hits1)

/-- The method `ICylinderY::findClosestIntersection` with float semantics. -/
def ICylinderY.findClosestIntersectionX (M : MathOps K) (c : ICylinderY K) (negA : Bool)
    (ray : Ray K) (hit : XHit K) (hits : XHit K × XHit K) : XHit K × (XHit K × XHit K) :=
  let r := IQuadricSurface.findIntersectionsX M c.toICylinder.computeAqBqCq negA ray hits
  let numHits := r.1
  let hits1 := r.2
  match (List.range numHits).find? (fun i =>
      XFloat.lt (XHit.get hits1 i).interceptPoint.y (.fin (c.center.y + c.length / 2)) &&
      XFloat.lt (.fin (c.center.y - c.length / 2)) (XHit.get hits1 i).interceptPoint.y) with
  | some i => (XHit.get hits1 i, hits1)
  | none => ({ hit with t := .fin FLT_MAX }, hits1)

/-- The method `ICylinderX::findClosestIntersection` with float semantics. -/
def ICylinderX.findClosestIntersectionX (M : MathOps K) (c : ICylinderX K) (negA : Bool)
    (ray : Ray K) (hit : XHit K) (hits : XHit K × XHit K) : XHit K × (XHit K × XHit K) :=
  let r := IQuadricSurface.findIntersectionsX M c.toICylinder.computeAqBqCq negA ray hits
  let numHits := r.1
  let hits1 := r.2
  match (List.range numHits).find? (fun i =>
      XFloat.le (XHit.get hits1 i).interceptPoint.x (.fin (c.center.x + c.length / 2)) &&
      XFloat.le (.fin (c.center.x - c.length / 2)) (XHit.get hits1 i).interceptPoint.x) with
  | some i => (XHit.get hits1 i, hits1)
  | none => ({ hit with t := .fin FLT_MAX }, hits1)

/-- The members `t` and `interceptPoint` of a `HitRecord` whose floats are finite. -/
def XHit.ofHitRecord (h : HitRecord K) : XHit K :=
  ⟨.fin h.t, ⟨.fin h.interceptPoint.x, .fin h.interceptPoint.y, .fin h.interceptPoint.z⟩⟩

/-- The method `ICloseCylinderY::findClosestIntersection` with float semantics.  The two
caps are disks with the normals (0, 1, 0) and (0, -1, 0): the only divisions are by
the length 1 of the normal and, in `IPlane::findClosestIntersection` after the test
`denom == 0`, by `denom`, so their records are those of
`IDisk.findClosestIntersection`. -/
def ICloseCylinderY.findClosestIntersectionX (M : MathOps K) (c : ICloseCylinderY K)
    (negA : Bool) (ray : Ray K) (hit : XHit K) (hits : XHit K × XHit K) :
    XHit K × (XHit K × XHit K) :=
  let hit1 := XHit.ofHitRecord (c.topDisk.findClosestIntersection M ray HitRecord.new)
  let hit2 := XHit.ofHitRecord (c.bottomDisk.findClosestIntersection M ray HitRecord.new)
  let r3 := c.toICylinderY.findClosestIntersectionX M negA ray XHit.new hits
  let hit3 := r3.1
  let hitA := if XFloat.lt hit1.t hit.t then hit1 else hit
  let hitB := if XFloat.lt hit2.t hitA.t then hit2 else hitA
  let hitC := if XFloat.lt hit3.t hitB.t then hit3 else hitB
  (hitC, r3.2)

end FloatValues

/-! ## A concrete scene on the rationals -/

/-- The material `Material(red)`: ambient (1, 0, 0), alpha 1. -/
def exampleRed : Material ℚ := ⟨⟨1, 0, 0⟩, black, black, 0, 1⟩

/-- The material `Material(gray)`: ambient (1/2, 1/2, 1/2), alpha 1. -/
def exampleGray : Material ℚ := ⟨⟨1 / 2, 1 / 2, 1 / 2⟩, black, black, 0, 1⟩

/-- A texture that is white everywhere. -/
def exampleWhiteImage : Image ℚ := ⟨fun _ _ => ⟨1, 1, 1⟩⟩

/-- An opaque textured plane `z = -5` facing the origin. -/
def exampleOpaque : VisibleIShape ℚ :=
  { VisibleIShape.new (IShape.plane (IPlane.new ratOps ⟨0, 0, -5⟩ ⟨0, 0, 1⟩)) exampleGray with
    texture := some exampleWhiteImage }

/-- A red plane `z = -2` facing the origin, as stored by
`addTransparentObject(obj, 0.4f)`: the alpha of its material is 2/5. -/
def exampleTransparent : VisibleIShape ℚ :=
  VisibleIShape.new (IShape.plane (IPlane.new ratOps ⟨0, 0, -2⟩ ⟨0, 0, 1⟩))
    { exampleRed with alpha := 2 / 5 }

/-- A camera at (0, 0, 0). -/
def exampleCamera : RaytracingCamera ℚ :=
  { cameraFrame := ⟨⟨1, 0, 0⟩, ⟨0, 1, 0⟩, ⟨0, 0, 1⟩, ⟨0, 0, 0⟩⟩,
    fov := 1, left := -1, right := 1, bottom := -1, top := 1, nx := 2, ny := 2 }

/-- A scene without lights: the opaque plane `z = -5` behind the transparent
plane `z = -2`, seen from the origin. -/
def exampleScene : IScene ℚ :=
  { lights := [], visibleObjects := [exampleOpaque],
    transparentObjects := [exampleTransparent], camera := exampleCamera }

/-- The ray from the origin along -z. -/
def exampleRay : Ray ℚ := Ray.new ratOps ⟨0, 0, 0⟩ ⟨0, 0, -1⟩

/-- The ray from the origin along +z, away from both planes. -/
def exampleMissRay : Ray ℚ := Ray.new ratOps ⟨0, 0, 0⟩ ⟨0, 0, 1⟩

/-- A ray tracer whose configured `defaultColor` is gray. -/
def exampleTracer : RayTracer ℚ := ⟨⟨1 / 2, 1 / 2, 1 / 2⟩, 1⟩

/-- The material of ExerciseLightingEquationsGLM.cpp. -/
def exerciseMaterial : Material ℚ :=
  ⟨⟨2 / 5, 1 / 2, 3 / 5⟩, ⟨9 / 10, 1, 9 / 10⟩, ⟨9 / 10, 4 / 5, 7 / 10⟩, 1, 1⟩

/-- The light of ExerciseLightingEquationsGLM.cpp: `PositionalLight(lightPos, lightColor)`. -/
def exerciseLight : PositionalLight ℚ :=
  PositionalLight.new ⟨6, 1, 0⟩ ⟨⟨3 / 10, 1 / 5, 1 / 10⟩, ⟨1, 1, 1⟩, ⟨1 / 2, 3 / 5, 7 / 10⟩⟩

/-- The eye frame of ExerciseLightingEquationsGLM.cpp. -/
def exerciseFrame : Frame ℚ := ⟨⟨1, 0, 0⟩, ⟨0, 1, 0⟩, ⟨0, 0, 1⟩, ⟨3, 0, 1⟩⟩

/-- Math operations on the rationals as `ratOps`, with the value of `acos` at -1:
`acos(-1.0f)` is the float 13176795/4194304 (the constant `M_PI` of Defs.h).
No other argument of `acos` occurs in the runs below. -/
def ratOpsPi : MathOps ℚ :=
  { ratOps with acos := fun x => if x = -1 then 13176795 / 4194304 else 0 }

/-- A material with ambient colour (1, 1, 1). -/
def exampleWhite : Material ℚ := ⟨⟨1, 1, 1⟩, black, black, 0, 1⟩

/-- A white spot light at (0, 0, 4) that points along +z with field of view 1. -/
def exampleSpot : SpotLight ℚ :=
  { toPositionalLight := PositionalLight.new ⟨0, 0, 4⟩ ⟨⟨1, 1, 1⟩, ⟨1, 1, 1⟩, ⟨1, 1, 1⟩⟩,
    fov := 1, spotDirection := ⟨0, 0, 1⟩ }

/-- A scene with the opaque plane `z = 2` and the spot light `exampleSpot` above it. -/
def exampleShadowScene : IScene ℚ :=
  { lights := [Light.spot exampleSpot],
    visibleObjects :=
      [VisibleIShape.new (IShape.plane (IPlane.new ratOpsPi ⟨0, 0, 2⟩ ⟨0, 0, 1⟩)) exampleGray],
    transparentObjects := [], camera := exampleCamera }

/-- A hit at the origin with normal (0, 0, 1) on a surface of material `exampleWhite`. -/
def exampleFloorHit : HitRecord ℚ :=
  { (HitRecord.new : HitRecord ℚ) with
    t := 1, interceptPoint := ⟨0, 0, 0⟩, surfaceNormal := ⟨0, 0, 1⟩, material := exampleWhite }

/-- A disk of radius 1 centred at (0, 0, -5) that faces the origin. -/
def exampleDisk : IDisk ℚ := ⟨⟨0, 0, -5⟩, ⟨0, 0, 1⟩, 1⟩

/-- The cylinder `ICylinderY((0, 0, 0), 1, 2)`: radius 1, `|y| < 1`. -/
def exampleCylinderY : ICylinderY ℚ := ICylinderY.new ⟨0, 0, 0⟩ 1 2

/-- The cone `IConeY((0, 0, 0), 1, 2)`: apex at the origin, `x^2 - y^2 + z^2 = 0`. -/
def exampleConeY : IConeY ℚ := IConeY.new ⟨0, 0, 0⟩ 1 2

/-- The rectangle `IRect((0, 0, -5), (0, 0, 1), 2, 2)`: `|x| < 1`, `|y| < 1` in the
plane `z = -5`. -/
def exampleRect : IRect ℚ := IRect.new ratOps ⟨0, 0, -5⟩ ⟨0, 0, 1⟩ 2 2

/-- The box `IBox((0, 0, 0), (2, 2, 2))`: the cube `|x|, |y|, |z| ≤ 1`. -/
def exampleBox : IBox ℚ := IBox.new ratOps ⟨0, 0, 0⟩ ⟨2, 2, 2⟩

/-- The closed cylinder `ICloseCylinderY((0, 0, 0), 1, 2)`: radius 1, caps at `y = 1`
and `y = -1`. -/
def exampleCloseCylinderY : ICloseCylinderY ℚ := ICloseCylinderY.new ⟨0, 0, 0⟩ 1 2

/-- Math operations on the rationals as `ratOps`, with `pow` exact for the
exponent 2.  No other exponent occurs in the runs below. -/
def ratOpsSq : MathOps ℚ :=
  { ratOps with pow := fun x y => if y = 2 then x * x else 0 }

/-- The triangle with the vertices (0, 0, 0), (1, 0, 0), (0, 1, 0). -/
def exampleTriangle : ITriangle ℚ := ITriangle.new ratOpsSq ⟨0, 0, 0⟩ ⟨1, 0, 0⟩ ⟨0, 1, 0⟩

/-- A texture whose pixel at `(u, v)` has the colour `(u, v, 0)`. -/
def exampleRampImage : Image ℚ := ⟨fun u v => ⟨u, v, 0⟩⟩

/-- A hit as `exampleFloorHit`, textured with `exampleRampImage`, whose texture
coordinates `(2, -1)` lie outside [0, 1]. -/
def exampleTexturedHit : HitRecord ℚ :=
  { exampleFloorHit with texture := some exampleRampImage, u := 2, v := -1 }

/-- A gray plane `z = -2` facing the origin, in the same place as
`exampleTransparent`. -/
def exampleGrayNear : VisibleIShape ℚ :=
  VisibleIShape.new (IShape.plane (IPlane.new ratOps ⟨0, 0, -2⟩ ⟨0, 0, 1⟩)) exampleGray

/-- The unit square with the vertices (0, 0, 0), (1, 0, 0), (1, 1, 0), (0, 1, 0). -/
def exampleSquare : List (Vec3 ℚ) := [⟨0, 0, 0⟩, ⟨1, 0, 0⟩, ⟨1, 1, 0⟩, ⟨0, 1, 0⟩]

/-- C35 example: a heap whose shape 0 is `exampleOpaque` and whose other shapes are
`exampleTransparent`, with alpha 2/5. -/
def exampleHeap : Heap ℚ :=
  { shapes := fun p => if p = 0 then exampleOpaque else exampleTransparent,
    lights := fun _ => Light.spot exampleSpot,
    cameras := fun _ => exampleCamera }

/-- C35 example: a scene that shows the shape at address 0. -/
def examplePtrs : IScenePtrs := ⟨[], [0], [], 0⟩

/-- C38 example: the cone about the y axis with apex at the origin and radius 3/4. -/
def exampleSlantCone : IConeY ℚ := IConeY.new ⟨0, 0, 0⟩ (3 / 4) 2

/-- C38 example: a ray from (0, -5/8, 0) along a generator direction of `exampleSlantCone`. -/
def exampleGeneratorRay : Ray ℚ := ⟨⟨0, -5 / 8, 0⟩, ⟨3 / 5, -4 / 5, 0⟩⟩

/-! ## Notions used to state the properties -/

section SpecNotions

variable {K : Type} [LinearOrderedField K]

/-- The discriminant `Bq*Bq - 4*Aq*Cq` of the coefficients `(Aq, Bq, Cq)`. -/
def discriminant (abc : K × K × K) : K := abc.2.1 * abc.2.1 - 4 * abc.1 * abc.2.2

/-- The number `r` is a root of `Aq*t^2 + Bq*t + Cq`. -/
def IsRoot (abc : K × K × K) (r : K) : Prop := abc.1 * r ^ 2 + abc.2.1 * r + abc.2.2 = 0

/-- The value `t` is the smallest strictly positive root of `Aq*t^2 + Bq*t + Cq`
when there is one, and it is the sentinel `FLT_MAX` exactly when there is none. -/
def IsClosestRoot (abc : K × K × K) (t : K) : Prop :=
  (∀ r, 0 < r → IsRoot abc r → 0 < t ∧ IsRoot abc t ∧ t ≤ r) ∧
  (t = FLT_MAX ↔ ¬ ∃ r, 0 < r ∧ IsRoot abc r)

/-- The entry of `hits` after `IQuadricSurface::findIntersections` has stored the
root `r` in it: `t`, `interceptPoint` and `surfaceNormal` are overwritten. -/
def HitRecord.withRoot (M : MathOps K) (q : IQuadricSurface K) (ray : Ray K) (r : K)
    (h : HitRecord K) : HitRecord K :=
  { h with t := r, interceptPoint := ray.origin + r * ray.direction,
           surfaceNormal := q.normal M (ray.origin + r * ray.direction) }

/-- Two hit records agree on `t`, `interceptPoint` and `surfaceNormal`. -/
def HitRecord.SameGeom (h1 h2 : HitRecord K) : Prop :=
  h1.t = h2.t ∧ h1.interceptPoint = h2.interceptPoint ∧ h1.surfaceNormal = h2.surfaceNormal

/-- The record that `surfaces[i]->findClosestIntersection(ray, thisHit)` leaves in
a fresh `thisHit`, computed with the static buffers as at program start. -/
def VisibleIShape.report (M : MathOps K) (ray : Ray K) (s : VisibleIShape K) : HitRecord K :=
  (s.findClosestIntersection M ray HitRecord.new Statics.init).1

/-- The opaque hit `theHit` of `traceIndividualRay`. -/
def RayTracer.opaqueHit (M : MathOps K) (ray : Ray K) (theScene : IScene K) (st : Statics K) :
    HitRecord K :=
  (VisibleIShape.findIntersection M ray theScene.visibleObjects st).1

/-- The transparent hit `transHit` of `traceIndividualRay`. -/
def RayTracer.transparentHit (M : MathOps K) (ray : Ray K) (theScene : IScene K)
    (st : Statics K) : HitRecord K :=
  (VisibleIShape.findIntersection M ray theScene.transparentObjects
    (VisibleIShape.findIntersection M ray theScene.visibleObjects st).2).1

/-- The colour of the opaque hit after lines 75-84 of `traceIndividualRay`
(shading and texture, before the transparency step), with the static buffers. -/
def RayTracer.shadedColor (M : MathOps K) (rt : RayTracer K) (ray : Ray K)
    (theScene : IScene K) (st : Statics K) : color K × Statics K :=
  rt.shadeHit M ray theScene (RayTracer.opaqueHit M ray theScene st) ⟨0, 0, 0⟩
    (VisibleIShape.findIntersection M ray theScene.transparentObjects
      (VisibleIShape.findIntersection M ray theScene.visibleObjects st).2).2

/-- The local colour of `traceIndividualRay`: `result` when line 100 is reached
(shading, texture and transparency). -/
def RayTracer.localColor (M : MathOps K) (rt : RayTracer K) (ray : Ray K)
    (theScene : IScene K) (st : Statics K) : color K :=
  RayTracer.blendTransparent (RayTracer.opaqueHit M ray theScene st)
    (RayTracer.transparentHit M ray theScene st) (RayTracer.shadedColor M rt ray theScene st).1

/-- The reflection ray of `traceIndividualRay`: origin `P + EPSILON*n`, constructed
from the direction `d - 2*dot(d, n)*n`. -/
def RayTracer.reflectionRay (M : MathOps K) (ray : Ray K) (theScene : IScene K)
    (st : Statics K) : Ray K :=
  Ray.new M
    ((RayTracer.opaqueHit M ray theScene st).interceptPoint
      + (EPSILON : K) * (RayTracer.opaqueHit M ray theScene st).surfaceNormal)
    (ray.direction
      - (2 * dot ray.direction (RayTracer.opaqueHit M ray theScene st).surfaceNormal)
        * (RayTracer.opaqueHit M ray theScene st).surfaceNormal)

/-- Every channel of the colour lies in [0, 1]. -/
def Vec3.InUnit (v : Vec3 K) : Prop :=
  (0 ≤ v.x ∧ v.x ≤ 1) ∧ (0 ≤ v.y ∧ v.y ≤ 1) ∧ (0 ≤ v.z ∧ v.z ≤ 1)

/-- The shadow ray of `getLightColor` for a light: origin `hitPoint + EPSILON*normal`,
constructed from the direction `lightPosition - hitPoint`. -/
def RayTracer.shadowRay (M : MathOps K) (theHit : HitRecord K) (light : Light K) : Ray K :=
  Ray.new M (theHit.interceptPoint + (EPSILON : K) * theHit.surfaceNormal)
    (light.lightPosition - theHit.interceptPoint)

/-- The shadow flag of `getLightColor` for a light: the closest positive-`t` opaque
hit of the shadow ray has `t` below the distance from the hit point to the light. -/
def RayTracer.inShadow (M : MathOps K) (theScene : IScene K) (theHit : HitRecord K)
    (light : Light K) : Bool :=
  decide ((VisibleIShape.findIntersection M (RayTracer.shadowRay M theHit light)
      theScene.visibleObjects Statics.init).1.t
    < distance M theHit.interceptPoint light.lightPosition)

/-- The contribution of a light in `getLightColor`. -/
def RayTracer.contribution (M : MathOps K) (theScene : IScene K) (theHit : HitRecord K)
    (light : Light K) : color K :=
  light.illuminate M theHit.interceptPoint theHit.surfaceNormal theHit.material
    theScene.camera.cameraFrame (RayTracer.inShadow M theScene theHit light)

/-- The strictly positive entries of `quadratic(Aq, Bq, Cq)`, in the order returned. -/
def positiveRoots (M : MathOps K) (abc : K × K × K) : List K :=
  (quadratic M abc.1 abc.2.1 abc.2.2).filter (fun r => decide (0 < r))

/-- The axial test of `ICylinderY::findClosestIntersection` for the intercept of
the root `r`: `y < center.y + length/2 && y > center.y - length/2`. -/
def ICylinderY.inBound (c : ICylinderY K) (ray : Ray K) (r : K) : Bool :=
  decide ((ray.origin + r * ray.direction).y < c.center.y + c.length / 2) &&
  decide ((ray.origin + r * ray.direction).y > c.center.y - c.length / 2)

/-- The axial test of `ICylinderX::findClosestIntersection` for the intercept of
the root `r`: `x <= center.x + length/2 && x >= center.x - length/2`. -/
def ICylinderX.inBound (c : ICylinderX K) (ray : Ray K) (r : K) : Bool :=
  decide ((ray.origin + r * ray.direction).x ≤ c.center.x + c.length / 2) &&
  decide ((ray.origin + r * ray.direction).x ≥ c.center.x - c.length / 2)

/-- The value `t` is the smallest strictly positive root of `Aq*t^2 + Bq*t + Cq`
that satisfies `P` when there is one, and it is the sentinel `FLT_MAX` exactly
when there is none. -/
def IsClosestRootIn (abc : K × K × K) (P : K → Prop) (t : K) : Prop :=
  (∀ r, 0 < r → IsRoot abc r → P r → 0 < t ∧ IsRoot abc t ∧ P t ∧ t ≤ r) ∧
  (t = FLT_MAX ↔ ¬ ∃ r, 0 < r ∧ IsRoot abc r ∧ P r)

/-- The axial test of `IConeY::findClosestIntersection` for the intercept of the
root `r`: `y < center.y && y > center.y - length/2`. -/
def IConeY.inBound (c : IConeY K) (ray : Ray K) (r : K) : Bool :=
  decide ((ray.origin + r * ray.direction).y < c.center.y) &&
  decide ((ray.origin + r * ray.direction).y > c.center.y - c.length / 2)

/-- A record that reports a hit has its intercept point on the ray, at parameter `t`. -/
def HitRecord.OnRay (ray : Ray K) (h : HitRecord K) : Prop :=
  h.t ≠ FLT_MAX → h.interceptPoint = ray.origin + h.t * ray.direction

/-- The value tested for the edge `i` by `IConvexPolygon::isInside`:
`dot(cross(edgeRay, pointRay), n)` with `edgeRay = v[(i+1) % v.size()] - v[i]` and
`pointRay = point - v[i]`. -/
def IConvexPolygon.edgeTest (p : IConvexPolygon K) (point : Vec3 K) (i : Nat) : K :=
  dot (cross (p.v.getD ((i + 1) % p.v.length) 0 - p.v.getD i 0) (point - p.v.getD i 0)) p.n

/-- The index of the edge of a polygon with `k` vertices that is the edge `i` of
the polygon with the vertices in reverse order. -/
def reversedEdge (k i : Nat) : Nat := if i + 1 < k then k - 2 - i else k - 1

/-- The member `isOn` read through a `PositionalLightPtr`. -/
def Light.isOn (l : Light K) : Bool :=
  match l with
  | .positional p => p.isOn
  | .spot s => s.isOn

/-- The quadric function `F(x, y, z) = A x^2 + B y^2 + C z^2 + D xy + E xz + F yz +
G x + H y + I z + J` of the coefficients, at the point `p`. -/
def QuadricParameters.eval (q : QuadricParameters K) (p : Vec3 K) : K :=
  q.A * p.x ^ 2 + q.B * p.y ^ 2 + q.C * p.z ^ 2 + q.D * (p.x * p.y) + q.E * (p.x * p.z) +
    q.F * (p.y * p.z) + q.G * p.x + q.H * p.y + q.I * p.z + q.J

/-- The gradient `(2Ax + Dy + Ez + G, 2By + Dx + Fz + H, 2Cz + Ex + Fy + I)` of the
quadric function at the point `p`. -/
def QuadricParameters.gradient (q : QuadricParameters K) (p : Vec3 K) : Vec3 K :=
  ⟨2 * q.A * p.x + q.D * p.y + q.E * p.z + q.G,
   2 * q.B * p.y + q.D * p.x + q.F * p.z + q.H,
   2 * q.C * p.z + q.E * p.x + q.F * p.y + q.I⟩

/-- The members of a `HitRecord` that `IQuadricSurface::findIntersections` never
writes: `material`, `texture`, `u`, `v`. -/
def HitRecord.payload {K : Type} (h : HitRecord K) : Material K × Option (Image K) × K × K :=
  (h.material, h.texture, h.u, h.v)

/-- The never-written members of both entries of a `hits[2]` array. -/
def HitBuf.payload {K : Type} (b : HitBuf K) :
    (Material K × Option (Image K) × K × K) × (Material K × Option (Image K) × K × K) :=
  (b.h0.payload, b.h1.payload)

/-- The never-written members of all static buffers. -/
def Statics.payload {K : Type} (s : Statics K) :=
  (s.quadric.payload, s.coneY.payload, s.cylinderY.payload, s.cylinderX.payload)

/-- The record that `findIntersections` stores for a root `+inf`. -/
def XHit.atInfinity (ray : Ray K) : XHit K :=
  ⟨.pinf, ⟨XFloat.addFin ray.origin.x (XFloat.mulFin .pinf ray.direction.x),
           XFloat.addFin ray.origin.y (XFloat.mulFin .pinf ray.direction.y),
           XFloat.addFin ray.origin.z (XFloat.mulFin .pinf ray.direction.z)⟩⟩

end SpecNotions

/-! ## Basic facts about vectors -/

@[ext]
theorem Vec3.ext {K : Type} {a b : Vec3 K} (hx : a.x = b.x) (hy : a.y = b.y)
    (hz : a.z = b.z) : a = b := by
  cases a; cases b; simp_all

section VecLemmas

variable {K : Type} [LinearOrderedField K]

@[simp] theorem Vec3.zero_x : (0 : Vec3 K).x = 0 := rfl
@[simp] theorem Vec3.zero_y : (0 : Vec3 K).y = 0 := rfl
@[simp] theorem Vec3.zero_z : (0 : Vec3 K).z = 0 := rfl
@[simp] theorem Vec3.add_x (a b : Vec3 K) : (a + b).x = a.x + b.x := rfl
@[simp] theorem Vec3.add_y (a b : Vec3 K) : (a + b).y = a.y + b.y := rfl
@[simp] theorem Vec3.add_z (a b : Vec3 K) : (a + b).z = a.z + b.z := rfl
@[simp] theorem Vec3.sub_x (a b : Vec3 K) : (a - b).x = a.x - b.x := rfl
@[simp] theorem Vec3.sub_y (a b : Vec3 K) : (a - b).y = a.y - b.y := rfl
@[simp] theorem Vec3.sub_z (a b : Vec3 K) : (a - b).z = a.z - b.z := rfl
@[simp] theorem Vec3.neg_x (a : Vec3 K) : (-a).x = -a.x := rfl
@[simp] theorem Vec3.neg_y (a : Vec3 K) : (-a).y = -a.y := rfl
@[simp] theorem Vec3.neg_z (a : Vec3 K) : (-a).z = -a.z := rfl
@[simp] theorem Vec3.mul_x (a b : Vec3 K) : (a * b).x = a.x * b.x := rfl
@[simp] theorem Vec3.mul_y (a b : Vec3 K) : (a * b).y = a.y * b.y := rfl
@[simp] theorem Vec3.mul_z (a b : Vec3 K) : (a * b).z = a.z * b.z := rfl
@[simp] theorem Vec3.smul_x (s : K) (a : Vec3 K) : (s * a : Vec3 K).x = s * a.x := rfl
@[simp] theorem Vec3.smul_y (s : K) (a : Vec3 K) : (s * a : Vec3 K).y = s * a.y := rfl
@[simp] theorem Vec3.smul_z (s : K) (a : Vec3 K) : (s * a : Vec3 K).z = s * a.z := rfl
@[simp] theorem Vec3.muls_x (a : Vec3 K) (s : K) : (a * s : Vec3 K).x = a.x * s := rfl
@[simp] theorem Vec3.muls_y (a : Vec3 K) (s : K) : (a * s : Vec3 K).y = a.y * s := rfl
@[simp] theorem Vec3.muls_z (a : Vec3 K) (s : K) : (a * s : Vec3 K).z = a.z * s := rfl
@[simp] theorem Vec3.divs_x (a : Vec3 K) (s : K) : (a / s : Vec3 K).x = a.x / s := rfl
@[simp] theorem Vec3.divs_y (a : Vec3 K) (s : K) : (a / s : Vec3 K).y = a.y / s := rfl
@[simp] theorem Vec3.divs_z (a : Vec3 K) (s : K) : (a / s : Vec3 K).z = a.z / s := rfl

end VecLemmas

/-! ## The quadratic solver -/

section QuadraticLemmas

variable {K : Type} [LinearOrderedField K]

/-- With `s * s = B*B - 4*A*C` and `A ≠ 0`, the roots of `A*r^2 + B*r + C` are
exactly `(-B + s)/(2A)` and `(-B - s)/(2A)`. -/
theorem root_iff_of_sq {A B C s : K} (hA : A ≠ 0) (hs : s * s = B * B - 4 * A * C) (r : K) :
    A * r ^ 2 + B * r + C = 0 ↔ r = (-B + s) / (2 * A) ∨ r = (-B - s) / (2 * A) := by
  have h2A : (2 * A) ≠ 0 := mul_ne_zero two_ne_zero hA
  have key : 4 * A * (A * r ^ 2 + B * r + C) = (2 * A * r + B - s) * (2 * A * r + B + s) := by
    have : (2 * A * r + B - s) * (2 * A * r + B + s) = (2 * A * r + B) ^ 2 - s * s := by ring
    rw [this, hs]; ring
  constructor
  · intro h
    rw [h, mul_zero] at key
    rcases mul_eq_zero.mp key.symm with h1 | h1
    · left; rw [eq_div_iff h2A]; linear_combination h1
    · right; rw [eq_div_iff h2A]; linear_combination h1
  · intro h
    have h4A : (4 * A) ≠ 0 := mul_ne_zero (by norm_num) hA
    have : 4 * A * (A * r ^ 2 + B * r + C) = 0 := by
      rw [key]
      rcases h with h | h
      · rw [eq_div_iff h2A] at h
        have : 2 * A * r + B - s = 0 := by linear_combination h
        rw [this, zero_mul]
      · rw [eq_div_iff h2A] at h
        have : 2 * A * r + B + s = 0 := by linear_combination h
        rw [this, mul_zero]
    exact (mul_eq_zero.mp this).resolve_left h4A

/-- A quadratic with negative discriminant has no root. -/
theorem no_root_of_disc_neg {A B C : K} (hD : B * B - 4 * A * C < 0) (r : K) :
    A * r ^ 2 + B * r + C ≠ 0 := by
  intro h
  have h1 : (2 * A * r + B) ^ 2 = B * B - 4 * A * C := by linear_combination 4 * A * h
  have h2 : 0 ≤ (2 * A * r + B) ^ 2 := sq_nonneg _
  rw [h1] at h2
  exact absurd hD (not_lt.mpr h2)

end QuadraticLemmas

section QuadraticCases

variable {K : Type} [LinearOrderedField K]

/-- The three possible results of the vector overload `quadratic`, by the sign
of the discriminant, each with the roots of the polynomial. -/
theorem quadratic_cases (M : MathOps K) (A B C : K) (hA : A ≠ 0)
    (hsqrt : IsSqrtAt M (B * B - 4 * A * C)) :
    (B * B - 4 * A * C < 0 ∧ quadratic M A B C = [] ∧ ∀ r, A * r ^ 2 + B * r + C ≠ 0) ∨
    (B * B - 4 * A * C = 0 ∧ ∃ r0, quadratic M A B C = [r0] ∧
      ∀ r, A * r ^ 2 + B * r + C = 0 ↔ r = r0) ∨
    (0 < B * B - 4 * A * C ∧ ∃ r0 r1, quadratic M A B C = [r0, r1] ∧ r0 < r1 ∧
      ∀ r, A * r ^ 2 + B * r + C = 0 ↔ r = r0 ∨ r = r1) := by
  have h2A : (2 * A) ≠ 0 := mul_ne_zero two_ne_zero hA
  rcases lt_trichotomy (B * B - 4 * A * C) 0 with hD | hD | hD
  · left
    refine ⟨hD, ?_, no_root_of_disc_neg hD⟩
    unfold quadratic
    rw [if_neg (not_lt.mpr hD.le), if_neg hD.ne]
  · right; left
    obtain ⟨-, hs⟩ := hsqrt hD.ge
    have hs0 : M.sqrt (B * B - 4 * A * C) = 0 := by
      rw [hD] at hs ⊢; exact mul_self_eq_zero.mp hs
    refine ⟨hD, (-B + M.sqrt (B * B - 4 * A * C)) / (2 * A), ?_, ?_⟩
    · unfold quadratic
      rw [if_neg (by rw [hD]; exact lt_irrefl 0), if_pos hD]
    · intro r; rw [root_iff_of_sq hA hs r, hs0]
      simp
  · right; right
    obtain ⟨hs0, hs⟩ := hsqrt hD.le
    have hspos : 0 < M.sqrt (B * B - 4 * A * C) := by
      rcases hs0.lt_or_eq with h | h
      · exact h
      · rw [← h, mul_zero] at hs; exact absurd hs hD.ne
    have hne : (-B + M.sqrt (B * B - 4 * A * C)) / (2 * A) ≠
        (-B - M.sqrt (B * B - 4 * A * C)) / (2 * A) := by
      intro h
      rw [div_left_inj' h2A] at h
      have : M.sqrt (B * B - 4 * A * C) = 0 := by linarith
      exact absurd this hspos.ne'
    refine ⟨hD, _, _, ?_, min_lt_max.mpr hne, ?_⟩
    · unfold quadratic
      rw [if_pos hD]
    · intro r; rw [root_iff_of_sq hA hs r]
      rcases le_total ((-B + M.sqrt (B * B - 4 * A * C)) / (2 * A))
          ((-B - M.sqrt (B * B - 4 * A * C)) / (2 * A)) with h | h
      · rw [min_eq_left h, max_eq_right h]
      · rw [min_eq_right h, max_eq_left h]; exact or_comm

/-- The first strictly positive entry of `quadratic(A, B, C)` is the smallest
strictly positive root of the polynomial, and there is none exactly when the
polynomial has no strictly positive root. -/
theorem quadratic_find_pos (M : MathOps K) (A B C : K) (hA : A ≠ 0)
    (hsqrt : IsSqrtAt M (B * B - 4 * A * C)) :
    (∀ t, (quadratic M A B C).find? (fun r => decide (0 < r)) = some t →
      0 < t ∧ A * t ^ 2 + B * t + C = 0 ∧
        ∀ r, 0 < r → A * r ^ 2 + B * r + C = 0 → t ≤ r) ∧
    ((quadratic M A B C).find? (fun r => decide (0 < r)) = none ↔
      ¬ ∃ r, 0 < r ∧ A * r ^ 2 + B * r + C = 0) := by
  rcases quadratic_cases M A B C hA hsqrt with ⟨-, hq, hr⟩ | ⟨-, r0, hq, hr⟩ | ⟨-, r0, r1, hq, hlt, hr⟩
  · rw [hq]
    refine ⟨fun t h => by simp at h, ?_⟩
    simp only [List.find?_nil, true_iff]
    rintro ⟨r, -, h⟩; exact hr r h
  · rw [hq]
    by_cases h0 : 0 < r0
    · simp only [List.find?_cons, h0, decide_True]
      refine ⟨fun t h => ?_, ?_⟩
      · have : r0 = t := by simpa using h
        subst this
        refine ⟨h0, (hr r0).mpr rfl, fun r _ h => ?_⟩
        exact ((hr r).mp h).ge
      · simp only [reduceCtorEq, false_iff, not_not]
        exact ⟨r0, h0, (hr r0).mpr rfl⟩
    · simp only [List.find?_cons, h0, decide_False, List.find?_nil]
      refine ⟨fun t h => by simp at h, ?_⟩
      simp only [true_iff]
      rintro ⟨r, hpos, h⟩
      rw [(hr r).mp h] at hpos; exact h0 hpos
  · rw [hq]
    by_cases h0 : 0 < r0
    · simp only [List.find?_cons, h0, decide_True]
      refine ⟨fun t h => ?_, ?_⟩
      · have : r0 = t := by simpa using h
        subst this
        refine ⟨h0, (hr r0).mpr (Or.inl rfl), fun r _ h => ?_⟩
        rcases (hr r).mp h with h | h
        · exact h.ge
        · rw [h]; exact hlt.le
      · simp only [reduceCtorEq, false_iff, not_not]
        exact ⟨r0, h0, (hr r0).mpr (Or.inl rfl)⟩
    · by_cases h1 : 0 < r1
      · simp only [List.find?_cons, h0, h1, decide_False, decide_True]
        refine ⟨fun t h => ?_, ?_⟩
        · have : r1 = t := by simpa using h
          subst this
          refine ⟨h1, (hr r1).mpr (Or.inr rfl), fun r hpos h => ?_⟩
          rcases (hr r).mp h with h | h
          · rw [h] at hpos; exact absurd hpos h0
          · exact h.ge
        · simp only [reduceCtorEq, false_iff, not_not]
          exact ⟨r1, h1, (hr r1).mpr (Or.inr rfl)⟩
      · simp only [List.find?_cons, h0, h1, decide_False, List.find?_nil]
        refine ⟨fun t h => by simp at h, ?_⟩
        simp only [true_iff]
        rintro ⟨r, hpos, h⟩
        rcases (hr r).mp h with h | h
        · rw [h] at hpos; exact h0 hpos
        · rw [h] at hpos; exact h1 hpos

end QuadraticCases

section QuadricLemmas

variable {K : Type} [LinearOrderedField K]

/-- The record written by `IQuadricSurface::findClosestIntersection` for the root `r`. -/
theorem IQuadricSurface.findClosestIntersection_eq (M : MathOps K) (q : IQuadricSurface K)
    (abc : Ray K → K × K × K) (ray : Ray K) (hit : HitRecord K) (hits : HitBuf K) :
    (q.findClosestIntersection M abc ray hit hits).1 =
      match (quadratic M (abc ray).1 (abc ray).2.1 (abc ray).2.2).find?
          (fun r => decide (0 < r)) with
      | none => { hit with t := FLT_MAX }
      | some r => { hit with t := r, interceptPoint := ray.origin + r * ray.direction,
                             surfaceNormal := q.normal M (ray.origin + r * ray.direction) } := by
  unfold IQuadricSurface.findClosestIntersection IQuadricSurface.findIntersections
    quadraticArr quadratic
  by_cases hD : (abc ray).2.1 * (abc ray).2.1 - 4 * (abc ray).1 * (abc ray).2.2 > 0
  · simp only [hD, if_true]
    by_cases h0 : 0 < min ((-(abc ray).2.1 + M.sqrt ((abc ray).2.1 * (abc ray).2.1 - 4 * (abc ray).1 * (abc ray).2.2)) / (2 * (abc ray).1))
        ((-(abc ray).2.1 - M.sqrt ((abc ray).2.1 * (abc ray).2.1 - 4 * (abc ray).1 * (abc ray).2.2)) / (2 * (abc ray).1))
    · by_cases h1 : 0 < max ((-(abc ray).2.1 + M.sqrt ((abc ray).2.1 * (abc ray).2.1 - 4 * (abc ray).1 * (abc ray).2.2)) / (2 * (abc ray).1))
        ((-(abc ray).2.1 - M.sqrt ((abc ray).2.1 * (abc ray).2.1 - 4 * (abc ray).1 * (abc ray).2.2)) / (2 * (abc ray).1))
      · simp [List.range_succ, IQuadricSurface.findIntersectionsStep, HitBuf.modify, h0, h1]
      · simp [List.range_succ, IQuadricSurface.findIntersectionsStep, HitBuf.modify, h0, h1]
    · by_cases h1 : 0 < max ((-(abc ray).2.1 + M.sqrt ((abc ray).2.1 * (abc ray).2.1 - 4 * (abc ray).1 * (abc ray).2.2)) / (2 * (abc ray).1))
        ((-(abc ray).2.1 - M.sqrt ((abc ray).2.1 * (abc ray).2.1 - 4 * (abc ray).1 * (abc ray).2.2)) / (2 * (abc ray).1))
      · simp [List.range_succ, IQuadricSurface.findIntersectionsStep, HitBuf.modify, h0, h1]
      · simp [List.range_succ, IQuadricSurface.findIntersectionsStep, HitBuf.modify, h0, h1]
  · simp only [hD, if_false]
    by_cases hD0 : (abc ray).2.1 * (abc ray).2.1 - 4 * (abc ray).1 * (abc ray).2.2 = 0
    · simp only [hD0, if_true]
      by_cases h0 : 0 < (-(abc ray).2.1 + M.sqrt 0) / (2 * (abc ray).1)
      · simp [List.range_succ, IQuadricSurface.findIntersectionsStep, HitBuf.modify, h0]
      · simp [List.range_succ, IQuadricSurface.findIntersectionsStep, HitBuf.modify, h0]
    · simp [hD0]

/-- The result of `IQuadricSurface::findIntersections`: the strictly positive
roots, in ascending order, are stored in the first entries of `hits`; the other
entries keep their previous contents. -/
theorem IQuadricSurface.findIntersections_eq (M : MathOps K) (q : IQuadricSurface K)
    (abc : Ray K → K × K × K) (ray : Ray K) (hits : HitBuf K) :
    q.findIntersections M abc ray hits =
      match (quadratic M (abc ray).1 (abc ray).2.1 (abc ray).2.2).filter
          (fun r => decide (0 < r)) with
      | [] => (0, hits)
      | [r0] => (1, { hits with h0 := hits.h0.withRoot M q ray r0 })
      | r0 :: r1 :: _ => (2, ⟨hits.h0.withRoot M q ray r0, hits.h1.withRoot M q ray r1⟩) := by
  unfold IQuadricSurface.findIntersections quadraticArr quadratic
  by_cases hD : (abc ray).2.1 * (abc ray).2.1 - 4 * (abc ray).1 * (abc ray).2.2 > 0
  · simp only [hD, if_true]
    by_cases h0 : 0 < min ((-(abc ray).2.1 + M.sqrt ((abc ray).2.1 * (abc ray).2.1 - 4 * (abc ray).1 * (abc ray).2.2)) / (2 * (abc ray).1))
        ((-(abc ray).2.1 - M.sqrt ((abc ray).2.1 * (abc ray).2.1 - 4 * (abc ray).1 * (abc ray).2.2)) / (2 * (abc ray).1))
    · by_cases h1 : 0 < max ((-(abc ray).2.1 + M.sqrt ((abc ray).2.1 * (abc ray).2.1 - 4 * (abc ray).1 * (abc ray).2.2)) / (2 * (abc ray).1))
        ((-(abc ray).2.1 - M.sqrt ((abc ray).2.1 * (abc ray).2.1 - 4 * (abc ray).1 * (abc ray).2.2)) / (2 * (abc ray).1))
      · simp [List.range_succ, IQuadricSurface.findIntersectionsStep, HitBuf.modify,
          HitRecord.withRoot, List.filter, h0, h1]
      · simp [List.range_succ, IQuadricSurface.findIntersectionsStep, HitBuf.modify,
          HitRecord.withRoot, List.filter, h0, h1]
    · by_cases h1 : 0 < max ((-(abc ray).2.1 + M.sqrt ((abc ray).2.1 * (abc ray).2.1 - 4 * (abc ray).1 * (abc ray).2.2)) / (2 * (abc ray).1))
        ((-(abc ray).2.1 - M.sqrt ((abc ray).2.1 * (abc ray).2.1 - 4 * (abc ray).1 * (abc ray).2.2)) / (2 * (abc ray).1))
      · simp [List.range_succ, IQuadricSurface.findIntersectionsStep, HitBuf.modify,
          HitRecord.withRoot, List.filter, h0, h1]
      · simp [List.range_succ, IQuadricSurface.findIntersectionsStep, HitBuf.modify,
          HitRecord.withRoot, List.filter, h0, h1]
  · simp only [hD, if_false]
    by_cases hD0 : (abc ray).2.1 * (abc ray).2.1 - 4 * (abc ray).1 * (abc ray).2.2 = 0
    · simp only [hD0, if_true]
      by_cases h0 : 0 < (-(abc ray).2.1 + M.sqrt 0) / (2 * (abc ray).1)
      · simp [List.range_succ, IQuadricSurface.findIntersectionsStep, HitBuf.modify,
          HitRecord.withRoot, List.filter, h0]
      · simp [List.range_succ, IQuadricSurface.findIntersectionsStep, HitBuf.modify,
          HitRecord.withRoot, List.filter, h0]
    · simp [hD0]

theorem find_range_one (f : Nat → Bool) :
    (List.range 1).find? f = if f 0 then some 0 else none := by
  simp [List.range_succ, List.find?_cons]
  cases f 0 <;> simp

theorem find_range_two (f : Nat → Bool) :
    (List.range 2).find? f = if f 0 then some 0 else if f 1 then some 1 else none := by
  simp [List.range_succ, List.find?_cons]
  cases f 0 <;> cases f 1 <;> simp

/-- The values `t`, `interceptPoint` and `surfaceNormal` reported by
`ICylinderY::findClosestIntersection` do not depend on the previous contents of
its static buffer. -/
theorem cylinderY_sameGeom (M : MathOps K) (c : ICylinderY K)
    (ray : Ray K) (hit : HitRecord K) (hits hits2 : HitBuf K) :
    (c.findClosestIntersection M ray hit hits).1.SameGeom
      (c.findClosestIntersection M ray hit hits2).1 := by
  unfold ICylinderY.findClosestIntersection
  simp only [IQuadricSurface.findIntersections_eq]
  rcases (quadratic M (c.toICylinder.computeAqBqCq ray).1 (c.toICylinder.computeAqBqCq ray).2.1
      (c.toICylinder.computeAqBqCq ray).2.2).filter (fun r => decide (0 < r)) with
    _ | ⟨r0, _ | ⟨r1, l⟩⟩
  · simp [HitRecord.SameGeom]
  · simp only [find_range_one, HitBuf.get, if_true, HitRecord.withRoot]
    split_ifs <;> simp [HitRecord.SameGeom]
  · simp only [find_range_two, HitBuf.get, if_true, HitRecord.withRoot, one_ne_zero, if_false]
    split_ifs <;> simp [HitRecord.SameGeom]

/-- The same for `ICylinderX::findClosestIntersection`. -/
theorem cylinderX_sameGeom (M : MathOps K) (c : ICylinderX K)
    (ray : Ray K) (hit : HitRecord K) (hits hits2 : HitBuf K) :
    (c.findClosestIntersection M ray hit hits).1.SameGeom
      (c.findClosestIntersection M ray hit hits2).1 := by
  unfold ICylinderX.findClosestIntersection
  simp only [IQuadricSurface.findIntersections_eq]
  rcases (quadratic M (c.toICylinder.computeAqBqCq ray).1 (c.toICylinder.computeAqBqCq ray).2.1
      (c.toICylinder.computeAqBqCq ray).2.2).filter (fun r => decide (0 < r)) with
    _ | ⟨r0, _ | ⟨r1, l⟩⟩
  · simp [HitRecord.SameGeom]
  · simp only [find_range_one, HitBuf.get, if_true, HitRecord.withRoot]
    split_ifs <;> simp [HitRecord.SameGeom]
  · simp only [find_range_two, HitBuf.get, if_true, HitRecord.withRoot, one_ne_zero, if_false]
    split_ifs <;> simp [HitRecord.SameGeom]

/-- The same for `IConeY::findClosestIntersection`. -/
theorem coneY_sameGeom (M : MathOps K) (c : IConeY K)
    (ray : Ray K) (hit : HitRecord K) (hits hits2 : HitBuf K) :
    (c.findClosestIntersection M ray hit hits).1.SameGeom
      (c.findClosestIntersection M ray hit hits2).1 := by
  unfold IConeY.findClosestIntersection
  simp only [IQuadricSurface.findIntersections_eq]
  rcases (quadratic M (c.toIQuadricSurface.computeAqBqCq ray).1
      (c.toIQuadricSurface.computeAqBqCq ray).2.1
      (c.toIQuadricSurface.computeAqBqCq ray).2.2).filter (fun r => decide (0 < r)) with
    _ | ⟨r0, _ | ⟨r1, l⟩⟩
  · simp [HitRecord.SameGeom]
  · simp only [find_range_one, HitBuf.get, if_true, HitRecord.withRoot]
    by_cases h0 : r0 < hit.t <;> split_ifs <;> simp [HitRecord.SameGeom, h0]
  · simp only [find_range_two, HitBuf.get, if_true, HitRecord.withRoot, one_ne_zero, if_false]
    by_cases h0 : r0 < hit.t <;> by_cases h1 : r1 < hit.t <;> split_ifs <;>
      simp [HitRecord.SameGeom, h0, h1]

/-- The same for `ICloseCylinderY::findClosestIntersection`. -/
theorem closeCylinderY_sameGeom (M : MathOps K)
    (c : ICloseCylinderY K) (ray : Ray K) (hit : HitRecord K) (hits hits2 : HitBuf K) :
    (c.findClosestIntersection M ray hit hits).1.SameGeom
      (c.findClosestIntersection M ray hit hits2).1 := by
  obtain ⟨ht, hp, hn⟩ :=
    cylinderY_sameGeom M c.toICylinderY ray HitRecord.new hits hits2
  unfold ICloseCylinderY.findClosestIntersection
  simp only [ht]
  split_ifs <;> first | exact ⟨ht, hp, hn⟩ | exact ⟨rfl, rfl, rfl⟩

/-- The values `t`, `interceptPoint` and `surfaceNormal` reported by a shape do
not depend on the contents of the static buffers. -/
theorem shape_sameGeom (M : MathOps K) (shape : IShape K)
    (ray : Ray K) (hit : HitRecord K) (st st2 : Statics K) :
    (shape.findClosestIntersection M ray hit st).1.SameGeom
      (shape.findClosestIntersection M ray hit st2).1 := by
  cases shape with
  | plane s => exact ⟨rfl, rfl, rfl⟩
  | disk s => exact ⟨rfl, rfl, rfl⟩
  | rect s => exact ⟨rfl, rfl, rfl⟩
  | box s => exact ⟨rfl, rfl, rfl⟩
  | convexPolygon s => exact ⟨rfl, rfl, rfl⟩
  | triangle s => exact ⟨rfl, rfl, rfl⟩
  | quadricSurface s =>
    simp only [IShape.findClosestIntersection, IQuadricSurface.findClosestIntersection_eq]
    exact ⟨rfl, rfl, rfl⟩
  | sphere s =>
    simp only [IShape.findClosestIntersection, IQuadricSurface.findClosestIntersection_eq]
    exact ⟨rfl, rfl, rfl⟩
  | ellipsoid s =>
    simp only [IShape.findClosestIntersection, IQuadricSurface.findClosestIntersection_eq]
    exact ⟨rfl, rfl, rfl⟩
  | coneY s => exact coneY_sameGeom M s ray hit _ _
  | cylinderY s => exact cylinderY_sameGeom M s ray hit _ _
  | cylinderX s => exact cylinderX_sameGeom M s ray hit _ _
  | closeCylinderY s => exact closeCylinderY_sameGeom M s ray hit _ _

/-- The record of a visible shape: `t` and `interceptPoint` do not depend on the
static buffers. -/
theorem VisibleIShape.findClosestIntersection_report (M : MathOps K) (s : VisibleIShape K)
    (ray : Ray K) (st : Statics K) :
    (s.findClosestIntersection M ray HitRecord.new st).1.t = (s.report M ray).t ∧
    (s.findClosestIntersection M ray HitRecord.new st).1.interceptPoint
      = (s.report M ray).interceptPoint ∧
    (s.findClosestIntersection M ray HitRecord.new st).1.surfaceNormal
      = (s.report M ray).surfaceNormal := by
  obtain ⟨ht, hp, hn⟩ :=
    shape_sameGeom M s.shape ray HitRecord.new st Statics.init
  unfold VisibleIShape.report VisibleIShape.findClosestIntersection
  simp only [ht]
  split_ifs <;> first | exact ⟨ht, hp, hn⟩ | exact ⟨rfl, hp, hn⟩

end QuadricLemmas

section ClosestHit

variable {K : Type} [LinearOrderedField K]

/-- One loop iteration of `VisibleIShape::findIntersection`: the surface replaces
`theHit` exactly when its `t` is positive and smaller than the current one. -/
theorem VisibleIShape.findIntersectionStep_spec (M : MathOps K) (ray : Ray K)
    (acc : HitRecord K × Statics K) (s : VisibleIShape K) :
    (((s.report M ray).t < acc.1.t ∧ 0 < (s.report M ray).t) →
      (VisibleIShape.findIntersectionStep M ray acc s).1.t = (s.report M ray).t ∧
      (VisibleIShape.findIntersectionStep M ray acc s).1.interceptPoint
        = (s.report M ray).interceptPoint ∧
      (VisibleIShape.findIntersectionStep M ray acc s).1.surfaceNormal
        = (s.report M ray).surfaceNormal ∧
      (VisibleIShape.findIntersectionStep M ray acc s).1.material = s.material ∧
      (VisibleIShape.findIntersectionStep M ray acc s).1.texture = s.texture) ∧
    (¬ ((s.report M ray).t < acc.1.t ∧ 0 < (s.report M ray).t) →
      (VisibleIShape.findIntersectionStep M ray acc s).1 = acc.1) := by
  obtain ⟨ht, hp, hn⟩ := VisibleIShape.findClosestIntersection_report M s ray acc.2
  unfold VisibleIShape.findIntersectionStep
  simp only [ht, gt_iff_lt]
  constructor
  · intro h
    rw [if_pos h]
    split_ifs <;> exact ⟨rfl, hp, hn, rfl, rfl⟩
  · intro h
    rw [if_neg h]

/-- The loop of `VisibleIShape::findIntersection`, started from any `theHit`. -/
theorem VisibleIShape.findIntersection_foldl (M : MathOps K) (ray : Ray K) :
    ∀ (surfaces : List (VisibleIShape K)) (acc : HitRecord K × Statics K),
      (surfaces.foldl (VisibleIShape.findIntersectionStep M ray) acc).1.t ≤ acc.1.t ∧
      (∀ s ∈ surfaces, 0 < (s.report M ray).t →
        (surfaces.foldl (VisibleIShape.findIntersectionStep M ray) acc).1.t
          ≤ (s.report M ray).t) ∧
      ((surfaces.foldl (VisibleIShape.findIntersectionStep M ray) acc).1 = acc.1 ∨
        ∃ s ∈ surfaces,
          (s.report M ray).t
            = (surfaces.foldl (VisibleIShape.findIntersectionStep M ray) acc).1.t ∧
          0 < (s.report M ray).t ∧ (s.report M ray).t < acc.1.t ∧
          (surfaces.foldl (VisibleIShape.findIntersectionStep M ray) acc).1.interceptPoint
            = (s.report M ray).interceptPoint ∧
          (surfaces.foldl (VisibleIShape.findIntersectionStep M ray) acc).1.surfaceNormal
            = (s.report M ray).surfaceNormal ∧
          (surfaces.foldl (VisibleIShape.findIntersectionStep M ray) acc).1.material
            = s.material ∧
          (surfaces.foldl (VisibleIShape.findIntersectionStep M ray) acc).1.texture
            = s.texture) := by
  intro surfaces
  induction surfaces with
  | nil =>
    intro acc
    exact ⟨le_refl _, fun s hs => absurd hs (List.not_mem_nil s), Or.inl rfl⟩
  | cons s rest ih =>
    intro acc
    obtain ⟨ha, hb, hc⟩ := ih (VisibleIShape.findIntersectionStep M ray acc s)
    obtain ⟨hsel, hnot⟩ := VisibleIShape.findIntersectionStep_spec M ray acc s
    simp only [List.foldl_cons]
    by_cases hcond : (s.report M ray).t < acc.1.t ∧ 0 < (s.report M ray).t
    · obtain ⟨e1, e2, e3, e4, e5⟩ := hsel hcond
      refine ⟨?_, ?_, ?_⟩
      · exact le_trans ha (by rw [e1]; exact hcond.1.le)
      · intro s2 hs2 hpos
        rcases List.mem_cons.mp hs2 with h | h
        · rw [h]; rw [e1] at ha; exact ha
        · exact hb s2 h hpos
      · right
        rcases hc with h | ⟨s2, hs2, f1, f2, f3, f4, f5, f6, f7⟩
        · refine ⟨s, List.mem_cons_self _ _, ?_, hcond.2, hcond.1, ?_, ?_, ?_, ?_⟩
          · rw [h, e1]
          · rw [h, e2]
          · rw [h, e3]
          · rw [h, e4]
          · rw [h, e5]
        · refine ⟨s2, List.mem_cons_of_mem _ hs2, f1, f2, ?_, f4, f5, f6, f7⟩
          rw [e1] at f3
          exact lt_trans f3 hcond.1
    · have e := hnot hcond
      rw [e] at ha hc
      refine ⟨ha, ?_, ?_⟩
      · intro s2 hs2 hpos
        rcases List.mem_cons.mp hs2 with h | h
        · rw [h] at hpos ⊢
          have : acc.1.t ≤ (s.report M ray).t := by
            by_contra hlt
            exact hcond ⟨not_le.mp hlt, hpos⟩
          exact le_trans ha this
        · exact hb s2 h hpos
      · rcases hc with h | ⟨s2, hs2, f1, f2, f3, f4, f5, f6, f7⟩
        · exact Or.inl h
        · exact Or.inr ⟨s2, List.mem_cons_of_mem _ hs2, f1, f2, f3, f4, f5, f6, f7⟩

end ClosestHit

section TracerLemmas

variable {K : Type} [LinearOrderedField K]

/-- A ray that hits no opaque shape: `traceIndividualRay` returns `result`, which
is still `{0, 0, 0}`. -/
theorem RayTracer.traceIndividualRay_miss (M : MathOps K) (rt : RayTracer K) (fuel : Nat)
    (ray : Ray K) (theScene : IScene K) (recursionLevel : Int) (st : Statics K)
    (hmiss : ¬ (RayTracer.opaqueHit M ray theScene st).t < FLT_MAX) :
    rt.traceIndividualRay M (fuel + 1) ray theScene recursionLevel st =
      some ⟨⟨0, 0, 0⟩, [recursionLevel],
        (VisibleIShape.findIntersection M ray theScene.transparentObjects
          (VisibleIShape.findIntersection M ray theScene.visibleObjects st).2).2⟩ := by
  unfold RayTracer.opaqueHit at hmiss
  simp only [RayTracer.traceIndividualRay, hmiss, if_false]

/-- A hit at recursion level 0: the local colour is returned. -/
theorem RayTracer.traceIndividualRay_zero (M : MathOps K) (rt : RayTracer K) (fuel : Nat)
    (ray : Ray K) (theScene : IScene K) (st : Statics K)
    (hhit : (RayTracer.opaqueHit M ray theScene st).t < FLT_MAX) :
    rt.traceIndividualRay M (fuel + 1) ray theScene 0 st =
      some ⟨RayTracer.localColor M rt ray theScene st, [0],
        (RayTracer.shadedColor M rt ray theScene st).2⟩ := by
  unfold RayTracer.opaqueHit at hhit
  simp only [RayTracer.traceIndividualRay, hhit, if_true]
  rfl

/-- A hit at a recursion level other than 0: one recursive call, for the
reflection ray, with the level decremented. -/
theorem RayTracer.traceIndividualRay_succ (M : MathOps K) (rt : RayTracer K) (fuel : Nat)
    (ray : Ray K) (theScene : IScene K) (recursionLevel : Int) (st : Statics K)
    (hhit : (RayTracer.opaqueHit M ray theScene st).t < FLT_MAX)
    (hlevel : recursionLevel ≠ 0) :
    rt.traceIndividualRay M (fuel + 1) ray theScene recursionLevel st =
      (rt.traceIndividualRay M fuel (RayTracer.reflectionRay M ray theScene st) theScene
          (recursionLevel - 1) (RayTracer.shadedColor M rt ray theScene st).2).map
        (fun r => ⟨RayTracer.localColor M rt ray theScene st + r.color * (1 / 2 : K),
          recursionLevel :: r.calls, r.statics⟩) := by
  unfold RayTracer.opaqueHit at hhit
  simp only [RayTracer.traceIndividualRay, hhit, if_true, hlevel, if_false]
  unfold RayTracer.reflectionRay RayTracer.shadedColor RayTracer.opaqueHit
  cases rt.traceIndividualRay M fuel _ theScene (recursionLevel - 1) _ <;> rfl

/-- Termination: with recursion level `k ≥ 0` and more than `k` units of fuel
`traceIndividualRay` returns; the invocations it causes have the levels
`k, k-1, ...`, at most down to 0. -/
theorem RayTracer.traceIndividualRay_terminates (M : MathOps K) (rt : RayTracer K)
    (theScene : IScene K) :
    ∀ (fuel : Nat) (k : Nat) (ray : Ray K) (st : Statics K), k < fuel →
      ∃ r, rt.traceIndividualRay M fuel ray theScene (k : Int) st = some r ∧
        ∃ n, 1 ≤ n ∧ n ≤ k + 1 ∧ r.calls = (List.range n).map (fun (i : Nat) => (k : Int) - (i : Int)) := by
  intro fuel
  induction fuel with
  | zero => intro k ray st h; exact absurd h (Nat.not_lt_zero k)
  | succ fuel ih =>
    intro k ray st hk
    by_cases hhit : (RayTracer.opaqueHit M ray theScene st).t < FLT_MAX
    · cases k with
      | zero =>
        refine ⟨_, RayTracer.traceIndividualRay_zero M rt fuel ray theScene st hhit, 1,
          le_refl _, le_refl _, ?_⟩
        simp [List.range_succ]
      | succ k =>
        have hne : ((k + 1 : Nat) : Int) ≠ 0 := by omega
        obtain ⟨r, hr, n, hn1, hn2, hcalls⟩ := ih k (RayTracer.reflectionRay M ray theScene st)
          (RayTracer.shadedColor M rt ray theScene st).2 (by omega)
        have hsub : ((k + 1 : Nat) : Int) - 1 = (k : Int) := by omega
        refine ⟨⟨RayTracer.localColor M rt ray theScene st + r.color * (1 / 2 : K),
          ((k + 1 : Nat) : Int) :: r.calls, r.statics⟩, ?_, n + 1, by omega, by omega, ?_⟩
        · rw [RayTracer.traceIndividualRay_succ M rt fuel ray theScene _ st hhit hne, hsub, hr]
          rfl
        · simp only [hcalls, List.range_succ_eq_map, List.map_cons, List.map_map]
          congr 1
          apply List.map_congr_left
          intro i _
          simp only [Function.comp]
          push_cast
          ring
    · refine ⟨_, RayTracer.traceIndividualRay_miss M rt fuel ray theScene _ st hhit, 1,
        le_refl _, by omega, ?_⟩
      simp [List.range_succ]

/-- The result of `traceIndividualRay` for a level `k ≥ 0` does not depend on
the amount of fuel, once there is more than `k`. -/
theorem RayTracer.traceIndividualRay_fuel (M : MathOps K) (rt : RayTracer K)
    (theScene : IScene K) :
    ∀ (fuel fuel2 : Nat) (k : Nat) (ray : Ray K) (st : Statics K), k < fuel → k < fuel2 →
      rt.traceIndividualRay M fuel ray theScene (k : Int) st
        = rt.traceIndividualRay M fuel2 ray theScene (k : Int) st := by
  intro fuel
  induction fuel with
  | zero => intro fuel2 k ray st h; exact absurd h (Nat.not_lt_zero k)
  | succ fuel ih =>
    intro fuel2 k ray st hk hk2
    cases fuel2 with
    | zero => exact absurd hk2 (Nat.not_lt_zero k)
    | succ fuel2 =>
      by_cases hhit : (RayTracer.opaqueHit M ray theScene st).t < FLT_MAX
      · cases k with
        | zero =>
          rw [Nat.cast_zero, RayTracer.traceIndividualRay_zero M rt fuel ray theScene st hhit,
            RayTracer.traceIndividualRay_zero M rt fuel2 ray theScene st hhit]
        | succ k =>
          have hne : ((k + 1 : Nat) : Int) ≠ 0 := by omega
          have hsub : ((k + 1 : Nat) : Int) - 1 = (k : Int) := by omega
          rw [RayTracer.traceIndividualRay_succ M rt fuel ray theScene _ st hhit hne,
            RayTracer.traceIndividualRay_succ M rt fuel2 ray theScene _ st hhit hne, hsub,
            ih fuel2 k _ _ (by omega) (by omega)]
      · rw [RayTracer.traceIndividualRay_miss M rt fuel ray theScene _ st hhit,
          RayTracer.traceIndividualRay_miss M rt fuel2 ray theScene _ st hhit]

end TracerLemmas

section ExampleScene

theorem ratSqrt_one : ratSqrt 1 = 1 := by norm_num [ratSqrt, isqrtAux]

theorem exampleRay_eq : exampleRay = ⟨⟨0, 0, 0⟩, ⟨0, 0, -1⟩⟩ := by
  norm_num [exampleRay, Ray.new, normalize, dot, ratOps, ratSqrt_one]
  ext <;> simp

theorem example_opaqueHit_t :
    (RayTracer.opaqueHit ratOps exampleRay exampleScene Statics.init).t = 5 := by
  rw [exampleRay_eq]
  norm_num [RayTracer.opaqueHit, VisibleIShape.findIntersection,
    VisibleIShape.findIntersectionStep, exampleScene, exampleOpaque,
    VisibleIShape.findClosestIntersection, VisibleIShape.new, IShape.findClosestIntersection,
    IPlane.findClosestIntersection, IPlane.new, normalize, dot, HitRecord.new, FLT_MAX, ratOps,
    ratSqrt_one, Ray.getPoint, IShape.getTexCoords]

theorem example_transparentHit_t :
    (RayTracer.transparentHit ratOps exampleRay exampleScene Statics.init).t = 2 := by
  rw [exampleRay_eq]
  norm_num [RayTracer.transparentHit, VisibleIShape.findIntersection,
    VisibleIShape.findIntersectionStep, exampleScene, exampleOpaque, exampleTransparent,
    VisibleIShape.findClosestIntersection, VisibleIShape.new, IShape.findClosestIntersection,
    IPlane.findClosestIntersection, IPlane.new, normalize, dot, HitRecord.new, FLT_MAX, ratOps,
    ratSqrt_one, Ray.getPoint, IShape.getTexCoords]

theorem example_transparentHit_material :
    (RayTracer.transparentHit ratOps exampleRay exampleScene Statics.init).material
      = { exampleRed with alpha := 2 / 5 } := by
  rw [exampleRay_eq]
  norm_num [RayTracer.transparentHit, VisibleIShape.findIntersection,
    VisibleIShape.findIntersectionStep, exampleScene, exampleOpaque, exampleTransparent,
    VisibleIShape.findClosestIntersection, VisibleIShape.new, IShape.findClosestIntersection,
    IPlane.findClosestIntersection, IPlane.new, normalize, dot, HitRecord.new, FLT_MAX, ratOps,
    ratSqrt_one, Ray.getPoint, IShape.getTexCoords]

theorem example_shadedColor :
    (RayTracer.shadedColor ratOps exampleTracer exampleRay exampleScene Statics.init).1
      = ⟨1 / 2, 1 / 2, 1 / 2⟩ := by
  rw [exampleRay_eq]
  norm_num [RayTracer.shadedColor, RayTracer.shadeHit, RayTracer.getLightColor,
    RayTracer.opaqueHit, VisibleIShape.findIntersection,
    VisibleIShape.findIntersectionStep, exampleScene, exampleOpaque, exampleTransparent,
    VisibleIShape.findClosestIntersection, VisibleIShape.new, IShape.findClosestIntersection,
    IPlane.findClosestIntersection, IPlane.new, normalize, dot, HitRecord.new, FLT_MAX, ratOps,
    ratSqrt_one, Ray.getPoint, IShape.getTexCoords, exampleWhiteImage, clamp]
  ext <;> norm_num

theorem example_localColor :
    RayTracer.localColor ratOps exampleTracer exampleRay exampleScene Statics.init
      = ⟨6 / 5, 4 / 5, 4 / 5⟩ := by
  unfold RayTracer.localColor RayTracer.blendTransparent
  rw [example_opaqueHit_t, example_transparentHit_t, example_transparentHit_material,
    example_shadedColor]
  norm_num [FLT_MAX, RayTracer.blendAssignment, exampleRed]
  ext <;> norm_num

theorem exampleMissRay_eq : exampleMissRay = ⟨⟨0, 0, 0⟩, ⟨0, 0, 1⟩⟩ := by
  norm_num [exampleMissRay, Ray.new, normalize, dot, ratOps, ratSqrt_one]
  ext <;> simp

theorem example_miss_opaqueHit_t :
    (RayTracer.opaqueHit ratOps exampleMissRay exampleScene Statics.init).t = FLT_MAX := by
  rw [exampleMissRay_eq]
  norm_num [RayTracer.opaqueHit, VisibleIShape.findIntersection,
    VisibleIShape.findIntersectionStep, exampleScene, exampleOpaque,
    VisibleIShape.findClosestIntersection, VisibleIShape.new, IShape.findClosestIntersection,
    IPlane.findClosestIntersection, IPlane.new, normalize, dot, HitRecord.new, ratOps,
    ratSqrt_one, Ray.getPoint, IShape.getTexCoords]

theorem example_report_far : (exampleOpaque.report ratOps exampleRay).t = 5 := by
  rw [exampleRay_eq]
  norm_num [VisibleIShape.report, exampleOpaque,
    VisibleIShape.findClosestIntersection, VisibleIShape.new, IShape.findClosestIntersection,
    IPlane.findClosestIntersection, IPlane.new, normalize, dot, HitRecord.new, FLT_MAX, ratOps,
    ratSqrt_one, Ray.getPoint]

theorem example_report_near : (exampleTransparent.report ratOps exampleRay).t = 2 := by
  rw [exampleRay_eq]
  norm_num [VisibleIShape.report, exampleTransparent,
    VisibleIShape.findClosestIntersection, VisibleIShape.new, IShape.findClosestIntersection,
    IPlane.findClosestIntersection, IPlane.new, normalize, dot, HitRecord.new, FLT_MAX, ratOps,
    ratSqrt_one, Ray.getPoint]

end ExampleScene

/-! ## Claims -/

section Claims

variable {K : Type} [LinearOrderedField K]

/-- C4: for `A ≠ 0` (and `sqrt` exact at the discriminant) the vector overload
`quadratic(A, B, C)` returns exactly the distinct roots of `A*x^2 + B*x + C = 0`
in strictly ascending order: the empty vector when the discriminant is
negative, one root when it is zero, two roots `r0 < r1` when it is positive; in
particular `quadratic(1, 4, 3) = [-3, -1]`. -/
theorem C4_quadratic_returns_sorted_roots (M : MathOps K) (A B C : K) (hA : A ≠ 0)
    (hsqrt : IsSqrtAt M (B * B - 4 * A * C)) :
    (∀ r, r ∈ quadratic M A B C ↔ A * r ^ 2 + B * r + C = 0) ∧
    (quadratic M A B C).Pairwise (fun a b => a < b) ∧
    (B * B - 4 * A * C < 0 → quadratic M A B C = []) ∧
    (B * B - 4 * A * C = 0 → ∃ r0, quadratic M A B C = [r0]) ∧
    (0 < B * B - 4 * A * C → ∃ r0 r1, quadratic M A B C = [r0, r1] ∧ r0 < r1) ∧
    (A = 1 → B = 4 → C = 3 → quadratic M A B C = [-3, -1]) := by
  rcases quadratic_cases M A B C hA hsqrt with
    ⟨hD, hq, hr⟩ | ⟨hD, r0, hq, hr⟩ | ⟨hD, r0, r1, hq, hlt, hr⟩
  · refine ⟨?_, ?_, fun _ => hq, fun h => absurd h hD.ne, fun h => absurd h (not_lt.mpr hD.le), ?_⟩
    · intro r; rw [hq]
      simp only [List.not_mem_nil, false_iff]
      exact hr r
    · rw [hq]; exact List.Pairwise.nil
    · rintro rfl rfl rfl; norm_num at hD
  · refine ⟨?_, ?_, fun h => absurd hD h.ne, fun _ => ⟨_, hq⟩, fun h => absurd hD h.ne', ?_⟩
    · intro r; rw [hq, hr r]; simp
    · rw [hq]; exact List.pairwise_singleton _ _
    · rintro rfl rfl rfl; norm_num at hD
  · refine ⟨?_, ?_, fun h => absurd h (not_lt.mpr hD.le), fun h => absurd h hD.ne',
      fun _ => ⟨_, _, hq, hlt⟩, ?_⟩
    · intro r; rw [hq, hr r]; simp
    · rw [hq]; exact List.pairwise_pair.mpr hlt
    · rintro rfl rfl rfl
      rw [hq]
      have h3 : ((1 : K) * (-3) ^ 2 + 4 * (-3) + 3 = 0) := by norm_num
      have h1 : ((1 : K) * (-1) ^ 2 + 4 * (-1) + 3 = 0) := by norm_num
      have e3 := (hr (-3)).mp h3
      have e1 := (hr (-1)).mp h1
      rcases e3 with e3 | e3 <;> rcases e1 with e1 | e1
      · rw [← e3] at e1; norm_num at e1
      · rw [← e3, ← e1]
      · rw [← e3, ← e1] at hlt; norm_num at hlt
      · rw [← e3] at e1; norm_num at e1

/-- C4, run: on the rationals `quadratic(1, 4, 3)` is `[-3, -1]`. -/
theorem C4_quadratic_witness :
    (1 : ℚ) ≠ 0 ∧ IsSqrtAt ratOps ((4 : ℚ) * 4 - 4 * 1 * 3) ∧
      quadratic ratOps 1 4 3 = [-3, -1] :=
  ⟨one_ne_zero, by norm_num [IsSqrtAt, ratOps, ratSqrt, isqrtAux],
   (C4_quadratic_returns_sorted_roots ratOps 1 4 3 one_ne_zero
     (by norm_num [IsSqrtAt, ratOps, ratSqrt, isqrtAux])).2.2.2.2.2 rfl rfl rfl⟩

/-- C1: for a sphere with centre `c` and radius `R` and a ray with non-zero
direction (and `sqrt` exact at the discriminant), if `findClosestIntersection`
reports a hit (`t < FLT_MAX`), then the point `p = origin + t*direction` is the
reported intercept point and satisfies `|p - c|^2 = R^2`. -/
theorem C1_sphere_hit_lies_on_sphere (M : MathOps K) (c : Vec3 K) (R : K) (ray : Ray K)
    (hit : HitRecord K) (st : Statics K)
    (hdir : ray.direction ≠ 0)
    (hsqrt : IsSqrtAt M (discriminant ((ISphere.new c R).computeAqBqCq ray)))
    (hhit : ((IShape.sphere (ISphere.new c R)).findClosestIntersection M ray hit st).1.t
      < FLT_MAX) :
    ((IShape.sphere (ISphere.new c R)).findClosestIntersection M ray hit st).1.interceptPoint
      = ray.origin +
        ((IShape.sphere (ISphere.new c R)).findClosestIntersection M ray hit st).1.t
          * ray.direction ∧
    dot (ray.origin +
          ((IShape.sphere (ISphere.new c R)).findClosestIntersection M ray hit st).1.t
            * ray.direction - c)
        (ray.origin +
          ((IShape.sphere (ISphere.new c R)).findClosestIntersection M ray hit st).1.t
            * ray.direction - c) = R * R := by
  have hA : ((ISphere.new c R).computeAqBqCq ray).1 ≠ 0 := by
    intro h
    apply hdir
    have h0 : ray.direction.x * ray.direction.x + ray.direction.y * ray.direction.y
        + ray.direction.z * ray.direction.z = 0 := h
    have hx := mul_self_nonneg ray.direction.x
    have hy := mul_self_nonneg ray.direction.y
    have hz := mul_self_nonneg ray.direction.z
    ext
    · exact mul_self_eq_zero.mp (by linarith)
    · exact mul_self_eq_zero.mp (by linarith)
    · exact mul_self_eq_zero.mp (by linarith)
  have hfind := quadratic_find_pos M _ _ _ hA hsqrt
  have heq : ((IShape.sphere (ISphere.new c R)).findClosestIntersection M ray hit st).1 =
      ((ISphere.new c R).toIQuadricSurface.findClosestIntersection M
        (ISphere.new c R).computeAqBqCq ray hit st.quadric).1 := rfl
  rw [heq, IQuadricSurface.findClosestIntersection_eq] at hhit ⊢
  cases hf : (quadratic M ((ISphere.new c R).computeAqBqCq ray).1
      ((ISphere.new c R).computeAqBqCq ray).2.1
      ((ISphere.new c R).computeAqBqCq ray).2.2).find? (fun r => decide (0 < r)) with
  | none =>
    rw [hf] at hhit
    exact absurd hhit (lt_irrefl _)
  | some t =>
    obtain ⟨-, hroot, -⟩ := hfind.1 t hf
    refine ⟨rfl, ?_⟩
    have hroot2 : (ray.direction.x * ray.direction.x + ray.direction.y * ray.direction.y
        + ray.direction.z * ray.direction.z) * t ^ 2
        + (2 * (ray.origin.x - c.x) * ray.direction.x + 2 * (ray.origin.y - c.y) * ray.direction.y
            + 2 * (ray.origin.z - c.z) * ray.direction.z) * t
        + ((ray.origin.x - c.x) * (ray.origin.x - c.x) + (ray.origin.y - c.y) * (ray.origin.y - c.y)
            + (ray.origin.z - c.z) * (ray.origin.z - c.z) + 0 * (ray.origin.z - c.z) + -(R * R))
          = 0 := hroot
    show dot (ray.origin + t * ray.direction - c) (ray.origin + t * ray.direction - c) = R * R
    simp only [dot, Vec3.sub_x, Vec3.sub_y, Vec3.sub_z, Vec3.add_x, Vec3.add_y, Vec3.add_z,
      Vec3.smul_x, Vec3.smul_y, Vec3.smul_z]
    linear_combination hroot2

/-- C3: `IQuadricSurface::findClosestIntersection` (which `ISphere` and
`IEllipsoid` inherit, each supplying its own `computeAqBqCq` as `abc`), for
`Aq ≠ 0`, `sqrt` exact at the discriminant and the sentinel `FLT_MAX` itself not
a root: the reported `t` is the smallest strictly positive root of
`Aq*t^2 + Bq*t + Cq = 0`, and it is `FLT_MAX` exactly when there is no strictly
positive root. -/
theorem C3_quadric_reports_smallest_positive_root (M : MathOps K) (q : IQuadricSurface K)
    (abc : Ray K → K × K × K) (ray : Ray K) (hit : HitRecord K) (hits : HitBuf K)
    (hA : (abc ray).1 ≠ 0)
    (hsqrt : IsSqrtAt M (discriminant (abc ray)))
    (hrange : ¬ IsRoot (abc ray) FLT_MAX) :
    IsClosestRoot (abc ray) (q.findClosestIntersection M abc ray hit hits).1.t := by
  have hfind := quadratic_find_pos M _ _ _ hA hsqrt
  rw [IQuadricSurface.findClosestIntersection_eq]
  cases hf : (quadratic M (abc ray).1 (abc ray).2.1 (abc ray).2.2).find?
      (fun r => decide (0 < r)) with
  | none =>
    have hnone := hfind.2.mp hf
    refine ⟨fun r hr hroot => absurd ⟨r, hr, hroot⟩ hnone, ?_⟩
    exact ⟨fun _ => hnone, fun _ => rfl⟩
  | some t =>
    obtain ⟨hpos, hroot, hmin⟩ := hfind.1 t hf
    refine ⟨fun r hr hrr => ⟨hpos, hroot, hmin r hr hrr⟩, ?_⟩
    constructor
    · intro h
      have h2 : t = FLT_MAX := h
      rw [h2] at hroot
      exact absurd hroot hrange
    · intro h
      exact absurd ⟨t, hpos, hroot⟩ h

/-- C5: `IPlane::findClosestIntersection` (for a root different from the
sentinel `FLT_MAX`) reports no hit iff `dot(direction, n) = 0` or the root
`dot(a - origin, n)/dot(direction, n)` is negative; otherwise it reports that
root as `t`, so `t ≥ 0`, the intercept point `origin + t*direction`, which lies
on the plane, and the normal `n`. -/
theorem C5_plane_intersection (p : IPlane K) (ray : Ray K) (hit : HitRecord K)
    (hrange : dot (p.a - ray.origin) p.n / dot ray.direction p.n ≠ FLT_MAX) :
    ((p.findClosestIntersection ray hit).t = FLT_MAX ↔
      (dot ray.direction p.n = 0 ∨
        dot (p.a - ray.origin) p.n / dot ray.direction p.n < 0)) ∧
    (¬ (dot ray.direction p.n = 0 ∨
        dot (p.a - ray.origin) p.n / dot ray.direction p.n < 0) →
      (p.findClosestIntersection ray hit).t
          = dot (p.a - ray.origin) p.n / dot ray.direction p.n ∧
      0 ≤ (p.findClosestIntersection ray hit).t ∧
      (p.findClosestIntersection ray hit).interceptPoint
          = ray.origin + (p.findClosestIntersection ray hit).t * ray.direction ∧
      dot ((p.findClosestIntersection ray hit).interceptPoint - p.a) p.n = 0 ∧
      (p.findClosestIntersection ray hit).surfaceNormal = p.n) := by
  unfold IPlane.findClosestIntersection
  by_cases hd : dot ray.direction p.n = 0
  · simp [hd]
  · by_cases hneg : dot (p.a - ray.origin) p.n / dot ray.direction p.n < 0
    · simp [hd, hneg]
    · simp only [hd, hneg, if_false, or_self, not_false_eq_true, true_implies, iff_false]
      refine ⟨hrange, trivial, not_lt.mp hneg, rfl, ?_, trivial⟩
      have key : dot (p.a - ray.origin) p.n / dot ray.direction p.n * dot ray.direction p.n
          = dot (p.a - ray.origin) p.n := div_mul_cancel₀ _ hd
      simp only [Ray.getPoint, dot, Vec3.sub_x, Vec3.sub_y, Vec3.sub_z, Vec3.add_x, Vec3.add_y,
        Vec3.add_z, Vec3.smul_x, Vec3.smul_y, Vec3.smul_z] at key ⊢
      linear_combination key

/-- C1, run: the unit sphere centred at (0, 0, -5) and the ray from the origin
along -z; the hit at `t = 4` lies on the sphere. -/
theorem C1_sphere_witness :
    ((IShape.sphere (ISphere.new (⟨0, 0, -5⟩ : Vec3 ℚ) 1)).findClosestIntersection
      ratOps ⟨0, ⟨0, 0, -1⟩⟩ HitRecord.new Statics.init).1.t = 4 ∧
    dot ((0 : Vec3 ℚ) +
          ((IShape.sphere (ISphere.new (⟨0, 0, -5⟩ : Vec3 ℚ) 1)).findClosestIntersection
            ratOps ⟨0, ⟨0, 0, -1⟩⟩ HitRecord.new Statics.init).1.t
            * (⟨0, 0, -1⟩ : Vec3 ℚ) - ⟨0, 0, -5⟩)
        ((0 : Vec3 ℚ) +
          ((IShape.sphere (ISphere.new (⟨0, 0, -5⟩ : Vec3 ℚ) 1)).findClosestIntersection
            ratOps ⟨0, ⟨0, 0, -1⟩⟩ HitRecord.new Statics.init).1.t
            * (⟨0, 0, -1⟩ : Vec3 ℚ) - ⟨0, 0, -5⟩) = 1 * 1 := by
  have ht : ((IShape.sphere (ISphere.new (⟨0, 0, -5⟩ : Vec3 ℚ) 1)).findClosestIntersection
      ratOps ⟨0, ⟨0, 0, -1⟩⟩ HitRecord.new Statics.init).1.t = 4 := by
    have heq : ((IShape.sphere (ISphere.new (⟨0, 0, -5⟩ : Vec3 ℚ) 1)).findClosestIntersection
        ratOps ⟨0, ⟨0, 0, -1⟩⟩ HitRecord.new Statics.init).1 =
        ((ISphere.new (⟨0, 0, -5⟩ : Vec3 ℚ) 1).toIQuadricSurface.findClosestIntersection ratOps
          (ISphere.new (⟨0, 0, -5⟩ : Vec3 ℚ) 1).computeAqBqCq ⟨0, ⟨0, 0, -1⟩⟩ HitRecord.new
            Statics.init.quadric).1 := rfl
    rw [heq, IQuadricSurface.findClosestIntersection_eq]
    norm_num [quadratic, ISphere.computeAqBqCq, ISphere.new, IQuadricSurface.new,
      QuadricParameters.sphereQParams, ratOps, ratSqrt, isqrtAux]
  refine ⟨ht, (C1_sphere_hit_lies_on_sphere ratOps ⟨0, 0, -5⟩ 1 ⟨0, ⟨0, 0, -1⟩⟩ HitRecord.new
    Statics.init ?_ ?_ ?_).2⟩
  · intro h
    have hz := congrArg Vec3.z h
    norm_num at hz
  · norm_num [IsSqrtAt, discriminant, ISphere.computeAqBqCq, ISphere.new, IQuadricSurface.new,
      QuadricParameters.sphereQParams, ratOps, ratSqrt, isqrtAux]
  · rw [ht]; norm_num [FLT_MAX]

/-- C3, run: for the unit sphere centred at (0, 0, -5) and the ray from the
origin along -z the quadratic is `t^2 - 10 t + 24` and the reported `t` is its
smallest positive root. -/
theorem C3_quadric_witness :
    ((ISphere.new (⟨0, 0, -5⟩ : Vec3 ℚ) 1).computeAqBqCq ⟨0, ⟨0, 0, -1⟩⟩) = (1, -10, 24) ∧
    IsClosestRoot ((ISphere.new (⟨0, 0, -5⟩ : Vec3 ℚ) 1).computeAqBqCq ⟨0, ⟨0, 0, -1⟩⟩)
      ((IShape.sphere (ISphere.new (⟨0, 0, -5⟩ : Vec3 ℚ) 1)).findClosestIntersection
        ratOps ⟨0, ⟨0, 0, -1⟩⟩ HitRecord.new Statics.init).1.t := by
  have habc : ((ISphere.new (⟨0, 0, -5⟩ : Vec3 ℚ) 1).computeAqBqCq ⟨0, ⟨0, 0, -1⟩⟩)
      = (1, -10, 24) := by
    norm_num [ISphere.computeAqBqCq, ISphere.new, IQuadricSurface.new,
      QuadricParameters.sphereQParams]
  refine ⟨habc, ?_⟩
  exact C3_quadric_reports_smallest_positive_root ratOps
    (ISphere.new (⟨0, 0, -5⟩ : Vec3 ℚ) 1).toIQuadricSurface
    (ISphere.new (⟨0, 0, -5⟩ : Vec3 ℚ) 1).computeAqBqCq ⟨0, ⟨0, 0, -1⟩⟩ HitRecord.new
    Statics.init.quadric
    (by rw [habc]; norm_num)
    (by rw [habc]; norm_num [IsSqrtAt, discriminant, ratOps, ratSqrt, isqrtAux])
    (by rw [habc]; norm_num [IsRoot, FLT_MAX])

/-- C5, run: the plane z = -5 with normal (0, 0, 1) and the ray from the origin
along -z: the root is 5 and the hit is reported at `t = 5`. -/
theorem C5_plane_witness :
    dot ((⟨0, 0, -5⟩ : Vec3 ℚ) - 0) ⟨0, 0, 1⟩ / dot (⟨0, 0, -1⟩ : Vec3 ℚ) ⟨0, 0, 1⟩ = 5 ∧
    (5 : ℚ) ≠ FLT_MAX ∧
    ((IPlane.mk (⟨0, 0, -5⟩ : Vec3 ℚ) ⟨0, 0, 1⟩).findClosestIntersection
        ⟨0, ⟨0, 0, -1⟩⟩ HitRecord.new).t = 5 := by
  have hroot : dot ((⟨0, 0, -5⟩ : Vec3 ℚ) - 0) ⟨0, 0, 1⟩ / dot (⟨0, 0, -1⟩ : Vec3 ℚ) ⟨0, 0, 1⟩
      = 5 := by norm_num [dot]
  have hne : (5 : ℚ) ≠ FLT_MAX := by norm_num [FLT_MAX]
  refine ⟨hroot, hne, ?_⟩
  have h := C5_plane_intersection (IPlane.mk (⟨0, 0, -5⟩ : Vec3 ℚ) ⟨0, 0, 1⟩)
    ⟨0, ⟨0, 0, -1⟩⟩ HitRecord.new (by rw [hroot]; exact hne)
  have hcond : ¬ (dot (⟨0, 0, -1⟩ : Vec3 ℚ) ⟨0, 0, 1⟩ = 0 ∨
      dot ((⟨0, 0, -5⟩ : Vec3 ℚ) - 0) ⟨0, 0, 1⟩ / dot (⟨0, 0, -1⟩ : Vec3 ℚ) ⟨0, 0, 1⟩ < 0) := by
    rw [hroot]; norm_num [dot]
  exact (h.2 hcond).1.trans hroot

/-- C2: `VisibleIShape::findIntersection` returns a record whose `t` is the
minimum of `FLT_MAX` and the strictly positive `t` values reported by the
surfaces (so `FLT_MAX` if no surface reports a positive `t` below it); when it
is below `FLT_MAX`, the `t`, intercept point, material and texture are those of
a surface attaining that minimum; the selected `t` is never `≤ 0`.  With A hit
at `t = 5` and B at `t = 2` (in either order) the result carries B's material
and hit point. -/
theorem C2_findIntersection_returns_closest (M : MathOps K) (ray : Ray K)
    (surfaces : List (VisibleIShape K)) (st : Statics K) :
    (0 < (VisibleIShape.findIntersection M ray surfaces st).1.t ∧
      (VisibleIShape.findIntersection M ray surfaces st).1.t ≤ FLT_MAX) ∧
    (∀ s ∈ surfaces, 0 < (s.report M ray).t →
      (VisibleIShape.findIntersection M ray surfaces st).1.t ≤ (s.report M ray).t) ∧
    ((∀ s ∈ surfaces, ¬ (0 < (s.report M ray).t ∧ (s.report M ray).t < FLT_MAX)) →
      (VisibleIShape.findIntersection M ray surfaces st).1.t = FLT_MAX) ∧
    ((VisibleIShape.findIntersection M ray surfaces st).1.t < FLT_MAX →
      ∃ s ∈ surfaces,
        (s.report M ray).t = (VisibleIShape.findIntersection M ray surfaces st).1.t ∧
        0 < (s.report M ray).t ∧
        (VisibleIShape.findIntersection M ray surfaces st).1.interceptPoint
          = (s.report M ray).interceptPoint ∧
        (VisibleIShape.findIntersection M ray surfaces st).1.material = s.material ∧
        (VisibleIShape.findIntersection M ray surfaces st).1.texture = s.texture) ∧
    (∀ A B : VisibleIShape K, (surfaces = [A, B] ∨ surfaces = [B, A]) →
      (A.report M ray).t = 5 → (B.report M ray).t = 2 →
      (VisibleIShape.findIntersection M ray surfaces st).1.t = 2 ∧
      (VisibleIShape.findIntersection M ray surfaces st).1.material = B.material ∧
      (VisibleIShape.findIntersection M ray surfaces st).1.interceptPoint
        = (B.report M ray).interceptPoint) := by
  obtain ⟨ha, hb, hc⟩ := VisibleIShape.findIntersection_foldl M ray surfaces
    ({ (HitRecord.new : HitRecord K) with t := FLT_MAX }, st)
  have hmax : (0 : K) < FLT_MAX := by norm_num [FLT_MAX]
  have hsel : (VisibleIShape.findIntersection M ray surfaces st).1.t < FLT_MAX →
      ∃ s ∈ surfaces,
        (s.report M ray).t = (VisibleIShape.findIntersection M ray surfaces st).1.t ∧
        0 < (s.report M ray).t ∧
        (VisibleIShape.findIntersection M ray surfaces st).1.interceptPoint
          = (s.report M ray).interceptPoint ∧
        (VisibleIShape.findIntersection M ray surfaces st).1.material = s.material ∧
        (VisibleIShape.findIntersection M ray surfaces st).1.texture = s.texture := by
    intro hlt
    rcases hc with h | ⟨s, hs, f1, f2, -, f4, -, f6, f7⟩
    · exfalso
      have : (VisibleIShape.findIntersection M ray surfaces st).1.t = FLT_MAX := by
        unfold VisibleIShape.findIntersection; rw [h]
      rw [this] at hlt; exact lt_irrefl _ hlt
    · exact ⟨s, hs, f1, f2, f4, f6, f7⟩
  have hpos : 0 < (VisibleIShape.findIntersection M ray surfaces st).1.t := by
    rcases hc with h | ⟨s, hs, f1, f2, -⟩
    · have : (VisibleIShape.findIntersection M ray surfaces st).1.t = FLT_MAX := by
        unfold VisibleIShape.findIntersection; rw [h]
      rw [this]; exact hmax
    · have e : (VisibleIShape.findIntersection M ray surfaces st).1.t = (s.report M ray).t :=
        f1.symm
      rw [e]; exact f2
  refine ⟨⟨hpos, ha⟩, hb, ?_, hsel, ?_⟩
  · intro hnone
    by_contra hne
    have hlt : (VisibleIShape.findIntersection M ray surfaces st).1.t < FLT_MAX :=
      lt_of_le_of_ne ha hne
    obtain ⟨s, hs, f1, f2, -⟩ := hsel hlt
    exact hnone s hs ⟨f2, by rw [f1]; exact hlt⟩
  · intro A B hAB hA hB
    have hBmem : B ∈ surfaces := by rcases hAB with h | h <;> rw [h] <;> simp
    have hle : (VisibleIShape.findIntersection M ray surfaces st).1.t ≤ 2 := by
      have := hb B hBmem (by rw [hB]; norm_num)
      rwa [hB] at this
    have hlt : (VisibleIShape.findIntersection M ray surfaces st).1.t < FLT_MAX :=
      lt_of_le_of_lt hle (by norm_num [FLT_MAX])
    obtain ⟨s, hs, f1, f2, f4, f6, -⟩ := hsel hlt
    have hsB : s = B := by
      have hs2 : s = A ∨ s = B := by
        rcases hAB with h | h <;> rw [h] at hs <;> simp at hs <;> tauto
      rcases hs2 with h | h
      · exfalso
        rw [h, hA] at f1
        rw [← f1] at hle
        norm_num at hle
      · exact h
    rw [hsB] at f1 f4 f6
    exact ⟨by rw [← f1, hB], f6, f4⟩

/-- C2, run: the plane `z = -5` (hit at `t = 5`) listed before the plane
`z = -2` (hit at `t = 2`): the result has `t = 2` and the material of the
second plane. -/
theorem C2_findIntersection_witness :
    (exampleOpaque.report ratOps exampleRay).t = 5 ∧
    (exampleTransparent.report ratOps exampleRay).t = 2 ∧
    (VisibleIShape.findIntersection ratOps exampleRay [exampleOpaque, exampleTransparent]
      Statics.init).1.t = 2 ∧
    (VisibleIShape.findIntersection ratOps exampleRay [exampleOpaque, exampleTransparent]
      Statics.init).1.material = exampleTransparent.material :=
  ⟨example_report_far, example_report_near,
   ((C2_findIntersection_returns_closest ratOps exampleRay [exampleOpaque, exampleTransparent]
      Statics.init).2.2.2.2 exampleOpaque exampleTransparent (Or.inl rfl)
      example_report_far example_report_near).1,
   ((C2_findIntersection_returns_closest ratOps exampleRay [exampleOpaque, exampleTransparent]
      Statics.init).2.2.2.2 exampleOpaque exampleTransparent (Or.inl rfl)
      example_report_far example_report_near).2.1⟩

/-- C6 (the code differs): for a ray that hits no opaque shape
`traceIndividualRay` returns black (0, 0, 0), at recursion levels 0 and 3 alike,
although the configured `defaultColor` of the ray tracer is gray. -/
theorem C6_miss_returns_black_not_defaultColor :
    ¬ (RayTracer.opaqueHit ratOps exampleMissRay exampleScene Statics.init).t < FLT_MAX ∧
    exampleTracer.defaultColor = ⟨1 / 2, 1 / 2, 1 / 2⟩ ∧
    (exampleTracer.traceIndividualRay ratOps 1 exampleMissRay exampleScene 0 Statics.init).map
      TraceResult.color = some ⟨0, 0, 0⟩ ∧
    (exampleTracer.traceIndividualRay ratOps 4 exampleMissRay exampleScene 3 Statics.init).map
      TraceResult.color = some ⟨0, 0, 0⟩ := by
  have hmiss : ¬ (RayTracer.opaqueHit ratOps exampleMissRay exampleScene Statics.init).t
      < FLT_MAX := by
    rw [example_miss_opaqueHit_t]; exact lt_irrefl _
  refine ⟨hmiss, rfl, ?_, ?_⟩
  · rw [RayTracer.traceIndividualRay_miss ratOps exampleTracer 0 exampleMissRay exampleScene 0
      Statics.init hmiss]
    rfl
  · rw [RayTracer.traceIndividualRay_miss ratOps exampleTracer 3 exampleMissRay exampleScene 3
      Statics.init hmiss]
    rfl

/-- C7, as stated, fails: in the example scene the transparent hit (`t = 2`) is
nearer than the opaque hit (`t = 5`), and the colour returned is not the opaque
colour (1/2, 1/2, 1/2). -/
theorem C7_counterexample_nearer_transparent_is_blended :
    (RayTracer.transparentHit ratOps exampleRay exampleScene Statics.init).t
      < (RayTracer.opaqueHit ratOps exampleRay exampleScene Statics.init).t ∧
    (RayTracer.shadedColor ratOps exampleTracer exampleRay exampleScene Statics.init).1
      = ⟨1 / 2, 1 / 2, 1 / 2⟩ ∧
    (exampleTracer.traceIndividualRay ratOps 1 exampleRay exampleScene 0 Statics.init).map
      TraceResult.color ≠
      some (RayTracer.shadedColor ratOps exampleTracer exampleRay exampleScene Statics.init).1 := by
  refine ⟨?_, example_shadedColor, ?_⟩
  · rw [example_opaqueHit_t, example_transparentHit_t]; norm_num
  · rw [RayTracer.traceIndividualRay_zero ratOps exampleTracer 0 exampleRay exampleScene
      Statics.init (by rw [example_opaqueHit_t]; norm_num [FLT_MAX])]
    rw [example_localColor, example_shadedColor]
    intro h
    have hx := congrArg Vec3.x (Option.some.inj h)
    norm_num at hx

/-- C7, amended: for a ray that hits an opaque shape, the transparency blend (the
assignment of line 88) is applied exactly when a transparent hit exists
(`t < FLT_MAX`) and its `t` is strictly smaller than the opaque hit's `t`;
otherwise the opaque colour is left unchanged.  At recursion level 0 the result
is that local colour. -/
theorem C7_blend_applied_iff_transparent_nearer (M : MathOps K) (rt : RayTracer K)
    (fuel : Nat) (ray : Ray K) (theScene : IScene K) (st : Statics K)
    (hhit : (RayTracer.opaqueHit M ray theScene st).t < FLT_MAX) :
    (((RayTracer.transparentHit M ray theScene st).t < FLT_MAX ∧
        (RayTracer.transparentHit M ray theScene st).t
          < (RayTracer.opaqueHit M ray theScene st).t) →
      RayTracer.localColor M rt ray theScene st =
        RayTracer.blendAssignment (RayTracer.transparentHit M ray theScene st).material
          (RayTracer.shadedColor M rt ray theScene st).1) ∧
    (¬ ((RayTracer.transparentHit M ray theScene st).t < FLT_MAX ∧
        (RayTracer.transparentHit M ray theScene st).t
          < (RayTracer.opaqueHit M ray theScene st).t) →
      RayTracer.localColor M rt ray theScene st
        = (RayTracer.shadedColor M rt ray theScene st).1) ∧
    (rt.traceIndividualRay M (fuel + 1) ray theScene 0 st).map TraceResult.color
      = some (RayTracer.localColor M rt ray theScene st) := by
  refine ⟨?_, ?_, ?_⟩
  · rintro ⟨h1, h2⟩
    unfold RayTracer.localColor RayTracer.blendTransparent
    rw [if_pos h1, if_pos h2]
  · intro h
    unfold RayTracer.localColor RayTracer.blendTransparent
    by_cases h1 : (RayTracer.transparentHit M ray theScene st).t < FLT_MAX
    · rw [if_pos h1, if_neg (fun h2 => h ⟨h1, h2⟩)]
    · rw [if_neg h1]
  · rw [RayTracer.traceIndividualRay_zero M rt fuel ray theScene st hhit]
    rfl

/-- C7 amended, run: in the example scene the opaque plane is hit and the
result at level 0 is the local colour (6/5, 4/5, 4/5). -/
theorem C7_blend_witness :
    (RayTracer.opaqueHit ratOps exampleRay exampleScene Statics.init).t < FLT_MAX ∧
    (exampleTracer.traceIndividualRay ratOps 1 exampleRay exampleScene 0 Statics.init).map
      TraceResult.color = some ⟨6 / 5, 4 / 5, 4 / 5⟩ := by
  have hhit : (RayTracer.opaqueHit ratOps exampleRay exampleScene Statics.init).t < FLT_MAX := by
    rw [example_opaqueHit_t]; norm_num [FLT_MAX]
  refine ⟨hhit, ?_⟩
  rw [(C7_blend_applied_iff_transparent_nearer ratOps exampleTracer 0 exampleRay exampleScene
    Statics.init hhit).2.2, example_localColor]

/-- C8 (the code differs): the blend statement adds its right-hand side to
`result`, so the colour after blending is `result + (result*(1 - alpha) +
alpha*ambient)`, not `result*(1 - alpha) + alpha*ambient`.  In the example scene
(`result` = (1/2, 1/2, 1/2), `alpha` = 2/5, ambient (1, 0, 0)) the code returns
(6/5, 4/5, 4/5) where the stated formula gives (7/10, 3/10, 3/10). -/
theorem C8_blend_adds_to_result :
    (∀ (material : Material ℚ) (result : color ℚ),
      RayTracer.blendAssignment material result
        = result + (result * (1 - material.alpha) + material.alpha * material.ambient)) ∧
    (RayTracer.shadedColor ratOps exampleTracer exampleRay exampleScene Statics.init).1
      = ⟨1 / 2, 1 / 2, 1 / 2⟩ ∧
    (RayTracer.transparentHit ratOps exampleRay exampleScene Statics.init).material.alpha
      = 2 / 5 ∧
    (RayTracer.transparentHit ratOps exampleRay exampleScene Statics.init).material.ambient
      = ⟨1, 0, 0⟩ ∧
    (exampleTracer.traceIndividualRay ratOps 1 exampleRay exampleScene 0 Statics.init).map
      TraceResult.color = some ⟨6 / 5, 4 / 5, 4 / 5⟩ ∧
    ((⟨1 / 2, 1 / 2, 1 / 2⟩ : color ℚ) * (1 - (2 / 5 : ℚ)) + (2 / 5 : ℚ) * (⟨1, 0, 0⟩ : color ℚ)
      = ⟨7 / 10, 3 / 10, 3 / 10⟩) := by
  refine ⟨fun _ _ => rfl, example_shadedColor, ?_, ?_, ?_, ?_⟩
  · rw [example_transparentHit_material]
  · rw [example_transparentHit_material]; rfl
  · rw [RayTracer.traceIndividualRay_zero ratOps exampleTracer 0 exampleRay exampleScene
      Statics.init (by rw [example_opaqueHit_t]; norm_num [FLT_MAX]), example_localColor]
    rfl
  · ext <;> norm_num

/-- C9: for a ray that hits an opaque shape, `traceIndividualRay` at level 0
returns the local colour, and at every level `k > 0` (given more than `k` units
of fuel) it returns `local + 0.5 * traceIndividualRay(reflectionRay, k-1)`, where
the reflection ray has origin `P + EPSILON*n` and is constructed from the
direction `d - 2*dot(d,n)*n`; the constructor normalises it, which leaves it
unchanged when `d` and `n` are unit vectors and `sqrt 1 = 1`. -/
theorem C9_trace_is_local_plus_half_reflection (M : MathOps K) (rt : RayTracer K)
    (ray : Ray K) (theScene : IScene K) (st : Statics K)
    (hhit : (RayTracer.opaqueHit M ray theScene st).t < FLT_MAX) :
    (∀ fuel : Nat, rt.traceIndividualRay M (fuel + 1) ray theScene 0 st =
      some ⟨RayTracer.localColor M rt ray theScene st, [0],
        (RayTracer.shadedColor M rt ray theScene st).2⟩) ∧
    (∀ k : Nat, 0 < k → ∀ fuel : Nat, k < fuel + 1 →
      ∃ r, rt.traceIndividualRay M fuel (RayTracer.reflectionRay M ray theScene st) theScene
            ((k : Int) - 1) (RayTracer.shadedColor M rt ray theScene st).2 = some r ∧
        rt.traceIndividualRay M (fuel + 1) ray theScene (k : Int) st =
          some ⟨RayTracer.localColor M rt ray theScene st + r.color * (1 / 2 : K),
            (k : Int) :: r.calls, r.statics⟩) ∧
    (RayTracer.reflectionRay M ray theScene st).origin =
      (RayTracer.opaqueHit M ray theScene st).interceptPoint
        + (EPSILON : K) * (RayTracer.opaqueHit M ray theScene st).surfaceNormal ∧
    (RayTracer.reflectionRay M ray theScene st).direction =
      normalize M (ray.direction
        - (2 * dot ray.direction (RayTracer.opaqueHit M ray theScene st).surfaceNormal)
          * (RayTracer.opaqueHit M ray theScene st).surfaceNormal) ∧
    (dot ray.direction ray.direction = 1 →
      dot (RayTracer.opaqueHit M ray theScene st).surfaceNormal
        (RayTracer.opaqueHit M ray theScene st).surfaceNormal = 1 →
      M.sqrt 1 = 1 →
      (RayTracer.reflectionRay M ray theScene st).direction =
        ray.direction
          - (2 * dot ray.direction (RayTracer.opaqueHit M ray theScene st).surfaceNormal)
            * (RayTracer.opaqueHit M ray theScene st).surfaceNormal) := by
  refine ⟨fun fuel => RayTracer.traceIndividualRay_zero M rt fuel ray theScene st hhit,
    ?_, rfl, rfl, ?_⟩
  · intro k hk fuel hfuel
    obtain ⟨k2, rfl⟩ : ∃ k2, k = k2 + 1 := ⟨k - 1, by omega⟩
    have hsub : ((k2 + 1 : Nat) : Int) - 1 = (k2 : Int) := by omega
    have hne : ((k2 + 1 : Nat) : Int) ≠ 0 := by omega
    obtain ⟨r, hr, -⟩ := RayTracer.traceIndividualRay_terminates M rt theScene fuel k2
      (RayTracer.reflectionRay M ray theScene st)
      (RayTracer.shadedColor M rt ray theScene st).2 (by omega)
    refine ⟨r, by rw [hsub]; exact hr, ?_⟩
    rw [RayTracer.traceIndividualRay_succ M rt fuel ray theScene _ st hhit hne, hsub, hr]
    rfl
  · intro hd hn hs
    unfold RayTracer.reflectionRay Ray.new
    simp only
    have hlen : dot (ray.direction
        - (2 * dot ray.direction (RayTracer.opaqueHit M ray theScene st).surfaceNormal)
          * (RayTracer.opaqueHit M ray theScene st).surfaceNormal)
        (ray.direction
        - (2 * dot ray.direction (RayTracer.opaqueHit M ray theScene st).surfaceNormal)
          * (RayTracer.opaqueHit M ray theScene st).surfaceNormal) = 1 := by
      simp only [dot, Vec3.sub_x, Vec3.sub_y, Vec3.sub_z, Vec3.smul_x, Vec3.smul_y,
        Vec3.smul_z] at hd hn ⊢
      linear_combination hd + (4 * (ray.direction.x *
        (RayTracer.opaqueHit M ray theScene st).surfaceNormal.x + ray.direction.y *
        (RayTracer.opaqueHit M ray theScene st).surfaceNormal.y + ray.direction.z *
        (RayTracer.opaqueHit M ray theScene st).surfaceNormal.z) ^ 2) * hn
    unfold normalize
    rw [hlen, hs]
    ext <;> simp

/-- C9, run: the example scene at recursion level 1 with two units of fuel. -/
theorem C9_trace_witness :
    (RayTracer.opaqueHit ratOps exampleRay exampleScene Statics.init).t < FLT_MAX ∧
    ∃ r, exampleTracer.traceIndividualRay ratOps 1
          (RayTracer.reflectionRay ratOps exampleRay exampleScene Statics.init) exampleScene
          (((1 : Nat) : Int) - 1)
          (RayTracer.shadedColor ratOps exampleTracer exampleRay exampleScene Statics.init).2
            = some r ∧
        exampleTracer.traceIndividualRay ratOps (1 + 1) exampleRay exampleScene ((1 : Nat) : Int)
            Statics.init =
          some ⟨RayTracer.localColor ratOps exampleTracer exampleRay exampleScene Statics.init
              + r.color * (1 / 2 : ℚ), ((1 : Nat) : Int) :: r.calls, r.statics⟩ := by
  have hhit : (RayTracer.opaqueHit ratOps exampleRay exampleScene Statics.init).t < FLT_MAX := by
    rw [example_opaqueHit_t]; norm_num [FLT_MAX]
  exact ⟨hhit, (C9_trace_is_local_plus_half_reflection ratOps exampleTracer exampleRay
    exampleScene Statics.init hhit).2.1 1 (by decide) 1 (by decide)⟩

/-- C10: for every scene, ray and recursion level `k ≥ 0`, `traceIndividualRay`
terminates (any amount of fuel above `k` gives the same result); the
invocations it causes have the levels `k, k-1, ...` in this order, each level
at most once and none below 0, so there are at most `k + 1` of them, and an
invocation with level 0 causes no further one. -/
theorem C10_trace_terminates (M : MathOps K) (rt : RayTracer K) (theScene : IScene K)
    (ray : Ray K) (st : Statics K) (k : Nat) (fuel : Nat) (hfuel : k < fuel) :
    ∃ r, rt.traceIndividualRay M fuel ray theScene (k : Int) st = some r ∧
      (∀ fuel2, k < fuel2 → rt.traceIndividualRay M fuel2 ray theScene (k : Int) st = some r) ∧
      r.calls.length ≤ k + 1 ∧
      (∃ n, 1 ≤ n ∧ n ≤ k + 1 ∧
        r.calls = (List.range n).map (fun (i : Nat) => (k : Int) - (i : Int))) ∧
      (k = 0 → r.calls = [0]) := by
  obtain ⟨r, hr, n, hn1, hn2, hcalls⟩ :=
    RayTracer.traceIndividualRay_terminates M rt theScene fuel k ray st hfuel
  refine ⟨r, hr, ?_, ?_, ⟨n, hn1, hn2, hcalls⟩, ?_⟩
  · intro fuel2 h2
    rw [RayTracer.traceIndividualRay_fuel M rt theScene fuel2 fuel k ray st h2 hfuel, hr]
  · rw [hcalls, List.length_map, List.length_range]; exact hn2
  · intro hk
    subst hk
    have hn : n = 1 := by omega
    subst hn
    rw [hcalls]
    simp [List.range_succ]

/-- C10, run: the example scene at recursion level 1 with two units of fuel:
at most two invocations. -/
theorem C10_trace_witness :
    (1 : Nat) < 2 ∧
    ∃ r, exampleTracer.traceIndividualRay ratOps 2 exampleRay exampleScene ((1 : Nat) : Int)
        Statics.init = some r ∧ r.calls.length ≤ 1 + 1 := by
  refine ⟨by decide, ?_⟩
  obtain ⟨r, hr, -, hlen, -⟩ := C10_trace_terminates ratOps exampleTracer exampleScene
    exampleRay Statics.init 1 2 (by decide)
  exact ⟨r, hr, hlen⟩

theorem clamp_mem_unit (x : K) : 0 ≤ clamp x 0 1 ∧ clamp x 0 1 ≤ 1 := by
  unfold clamp
  exact ⟨le_min (le_max_right _ _) zero_le_one, min_le_right _ _⟩

theorem clampV_inUnit (v : Vec3 K) : (clampV v 0 1).InUnit :=
  ⟨clamp_mem_unit _, clamp_mem_unit _, clamp_mem_unit _⟩

theorem clamp_of_nonpos {x : K} (h : x ≤ 0) : clamp x 0 1 = 0 := by
  unfold clamp
  rw [max_eq_right h, min_eq_left zero_le_one]

theorem black_inUnit : (black : color K).InUnit := by
  simp [Vec3.InUnit, black]

theorem totalColor_inUnit (M : MathOps K) (mat : Material K) (lightColor : LightColor K)
    (v n lightPos p : Vec3 K) (att : Bool) (AT : LightAttenuationParameters K) :
    (totalColor M mat lightColor v n lightPos p att AT).InUnit := by
  unfold totalColor
  cases att <;> exact clampV_inUnit _

theorem PositionalLight.illuminate_inUnit (M : MathOps K) (l : PositionalLight K)
    (p n : Vec3 K) (mat : Material K) (frame : Frame K) (inShadow : Bool) :
    (l.illuminate M p n mat frame inShadow).InUnit := by
  unfold PositionalLight.illuminate
  split_ifs
  · exact black_inUnit
  · exact clampV_inUnit _
  · exact totalColor_inUnit _ _ _ _ _ _ _ _ _

/-- C12: for a positional light that is on, `illuminate` with `inShadow = true`
returns exactly `ambientColor(material.ambient, light.ambient)`; the normal, the
eye frame, the point, the light position and the attenuation settings do not
matter. -/
theorem C12_positional_in_shadow_is_ambient (M : MathOps K) (l : PositionalLight K)
    (p n : Vec3 K) (mat : Material K) (frame : Frame K) (hon : l.isOn = true) :
    l.illuminate M p n mat frame true
      = ambientColor mat.ambient l.lightColorComponents.ambient ∧
    ∀ (l2 : PositionalLight K) (p2 n2 : Vec3 K) (frame2 : Frame K),
      l2.isOn = true → l2.lightColorComponents.ambient = l.lightColorComponents.ambient →
      l2.illuminate M p2 n2 mat frame2 true = l.illuminate M p n mat frame true := by
  have h : ∀ (l2 : PositionalLight K) (p2 n2 : Vec3 K) (frame2 : Frame K), l2.isOn = true →
      l2.illuminate M p2 n2 mat frame2 true
        = ambientColor mat.ambient l2.lightColorComponents.ambient := by
    intro l2 p2 n2 frame2 h2
    simp [PositionalLight.illuminate, h2]
  refine ⟨h l p n frame hon, fun l2 p2 n2 frame2 h2 hamb => ?_⟩
  rw [h l2 p2 n2 frame2 h2, h l p n frame hon, hamb]

/-- C12, run: the values of ExerciseLightingEquationsGLM.cpp,
"Positional light (shadow): [ 0.12 0.1 0.06 ]". -/
theorem C12_positional_witness :
    exerciseLight.isOn = true ∧
    exerciseLight.illuminate ratOps ⟨5, 2, -3⟩ ⟨1, -1, 1⟩ exerciseMaterial exerciseFrame true
      = ⟨3 / 25, 1 / 10, 3 / 50⟩ := by
  refine ⟨rfl, ?_⟩
  rw [(C12_positional_in_shadow_is_ambient ratOps exerciseLight ⟨5, 2, -3⟩ ⟨1, -1, 1⟩
    exerciseMaterial exerciseFrame rfl).1]
  norm_num [ambientColor, clampV, clamp, exerciseMaterial, exerciseLight, PositionalLight.new]

/-- C13: with attenuation off `totalColor` is, per channel,
`clamp(ambient + diffuse + specular, 0, 1)` with `l = normalize(lightPos - point)`
and `r = normalize(2*dot(l,n)*n - l)`; every channel of a per-light colour
(`totalColor`, `PositionalLight::illuminate`) lies in [0, 1]; and for a light that
is on with attenuation off, `illuminate` with `inShadow = false` returns this
value with `v = normalize(eye origin - point)`. -/
theorem C13_totalColor_is_clamped_sum (M : MathOps K) (mat : Material K)
    (lightColor : LightColor K) (v n lightPos p : Vec3 K)
    (AT : LightAttenuationParameters K) :
    totalColor M mat lightColor v n lightPos p false AT =
      clampV (ambientColor mat.ambient lightColor.ambient
        + diffuseColor mat.diffuse lightColor.diffuse (normalize M (lightPos - p)) n
        + specularColor M mat.specular lightColor.specular mat.shininess
            (normalize M ((2 * dot (normalize M (lightPos - p)) n) * n
              - normalize M (lightPos - p))) v) 0 1 ∧
    (∀ att : Bool, (totalColor M mat lightColor v n lightPos p att AT).InUnit) ∧
    (∀ (l : PositionalLight K) (frame : Frame K) (inShadow : Bool),
      (l.illuminate M p n mat frame inShadow).InUnit) ∧
    (∀ (l : PositionalLight K) (frame : Frame K),
      l.isOn = true → l.attenuationIsTurnedOn = false →
      l.illuminate M p n mat frame false =
        clampV (ambientColor mat.ambient l.lightColorComponents.ambient
          + diffuseColor mat.diffuse l.lightColorComponents.diffuse
              (normalize M (l.lightPosition - p)) n
          + specularColor M mat.specular l.lightColorComponents.specular mat.shininess
              (normalize M ((2 * dot (normalize M (l.lightPosition - p)) n) * n
                - normalize M (l.lightPosition - p)))
              (normalize M (frame.origin - p))) 0 1) := by
  refine ⟨rfl, fun att => totalColor_inUnit _ _ _ _ _ _ _ _ _,
    fun l frame inShadow => PositionalLight.illuminate_inUnit _ _ _ _ _ _ _, ?_⟩
  intro l frame hon hatt
  simp [PositionalLight.illuminate, hon, totalColor, hatt]

/-- C14: for material and light diffuse channels in [0, 1], every channel of
`diffuseColor(mat, light, l, n)` equals `clamp(mat*light*max(0, dot(l,n)), 0, 1)`;
in particular it is 0 whenever `dot(l,n) ≤ 0`. -/
theorem C14_diffuse_equals_clamped_max (mat light : color K) (l n : Vec3 K)
    (hmat : mat.InUnit) (hlight : light.InUnit) :
    diffuseColor mat light l n = clampV (mat * light * max 0 (dot l n)) 0 1 ∧
    (dot l n ≤ 0 → diffuseColor mat light l n = ⟨0, 0, 0⟩) := by
  obtain ⟨⟨mx, -⟩, ⟨my, -⟩, ⟨mz, -⟩⟩ := hmat
  obtain ⟨⟨lx, -⟩, ⟨ly, -⟩, ⟨lz, -⟩⟩ := hlight
  have hzero : dot l n ≤ 0 → diffuseColor mat light l n = ⟨0, 0, 0⟩ := by
    intro hd
    unfold diffuseColor clampV
    ext
    · exact clamp_of_nonpos (mul_nonpos_of_nonneg_of_nonpos (mul_nonneg mx lx) hd)
    · exact clamp_of_nonpos (mul_nonpos_of_nonneg_of_nonpos (mul_nonneg my ly) hd)
    · exact clamp_of_nonpos (mul_nonpos_of_nonneg_of_nonpos (mul_nonneg mz lz) hd)
  refine ⟨?_, hzero⟩
  rcases le_total (dot l n) 0 with hd | hd
  · rw [hzero hd, max_eq_left hd]
    unfold clampV
    ext <;> simp [clamp]
  · rw [max_eq_right hd]
    rfl

/-- C14, run: diffuse material (9/10, 1, 9/10), white light, `dot(l, n) = -1`. -/
theorem C14_diffuse_witness :
    (⟨9 / 10, 1, 9 / 10⟩ : color ℚ).InUnit ∧ (⟨1, 1, 1⟩ : color ℚ).InUnit ∧
    dot (⟨0, 0, -1⟩ : Vec3 ℚ) ⟨0, 0, 1⟩ ≤ 0 ∧
    diffuseColor (⟨9 / 10, 1, 9 / 10⟩ : color ℚ) ⟨1, 1, 1⟩ ⟨0, 0, -1⟩ ⟨0, 0, 1⟩ = ⟨0, 0, 0⟩ := by
  have h1 : (⟨9 / 10, 1, 9 / 10⟩ : color ℚ).InUnit := by norm_num [Vec3.InUnit]
  have h2 : (⟨1, 1, 1⟩ : color ℚ).InUnit := by norm_num [Vec3.InUnit]
  have h3 : dot (⟨0, 0, -1⟩ : Vec3 ℚ) ⟨0, 0, 1⟩ ≤ 0 := by norm_num [dot]
  exact ⟨h1, h2, h3, (C14_diffuse_equals_clamped_max _ _ _ _ h1 h2).2 h3⟩

/-- C15, as stated, fails: `diffuseColor` never returns a negative channel,
whatever the sign of `dot(l, n)`. -/
theorem C15_counterexample_diffuse_never_negative :
    ¬ ∃ (mat light : color ℚ) (l n : Vec3 ℚ),
      dot l n < 0 ∧ 0 < mat.x ∧ 0 < mat.y ∧ 0 < mat.z ∧ 0 < light.x ∧ 0 < light.y ∧ 0 < light.z ∧
      ((diffuseColor mat light l n).x < 0 ∨ (diffuseColor mat light l n).y < 0 ∨
        (diffuseColor mat light l n).z < 0) := by
  rintro ⟨mat, light, l, n, -, -, -, -, -, -, -, h⟩
  have hu : (diffuseColor mat light l n).InUnit := clampV_inUnit _
  obtain ⟨⟨hx, -⟩, ⟨hy, -⟩, ⟨hz, -⟩⟩ := hu
  rcases h with h | h | h
  · exact absurd hx (not_le.mpr h)
  · exact absurd hy (not_le.mpr h)
  · exact absurd hz (not_le.mpr h)

/-- C15, amended: the diffuse term clamps the product `mat*light*dot(l,n)` to
[0, 1]: every channel of `diffuseColor` lies in [0, 1] for all inputs, and for
`dot(l,n) < 0` with positive material and light diffuse channels it is 0 in
every channel, so that the per-light sum is `clamp(ambient + specular)`. -/
theorem C15_diffuse_is_clamped (M : MathOps K) (mat light : color K) (l n : Vec3 K) :
    (diffuseColor mat light l n).InUnit ∧
    (dot l n < 0 → 0 < mat.x → 0 < mat.y → 0 < mat.z →
      0 < light.x → 0 < light.y → 0 < light.z →
      diffuseColor mat light l n = ⟨0, 0, 0⟩ ∧
      ∀ (m : Material K) (lc : LightColor K) (v lightPos p : Vec3 K)
        (AT : LightAttenuationParameters K),
        m.diffuse = mat → lc.diffuse = light → normalize M (lightPos - p) = l →
        totalColor M m lc v n lightPos p false AT =
          clampV (ambientColor m.ambient lc.ambient
            + specularColor M m.specular lc.specular m.shininess
                (normalize M ((2 * dot l n) * n - l)) v) 0 1) := by
  refine ⟨clampV_inUnit _, ?_⟩
  intro hd mx my mz lx ly lz
  have hzero : diffuseColor mat light l n = ⟨0, 0, 0⟩ := by
    unfold diffuseColor clampV
    ext
    · exact clamp_of_nonpos (mul_nonpos_of_nonneg_of_nonpos (mul_nonneg mx.le lx.le) hd.le)
    · exact clamp_of_nonpos (mul_nonpos_of_nonneg_of_nonpos (mul_nonneg my.le ly.le) hd.le)
    · exact clamp_of_nonpos (mul_nonpos_of_nonneg_of_nonpos (mul_nonneg mz.le lz.le) hd.le)
  refine ⟨hzero, ?_⟩
  intro m lc v lightPos p AT hm hlc hl
  unfold totalColor
  simp only [hm, hlc, hl, hzero, Bool.false_eq_true, if_false]
  congr 1
  ext <;> simp

/-- C16: with attenuation on, `totalColor` is
`clamp(ambient + f*diffuse + f*specular, 0, 1)` with
`f = 1/(constant + linear*d + quadratic*d^2)` and `d = distance(lightPos, point)`;
the ambient term is not attenuated.  With the default parameters (1, 0, 0) the
result equals the un-attenuated `totalColor`. -/
theorem C16_attenuated_totalColor (M : MathOps K) (mat : Material K)
    (lightColor : LightColor K) (v n lightPos p : Vec3 K)
    (AT : LightAttenuationParameters K) :
    totalColor M mat lightColor v n lightPos p true AT =
      clampV (ambientColor mat.ambient lightColor.ambient
        + (1 / (AT.constant + AT.linear * distance M lightPos p
              + AT.quadratic * distance M lightPos p ^ 2))
          * diffuseColor mat.diffuse lightColor.diffuse (normalize M (lightPos - p)) n
        + (1 / (AT.constant + AT.linear * distance M lightPos p
              + AT.quadratic * distance M lightPos p ^ 2))
          * specularColor M mat.specular lightColor.specular mat.shininess
            (normalize M ((2 * dot (normalize M (lightPos - p)) n) * n
              - normalize M (lightPos - p))) v) 0 1 ∧
    totalColor M mat lightColor v n lightPos p true noEffectAttenuationParams
      = totalColor M mat lightColor v n lightPos p false AT := by
  constructor
  · unfold totalColor LightAttenuationParameters.factor
    simp only [if_true]
    congr 1
    ext <;> simp only [Vec3.add_x, Vec3.add_y, Vec3.add_z, Vec3.muls_x, Vec3.muls_y,
      Vec3.muls_z, Vec3.smul_x, Vec3.smul_y, Vec3.smul_z] <;> ring
  · unfold totalColor LightAttenuationParameters.factor noEffectAttenuationParams
    simp only [if_true, Bool.false_eq_true, if_false]
    congr 1
    ext <;> simp

/-- C17: for a spot light that is on, `illuminate` returns black when the angle
`acos(cosBetween(point - lightPosition, spotDirection))` is greater than `fov/2`,
and otherwise (angle `≤ fov/2`) returns exactly what the positional light with
the same members returns for the same arguments. -/
theorem C17_spot_cone (M : MathOps K) (l : SpotLight K) (p n : Vec3 K) (mat : Material K)
    (frame : Frame K) (inShadow : Bool) (hon : l.isOn = true) :
    (M.acos (cosBetween M (p - l.lightPosition) l.spotDirection) > l.fov / 2 →
      l.illuminate M p n mat frame inShadow = ⟨0, 0, 0⟩) ∧
    (M.acos (cosBetween M (p - l.lightPosition) l.spotDirection) ≤ l.fov / 2 →
      l.illuminate M p n mat frame inShadow
        = l.toPositionalLight.illuminate M p n mat frame inShadow) := by
  constructor
  · intro h
    simp [SpotLight.illuminate, hon, not_le.mpr h, black]
  · intro h
    cases inShadow <;> simp [SpotLight.illuminate, PositionalLight.illuminate, hon, h]

/-- The `t` of the loop of `VisibleIShape::findIntersection` depends on the
starting record only through its `t`, and not on the static buffers. -/
theorem VisibleIShape.findIntersection_foldl_t (M : MathOps K) (ray : Ray K) :
    ∀ (surfaces : List (VisibleIShape K)) (acc acc2 : HitRecord K × Statics K),
      acc.1.t = acc2.1.t →
      (surfaces.foldl (VisibleIShape.findIntersectionStep M ray) acc).1.t
        = (surfaces.foldl (VisibleIShape.findIntersectionStep M ray) acc2).1.t := by
  intro surfaces
  induction surfaces with
  | nil => intro acc acc2 h; exact h
  | cons s rest ih =>
    intro acc acc2 h
    simp only [List.foldl_cons]
    apply ih
    obtain ⟨hsel, hnot⟩ := VisibleIShape.findIntersectionStep_spec M ray acc s
    obtain ⟨hsel2, hnot2⟩ := VisibleIShape.findIntersectionStep_spec M ray acc2 s
    by_cases hc : (s.report M ray).t < acc.1.t ∧ 0 < (s.report M ray).t
    · have hc2 : (s.report M ray).t < acc2.1.t ∧ 0 < (s.report M ray).t := by
        rw [← h]; exact hc
      rw [(hsel hc).1, (hsel2 hc2).1]
    · have hc2 : ¬ ((s.report M ray).t < acc2.1.t ∧ 0 < (s.report M ray).t) := by
        rw [← h]; exact hc
      rw [hnot hc, hnot2 hc2, h]

/-- The `t` returned by `VisibleIShape::findIntersection` does not depend on the
static buffers. -/
theorem VisibleIShape.findIntersection_t_statics (M : MathOps K) (ray : Ray K)
    (surfaces : List (VisibleIShape K)) (st st2 : Statics K) :
    (VisibleIShape.findIntersection M ray surfaces st).1.t
      = (VisibleIShape.findIntersection M ray surfaces st2).1.t :=
  VisibleIShape.findIntersection_foldl_t M ray surfaces _ _ rfl

/-- One loop iteration of `getLightColor` adds the contribution of the light. -/
theorem RayTracer.getLightColorStep_fst (M : MathOps K) (theScene : IScene K)
    (theHit : HitRecord K) (acc : color K × Statics K) (light : Light K) :
    (RayTracer.getLightColorStep M theScene theHit acc light).1
      = acc.1 + RayTracer.contribution M theScene theHit light := by
  unfold RayTracer.getLightColorStep RayTracer.contribution RayTracer.inShadow
    RayTracer.shadowRay
  simp only
  rw [VisibleIShape.findIntersection_t_statics M _ theScene.visibleObjects acc.2 Statics.init]
  split_ifs with h
  · simp [h]
  · simp [h]

/-- The loop of `getLightColor` adds the contributions of the lights in order. -/
theorem RayTracer.getLightColor_foldl (M : MathOps K) (theScene : IScene K)
    (theHit : HitRecord K) :
    ∀ (lights : List (Light K)) (acc : color K × Statics K),
      (lights.foldl (RayTracer.getLightColorStep M theScene theHit) acc).1
        = lights.foldl (fun c l => c + RayTracer.contribution M theScene theHit l) acc.1 := by
  intro lights
  induction lights with
  | nil => intro acc; rfl
  | cons l rest ih =>
    intro acc
    simp only [List.foldl_cons]
    rw [ih, RayTracer.getLightColorStep_fst]

/-- C17, run: the point at the origin is behind the spot light `exampleSpot`
(angle `acos(-1)`, more than `fov/2 = 1/2`): black. -/
theorem C17_spot_witness :
    exampleSpot.isOn = true ∧
    ratOpsPi.acos (cosBetween ratOpsPi ((⟨0, 0, 0⟩ : Vec3 ℚ) - exampleSpot.lightPosition)
      exampleSpot.spotDirection) > exampleSpot.fov / 2 ∧
    exampleSpot.illuminate ratOpsPi ⟨0, 0, 0⟩ ⟨0, 0, 1⟩ exampleWhite exampleCamera.cameraFrame
      true = ⟨0, 0, 0⟩ := by
  have hangle : ratOpsPi.acos (cosBetween ratOpsPi
      ((⟨0, 0, 0⟩ : Vec3 ℚ) - exampleSpot.lightPosition) exampleSpot.spotDirection)
      > exampleSpot.fov / 2 := by
    have h16 : ratSqrt 16 = 4 := by norm_num [ratSqrt, isqrtAux]
    norm_num [ratOpsPi, ratOps, cosBetween, length, dot, exampleSpot, PositionalLight.new,
      h16, ratSqrt_one]
  exact ⟨rfl, hangle,
    (C17_spot_cone ratOpsPi exampleSpot ⟨0, 0, 0⟩ ⟨0, 0, 1⟩ exampleWhite
      exampleCamera.cameraFrame true rfl).1 hangle⟩

theorem ratSqrt_sixteen : ratSqrt 16 = 4 := by norm_num [ratSqrt, isqrtAux]

theorem example_shadow_inShadow :
    RayTracer.inShadow ratOpsPi exampleShadowScene exampleFloorHit (Light.spot exampleSpot)
      = true := by
  norm_num [RayTracer.inShadow, RayTracer.shadowRay, Ray.new, normalize, distance, length, dot,
    exampleShadowScene, exampleFloorHit, exampleSpot, PositionalLight.new, Light.lightPosition,
    VisibleIShape.findIntersection, VisibleIShape.findIntersectionStep,
    VisibleIShape.findClosestIntersection, VisibleIShape.new, IShape.findClosestIntersection,
    IPlane.findClosestIntersection, IPlane.new, HitRecord.new, FLT_MAX, EPSILON, ratOpsPi,
    ratOps, ratSqrt_one, ratSqrt_sixteen, Ray.getPoint]

/-- C11, as stated, fails: the spot light `exampleSpot` is on and the point at
the origin is in its shadow (the plane `z = 2` lies between them), but the
point is outside the cone of the light, so the light contributes black and not
`ambientColor(material.ambient, light.ambient)` = (1, 1, 1). -/
theorem C11_counterexample_occluded_spot_is_black :
    exampleSpot.isOn = true ∧
    RayTracer.inShadow ratOpsPi exampleShadowScene exampleFloorHit (Light.spot exampleSpot)
      = true ∧
    ambientColor exampleFloorHit.material.ambient exampleSpot.lightColorComponents.ambient
      = ⟨1, 1, 1⟩ ∧
    RayTracer.contribution ratOpsPi exampleShadowScene exampleFloorHit (Light.spot exampleSpot)
      = ⟨0, 0, 0⟩ ∧
    (exampleTracer.getLightColor ratOpsPi exampleRay exampleShadowScene exampleFloorHit
      ⟨0, 0, 0⟩ Statics.init).1 = ⟨0, 0, 0⟩ := by
  have hcontrib : RayTracer.contribution ratOpsPi exampleShadowScene exampleFloorHit
      (Light.spot exampleSpot) = ⟨0, 0, 0⟩ := by
    unfold RayTracer.contribution
    rw [example_shadow_inShadow]
    norm_num [Light.illuminate, SpotLight.illuminate, ratOpsPi, ratOps, cosBetween, length, dot,
      exampleSpot, exampleFloorHit, PositionalLight.new, ratSqrt_sixteen, ratSqrt_one, black]
  refine ⟨rfl, example_shadow_inShadow, ?_, hcontrib, ?_⟩
  · norm_num [ambientColor, clampV, clamp, exampleFloorHit, exampleWhite, exampleSpot,
      PositionalLight.new]
  · unfold RayTracer.getLightColor
    rw [RayTracer.getLightColor_foldl]
    simp only [exampleShadowScene, List.foldl_cons, List.foldl_nil]
    have h := hcontrib
    simp only [exampleShadowScene] at h
    rw [h]
    ext <;> simp

/-- C11, amended: `getLightColor` returns `result` plus the unclamped sum of the
contributions `illuminate(hitPoint, normal, material, cameraFrame, inShadow)` of
the scene lights, where `inShadow` holds iff the closest positive-`t` opaque hit
of the shadow ray has `t` strictly below the distance from the hit point to the
light.  A positional light that is on and for which `inShadow` holds contributes
exactly `ambientColor(material.ambient, light.ambient)`; so does a spot light
whose cone contains the point, while a spot light whose cone test fails
contributes black. -/
theorem C11_getLightColor_sums_contributions (M : MathOps K) (rt : RayTracer K) (ray : Ray K)
    (theScene : IScene K) (theHit : HitRecord K) (result : color K) (st : Statics K) :
    (rt.getLightColor M ray theScene theHit result st).1 =
      theScene.lights.foldl (fun c l => c + RayTracer.contribution M theScene theHit l)
        result ∧
    (∀ light : Light K,
      RayTracer.contribution M theScene theHit light =
        light.illuminate M theHit.interceptPoint theHit.surfaceNormal theHit.material
          theScene.camera.cameraFrame (RayTracer.inShadow M theScene theHit light) ∧
      (RayTracer.inShadow M theScene theHit light = true ↔
        (VisibleIShape.findIntersection M
            (Ray.new M (theHit.interceptPoint + (EPSILON : K) * theHit.surfaceNormal)
              (light.lightPosition - theHit.interceptPoint))
            theScene.visibleObjects st).1.t
          < distance M theHit.interceptPoint light.lightPosition)) ∧
    (∀ l : PositionalLight K, l.isOn = true →
      RayTracer.inShadow M theScene theHit (Light.positional l) = true →
      RayTracer.contribution M theScene theHit (Light.positional l)
        = ambientColor theHit.material.ambient l.lightColorComponents.ambient) ∧
    (∀ l : SpotLight K, l.isOn = true →
      RayTracer.inShadow M theScene theHit (Light.spot l) = true →
      (M.acos (cosBetween M (theHit.interceptPoint - l.lightPosition) l.spotDirection)
          ≤ l.fov / 2 →
        RayTracer.contribution M theScene theHit (Light.spot l)
          = ambientColor theHit.material.ambient l.lightColorComponents.ambient) ∧
      (M.acos (cosBetween M (theHit.interceptPoint - l.lightPosition) l.spotDirection)
          > l.fov / 2 →
        RayTracer.contribution M theScene theHit (Light.spot l) = ⟨0, 0, 0⟩)) := by
  refine ⟨?_, ?_, ?_, ?_⟩
  · unfold RayTracer.getLightColor
    rw [RayTracer.getLightColor_foldl]
  · intro light
    refine ⟨rfl, ?_⟩
    unfold RayTracer.inShadow RayTracer.shadowRay
    rw [decide_eq_true_iff,
      VisibleIShape.findIntersection_t_statics M _ theScene.visibleObjects st Statics.init]
  · intro l hon hsh
    unfold RayTracer.contribution
    rw [hsh]
    simp [Light.illuminate, PositionalLight.illuminate, hon]
  · intro l hon hsh
    unfold RayTracer.contribution
    rw [hsh]
    constructor
    · intro h
      simp [Light.illuminate, SpotLight.illuminate, hon, h]
    · intro h
      simp [Light.illuminate, SpotLight.illuminate, hon, not_le.mpr h, black]

theorem quadratic_length_le_two (M : MathOps K) (A B C : K) :
    (quadratic M A B C).length ≤ 2 := by
  unfold quadratic
  split_ifs <;> simp

theorem positiveRoots_length_le_two (M : MathOps K) (abc : K × K × K) :
    (positiveRoots M abc).length ≤ 2 :=
  le_trans (List.length_filter_le _ _) (quadratic_length_le_two M _ _ _)

/-- In a strictly ascending list, `find?` returns the least entry that passes the test. -/
theorem find_sorted_least (q : K → Bool) :
    ∀ (l : List K), l.Pairwise (fun a b => a < b) → ∀ t, l.find? q = some t →
      t ∈ l ∧ q t = true ∧ ∀ x ∈ l, q x = true → t ≤ x := by
  intro l
  induction l with
  | nil => intro _ t h; simp at h
  | cons a l ih =>
    intro hl t h
    rw [List.pairwise_cons] at hl
    by_cases hqa : q a = true
    · rw [List.find?_cons_of_pos _ hqa] at h
      have hta : a = t := Option.some.inj h
      subst hta
      refine ⟨List.mem_cons_self _ _, hqa, fun x hx _ => ?_⟩
      rcases List.mem_cons.mp hx with h1 | h1
      · rw [h1]
      · exact (hl.1 x h1).le
    · rw [List.find?_cons_of_neg _ hqa] at h
      obtain ⟨hm, hq, hmin⟩ := ih hl.2 t h
      refine ⟨List.mem_cons_of_mem _ hm, hq, fun x hx hqx => ?_⟩
      rcases List.mem_cons.mp hx with h1 | h1
      · rw [h1] at hqx; exact absurd hqx hqa
      · exact hmin x h1 hqx

/-- The entries of `quadratic(A, B, C)` are the roots, in strictly ascending order. -/
theorem quadratic_sorted_roots (M : MathOps K) (A B C : K) (hA : A ≠ 0)
    (hsqrt : IsSqrtAt M (B * B - 4 * A * C)) :
    (∀ r, r ∈ quadratic M A B C ↔ A * r ^ 2 + B * r + C = 0) ∧
    (quadratic M A B C).Pairwise (fun a b => a < b) := by
  rcases quadratic_cases M A B C hA hsqrt with
    ⟨-, hq, hr⟩ | ⟨-, r0, hq, hr⟩ | ⟨-, r0, r1, hq, hlt, hr⟩
  · rw [hq]
    exact ⟨fun r => by simpa using hr r, List.Pairwise.nil⟩
  · rw [hq]
    exact ⟨fun r => by rw [hr r]; simp, List.pairwise_singleton _ _⟩
  · rw [hq]
    exact ⟨fun r => by rw [hr r]; simp, List.pairwise_pair.mpr hlt⟩

/-- The first strictly positive entry of `quadratic(Aq, Bq, Cq)` that passes the
test `p` is the smallest strictly positive root that passes it. -/
theorem positiveRoots_find (M : MathOps K) (abc : K × K × K) (hA : abc.1 ≠ 0)
    (hsqrt : IsSqrtAt M (discriminant abc)) (p : K → Bool) :
    (∀ t, (positiveRoots M abc).find? p = some t →
      0 < t ∧ IsRoot abc t ∧ p t = true ∧
        ∀ r, 0 < r → IsRoot abc r → p r = true → t ≤ r) ∧
    ((positiveRoots M abc).find? p = none ↔
      ¬ ∃ r, 0 < r ∧ IsRoot abc r ∧ p r = true) := by
  obtain ⟨hmem, hsorted⟩ := quadratic_sorted_roots M abc.1 abc.2.1 abc.2.2 hA hsqrt
  unfold positiveRoots
  rw [List.find?_filter]
  constructor
  · intro t ht
    obtain ⟨hm, hq, hmin⟩ := find_sorted_least _ _ hsorted t ht
    simp only [Bool.and_eq_true, decide_eq_true_eq] at hq hmin
    exact ⟨hq.1, (hmem t).mp hm, hq.2,
      fun r hr hroot hp => hmin r ((hmem r).mpr hroot) ⟨hr, hp⟩⟩
  · rw [List.find?_eq_none]
    constructor
    · rintro h ⟨r, hr, hroot, hp⟩
      exact h r ((hmem r).mpr hroot) (by simp [hr, hp])
    · intro h x hx hq
      simp only [Bool.and_eq_true, decide_eq_true_eq] at hq
      exact h ⟨x, hq.1, (hmem x).mp hx, hq.2⟩

/-- The `t` reported by `ICylinderY::findClosestIntersection`: the first strictly
positive root whose intercept passes the axial test, else `FLT_MAX`. -/
theorem cylinderY_t_eq (M : MathOps K) (c : ICylinderY K) (ray : Ray K) (hit : HitRecord K)
    (hits : HitBuf K) :
    (c.findClosestIntersection M ray hit hits).1.t =
      match (positiveRoots M (c.toICylinder.computeAqBqCq ray)).find? (c.inBound ray) with
      | some r => r
      | none => FLT_MAX := by
  have hlen := positiveRoots_length_le_two M (c.toICylinder.computeAqBqCq ray)
  unfold ICylinderY.findClosestIntersection
  simp only [IQuadricSurface.findIntersections_eq]
  unfold positiveRoots at hlen ⊢
  generalize (quadratic M (c.toICylinder.computeAqBqCq ray).1
      (c.toICylinder.computeAqBqCq ray).2.1
      (c.toICylinder.computeAqBqCq ray).2.2).filter (fun r => decide (0 < r)) = L at hlen ⊢
  rcases L with _ | ⟨r0, _ | ⟨r1, _ | ⟨r2, l⟩⟩⟩
  · simp
  · cases hb : c.inBound ray r0 <;>
      (have hb2 := hb
       unfold ICylinderY.inBound at hb2
       simp only [find_range_one, HitBuf.get, if_true, HitRecord.withRoot, List.find?_cons,
         List.find?_nil, hb, hb2, Bool.false_eq_true, if_false])
  · cases hb : c.inBound ray r0 <;> cases hc : c.inBound ray r1 <;>
      (have hb2 := hb
       have hc2 := hc
       unfold ICylinderY.inBound at hb2 hc2
       simp only [find_range_two, HitBuf.get, if_true, HitRecord.withRoot, List.find?_cons,
         List.find?_nil, hb, hb2, hc, hc2, Bool.false_eq_true, if_false, one_ne_zero])
  · simp at hlen

/-- The same for `ICylinderX::findClosestIntersection`. -/
theorem cylinderX_t_eq (M : MathOps K) (c : ICylinderX K) (ray : Ray K) (hit : HitRecord K)
    (hits : HitBuf K) :
    (c.findClosestIntersection M ray hit hits).1.t =
      match (positiveRoots M (c.toICylinder.computeAqBqCq ray)).find? (c.inBound ray) with
      | some r => r
      | none => FLT_MAX := by
  have hlen := positiveRoots_length_le_two M (c.toICylinder.computeAqBqCq ray)
  unfold ICylinderX.findClosestIntersection
  simp only [IQuadricSurface.findIntersections_eq]
  unfold positiveRoots at hlen ⊢
  generalize (quadratic M (c.toICylinder.computeAqBqCq ray).1
      (c.toICylinder.computeAqBqCq ray).2.1
      (c.toICylinder.computeAqBqCq ray).2.2).filter (fun r => decide (0 < r)) = L at hlen ⊢
  rcases L with _ | ⟨r0, _ | ⟨r1, _ | ⟨r2, l⟩⟩⟩
  · simp
  · cases hb : c.inBound ray r0 <;>
      (have hb2 := hb
       unfold ICylinderX.inBound at hb2
       simp only [find_range_one, HitBuf.get, if_true, HitRecord.withRoot, List.find?_cons,
         List.find?_nil, hb, hb2, Bool.false_eq_true, if_false])
  · cases hb : c.inBound ray r0 <;> cases hc : c.inBound ray r1 <;>
      (have hb2 := hb
       have hc2 := hc
       unfold ICylinderX.inBound at hb2 hc2
       simp only [find_range_two, HitBuf.get, if_true, HitRecord.withRoot, List.find?_cons,
         List.find?_nil, hb, hb2, hc, hc2, Bool.false_eq_true, if_false, one_ne_zero])
  · simp at hlen

/-- From the first passing positive root to the property `IsClosestRootIn`. -/
theorem isClosestRootIn_of_find (M : MathOps K) (abc : K × K × K) (hA : abc.1 ≠ 0)
    (hsqrt : IsSqrtAt M (discriminant abc)) (hrange : ¬ IsRoot abc FLT_MAX)
    (p : K → Bool) (P : K → Prop) (hP : ∀ r, p r = true ↔ P r) (t : K)
    (ht : t = match (positiveRoots M abc).find? p with
      | some r => r
      | none => FLT_MAX) :
    IsClosestRootIn abc P t := by
  obtain ⟨hsome, hnone⟩ := positiveRoots_find M abc hA hsqrt p
  cases hf : (positiveRoots M abc).find? p with
  | none =>
    rw [hf] at ht
    have hn := hnone.mp hf
    have hn2 : ¬ ∃ r, 0 < r ∧ IsRoot abc r ∧ P r := by
      rintro ⟨r, hr, hroot, hp⟩
      exact hn ⟨r, hr, hroot, (hP r).mpr hp⟩
    exact ⟨fun r hr hroot hp => absurd ⟨r, hr, hroot, hp⟩ hn2, fun _ => hn2, fun _ => ht⟩
  | some t2 =>
    rw [hf] at ht
    subst ht
    obtain ⟨hpos, hroot, hp, hmin⟩ := hsome t hf
    refine ⟨fun r hr hrr hpr => ⟨hpos, hroot, (hP t).mp hp, hmin r hr hrr ((hP r).mpr hpr)⟩, ?_⟩
    constructor
    · intro h
      rw [h] at hroot
      exact absurd hroot hrange
    · intro h
      exact absurd ⟨t, hpos, hroot, (hP t).mp hp⟩ h

/-- With an exact square root, a squared distance above `r^2` gives a computed
distance above `r`. -/
theorem distance_gt_of_sq_gt (M : MathOps K) (c p : Vec3 K) (r : K)
    (hsqrt : IsSqrtAt M (dot (p - c) (p - c)))
    (hout : r * r < dot (p - c) (p - c)) : distance M c p > r := by
  have hnn : 0 ≤ dot (p - c) (p - c) := le_trans (mul_self_nonneg r) hout.le
  obtain ⟨h0, hs⟩ := hsqrt hnn
  unfold distance length
  by_contra hle
  have hle2 : M.sqrt (dot (p - c) (p - c)) ≤ r := not_lt.mp hle
  have : M.sqrt (dot (p - c) (p - c)) * M.sqrt (dot (p - c) (p - c)) ≤ r * r :=
    mul_self_le_mul_self h0 hle2
  rw [hs] at this
  exact absurd hout (not_lt.mpr this)

/-- C18: when the intersection point of the ray with the supporting plane of a
disk is at distance strictly greater than the radius from the centre (as
computed by `glm::distance`, or in squared form with an exact square root),
`IDisk::findClosestIntersection` reports no hit, whatever the plane reports. -/
theorem C18_disk_rejects_outside (M : MathOps K) (d : IDisk K) (ray : Ray K)
    (hit : HitRecord K)
    (hout : distance M d.center
          ((IPlane.new M d.center d.n).findClosestIntersection ray hit).interceptPoint
        > d.radius ∨
      (IsSqrtAt M
          (dot (((IPlane.new M d.center d.n).findClosestIntersection ray hit).interceptPoint
                - d.center)
            (((IPlane.new M d.center d.n).findClosestIntersection ray hit).interceptPoint
                - d.center)) ∧
        d.radius * d.radius <
          dot (((IPlane.new M d.center d.n).findClosestIntersection ray hit).interceptPoint
                - d.center)
            (((IPlane.new M d.center d.n).findClosestIntersection ray hit).interceptPoint
                - d.center))) :
    (d.findClosestIntersection M ray hit).t = FLT_MAX := by
  have hgt : distance M d.center
      ((IPlane.new M d.center d.n).findClosestIntersection ray hit).interceptPoint
      > d.radius := by
    rcases hout with h | ⟨hs, h⟩
    · exact h
    · exact distance_gt_of_sq_gt M _ _ _ hs h
  unfold IDisk.findClosestIntersection
  simp only
  by_cases hp : ((IPlane.new M d.center d.n).findClosestIntersection ray hit).t = FLT_MAX
  · rw [if_neg (fun h => h.1 hp)]
    exact hp
  · rw [if_pos ⟨hp, hgt⟩]

/-- C18, run: the ray from (2, 0, 0) along -z meets the plane of `exampleDisk` at
`t = 5`, at distance 2 from the centre: the plane reports the hit, the disk none. -/
theorem C18_disk_witness :
    ((IPlane.new ratOps exampleDisk.center exampleDisk.n).findClosestIntersection
      ⟨⟨2, 0, 0⟩, ⟨0, 0, -1⟩⟩ HitRecord.new).t = 5 ∧
    distance ratOps exampleDisk.center
      ((IPlane.new ratOps exampleDisk.center exampleDisk.n).findClosestIntersection
        ⟨⟨2, 0, 0⟩, ⟨0, 0, -1⟩⟩ HitRecord.new).interceptPoint = 2 ∧
    (exampleDisk.findClosestIntersection ratOps ⟨⟨2, 0, 0⟩, ⟨0, 0, -1⟩⟩ HitRecord.new).t
      = FLT_MAX := by
  have hsq : ratSqrt 4 = 2 := by norm_num [ratSqrt, isqrtAux]
  have hdist : distance ratOps exampleDisk.center
      ((IPlane.new ratOps exampleDisk.center exampleDisk.n).findClosestIntersection
        ⟨⟨2, 0, 0⟩, ⟨0, 0, -1⟩⟩ HitRecord.new).interceptPoint = 2 := by
    norm_num [exampleDisk, IPlane.findClosestIntersection, IPlane.new, normalize, dot,
      distance, length, HitRecord.new, ratOps, ratSqrt_one, Ray.getPoint, hsq]
  refine ⟨?_, hdist, C18_disk_rejects_outside ratOps exampleDisk ⟨⟨2, 0, 0⟩, ⟨0, 0, -1⟩⟩
    HitRecord.new (Or.inl ?_)⟩
  · norm_num [exampleDisk, IPlane.findClosestIntersection, IPlane.new, normalize, dot,
      HitRecord.new, ratOps, ratSqrt_one]
  · rw [hdist]; norm_num [exampleDisk]

/-- C19, as stated, fails: the ray from (1, 0, 0) along -z meets the plane of
`exampleDisk` at distance exactly 1, the radius, from the centre, and the disk
reports the hit at `t = 5`. -/
theorem C19_counterexample_disk_boundary_is_hit :
    distance ratOps exampleDisk.center
      ((IPlane.new ratOps exampleDisk.center exampleDisk.n).findClosestIntersection
        ⟨⟨1, 0, 0⟩, ⟨0, 0, -1⟩⟩ HitRecord.new).interceptPoint = exampleDisk.radius ∧
    (exampleDisk.findClosestIntersection ratOps ⟨⟨1, 0, 0⟩, ⟨0, 0, -1⟩⟩ HitRecord.new).t = 5 ∧
    (exampleDisk.findClosestIntersection ratOps ⟨⟨1, 0, 0⟩, ⟨0, 0, -1⟩⟩ HitRecord.new).t
      ≠ FLT_MAX := by
  have ht : (exampleDisk.findClosestIntersection ratOps ⟨⟨1, 0, 0⟩, ⟨0, 0, -1⟩⟩
      HitRecord.new).t = 5 := by
    norm_num [IDisk.findClosestIntersection, exampleDisk, IPlane.findClosestIntersection,
      IPlane.new, normalize, dot, distance, length, HitRecord.new, ratOps, ratSqrt_one,
      Ray.getPoint, FLT_MAX]
  refine ⟨?_, ht, ?_⟩
  · norm_num [exampleDisk, IPlane.findClosestIntersection, IPlane.new, normalize, dot,
      distance, length, HitRecord.new, ratOps, ratSqrt_one, Ray.getPoint]
  · rw [ht]; norm_num [FLT_MAX]

/-- C19, amended: the disk uses an inclusive bound.  When the supporting plane is
hit, the disk rejects the hit exactly when the distance of the intersection point
from the centre is strictly greater than the radius; at distance equal to the
radius (or smaller) it reports the hit of the plane. -/
theorem C19_disk_boundary_inclusive (M : MathOps K) (d : IDisk K) (ray : Ray K)
    (hit : HitRecord K)
    (hplane : ((IPlane.new M d.center d.n).findClosestIntersection ray hit).t ≠ FLT_MAX) :
    ((d.findClosestIntersection M ray hit).t = FLT_MAX ↔
      distance M d.center
          ((IPlane.new M d.center d.n).findClosestIntersection ray hit).interceptPoint
        > d.radius) ∧
    (distance M d.center
          ((IPlane.new M d.center d.n).findClosestIntersection ray hit).interceptPoint
        ≤ d.radius →
      d.findClosestIntersection M ray hit
        = (IPlane.new M d.center d.n).findClosestIntersection ray hit) := by
  unfold IDisk.findClosestIntersection
  simp only
  by_cases hgt : distance M d.center
      ((IPlane.new M d.center d.n).findClosestIntersection ray hit).interceptPoint > d.radius
  · rw [if_pos ⟨hplane, hgt⟩]
    exact ⟨⟨fun _ => hgt, fun _ => rfl⟩, fun h => absurd hgt (not_lt.mpr h)⟩
  · rw [if_neg (fun h => hgt h.2)]
    exact ⟨⟨fun h => absurd h hplane, fun h => absurd h hgt⟩, fun _ => rfl⟩

/-- C19 amended, run: the boundary ray of the counterexample; the disk reports
the record of the plane. -/
theorem C19_disk_witness :
    ((IPlane.new ratOps exampleDisk.center exampleDisk.n).findClosestIntersection
      ⟨⟨1, 0, 0⟩, ⟨0, 0, -1⟩⟩ HitRecord.new).t ≠ FLT_MAX ∧
    exampleDisk.findClosestIntersection ratOps ⟨⟨1, 0, 0⟩, ⟨0, 0, -1⟩⟩ HitRecord.new
      = (IPlane.new ratOps exampleDisk.center exampleDisk.n).findClosestIntersection
          ⟨⟨1, 0, 0⟩, ⟨0, 0, -1⟩⟩ HitRecord.new := by
  have hplane : ((IPlane.new ratOps exampleDisk.center exampleDisk.n).findClosestIntersection
      ⟨⟨1, 0, 0⟩, ⟨0, 0, -1⟩⟩ HitRecord.new).t ≠ FLT_MAX := by
    norm_num [exampleDisk, IPlane.findClosestIntersection, IPlane.new, normalize, dot,
      HitRecord.new, ratOps, ratSqrt_one, FLT_MAX]
  refine ⟨hplane, (C19_disk_boundary_inclusive ratOps exampleDisk ⟨⟨1, 0, 0⟩, ⟨0, 0, -1⟩⟩
    HitRecord.new hplane).2 ?_⟩
  norm_num [exampleDisk, IPlane.findClosestIntersection, IPlane.new, normalize, dot,
    distance, length, HitRecord.new, ratOps, ratSqrt_one, Ray.getPoint]

/-- C20, as stated, fails for `ICylinderY`: for the ray from (-5, 1, 0) along +x the
root `t = 4` of the lateral quadratic has its intercept at `y = 1`, exactly on the
bound `|y - center.y| ≤ length/2`, and it is discarded: no hit is reported. -/
theorem C20_counterexample_cylinderY_bound_is_strict :
    exampleCylinderY.toICylinder.computeAqBqCq ⟨⟨-5, 1, 0⟩, ⟨1, 0, 0⟩⟩ = (1, -10, 24) ∧
    IsRoot ((1, -10, 24) : ℚ × ℚ × ℚ) 4 ∧
    |((⟨-5, 1, 0⟩ : Vec3 ℚ) + (4 : ℚ) * (⟨1, 0, 0⟩ : Vec3 ℚ)).y - exampleCylinderY.center.y|
      ≤ exampleCylinderY.length / 2 ∧
    (exampleCylinderY.findClosestIntersection ratOps ⟨⟨-5, 1, 0⟩, ⟨1, 0, 0⟩⟩ HitRecord.new
      HitBuf.init).1.t = FLT_MAX := by
  have habc : exampleCylinderY.toICylinder.computeAqBqCq ⟨⟨-5, 1, 0⟩, ⟨1, 0, 0⟩⟩
      = (1, -10, 24) := by
    norm_num [exampleCylinderY, ICylinderY.new, ICylinder.computeAqBqCq, IQuadricSurface.new,
      QuadricParameters.cylinderYQParams]
  refine ⟨habc, by norm_num [IsRoot], ?_, ?_⟩
  · norm_num [exampleCylinderY, ICylinderY.new, IQuadricSurface.new]
  · rw [cylinderY_t_eq, habc]
    norm_num [positiveRoots, quadratic, ICylinderY.inBound, exampleCylinderY, ICylinderY.new,
      IQuadricSurface.new, ratOps, ratSqrt, isqrtAux]

/-- C20, amended: for `Aq ≠ 0` (with `sqrt` exact at the discriminant and
`FLT_MAX` not a root) `ICylinderY` reports the smallest strictly positive root of
the lateral quadratic whose intercept satisfies the strict bound
`center.y - length/2 < y < center.y + length/2`, and `ICylinderX` the smallest one
whose intercept satisfies `|x - center.x| ≤ length/2`; each reports no hit
(`FLT_MAX`) exactly when no strictly positive root satisfies its bound. -/
theorem C20_cylinders_clip_axially (M : MathOps K) (cy : ICylinderY K) (cx : ICylinderX K)
    (ray : Ray K) (hit : HitRecord K) (hits : HitBuf K) :
    ((cy.toICylinder.computeAqBqCq ray).1 ≠ 0 →
      IsSqrtAt M (discriminant (cy.toICylinder.computeAqBqCq ray)) →
      ¬ IsRoot (cy.toICylinder.computeAqBqCq ray) FLT_MAX →
      IsClosestRootIn (cy.toICylinder.computeAqBqCq ray)
        (fun r => cy.center.y - cy.length / 2 < (ray.origin + r * ray.direction).y ∧
          (ray.origin + r * ray.direction).y < cy.center.y + cy.length / 2)
        (cy.findClosestIntersection M ray hit hits).1.t) ∧
    ((cx.toICylinder.computeAqBqCq ray).1 ≠ 0 →
      IsSqrtAt M (discriminant (cx.toICylinder.computeAqBqCq ray)) →
      ¬ IsRoot (cx.toICylinder.computeAqBqCq ray) FLT_MAX →
      IsClosestRootIn (cx.toICylinder.computeAqBqCq ray)
        (fun r => |(ray.origin + r * ray.direction).x - cx.center.x| ≤ cx.length / 2)
        (cx.findClosestIntersection M ray hit hits).1.t) := by
  constructor
  · intro hA hsqrt hrange
    refine isClosestRootIn_of_find M _ hA hsqrt hrange (cy.inBound ray) _ ?_ _
      (cylinderY_t_eq M cy ray hit hits)
    intro r
    simp only [ICylinderY.inBound, Bool.and_eq_true, decide_eq_true_eq, gt_iff_lt]
    exact and_comm
  · intro hA hsqrt hrange
    refine isClosestRootIn_of_find M _ hA hsqrt hrange (cx.inBound ray) _ ?_ _
      (cylinderX_t_eq M cx ray hit hits)
    intro r
    simp only [ICylinderX.inBound, Bool.and_eq_true, decide_eq_true_eq, ge_iff_le, abs_le]
    constructor
    · rintro ⟨h1, h2⟩
      constructor <;> linarith
    · rintro ⟨h1, h2⟩
      constructor <;> linarith

/-- C20 amended, run: the ray from (-5, 0, 0) along +x meets `exampleCylinderY` at
`t = 4`, in the middle of its height. -/
theorem C20_cylinder_witness :
    exampleCylinderY.toICylinder.computeAqBqCq ⟨⟨-5, 0, 0⟩, ⟨1, 0, 0⟩⟩ = (1, -10, 24) ∧
    (exampleCylinderY.findClosestIntersection ratOps ⟨⟨-5, 0, 0⟩, ⟨1, 0, 0⟩⟩ HitRecord.new
      HitBuf.init).1.t = 4 ∧
    IsClosestRootIn (exampleCylinderY.toICylinder.computeAqBqCq ⟨⟨-5, 0, 0⟩, ⟨1, 0, 0⟩⟩)
      (fun r => exampleCylinderY.center.y - exampleCylinderY.length / 2
            < ((⟨-5, 0, 0⟩ : Vec3 ℚ) + r * (⟨1, 0, 0⟩ : Vec3 ℚ)).y ∧
          ((⟨-5, 0, 0⟩ : Vec3 ℚ) + r * (⟨1, 0, 0⟩ : Vec3 ℚ)).y
            < exampleCylinderY.center.y + exampleCylinderY.length / 2)
      (exampleCylinderY.findClosestIntersection ratOps ⟨⟨-5, 0, 0⟩, ⟨1, 0, 0⟩⟩ HitRecord.new
        HitBuf.init).1.t := by
  have habc : exampleCylinderY.toICylinder.computeAqBqCq ⟨⟨-5, 0, 0⟩, ⟨1, 0, 0⟩⟩
      = (1, -10, 24) := by
    norm_num [exampleCylinderY, ICylinderY.new, ICylinder.computeAqBqCq, IQuadricSurface.new,
      QuadricParameters.cylinderYQParams]
  refine ⟨habc, ?_, ?_⟩
  · rw [cylinderY_t_eq, habc]
    norm_num [positiveRoots, quadratic, ICylinderY.inBound, exampleCylinderY, ICylinderY.new,
      IQuadricSurface.new, ratOps, ratSqrt, isqrtAux]
  · exact (C20_cylinders_clip_axially ratOps exampleCylinderY (ICylinderX.new ⟨0, 0, 0⟩ 1 2)
      ⟨⟨-5, 0, 0⟩, ⟨1, 0, 0⟩⟩ HitRecord.new HitBuf.init).1
      (by rw [habc]; norm_num)
      (by rw [habc]; norm_num [IsSqrtAt, discriminant, ratOps, ratSqrt, isqrtAux])
      (by rw [habc]; norm_num [IsRoot, FLT_MAX])

/-- C11 amended, run: a positional light at (0, 0, 4) above the plane `z = 2`; the
point at the origin is in its shadow and receives the ambient colour (1, 1, 1). -/
theorem C11_getLightColor_witness :
    exampleSpot.toPositionalLight.isOn = true ∧
    RayTracer.inShadow ratOpsPi exampleShadowScene exampleFloorHit
      (Light.positional exampleSpot.toPositionalLight) = true ∧
    RayTracer.contribution ratOpsPi exampleShadowScene exampleFloorHit
      (Light.positional exampleSpot.toPositionalLight) = ⟨1, 1, 1⟩ := by
  have hsh : RayTracer.inShadow ratOpsPi exampleShadowScene exampleFloorHit
      (Light.positional exampleSpot.toPositionalLight) = true := example_shadow_inShadow
  refine ⟨rfl, hsh, ?_⟩
  rw [(C11_getLightColor_sums_contributions ratOpsPi exampleTracer exampleRay
    exampleShadowScene exampleFloorHit ⟨0, 0, 0⟩ Statics.init).2.2.1
    exampleSpot.toPositionalLight rfl hsh]
  norm_num [ambientColor, clampV, clamp, exampleFloorHit, exampleWhite, exampleSpot,
    PositionalLight.new]

/-- The `t` reported by `IConeY::findClosestIntersection`: the first strictly
positive root whose intercept passes the axial test replaces `hit` when its `t`
is smaller; without such a root the result is `FLT_MAX`. -/
theorem coneY_t_eq (M : MathOps K) (c : IConeY K) (ray : Ray K) (hit : HitRecord K)
    (hits : HitBuf K) :
    (c.findClosestIntersection M ray hit hits).1.t =
      match (positiveRoots M (c.toIQuadricSurface.computeAqBqCq ray)).find? (c.inBound ray) with
      | some r => if r < hit.t then r else hit.t
      | none => FLT_MAX := by
  have hlen := positiveRoots_length_le_two M (c.toIQuadricSurface.computeAqBqCq ray)
  unfold IConeY.findClosestIntersection
  simp only [IQuadricSurface.findIntersections_eq]
  unfold positiveRoots at hlen ⊢
  generalize (quadratic M (c.toIQuadricSurface.computeAqBqCq ray).1
      (c.toIQuadricSurface.computeAqBqCq ray).2.1
      (c.toIQuadricSurface.computeAqBqCq ray).2.2).filter (fun r => decide (0 < r)) = L at hlen ⊢
  rcases L with _ | ⟨r0, _ | ⟨r1, _ | ⟨r2, l⟩⟩⟩
  · simp
  · cases hb : c.inBound ray r0 <;>
      (have hb2 := hb
       unfold IConeY.inBound at hb2
       simp only [find_range_one, HitBuf.get, if_true, HitRecord.withRoot, List.find?_cons,
         List.find?_nil, hb, hb2, Bool.false_eq_true, if_false]
       try (split_ifs <;> rfl))
  · cases hb : c.inBound ray r0 <;> cases hc : c.inBound ray r1 <;>
      (have hb2 := hb
       have hc2 := hc
       unfold IConeY.inBound at hb2 hc2
       simp only [find_range_two, HitBuf.get, if_true, HitRecord.withRoot, List.find?_cons,
         List.find?_nil, hb, hb2, hc, hc2, Bool.false_eq_true, if_false, one_ne_zero]
       try (split_ifs <;> rfl))
  · simp at hlen

/-- C21, as stated, fails: for the ray from (0, 1/2, -2) along +z the smallest
strictly positive root of the cone quadratic is `t = 3/2`; its intercept has
`y = 1/2`, within `|y - center.y| ≤ length/2 = 1` on the upper side of the apex,
and `IConeY::findClosestIntersection` reports no hit for a fresh record. -/
theorem C21_counterexample_upper_half_is_rejected :
    exampleConeY.toIQuadricSurface.computeAqBqCq ⟨⟨0, 1 / 2, -2⟩, ⟨0, 0, 1⟩⟩
      = (1, -4, 15 / 4) ∧
    IsRoot ((1, -4, 15 / 4) : ℚ × ℚ × ℚ) (3 / 2) ∧
    (∀ r : ℚ, 0 < r → IsRoot ((1, -4, 15 / 4) : ℚ × ℚ × ℚ) r → 3 / 2 ≤ r) ∧
    |((⟨0, 1 / 2, -2⟩ : Vec3 ℚ) + (3 / 2 : ℚ) * (⟨0, 0, 1⟩ : Vec3 ℚ)).y - exampleConeY.center.y|
      ≤ exampleConeY.length / 2 ∧
    (exampleConeY.findClosestIntersection ratOps ⟨⟨0, 1 / 2, -2⟩, ⟨0, 0, 1⟩⟩ HitRecord.new
      HitBuf.init).1.t = FLT_MAX := by
  have habc : exampleConeY.toIQuadricSurface.computeAqBqCq ⟨⟨0, 1 / 2, -2⟩, ⟨0, 0, 1⟩⟩
      = (1, -4, 15 / 4) := by
    norm_num [exampleConeY, IConeY.new, IQuadricSurface.computeAqBqCq, IQuadricSurface.new,
      QuadricParameters.coneYQParams]
  refine ⟨habc, by norm_num [IsRoot], ?_, ?_, ?_⟩
  · intro r hr hroot
    simp only [IsRoot] at hroot
    by_contra hlt
    have h1 : r < 3 / 2 := not_le.mp hlt
    nlinarith [hroot, h1, hr, mul_pos hr hr]
  · norm_num [exampleConeY, IConeY.new, IQuadricSurface.new, abs_le]
  · rw [coneY_t_eq, habc]
    norm_num [positiveRoots, quadratic, IConeY.inBound, exampleConeY, IConeY.new,
      IQuadricSurface.new, ratOps, ratSqrt, isqrtAux]

/-- C21, amended: `IConeY` keeps only the half of the cone below the apex.  For
a record with `t = FLT_MAX` and `Aq ≠ 0` (with `sqrt` exact at the discriminant
and every root below `FLT_MAX`) it reports the smallest strictly positive root
of the cone quadratic whose intercept satisfies the strict bound
`center.y - length/2 < y < center.y`, and no hit (`FLT_MAX`) exactly when no
strictly positive root satisfies that bound. -/
theorem C21_coneY_clips_below_apex (M : MathOps K) (c : IConeY K) (ray : Ray K)
    (hit : HitRecord K) (hits : HitBuf K) (hfresh : hit.t = FLT_MAX)
    (hA : (c.toIQuadricSurface.computeAqBqCq ray).1 ≠ 0)
    (hsqrt : IsSqrtAt M (discriminant (c.toIQuadricSurface.computeAqBqCq ray)))
    (hrange : ∀ r, IsRoot (c.toIQuadricSurface.computeAqBqCq ray) r → r < FLT_MAX) :
    IsClosestRootIn (c.toIQuadricSurface.computeAqBqCq ray)
      (fun r => c.center.y - c.length / 2 < (ray.origin + r * ray.direction).y ∧
        (ray.origin + r * ray.direction).y < c.center.y)
      (c.findClosestIntersection M ray hit hits).1.t := by
  have hnot : ¬ IsRoot (c.toIQuadricSurface.computeAqBqCq ray) FLT_MAX :=
    fun h => lt_irrefl _ (hrange _ h)
  refine isClosestRootIn_of_find M _ hA hsqrt hnot (c.inBound ray) _ ?_ _ ?_
  · intro r
    simp only [IConeY.inBound, Bool.and_eq_true, decide_eq_true_eq, gt_iff_lt]
    exact and_comm
  · rw [coneY_t_eq, hfresh]
    obtain ⟨hsome, -⟩ := positiveRoots_find M (c.toIQuadricSurface.computeAqBqCq ray) hA hsqrt
      (c.inBound ray)
    cases hf : (positiveRoots M (c.toIQuadricSurface.computeAqBqCq ray)).find? (c.inBound ray) with
    | none => rfl
    | some r =>
      simp only
      rw [if_pos (hrange r (hsome r hf).2.1)]

/-- C21 amended, run: the ray from (0, -1/2, -2) along +z meets `exampleConeY`
below the apex, at `t = 3/2`. -/
theorem C21_coneY_witness :
    exampleConeY.toIQuadricSurface.computeAqBqCq ⟨⟨0, -1 / 2, -2⟩, ⟨0, 0, 1⟩⟩
      = (1, -4, 15 / 4) ∧
    (exampleConeY.findClosestIntersection ratOps ⟨⟨0, -1 / 2, -2⟩, ⟨0, 0, 1⟩⟩ HitRecord.new
      HitBuf.init).1.t = 3 / 2 ∧
    IsClosestRootIn (exampleConeY.toIQuadricSurface.computeAqBqCq ⟨⟨0, -1 / 2, -2⟩, ⟨0, 0, 1⟩⟩)
      (fun r => exampleConeY.center.y - exampleConeY.length / 2
            < ((⟨0, -1 / 2, -2⟩ : Vec3 ℚ) + r * (⟨0, 0, 1⟩ : Vec3 ℚ)).y ∧
          ((⟨0, -1 / 2, -2⟩ : Vec3 ℚ) + r * (⟨0, 0, 1⟩ : Vec3 ℚ)).y < exampleConeY.center.y)
      (exampleConeY.findClosestIntersection ratOps ⟨⟨0, -1 / 2, -2⟩, ⟨0, 0, 1⟩⟩ HitRecord.new
        HitBuf.init).1.t := by
  have habc : exampleConeY.toIQuadricSurface.computeAqBqCq ⟨⟨0, -1 / 2, -2⟩, ⟨0, 0, 1⟩⟩
      = (1, -4, 15 / 4) := by
    norm_num [exampleConeY, IConeY.new, IQuadricSurface.computeAqBqCq, IQuadricSurface.new,
      QuadricParameters.coneYQParams]
  refine ⟨habc, ?_, ?_⟩
  · rw [coneY_t_eq, habc]
    norm_num [positiveRoots, quadratic, IConeY.inBound, exampleConeY, IConeY.new,
      IQuadricSurface.new, ratOps, ratSqrt, isqrtAux, HitRecord.new, FLT_MAX]
  · refine C21_coneY_clips_below_apex ratOps exampleConeY ⟨⟨0, -1 / 2, -2⟩, ⟨0, 0, 1⟩⟩
      HitRecord.new HitBuf.init rfl (by rw [habc]; norm_num)
      (by rw [habc]; norm_num [IsSqrtAt, discriminant, ratOps, ratSqrt, isqrtAux]) ?_
    rw [habc]
    intro r hroot
    simp only [IsRoot] at hroot
    have h3 : r ≤ 5 / 2 := by
      by_contra hgt
      have h1 : 5 / 2 < r := not_le.mp hgt
      nlinarith [hroot, h1]
    exact lt_of_le_of_lt h3 (by norm_num [FLT_MAX])

theorem Vec3.get_zero {K : Type} (v : Vec3 K) : v.get 0 = v.x := rfl

theorem Vec3.get_one {K : Type} (v : Vec3 K) : v.get 1 = v.y := rfl

theorem Vec3.get_two {K : Type} (v : Vec3 K) : v.get 2 = v.z := rfl

/-- The record of `IRect::findClosestIntersection` for a normal along the x axis. -/
theorem IRect.findClosestIntersection_x (M : MathOps K) (position n : Vec3 K) (W H : K)
    (ray : Ray K) (hit : HitRecord K) (hn : |n.x| = 1) :
    (IRect.new M position n W H).findClosestIntersection ray hit =
      if ((IPlane.new M position n).findClosestIntersection ray hit).t ≠ FLT_MAX ∧
          ¬ ((position.y - W / 2
                < ((IPlane.new M position n).findClosestIntersection ray hit).interceptPoint.y ∧
              ((IPlane.new M position n).findClosestIntersection ray hit).interceptPoint.y
                < position.y + W / 2) ∧
             (position.z - H / 2
                < ((IPlane.new M position n).findClosestIntersection ray hit).interceptPoint.z ∧
              ((IPlane.new M position n).findClosestIntersection ray hit).interceptPoint.z
                < position.z + H / 2))
      then { (IPlane.new M position n).findClosestIntersection ray hit with t := FLT_MAX }
      else (IPlane.new M position n).findClosestIntersection ray hit := by
  unfold IRect.findClosestIntersection
  simp only [IRect.new, Vec3.get_zero, Vec3.get_one, Vec3.get_two, hn, if_true, inRangeExclusive, one_ne_zero, if_false]
  by_cases h : ((IPlane.new M position n).findClosestIntersection ray hit).t = FLT_MAX
  · simp [h]
  · simp only [h, if_false, ne_eq, not_false_eq_true, true_and]
    congr 1
    simp only [Bool.or_eq_true, Bool.not_eq_true', Bool.and_eq_false_imp, decide_eq_true_eq,
      decide_eq_false_iff_not, eq_iff_iff, gt_iff_lt]
    tauto

/-- The record of `IRect::findClosestIntersection` for a normal along the y axis. -/
theorem IRect.findClosestIntersection_y (M : MathOps K) (position n : Vec3 K) (W H : K)
    (ray : Ray K) (hit : HitRecord K) (hx : |n.x| ≠ 1) (hn : |n.y| = 1) :
    (IRect.new M position n W H).findClosestIntersection ray hit =
      if ((IPlane.new M position n).findClosestIntersection ray hit).t ≠ FLT_MAX ∧
          ¬ ((position.x - W / 2
                < ((IPlane.new M position n).findClosestIntersection ray hit).interceptPoint.x ∧
              ((IPlane.new M position n).findClosestIntersection ray hit).interceptPoint.x
                < position.x + W / 2) ∧
             (position.z - H / 2
                < ((IPlane.new M position n).findClosestIntersection ray hit).interceptPoint.z ∧
              ((IPlane.new M position n).findClosestIntersection ray hit).interceptPoint.z
                < position.z + H / 2))
      then { (IPlane.new M position n).findClosestIntersection ray hit with t := FLT_MAX }
      else (IPlane.new M position n).findClosestIntersection ray hit := by
  unfold IRect.findClosestIntersection
  simp only [IRect.new, Vec3.get_zero, Vec3.get_one, Vec3.get_two, hx, hn, if_true, inRangeExclusive, one_ne_zero, if_false]
  by_cases h : ((IPlane.new M position n).findClosestIntersection ray hit).t = FLT_MAX
  · simp [h]
  · simp only [h, if_false, ne_eq, not_false_eq_true, true_and]
    congr 1
    simp only [Bool.or_eq_true, Bool.not_eq_true', Bool.and_eq_false_imp, decide_eq_true_eq,
      decide_eq_false_iff_not, eq_iff_iff, gt_iff_lt]
    tauto

/-- The record of `IRect::findClosestIntersection` for a normal along the z axis. -/
theorem IRect.findClosestIntersection_z (M : MathOps K) (position n : Vec3 K) (W H : K)
    (ray : Ray K) (hit : HitRecord K) (hx : |n.x| ≠ 1) (hy : |n.y| ≠ 1) (hn : |n.z| = 1) :
    (IRect.new M position n W H).findClosestIntersection ray hit =
      if ((IPlane.new M position n).findClosestIntersection ray hit).t ≠ FLT_MAX ∧
          ¬ ((position.x - W / 2
                < ((IPlane.new M position n).findClosestIntersection ray hit).interceptPoint.x ∧
              ((IPlane.new M position n).findClosestIntersection ray hit).interceptPoint.x
                < position.x + W / 2) ∧
             (position.y - H / 2
                < ((IPlane.new M position n).findClosestIntersection ray hit).interceptPoint.y ∧
              ((IPlane.new M position n).findClosestIntersection ray hit).interceptPoint.y
                < position.y + H / 2))
      then { (IPlane.new M position n).findClosestIntersection ray hit with t := FLT_MAX }
      else (IPlane.new M position n).findClosestIntersection ray hit := by
  unfold IRect.findClosestIntersection
  simp only [IRect.new, Vec3.get_zero, Vec3.get_one, Vec3.get_two, hx, hy, hn, if_true, inRangeExclusive, one_ne_zero, if_false]
  by_cases h : ((IPlane.new M position n).findClosestIntersection ray hit).t = FLT_MAX
  · simp [h]
  · simp only [h, if_false, ne_eq, not_false_eq_true, true_and]
    congr 1
    simp only [Bool.or_eq_true, Bool.not_eq_true', Bool.and_eq_false_imp, decide_eq_true_eq,
      decide_eq_false_iff_not, eq_iff_iff, gt_iff_lt]
    tauto

/-- A record rejected by a bound test, or kept: when is `t` different from `FLT_MAX`. -/
theorem reject_t_ne_iff (P : Prop) [Decidable P] (h : HitRecord K) :
    ((if h.t ≠ FLT_MAX ∧ ¬ P then { h with t := FLT_MAX } else h).t ≠ FLT_MAX ↔
      h.t ≠ FLT_MAX ∧ P) ∧
    ((if h.t ≠ FLT_MAX ∧ ¬ P then { h with t := FLT_MAX } else h).t ≠ FLT_MAX →
      (if h.t ≠ FLT_MAX ∧ ¬ P then { h with t := FLT_MAX } else h) = h) := by
  by_cases h1 : h.t ≠ FLT_MAX ∧ ¬ P
  · rw [if_pos h1]
    exact ⟨⟨fun g => absurd rfl g, fun g => absurd g.2 h1.2⟩, fun g => absurd rfl g⟩
  · rw [if_neg h1]
    refine ⟨⟨fun g => ⟨g, ?_⟩, fun g => g.1⟩, fun _ => rfl⟩
    by_contra hp
    exact h1 ⟨g, hp⟩

/-- C29: for an `IRect(position, n, W, H)` whose normal `n` is plus or minus a
coordinate axis, `findClosestIntersection` reports a hit exactly when the
supporting plane is hit and the two in-plane coordinates of the intercept of
the plane lie strictly between `position - half-extent` and
`position + half-extent`: y with `W/2` and z with `H/2` for a normal along x,
x with `W/2` and z with `H/2` for a normal along y, x with `W/2` and y with `H/2`
for a normal along z.  A reported hit is the record of the plane. -/
theorem C29_rect_bounds_exclusive (M : MathOps K) (position n : Vec3 K) (W H : K)
    (ray : Ray K) (hit : HitRecord K) :
    ((n = ⟨1, 0, 0⟩ ∨ n = ⟨-1, 0, 0⟩) →
      (((IRect.new M position n W H).findClosestIntersection ray hit).t ≠ FLT_MAX ↔
        ((IPlane.new M position n).findClosestIntersection ray hit).t ≠ FLT_MAX ∧
        ((position.y - W / 2
            < ((IPlane.new M position n).findClosestIntersection ray hit).interceptPoint.y ∧
          ((IPlane.new M position n).findClosestIntersection ray hit).interceptPoint.y
            < position.y + W / 2) ∧
         (position.z - H / 2
            < ((IPlane.new M position n).findClosestIntersection ray hit).interceptPoint.z ∧
          ((IPlane.new M position n).findClosestIntersection ray hit).interceptPoint.z
            < position.z + H / 2)))) ∧
    ((n = ⟨0, 1, 0⟩ ∨ n = ⟨0, -1, 0⟩) →
      (((IRect.new M position n W H).findClosestIntersection ray hit).t ≠ FLT_MAX ↔
        ((IPlane.new M position n).findClosestIntersection ray hit).t ≠ FLT_MAX ∧
        ((position.x - W / 2
            < ((IPlane.new M position n).findClosestIntersection ray hit).interceptPoint.x ∧
          ((IPlane.new M position n).findClosestIntersection ray hit).interceptPoint.x
            < position.x + W / 2) ∧
         (position.z - H / 2
            < ((IPlane.new M position n).findClosestIntersection ray hit).interceptPoint.z ∧
          ((IPlane.new M position n).findClosestIntersection ray hit).interceptPoint.z
            < position.z + H / 2)))) ∧
    ((n = ⟨0, 0, 1⟩ ∨ n = ⟨0, 0, -1⟩) →
      (((IRect.new M position n W H).findClosestIntersection ray hit).t ≠ FLT_MAX ↔
        ((IPlane.new M position n).findClosestIntersection ray hit).t ≠ FLT_MAX ∧
        ((position.x - W / 2
            < ((IPlane.new M position n).findClosestIntersection ray hit).interceptPoint.x ∧
          ((IPlane.new M position n).findClosestIntersection ray hit).interceptPoint.x
            < position.x + W / 2) ∧
         (position.y - H / 2
            < ((IPlane.new M position n).findClosestIntersection ray hit).interceptPoint.y ∧
          ((IPlane.new M position n).findClosestIntersection ray hit).interceptPoint.y
            < position.y + H / 2)))) ∧
    ((n = ⟨1, 0, 0⟩ ∨ n = ⟨-1, 0, 0⟩ ∨ n = ⟨0, 1, 0⟩ ∨ n = ⟨0, -1, 0⟩ ∨
        n = ⟨0, 0, 1⟩ ∨ n = ⟨0, 0, -1⟩) →
      ((IRect.new M position n W H).findClosestIntersection ray hit).t ≠ FLT_MAX →
      (IRect.new M position n W H).findClosestIntersection ray hit
        = (IPlane.new M position n).findClosestIntersection ray hit) := by
  have hx : ∀ m : Vec3 K, (m = ⟨1, 0, 0⟩ ∨ m = ⟨-1, 0, 0⟩) → |m.x| = 1 := by
    rintro m (h | h) <;> simp [h]
  have hy : ∀ m : Vec3 K, (m = ⟨0, 1, 0⟩ ∨ m = ⟨0, -1, 0⟩) → |m.x| ≠ 1 ∧ |m.y| = 1 := by
    rintro m (h | h) <;> simp [h]
  have hz : ∀ m : Vec3 K, (m = ⟨0, 0, 1⟩ ∨ m = ⟨0, 0, -1⟩) →
      |m.x| ≠ 1 ∧ |m.y| ≠ 1 ∧ |m.z| = 1 := by
    rintro m (h | h) <;> simp [h]
  refine ⟨fun h => ?_, fun h => ?_, fun h => ?_, fun h => ?_⟩
  · rw [IRect.findClosestIntersection_x M position n W H ray hit (hx n h)]
    exact (reject_t_ne_iff _ _).1
  · rw [IRect.findClosestIntersection_y M position n W H ray hit (hy n h).1 (hy n h).2]
    exact (reject_t_ne_iff _ _).1
  · rw [IRect.findClosestIntersection_z M position n W H ray hit (hz n h).1 (hz n h).2.1
      (hz n h).2.2]
    exact (reject_t_ne_iff _ _).1
  · rcases h with h | h | h | h | h | h
    · rw [IRect.findClosestIntersection_x M position n W H ray hit (hx n (Or.inl h))]
      exact (reject_t_ne_iff _ _).2
    · rw [IRect.findClosestIntersection_x M position n W H ray hit (hx n (Or.inr h))]
      exact (reject_t_ne_iff _ _).2
    · rw [IRect.findClosestIntersection_y M position n W H ray hit (hy n (Or.inl h)).1
        (hy n (Or.inl h)).2]
      exact (reject_t_ne_iff _ _).2
    · rw [IRect.findClosestIntersection_y M position n W H ray hit (hy n (Or.inr h)).1
        (hy n (Or.inr h)).2]
      exact (reject_t_ne_iff _ _).2
    · rw [IRect.findClosestIntersection_z M position n W H ray hit (hz n (Or.inl h)).1
        (hz n (Or.inl h)).2.1 (hz n (Or.inl h)).2.2]
      exact (reject_t_ne_iff _ _).2
    · rw [IRect.findClosestIntersection_z M position n W H ray hit (hz n (Or.inr h)).1
        (hz n (Or.inr h)).2.1 (hz n (Or.inr h)).2.2]
      exact (reject_t_ne_iff _ _).2

/-- C29, run: the ray from (1/2, 0, 0) along -z hits `exampleRect` at `t = 5`; the
ray from (1, 0, 0) along -z meets the supporting plane at (1, 0, -5), exactly on
the edge `x = 1`, and is rejected. -/
theorem C29_rect_witness :
    (exampleRect.findClosestIntersection ⟨⟨1 / 2, 0, 0⟩, ⟨0, 0, -1⟩⟩ HitRecord.new).t ≠ FLT_MAX ∧
    ((IPlane.new ratOps (⟨0, 0, -5⟩ : Vec3 ℚ) ⟨0, 0, 1⟩).findClosestIntersection
      ⟨⟨1, 0, 0⟩, ⟨0, 0, -1⟩⟩ HitRecord.new).t = 5 ∧
    ((IPlane.new ratOps (⟨0, 0, -5⟩ : Vec3 ℚ) ⟨0, 0, 1⟩).findClosestIntersection
      ⟨⟨1, 0, 0⟩, ⟨0, 0, -1⟩⟩ HitRecord.new).interceptPoint = ⟨1, 0, -5⟩ ∧
    (exampleRect.findClosestIntersection ⟨⟨1, 0, 0⟩, ⟨0, 0, -1⟩⟩ HitRecord.new).t = FLT_MAX := by
  have hp : ((IPlane.new ratOps (⟨0, 0, -5⟩ : Vec3 ℚ) ⟨0, 0, 1⟩).findClosestIntersection
      ⟨⟨1, 0, 0⟩, ⟨0, 0, -1⟩⟩ HitRecord.new).interceptPoint = ⟨1, 0, -5⟩ := by
    norm_num [IPlane.findClosestIntersection, IPlane.new, normalize, dot, HitRecord.new,
      ratOps, ratSqrt_one, Ray.getPoint]
    ext <;> norm_num
  refine ⟨?_, ?_, hp, ?_⟩
  · refine ((C29_rect_bounds_exclusive ratOps (⟨0, 0, -5⟩ : Vec3 ℚ) ⟨0, 0, 1⟩ 2 2
      ⟨⟨1 / 2, 0, 0⟩, ⟨0, 0, -1⟩⟩ HitRecord.new).2.2.1 (Or.inl rfl)).mpr ?_
    norm_num [IPlane.findClosestIntersection, IPlane.new, normalize, dot, HitRecord.new,
      ratOps, ratSqrt_one, Ray.getPoint, FLT_MAX]
  · norm_num [IPlane.findClosestIntersection, IPlane.new, normalize, dot, HitRecord.new,
      ratOps, ratSqrt_one, Ray.getPoint, FLT_MAX]
  · by_contra hne
    have h := ((C29_rect_bounds_exclusive ratOps (⟨0, 0, -5⟩ : Vec3 ℚ) ⟨0, 0, 1⟩ 2 2
      ⟨⟨1, 0, 0⟩, ⟨0, 0, -1⟩⟩ HitRecord.new).2.2.1 (Or.inl rfl)).mp hne
    rw [hp] at h
    norm_num at h

/-- A hit reported by `IPlane::findClosestIntersection`: the ray is not parallel to
the plane and the intercept point lies on the plane. -/
theorem IPlane.hit_on_plane (p : IPlane K) (ray : Ray K) (hit : HitRecord K)
    (h : (p.findClosestIntersection ray hit).t ≠ FLT_MAX) :
    dot ray.direction p.n ≠ 0 ∧
    dot ((p.findClosestIntersection ray hit).interceptPoint - p.a) p.n = 0 := by
  unfold IPlane.findClosestIntersection at h ⊢
  by_cases hd : dot ray.direction p.n = 0
  · simp [hd] at h
  · simp only [hd, if_false] at h ⊢
    by_cases hneg : dot (p.a - ray.origin) p.n / dot ray.direction p.n < 0
    · simp [hneg] at h
    · simp only [hneg, if_false]
      refine ⟨hd, ?_⟩
      simp only [dot, Ray.getPoint, Vec3.sub_x, Vec3.sub_y, Vec3.sub_z, Vec3.add_x, Vec3.add_y,
        Vec3.add_z, Vec3.smul_x, Vec3.smul_y, Vec3.smul_z] at hd ⊢
      field_simp
      ring

/-- A hit on a plane constructed with a normal along the x axis has the `x` of the
point of the plane. -/
theorem IPlane.hit_axis_x (M : MathOps K) (a : Vec3 K) (s : K) (ray : Ray K)
    (hit : HitRecord K)
    (h : ((IPlane.new M a ⟨s, 0, 0⟩).findClosestIntersection ray hit).t ≠ FLT_MAX) :
    ((IPlane.new M a ⟨s, 0, 0⟩).findClosestIntersection ray hit).interceptPoint.x = a.x := by
  obtain ⟨hd, hon⟩ := IPlane.hit_on_plane _ ray hit h
  generalize ((IPlane.new M a ⟨s, 0, 0⟩).findClosestIntersection ray hit).interceptPoint = P
    at hon ⊢
  simp only [IPlane.new, normalize, dot, Vec3.muls_x, Vec3.muls_y, Vec3.muls_z, Vec3.sub_x,
    zero_mul, mul_zero, add_zero] at hd hon
  have hk : s * (1 / M.sqrt (s * s)) ≠ 0 := fun h0 => hd (by rw [h0, mul_zero])
  rcases mul_eq_zero.mp hon with h1 | h1
  · exact sub_eq_zero.mp h1
  · exact absurd h1 hk

/-- The same for a normal along the y axis. -/
theorem IPlane.hit_axis_y (M : MathOps K) (a : Vec3 K) (s : K) (ray : Ray K)
    (hit : HitRecord K)
    (h : ((IPlane.new M a ⟨0, s, 0⟩).findClosestIntersection ray hit).t ≠ FLT_MAX) :
    ((IPlane.new M a ⟨0, s, 0⟩).findClosestIntersection ray hit).interceptPoint.y = a.y := by
  obtain ⟨hd, hon⟩ := IPlane.hit_on_plane _ ray hit h
  generalize ((IPlane.new M a ⟨0, s, 0⟩).findClosestIntersection ray hit).interceptPoint = P
    at hon ⊢
  simp only [IPlane.new, normalize, dot, Vec3.muls_x, Vec3.muls_y, Vec3.muls_z, Vec3.sub_y,
    zero_mul, mul_zero, add_zero, zero_add] at hd hon
  have hk : s * (1 / M.sqrt (s * s)) ≠ 0 := fun h0 => hd (by rw [h0, mul_zero])
  rcases mul_eq_zero.mp hon with h1 | h1
  · exact sub_eq_zero.mp h1
  · exact absurd h1 hk

/-- The same for a normal along the z axis. -/
theorem IPlane.hit_axis_z (M : MathOps K) (a : Vec3 K) (s : K) (ray : Ray K)
    (hit : HitRecord K)
    (h : ((IPlane.new M a ⟨0, 0, s⟩).findClosestIntersection ray hit).t ≠ FLT_MAX) :
    ((IPlane.new M a ⟨0, 0, s⟩).findClosestIntersection ray hit).interceptPoint.z = a.z := by
  obtain ⟨hd, hon⟩ := IPlane.hit_on_plane _ ray hit h
  generalize ((IPlane.new M a ⟨0, 0, s⟩).findClosestIntersection ray hit).interceptPoint = P
    at hon ⊢
  simp only [IPlane.new, normalize, dot, Vec3.muls_x, Vec3.muls_y, Vec3.muls_z, Vec3.sub_z,
    zero_mul, mul_zero, add_zero, zero_add] at hd hon
  have hk : s * (1 / M.sqrt (s * s)) ≠ 0 := fun h0 => hd (by rw [h0, mul_zero])
  rcases mul_eq_zero.mp hon with h1 | h1
  · exact sub_eq_zero.mp h1
  · exact absurd h1 hk

/-- The loop of `IBox::findClosestIntersection`, started from any `theHit`. -/
theorem IBox.findClosestIntersection_spec (ray : Ray K) :
    ∀ (rects : List (IRect K)) (theHit : HitRecord K),
      ((⟨rects⟩ : IBox K).findClosestIntersection ray theHit).t ≤ theHit.t ∧
      (∀ rect ∈ rects, ((⟨rects⟩ : IBox K).findClosestIntersection ray theHit).t
        ≤ (rect.findClosestIntersection ray HitRecord.new).t) ∧
      ((⟨rects⟩ : IBox K).findClosestIntersection ray theHit = theHit ∨
        ∃ rect ∈ rects, (⟨rects⟩ : IBox K).findClosestIntersection ray theHit
            = rect.findClosestIntersection ray HitRecord.new ∧
          (rect.findClosestIntersection ray HitRecord.new).t < theHit.t) := by
  intro rects
  induction rects with
  | nil =>
    intro theHit
    exact ⟨le_refl _, fun r hr => absurd hr (List.not_mem_nil r), Or.inl rfl⟩
  | cons r rest ih =>
    intro theHit
    unfold IBox.findClosestIntersection at ih ⊢
    simp only [List.foldl_cons] at ih ⊢
    by_cases hlt : (r.findClosestIntersection ray HitRecord.new).t < theHit.t
    · simp only [hlt, if_true]
      obtain ⟨ha, hb, hc⟩ := ih (r.findClosestIntersection ray HitRecord.new)
      refine ⟨le_trans ha hlt.le, ?_, ?_⟩
      · intro r2 hr2
        rcases List.mem_cons.mp hr2 with h | h
        · rw [h]; exact ha
        · exact hb r2 h
      · right
        rcases hc with h | ⟨r2, hr2, e, hl⟩
        · exact ⟨r, List.mem_cons_self _ _, h, hlt⟩
        · exact ⟨r2, List.mem_cons_of_mem _ hr2, e, lt_trans hl hlt⟩
    · simp only [hlt, if_false]
      obtain ⟨ha, hb, hc⟩ := ih theHit
      refine ⟨ha, ?_, ?_⟩
      · intro r2 hr2
        rcases List.mem_cons.mp hr2 with h | h
        · rw [h]; exact le_trans ha (not_lt.mp hlt)
        · exact hb r2 h
      · rcases hc with h | ⟨r2, hr2, e, hl⟩
        · exact Or.inl h
        · exact Or.inr ⟨r2, List.mem_cons_of_mem _ hr2, e, hl⟩

/-- A hit on a rectangle with a normal along the x axis: where the intercept lies. -/
theorem IRect.hit_bounds_x (M : MathOps K) (position : Vec3 K) (s W H : K) (ray : Ray K)
    (hit : HitRecord K) (hs : |s| = 1)
    (h : ((IRect.new M position ⟨s, 0, 0⟩ W H).findClosestIntersection ray hit).t ≠ FLT_MAX) :
    ((IRect.new M position ⟨s, 0, 0⟩ W H).findClosestIntersection ray hit).interceptPoint.x
      = position.x ∧
    |((IRect.new M position ⟨s, 0, 0⟩ W H).findClosestIntersection ray hit).interceptPoint.y
      - position.y| < W / 2 ∧
    |((IRect.new M position ⟨s, 0, 0⟩ W H).findClosestIntersection ray hit).interceptPoint.z
      - position.z| < H / 2 := by
  rw [IRect.findClosestIntersection_x M position ⟨s, 0, 0⟩ W H ray hit hs] at h ⊢
  obtain ⟨hp, ⟨h1, h2⟩, h3, h4⟩ := (reject_t_ne_iff _ _).1.mp h
  rw [(reject_t_ne_iff _ _).2 h]
  exact ⟨IPlane.hit_axis_x M position s ray hit hp,
    abs_lt.mpr ⟨by linarith, by linarith⟩, abs_lt.mpr ⟨by linarith, by linarith⟩⟩

/-- The same for a normal along the y axis. -/
theorem IRect.hit_bounds_y (M : MathOps K) (position : Vec3 K) (s W H : K) (ray : Ray K)
    (hit : HitRecord K) (hs : |s| = 1)
    (h : ((IRect.new M position ⟨0, s, 0⟩ W H).findClosestIntersection ray hit).t ≠ FLT_MAX) :
    |((IRect.new M position ⟨0, s, 0⟩ W H).findClosestIntersection ray hit).interceptPoint.x
      - position.x| < W / 2 ∧
    ((IRect.new M position ⟨0, s, 0⟩ W H).findClosestIntersection ray hit).interceptPoint.y
      = position.y ∧
    |((IRect.new M position ⟨0, s, 0⟩ W H).findClosestIntersection ray hit).interceptPoint.z
      - position.z| < H / 2 := by
  have h0 : |(⟨0, s, 0⟩ : Vec3 K).x| ≠ 1 := by simp
  rw [IRect.findClosestIntersection_y M position ⟨0, s, 0⟩ W H ray hit h0 hs] at h ⊢
  obtain ⟨hp, ⟨h1, h2⟩, h3, h4⟩ := (reject_t_ne_iff _ _).1.mp h
  rw [(reject_t_ne_iff _ _).2 h]
  exact ⟨abs_lt.mpr ⟨by linarith, by linarith⟩, IPlane.hit_axis_y M position s ray hit hp,
    abs_lt.mpr ⟨by linarith, by linarith⟩⟩

/-- The same for a normal along the z axis. -/
theorem IRect.hit_bounds_z (M : MathOps K) (position : Vec3 K) (s W H : K) (ray : Ray K)
    (hit : HitRecord K) (hs : |s| = 1)
    (h : ((IRect.new M position ⟨0, 0, s⟩ W H).findClosestIntersection ray hit).t ≠ FLT_MAX) :
    |((IRect.new M position ⟨0, 0, s⟩ W H).findClosestIntersection ray hit).interceptPoint.x
      - position.x| < W / 2 ∧
    |((IRect.new M position ⟨0, 0, s⟩ W H).findClosestIntersection ray hit).interceptPoint.y
      - position.y| < H / 2 ∧
    ((IRect.new M position ⟨0, 0, s⟩ W H).findClosestIntersection ray hit).interceptPoint.z
      = position.z := by
  have h0 : |(⟨0, 0, s⟩ : Vec3 K).x| ≠ 1 := by simp
  have h1 : |(⟨0, 0, s⟩ : Vec3 K).y| ≠ 1 := by simp
  rw [IRect.findClosestIntersection_z M position ⟨0, 0, s⟩ W H ray hit h0 h1 hs] at h ⊢
  obtain ⟨hp, ⟨h1, h2⟩, h3, h4⟩ := (reject_t_ne_iff _ _).1.mp h
  rw [(reject_t_ne_iff _ _).2 h]
  exact ⟨abs_lt.mpr ⟨by linarith, by linarith⟩, abs_lt.mpr ⟨by linarith, by linarith⟩,
    IPlane.hit_axis_z M position s ray hit hp⟩

/-- The six rectangles that the constructor `IBox(center, size)` stores. -/
theorem IBox.new_rects (M : MathOps K) (center size : Vec3 K) :
    (IBox.new M center size).rects =
      [ IRect.new M ⟨center.x + size.x / 2, center.y, center.z⟩ ⟨1, 0, 0⟩ size.y size.z,
        IRect.new M ⟨center.x - size.x / 2, center.y, center.z⟩ ⟨-1, 0, 0⟩ size.y size.z,
        IRect.new M ⟨center.x, center.y + size.y / 2, center.z⟩ ⟨0, 1, 0⟩ size.x size.z,
        IRect.new M ⟨center.x, center.y - size.y / 2, center.z⟩ ⟨0, -1, 0⟩ size.x size.z,
        IRect.new M ⟨center.x, center.y, center.z + size.z / 2⟩ ⟨0, 0, 1⟩ size.x size.y,
        IRect.new M ⟨center.x, center.y, center.z - size.z / 2⟩ ⟨0, 0, -1⟩ size.x size.y ] := by
  have e1 : center + (⟨((1 / 2 : K) * size : Vec3 K).x, 0, 0⟩ : Vec3 K)
      = ⟨center.x + size.x / 2, center.y, center.z⟩ := by
    ext <;> simp
    ring
  have e2 : center - (⟨((1 / 2 : K) * size : Vec3 K).x, 0, 0⟩ : Vec3 K)
      = ⟨center.x - size.x / 2, center.y, center.z⟩ := by
    ext <;> simp
    ring
  have e3 : center + (⟨0, ((1 / 2 : K) * size : Vec3 K).y, 0⟩ : Vec3 K)
      = ⟨center.x, center.y + size.y / 2, center.z⟩ := by
    ext <;> simp
    ring
  have e4 : center - (⟨0, ((1 / 2 : K) * size : Vec3 K).y, 0⟩ : Vec3 K)
      = ⟨center.x, center.y - size.y / 2, center.z⟩ := by
    ext <;> simp
    ring
  have e5 : center + (⟨0, 0, ((1 / 2 : K) * size : Vec3 K).z⟩ : Vec3 K)
      = ⟨center.x, center.y, center.z + size.z / 2⟩ := by
    ext <;> simp
    ring
  have e6 : center - (⟨0, 0, ((1 / 2 : K) * size : Vec3 K).z⟩ : Vec3 K)
      = ⟨center.x, center.y, center.z - size.z / 2⟩ := by
    ext <;> simp
    ring
  simp only [IBox.new, e1, e2, e3, e4, e5, e6]

/-- C22: the constructor `IBox(center, size)` stores exactly six rectangles, the
faces at `center ± size_i/2` along each axis, spanning the two other sizes.  For
a record `hit` with `t = FLT_MAX`, `IBox::findClosestIntersection` returns the
record with the smallest `t` among the records the six faces report for fresh
records (`hit` itself when none is below `FLT_MAX`); it reports a hit exactly
when one of the faces does, and for a box with non-negative sizes a reported hit
point `p` satisfies `|p_i - center_i| ≤ size_i/2` on the three axes. -/
theorem C22_box_six_faces_min (M : MathOps K) (center size : Vec3 K) (ray : Ray K)
    (hit : HitRecord K) (hfresh : hit.t = FLT_MAX) :
    (IBox.new M center size).rects =
      [ IRect.new M ⟨center.x + size.x / 2, center.y, center.z⟩ ⟨1, 0, 0⟩ size.y size.z,
        IRect.new M ⟨center.x - size.x / 2, center.y, center.z⟩ ⟨-1, 0, 0⟩ size.y size.z,
        IRect.new M ⟨center.x, center.y + size.y / 2, center.z⟩ ⟨0, 1, 0⟩ size.x size.z,
        IRect.new M ⟨center.x, center.y - size.y / 2, center.z⟩ ⟨0, -1, 0⟩ size.x size.z,
        IRect.new M ⟨center.x, center.y, center.z + size.z / 2⟩ ⟨0, 0, 1⟩ size.x size.y,
        IRect.new M ⟨center.x, center.y, center.z - size.z / 2⟩ ⟨0, 0, -1⟩ size.x size.y ] ∧
    (IBox.new M center size).rects.length = 6 ∧
    (∀ rect ∈ (IBox.new M center size).rects,
      ((IBox.new M center size).findClosestIntersection ray hit).t
        ≤ (rect.findClosestIntersection ray HitRecord.new).t) ∧
    ((IBox.new M center size).findClosestIntersection ray hit = hit ∨
      ∃ rect ∈ (IBox.new M center size).rects,
        (IBox.new M center size).findClosestIntersection ray hit
          = rect.findClosestIntersection ray HitRecord.new) ∧
    (((IBox.new M center size).findClosestIntersection ray hit).t < FLT_MAX ↔
      ∃ rect ∈ (IBox.new M center size).rects,
        (rect.findClosestIntersection ray HitRecord.new).t < FLT_MAX) ∧
    ((∀ rect ∈ (IBox.new M center size).rects,
        (rect.findClosestIntersection ray HitRecord.new).t ≤ FLT_MAX) →
      (((IBox.new M center size).findClosestIntersection ray hit).t = FLT_MAX ↔
        ∀ rect ∈ (IBox.new M center size).rects,
          (rect.findClosestIntersection ray HitRecord.new).t = FLT_MAX)) ∧
    (0 ≤ size.x → 0 ≤ size.y → 0 ≤ size.z →
      ((IBox.new M center size).findClosestIntersection ray hit).t ≠ FLT_MAX →
      |((IBox.new M center size).findClosestIntersection ray hit).interceptPoint.x - center.x|
        ≤ size.x / 2 ∧
      |((IBox.new M center size).findClosestIntersection ray hit).interceptPoint.y - center.y|
        ≤ size.y / 2 ∧
      |((IBox.new M center size).findClosestIntersection ray hit).interceptPoint.z - center.z|
        ≤ size.z / 2) := by
  obtain ⟨ha, hb, hc⟩ := IBox.findClosestIntersection_spec ray (IBox.new M center size).rects hit
  have hB : (⟨(IBox.new M center size).rects⟩ : IBox K) = IBox.new M center size := rfl
  rw [hB] at ha hb hc
  have hc2 : (IBox.new M center size).findClosestIntersection ray hit = hit ∨
      ∃ rect ∈ (IBox.new M center size).rects,
        (IBox.new M center size).findClosestIntersection ray hit
          = rect.findClosestIntersection ray HitRecord.new := by
    rcases hc with h | ⟨r, hr, e, -⟩
    · exact Or.inl h
    · exact Or.inr ⟨r, hr, e⟩
  refine ⟨IBox.new_rects M center size, by rw [IBox.new_rects]; rfl, hb, hc2, ?_, ?_, ?_⟩
  · constructor
    · intro hlt
      rcases hc with h | ⟨r, hr, e, hl⟩
      · rw [h, hfresh] at hlt
        exact absurd hlt (lt_irrefl _)
      · exact ⟨r, hr, by rw [← e]; exact hlt⟩
    · rintro ⟨r, hr, hl⟩
      exact lt_of_le_of_lt (hb r hr) hl
  · intro hrange
    constructor
    · intro h r hr
      exact le_antisymm (hrange r hr) (by rw [← h]; exact hb r hr)
    · intro h
      rcases hc with h1 | ⟨r, hr, e, -⟩
      · rw [h1, hfresh]
      · rw [e]; exact h r hr
  · intro hx hy hz hne
    rcases hc with h1 | ⟨r, hr, e, -⟩
    · rw [h1] at hne
      exact absurd hfresh hne
    · rw [e] at hne ⊢
      rw [IBox.new_rects] at hr
      simp only [List.mem_cons, List.mem_singleton, List.not_mem_nil, or_false] at hr
      rcases hr with h | h | h | h | h | h
      · subst h
        obtain ⟨b1, b2, b3⟩ := IRect.hit_bounds_x M _ 1 _ _ ray HitRecord.new (by simp) hne
        simp only at b1 b2 b3
        rw [b1]
        refine ⟨?_, b2.le, b3.le⟩
        rw [abs_le]
        constructor <;> linarith
      · subst h
        obtain ⟨b1, b2, b3⟩ := IRect.hit_bounds_x M _ (-1) _ _ ray HitRecord.new (by simp) hne
        simp only at b1 b2 b3
        rw [b1]
        refine ⟨?_, b2.le, b3.le⟩
        rw [abs_le]
        constructor <;> linarith
      · subst h
        obtain ⟨b1, b2, b3⟩ := IRect.hit_bounds_y M _ 1 _ _ ray HitRecord.new (by simp) hne
        simp only at b1 b2 b3
        rw [b2]
        refine ⟨b1.le, ?_, b3.le⟩
        rw [abs_le]
        constructor <;> linarith
      · subst h
        obtain ⟨b1, b2, b3⟩ := IRect.hit_bounds_y M _ (-1) _ _ ray HitRecord.new (by simp) hne
        simp only at b1 b2 b3
        rw [b2]
        refine ⟨b1.le, ?_, b3.le⟩
        rw [abs_le]
        constructor <;> linarith
      · subst h
        obtain ⟨b1, b2, b3⟩ := IRect.hit_bounds_z M _ 1 _ _ ray HitRecord.new (by simp) hne
        simp only at b1 b2 b3
        rw [b3]
        refine ⟨b1.le, b2.le, ?_⟩
        rw [abs_le]
        constructor <;> linarith
      · subst h
        obtain ⟨b1, b2, b3⟩ := IRect.hit_bounds_z M _ (-1) _ _ ray HitRecord.new (by simp) hne
        simp only at b1 b2 b3
        rw [b3]
        refine ⟨b1.le, b2.le, ?_⟩
        rw [abs_le]
        constructor <;> linarith

/-- C22, run: the ray from (0, 0, 5) along -z enters `exampleBox` through the face
`z = 1` at `t = 4`; the reported point lies within the box. -/
theorem C22_box_witness :
    (HitRecord.new : HitRecord ℚ).t = FLT_MAX ∧
    (exampleBox.findClosestIntersection ⟨⟨0, 0, 5⟩, ⟨0, 0, -1⟩⟩ HitRecord.new).t = 4 ∧
    (|(exampleBox.findClosestIntersection ⟨⟨0, 0, 5⟩, ⟨0, 0, -1⟩⟩ HitRecord.new).interceptPoint.x
        - 0| ≤ (2 : ℚ) / 2 ∧
     |(exampleBox.findClosestIntersection ⟨⟨0, 0, 5⟩, ⟨0, 0, -1⟩⟩ HitRecord.new).interceptPoint.y
        - 0| ≤ (2 : ℚ) / 2 ∧
     |(exampleBox.findClosestIntersection ⟨⟨0, 0, 5⟩, ⟨0, 0, -1⟩⟩ HitRecord.new).interceptPoint.z
        - 0| ≤ (2 : ℚ) / 2) := by
  have ht : (exampleBox.findClosestIntersection ⟨⟨0, 0, 5⟩, ⟨0, 0, -1⟩⟩ HitRecord.new).t
      = 4 := by
    norm_num [exampleBox, IBox.new, IBox.findClosestIntersection, IRect.new,
      IRect.findClosestIntersection, IPlane.findClosestIntersection, IPlane.new, normalize,
      dot, HitRecord.new, ratOps, ratSqrt_one, Ray.getPoint, FLT_MAX, inRangeExclusive,
      Vec3.get_zero, Vec3.get_one, Vec3.get_two]
  refine ⟨rfl, ht, ?_⟩
  exact (C22_box_six_faces_min ratOps (⟨0, 0, 0⟩ : Vec3 ℚ) ⟨2, 2, 2⟩ ⟨⟨0, 0, 5⟩, ⟨0, 0, -1⟩⟩
    HitRecord.new rfl).2.2.2.2.2.2 (by norm_num) (by norm_num) (by norm_num)
    (by
      have h := ht
      unfold exampleBox at h
      rw [h]
      norm_num [FLT_MAX])

/-- C23: the closed cylinder `ICloseCylinderY(pos, rad, len)` owns the top cap
(centre `pos + (0, len/2, 0)`, normal +y, radius `rad`), the bottom cap (centre
`pos - (0, len/2, 0)`, normal -y, radius `rad`) and the lateral cylinder
`ICylinderY(pos, rad, len)`.  For a record `hit` with `t = FLT_MAX` its
`findClosestIntersection` returns the record with the smallest `t` among the
records the three parts report for fresh records (`hit` itself when none is
below `FLT_MAX`); it reports a hit exactly when one of the parts does. -/
theorem C23_closeCylinderY_min_of_parts (M : MathOps K) (pos : Vec3 K) (rad len : K)
    (ray : Ray K) (hit : HitRecord K) (hits : HitBuf K) (hfresh : hit.t = FLT_MAX) :
    (ICloseCylinderY.new pos rad len).topDisk
        = ⟨⟨pos.x, pos.y + len / 2, pos.z⟩, ⟨0, 1, 0⟩, rad⟩ ∧
    (ICloseCylinderY.new pos rad len).bottomDisk
        = ⟨⟨pos.x, pos.y - len / 2, pos.z⟩, ⟨0, -1, 0⟩, rad⟩ ∧
    (ICloseCylinderY.new pos rad len).toICylinderY = ICylinderY.new pos rad len ∧
    (((ICloseCylinderY.new pos rad len).findClosestIntersection M ray hit hits).1.t
      = min FLT_MAX
          (min ((⟨⟨pos.x, pos.y + len / 2, pos.z⟩, ⟨0, 1, 0⟩, rad⟩ : IDisk K).findClosestIntersection
                  M ray HitRecord.new).t
            (min ((⟨⟨pos.x, pos.y - len / 2, pos.z⟩, ⟨0, -1, 0⟩, rad⟩ : IDisk K).findClosestIntersection
                    M ray HitRecord.new).t
              ((ICylinderY.new pos rad len).findClosestIntersection M ray HitRecord.new hits).1.t))) ∧
    (((ICloseCylinderY.new pos rad len).findClosestIntersection M ray hit hits).1 = hit ∨
      ((ICloseCylinderY.new pos rad len).findClosestIntersection M ray hit hits).1
        = (⟨⟨pos.x, pos.y + len / 2, pos.z⟩, ⟨0, 1, 0⟩, rad⟩ : IDisk K).findClosestIntersection
            M ray HitRecord.new ∨
      ((ICloseCylinderY.new pos rad len).findClosestIntersection M ray hit hits).1
        = (⟨⟨pos.x, pos.y - len / 2, pos.z⟩, ⟨0, -1, 0⟩, rad⟩ : IDisk K).findClosestIntersection
            M ray HitRecord.new ∨
      ((ICloseCylinderY.new pos rad len).findClosestIntersection M ray hit hits).1
        = ((ICylinderY.new pos rad len).findClosestIntersection M ray HitRecord.new hits).1) ∧
    (((ICloseCylinderY.new pos rad len).findClosestIntersection M ray hit hits).1.t < FLT_MAX ↔
      ((⟨⟨pos.x, pos.y + len / 2, pos.z⟩, ⟨0, 1, 0⟩, rad⟩ : IDisk K).findClosestIntersection
          M ray HitRecord.new).t < FLT_MAX ∨
      ((⟨⟨pos.x, pos.y - len / 2, pos.z⟩, ⟨0, -1, 0⟩, rad⟩ : IDisk K).findClosestIntersection
          M ray HitRecord.new).t < FLT_MAX ∨
      ((ICylinderY.new pos rad len).findClosestIntersection M ray HitRecord.new hits).1.t
        < FLT_MAX) ∧
    (((⟨⟨pos.x, pos.y + len / 2, pos.z⟩, ⟨0, 1, 0⟩, rad⟩ : IDisk K).findClosestIntersection
          M ray HitRecord.new).t ≤ FLT_MAX →
      ((⟨⟨pos.x, pos.y - len / 2, pos.z⟩, ⟨0, -1, 0⟩, rad⟩ : IDisk K).findClosestIntersection
          M ray HitRecord.new).t ≤ FLT_MAX →
      ((ICylinderY.new pos rad len).findClosestIntersection M ray HitRecord.new hits).1.t
        ≤ FLT_MAX →
      (((ICloseCylinderY.new pos rad len).findClosestIntersection M ray hit hits).1.t = FLT_MAX ↔
        ((⟨⟨pos.x, pos.y + len / 2, pos.z⟩, ⟨0, 1, 0⟩, rad⟩ : IDisk K).findClosestIntersection
            M ray HitRecord.new).t = FLT_MAX ∧
        ((⟨⟨pos.x, pos.y - len / 2, pos.z⟩, ⟨0, -1, 0⟩, rad⟩ : IDisk K).findClosestIntersection
            M ray HitRecord.new).t = FLT_MAX ∧
        ((ICylinderY.new pos rad len).findClosestIntersection M ray HitRecord.new hits).1.t
          = FLT_MAX)) := by
  have e1 : (ICloseCylinderY.new pos rad len).topDisk
      = ⟨⟨pos.x, pos.y + len / 2, pos.z⟩, ⟨0, 1, 0⟩, rad⟩ := rfl
  have e2 : (ICloseCylinderY.new pos rad len).bottomDisk
      = ⟨⟨pos.x, pos.y - len / 2, pos.z⟩, ⟨0, -1, 0⟩, rad⟩ := rfl
  have e3 : (ICloseCylinderY.new pos rad len).toICylinderY = ICylinderY.new pos rad len := rfl
  refine ⟨e1, e2, e3, ?_⟩
  unfold ICloseCylinderY.findClosestIntersection
  simp only [e1, e2, e3, hfresh]
  generalize ((⟨⟨pos.x, pos.y + len / 2, pos.z⟩, ⟨0, 1, 0⟩, rad⟩ : IDisk K).findClosestIntersection
    M ray HitRecord.new) = top
  generalize ((⟨⟨pos.x, pos.y - len / 2, pos.z⟩, ⟨0, -1, 0⟩, rad⟩ : IDisk K).findClosestIntersection
    M ray HitRecord.new) = bot
  generalize ((ICylinderY.new pos rad len).findClosestIntersection M ray HitRecord.new hits).1 = lat
  have ha : (if lat.t < (if bot.t < (if top.t < FLT_MAX then top else hit).t then bot
        else if top.t < FLT_MAX then top else hit).t then lat
      else if bot.t < (if top.t < FLT_MAX then top else hit).t then bot
        else if top.t < FLT_MAX then top else hit).t
      = min FLT_MAX (min top.t (min bot.t lat.t)) := by
    simp only [min_def]
    split_ifs <;> first | rfl | exact hfresh | linarith
  refine ⟨ha, ?_, ?_, ?_⟩
  · split_ifs <;> simp
  · rw [ha]
    simp only [min_lt_iff, lt_self_iff_false, false_or]
  · intro g1 g2 g3
    rw [ha]
    constructor
    · intro h
      have h4 : FLT_MAX ≤ min top.t (min bot.t lat.t) := min_eq_left_iff.mp h
      have h5 := le_min_iff.mp h4
      have h6 := le_min_iff.mp h5.2
      exact ⟨le_antisymm g1 h5.1, le_antisymm g2 h6.1, le_antisymm g3 h6.2⟩
    · rintro ⟨f1, f2, f3⟩
      rw [f1, f2, f3]
      simp

/-- C23, run: the ray from (-3, 5, 0) along (3/5, -4/5, 0) meets the top cap of
`exampleCloseCylinderY` at `t = 5`, misses the bottom cap and meets the lateral
surface at `t = 20/3`; the closed cylinder reports `t = 5`. -/
theorem C23_closeCylinderY_witness :
    (HitRecord.new : HitRecord ℚ).t = FLT_MAX ∧
    ((⟨⟨0, 1, 0⟩, ⟨0, 1, 0⟩, 1⟩ : IDisk ℚ).findClosestIntersection ratOps
      ⟨⟨-3, 5, 0⟩, ⟨3 / 5, -4 / 5, 0⟩⟩ HitRecord.new).t = 5 ∧
    ((⟨⟨0, -1, 0⟩, ⟨0, -1, 0⟩, 1⟩ : IDisk ℚ).findClosestIntersection ratOps
      ⟨⟨-3, 5, 0⟩, ⟨3 / 5, -4 / 5, 0⟩⟩ HitRecord.new).t = FLT_MAX ∧
    ((ICylinderY.new (⟨0, 0, 0⟩ : Vec3 ℚ) 1 2).findClosestIntersection ratOps
      ⟨⟨-3, 5, 0⟩, ⟨3 / 5, -4 / 5, 0⟩⟩ HitRecord.new HitBuf.init).1.t = 20 / 3 ∧
    (exampleCloseCylinderY.findClosestIntersection ratOps
      ⟨⟨-3, 5, 0⟩, ⟨3 / 5, -4 / 5, 0⟩⟩ HitRecord.new HitBuf.init).1.t = 5 := by
  have hs0 : ratSqrt 0 = 0 := by norm_num [ratSqrt, isqrtAux]
  have hs1 : ratSqrt (9 / 4) = 3 / 2 := by norm_num [ratSqrt, isqrtAux]
  have hs2 : ratSqrt (36 / 25) = 6 / 5 := by norm_num [ratSqrt, isqrtAux]
  have htop : ((⟨⟨0, 1, 0⟩, ⟨0, 1, 0⟩, 1⟩ : IDisk ℚ).findClosestIntersection ratOps
      ⟨⟨-3, 5, 0⟩, ⟨3 / 5, -4 / 5, 0⟩⟩ HitRecord.new).t = 5 := by
    norm_num [IDisk.findClosestIntersection, IPlane.findClosestIntersection, IPlane.new,
      normalize, dot, distance, length, HitRecord.new, ratOps, ratSqrt_one, Ray.getPoint,
      FLT_MAX, hs0]
  have hbot : ((⟨⟨0, -1, 0⟩, ⟨0, -1, 0⟩, 1⟩ : IDisk ℚ).findClosestIntersection ratOps
      ⟨⟨-3, 5, 0⟩, ⟨3 / 5, -4 / 5, 0⟩⟩ HitRecord.new).t = FLT_MAX := by
    norm_num [IDisk.findClosestIntersection, IPlane.findClosestIntersection, IPlane.new,
      normalize, dot, distance, length, HitRecord.new, ratOps, ratSqrt_one, Ray.getPoint,
      FLT_MAX, hs1]
  have hlat : ((ICylinderY.new (⟨0, 0, 0⟩ : Vec3 ℚ) 1 2).findClosestIntersection ratOps
      ⟨⟨-3, 5, 0⟩, ⟨3 / 5, -4 / 5, 0⟩⟩ HitRecord.new HitBuf.init).1.t = 20 / 3 := by
    rw [cylinderY_t_eq]
    norm_num [positiveRoots, quadratic, ICylinderY.inBound, ICylinderY.new,
      ICylinder.computeAqBqCq, QuadricParameters.cylinderYQParams,
      IQuadricSurface.new, ratOps, hs2]
  have h := (C23_closeCylinderY_min_of_parts ratOps (⟨0, 0, 0⟩ : Vec3 ℚ) 1 2
    ⟨⟨-3, 5, 0⟩, ⟨3 / 5, -4 / 5, 0⟩⟩ HitRecord.new HitBuf.init rfl).2.2.2.1
  have e : (2 : ℚ) / 2 = 1 := by norm_num
  simp only [zero_add, zero_sub, e] at h
  refine ⟨rfl, htop, hbot, hlat, ?_⟩
  unfold exampleCloseCylinderY
  rw [h, htop, hbot, hlat]
  norm_num [FLT_MAX]

/-- A vector with `dot v v = 0` is the zero vector. -/
theorem dot_self_eq_zero (v : Vec3 K) (h : dot v v = 0) : v = 0 := by
  unfold dot at h
  have hx : v.x * v.x = 0 := by
    nlinarith [mul_self_nonneg v.x, mul_self_nonneg v.y, mul_self_nonneg v.z]
  have hy : v.y * v.y = 0 := by
    nlinarith [mul_self_nonneg v.x, mul_self_nonneg v.y, mul_self_nonneg v.z]
  have hz : v.z * v.z = 0 := by
    nlinarith [mul_self_nonneg v.x, mul_self_nonneg v.y, mul_self_nonneg v.z]
  ext
  · simpa using mul_self_eq_zero.mp hx
  · simpa using mul_self_eq_zero.mp hy
  · simpa using mul_self_eq_zero.mp hz

/-- A non-zero vector has `dot v v > 0`. -/
theorem dot_self_pos (v : Vec3 K) (h : v ≠ 0) : 0 < dot v v := by
  have h0 : 0 ≤ dot v v := by
    unfold dot
    nlinarith [mul_self_nonneg v.x, mul_self_nonneg v.y, mul_self_nonneg v.z]
  exact lt_of_le_of_ne h0 (fun h1 => h (dot_self_eq_zero v h1.symm))

/-- The weights computed by `ITriangle::inside` for a point with barycentric
coordinates `(α, β, γ)`: before the division by `n2` they are `α`, `β`, `γ` times
`dot(n, n)`. -/
theorem barycentric_weights (a b c pt : Vec3 K) (α β γ : K) (hsum : α + β + γ = 1)
    (hpt : pt = α * a + β * b + γ * c) :
    dot (cross (b - a) (c - a)) (cross (c - b) (pt - b))
      = α * dot (cross (b - a) (c - a)) (cross (b - a) (c - a)) ∧
    dot (cross (b - a) (c - a)) (cross (a - c) (pt - c))
      = β * dot (cross (b - a) (c - a)) (cross (b - a) (c - a)) ∧
    dot (cross (b - a) (c - a)) (cross (b - a) (pt - a))
      = γ * dot (cross (b - a) (c - a)) (cross (b - a) (c - a)) := by
  have hβ : β = 1 - α - γ := by linarith
  subst hpt
  subst hβ
  refine ⟨?_, ?_, ?_⟩ <;>
  · simp only [dot, cross, Vec3.sub_x, Vec3.sub_y, Vec3.sub_z, Vec3.add_x, Vec3.add_y,
      Vec3.add_z, Vec3.smul_x, Vec3.smul_y, Vec3.smul_z]
    ring

/-- A point of the plane of the triangle is the combination of the vertices with
the weights computed by `ITriangle::inside`; the weights add up to 1. -/
theorem barycentric_exists (a b c pt : Vec3 K)
    (hn : dot (cross (b - a) (c - a)) (cross (b - a) (c - a)) ≠ 0)
    (hplane : dot (cross (b - a) (c - a)) (pt - a) = 0) :
    dot (cross (b - a) (c - a)) (cross (c - b) (pt - b))
        / dot (cross (b - a) (c - a)) (cross (b - a) (c - a))
      + dot (cross (b - a) (c - a)) (cross (a - c) (pt - c))
        / dot (cross (b - a) (c - a)) (cross (b - a) (c - a))
      + dot (cross (b - a) (c - a)) (cross (b - a) (pt - a))
        / dot (cross (b - a) (c - a)) (cross (b - a) (c - a)) = 1 ∧
    pt = (dot (cross (b - a) (c - a)) (cross (c - b) (pt - b))
            / dot (cross (b - a) (c - a)) (cross (b - a) (c - a))) * a
        + (dot (cross (b - a) (c - a)) (cross (a - c) (pt - c))
            / dot (cross (b - a) (c - a)) (cross (b - a) (c - a))) * b
        + (dot (cross (b - a) (c - a)) (cross (b - a) (pt - a))
            / dot (cross (b - a) (c - a)) (cross (b - a) (c - a))) * c := by
  constructor
  · rw [← add_div, ← add_div, div_eq_one_iff_eq hn]
    simp only [dot, cross, Vec3.sub_x, Vec3.sub_y, Vec3.sub_z]
    ring
  · simp only [dot, cross, Vec3.sub_x, Vec3.sub_y, Vec3.sub_z] at hn hplane
    ext
    · simp only [dot, cross, Vec3.sub_x, Vec3.sub_y, Vec3.sub_z, Vec3.add_x, Vec3.smul_x]
      field_simp
      linear_combination ((b.y - a.y) * (c.z - a.z) - (c.y - a.y) * (b.z - a.z)) * hplane
    · simp only [dot, cross, Vec3.sub_x, Vec3.sub_y, Vec3.sub_z, Vec3.add_y, Vec3.smul_y]
      field_simp
      linear_combination ((b.z - a.z) * (c.x - a.x) - (c.z - a.z) * (b.x - a.x)) * hplane
    · simp only [dot, cross, Vec3.sub_x, Vec3.sub_y, Vec3.sub_z, Vec3.add_z, Vec3.smul_z]
      field_simp
      linear_combination ((b.x - a.x) * (c.y - a.y) - (c.x - a.x) * (b.y - a.y)) * hplane

/-- The value of `ITriangle::inside` for a point with barycentric coordinates
`(α, β, γ)`, when `n2` is computed exactly. -/
theorem ITriangle.inside_iff (M : MathOps K) (a b c pt : Vec3 K) (α β γ : K)
    (hnd : cross (b - a) (c - a) ≠ 0)
    (hn2 : M.pow (length M (cross (b - a) (c - a))) 2
      = dot (cross (b - a) (c - a)) (cross (b - a) (c - a)))
    (hsum : α + β + γ = 1) (hpt : pt = α * a + β * b + γ * c) :
    (ITriangle.new M a b c).inside M pt = true ↔
      (0 < α ∧ α < 1) ∧ (0 < β ∧ β < 1) ∧ (0 < γ ∧ γ < 1) := by
  have hN : dot (cross (b - a) (c - a)) (cross (b - a) (c - a)) ≠ 0 :=
    ne_of_gt (dot_self_pos _ hnd)
  obtain ⟨h1, h2, h3⟩ := barycentric_weights a b c pt α β γ hsum hpt
  unfold ITriangle.inside
  simp only [ITriangle.new, hn2, h1, h2, h3, mul_div_assoc, div_self hN, mul_one,
    inRangeExclusive, Bool.and_eq_true, decide_eq_true_eq, gt_iff_lt]
  tauto

/-- C24: for a non-degenerate triangle `(a, b, c)` (with `n2 = pow(length(n), 2)`
computed exactly) and a point `pt` with barycentric coordinates `(α, β, γ)`,
`α + β + γ = 1`, `ITriangle::inside(pt)` is true exactly when each of `α`, `β`,
`γ` lies strictly between 0 and 1; every point of the plane of the triangle has
such coordinates, so for these points `inside(pt)` holds exactly when `pt` is
such a combination with weights strictly between 0 and 1.
`ITriangle::findClosestIntersection` reports a hit exactly when the plane
through the vertices is hit and its intercept point is inside. -/
theorem C24_triangle_inside_barycentric (M : MathOps K) (a b c pt : Vec3 K)
    (hnd : cross (b - a) (c - a) ≠ 0)
    (hn2 : M.pow (length M (cross (b - a) (c - a))) 2
      = dot (cross (b - a) (c - a)) (cross (b - a) (c - a))) :
    (∀ α β γ : K, α + β + γ = 1 → pt = α * a + β * b + γ * c →
      ((ITriangle.new M a b c).inside M pt = true ↔
        (0 < α ∧ α < 1) ∧ (0 < β ∧ β < 1) ∧ (0 < γ ∧ γ < 1))) ∧
    (dot (cross (b - a) (c - a)) (pt - a) = 0 →
      ((ITriangle.new M a b c).inside M pt = true ↔
        ∃ α β γ : K, α + β + γ = 1 ∧ (0 < α ∧ α < 1) ∧ (0 < β ∧ β < 1) ∧ (0 < γ ∧ γ < 1) ∧
          pt = α * a + β * b + γ * c)) ∧
    (∀ (ray : Ray K) (hit : HitRecord K),
      (((ITriangle.new M a b c).findClosestIntersection M ray hit).t ≠ FLT_MAX ↔
        ((IPlane.ofPoints M a b c).findClosestIntersection ray hit).t ≠ FLT_MAX ∧
        (ITriangle.new M a b c).inside M
          ((IPlane.ofPoints M a b c).findClosestIntersection ray hit).interceptPoint = true)) := by
  have hN : dot (cross (b - a) (c - a)) (cross (b - a) (c - a)) ≠ 0 :=
    ne_of_gt (dot_self_pos _ hnd)
  refine ⟨fun α β γ hsum hpt => ITriangle.inside_iff M a b c pt α β γ hnd hn2 hsum hpt, ?_, ?_⟩
  · intro hplane
    obtain ⟨hsum, hpt⟩ := barycentric_exists a b c pt hN hplane
    constructor
    · intro hin
      exact ⟨_, _, _, hsum,
        ((ITriangle.inside_iff M a b c pt _ _ _ hnd hn2 hsum hpt).mp hin).1,
        ((ITriangle.inside_iff M a b c pt _ _ _ hnd hn2 hsum hpt).mp hin).2.1,
        ((ITriangle.inside_iff M a b c pt _ _ _ hnd hn2 hsum hpt).mp hin).2.2, hpt⟩
    · rintro ⟨α, β, γ, hs, h1, h2, h3, hp⟩
      exact (ITriangle.inside_iff M a b c pt α β γ hnd hn2 hs hp).mpr ⟨h1, h2, h3⟩
  · intro ray hit
    unfold ITriangle.findClosestIntersection
    have hpl : (ITriangle.new M a b c).plane = IPlane.ofPoints M a b c := rfl
    simp only [hpl]
    by_cases hin : (ITriangle.new M a b c).inside M
        ((IPlane.ofPoints M a b c).findClosestIntersection ray hit).interceptPoint = true
    · simp [hin]
    · simp [hin]

/-- C24, run: in `exampleTriangle` the point (1/4, 1/4, 0), with weights
(1/2, 1/4, 1/4), is inside; the midpoint (1/2, 1/2, 0) of the edge opposite to
the first vertex, with weights (0, 1/2, 1/2), and the vertex (0, 0, 0), with
weights (1, 0, 0), are outside. -/
theorem C24_triangle_witness :
    exampleTriangle.inside ratOpsSq ⟨1 / 4, 1 / 4, 0⟩ = true ∧
    exampleTriangle.inside ratOpsSq ⟨1 / 2, 1 / 2, 0⟩ = false ∧
    exampleTriangle.inside ratOpsSq ⟨0, 0, 0⟩ = false := by
  have hnd : cross ((⟨1, 0, 0⟩ : Vec3 ℚ) - ⟨0, 0, 0⟩) ((⟨0, 1, 0⟩ : Vec3 ℚ) - ⟨0, 0, 0⟩) ≠ 0 := by
    intro h
    have hz := congrArg Vec3.z h
    norm_num [cross] at hz
  have hn2 : ratOpsSq.pow (length ratOpsSq
        (cross ((⟨1, 0, 0⟩ : Vec3 ℚ) - ⟨0, 0, 0⟩) ((⟨0, 1, 0⟩ : Vec3 ℚ) - ⟨0, 0, 0⟩))) 2
      = dot (cross ((⟨1, 0, 0⟩ : Vec3 ℚ) - ⟨0, 0, 0⟩) ((⟨0, 1, 0⟩ : Vec3 ℚ) - ⟨0, 0, 0⟩))
          (cross ((⟨1, 0, 0⟩ : Vec3 ℚ) - ⟨0, 0, 0⟩) ((⟨0, 1, 0⟩ : Vec3 ℚ) - ⟨0, 0, 0⟩)) := by
    norm_num [ratOpsSq, ratOps, length, dot, cross, ratSqrt_one]
  refine ⟨?_, ?_, ?_⟩
  · refine ((C24_triangle_inside_barycentric ratOpsSq ⟨0, 0, 0⟩ ⟨1, 0, 0⟩ ⟨0, 1, 0⟩
      ⟨1 / 4, 1 / 4, 0⟩ hnd hn2).1 (1 / 2) (1 / 4) (1 / 4) (by norm_num) ?_).mpr (by norm_num)
    ext <;> norm_num
  · rw [← Bool.not_eq_true]
    intro hin
    have h := ((C24_triangle_inside_barycentric ratOpsSq ⟨0, 0, 0⟩ ⟨1, 0, 0⟩ ⟨0, 1, 0⟩
      ⟨1 / 2, 1 / 2, 0⟩ hnd hn2).1 0 (1 / 2) (1 / 2) (by norm_num)
      (by ext <;> norm_num)).mp hin
    exact absurd h.1.1 (lt_irrefl _)
  · rw [← Bool.not_eq_true]
    intro hin
    have h := ((C24_triangle_inside_barycentric ratOpsSq ⟨0, 0, 0⟩ ⟨1, 0, 0⟩ ⟨0, 1, 0⟩
      ⟨0, 0, 0⟩ hnd hn2).1 1 0 0 (by norm_num) (by ext <;> norm_num)).mp hin
    exact absurd h.2.1.1 (lt_irrefl _)

/-- C25: the array overload of `quadratic` stores in `roots` the roots that the
vector overload returns, in the same order, and returns 2 for a positive and 1
for a zero discriminant; for a negative discriminant it leaves `roots`
untouched, the vector overload returns the empty vector, and the return value
is -1, not the number 0 of roots put into the array. -/
theorem C25_quadraticArr_returns_minus_one (M : MathOps K) (A B C : K) (roots : K × K) :
    (B * B - 4 * A * C > 0 →
      (quadraticArr M A B C roots).1 = 2 ∧
      quadratic M A B C = [(quadraticArr M A B C roots).2.1, (quadraticArr M A B C roots).2.2]) ∧
    (B * B - 4 * A * C = 0 →
      (quadraticArr M A B C roots).1 = 1 ∧
      quadratic M A B C = [(quadraticArr M A B C roots).2.1] ∧
      (quadraticArr M A B C roots).2.2 = roots.2) ∧
    (B * B - 4 * A * C < 0 →
      (quadraticArr M A B C roots).1 = -1 ∧
      quadratic M A B C = [] ∧
      (quadraticArr M A B C roots).2 = roots) := by
  refine ⟨fun h => ?_, fun h => ?_, fun h => ?_⟩
  · simp [quadraticArr, quadratic, h]
  · simp [quadraticArr, quadratic, h]
  · have h1 : ¬ (B * B - 4 * A * C > 0) := not_lt.mpr h.le
    have h2 : ¬ (B * B - 4 * A * C = 0) := h.ne
    simp [quadraticArr, quadratic, h1, h2]

/-- C25, run: `quadratic(1, 0, 1, roots)` (the equation `t^2 + 1 = 0`, `A ≠ 0`)
returns -1. -/
theorem C25_quadraticArr_witness :
    (1 : ℚ) ≠ 0 ∧ (quadraticArr ratOps 1 0 1 (0, 0)).1 = -1 ∧
    (quadraticArr ratOps 1 0 1 (0, 0)).1 ≠ 0 ∧ quadratic ratOps 1 0 1 = [] := by
  have h := (C25_quadraticArr_returns_minus_one ratOps 1 0 1 (0, 0)).2.2 (by norm_num)
  refine ⟨one_ne_zero, h.1, ?_, h.2.1⟩
  rw [h.1]
  decide

/-- The function `getLightColor` does not read the texture of the hit. -/
theorem RayTracer.getLightColor_texture (M : MathOps K) (rt : RayTracer K) (ray : Ray K)
    (theScene : IScene K) (theHit : HitRecord K) (tex : Option (Image K)) (result : color K)
    (st : Statics K) :
    rt.getLightColor M ray theScene { theHit with texture := tex } result st
      = rt.getLightColor M ray theScene theHit result st := rfl

/-- C26: the colour of a hit before the transparency step and the reflection
(`shadedColor`, the result of lines 75-84 of `traceIndividualRay` for the opaque
hit).  For a hit with a texture it is
`0.5 * getLightColor + 0.5 * texture.getPixel(clamp(u, 0, 1), clamp(v, 0, 1))`,
for a hit without a texture it is `getLightColor`.  The coordinates passed to
`getPixel` lie in [0, 1] whatever `u` and `v` are, and the colour does not
depend on the values of the texture outside the unit square. -/
theorem C26_texture_blend (M : MathOps K) (rt : RayTracer K) (ray : Ray K)
    (theScene : IScene K) (theHit : HitRecord K) (st : Statics K) :
    (RayTracer.shadedColor M rt ray theScene st
      = rt.shadeHit M ray theScene (RayTracer.opaqueHit M ray theScene st) ⟨0, 0, 0⟩
          (VisibleIShape.findIntersection M ray theScene.transparentObjects
            (VisibleIShape.findIntersection M ray theScene.visibleObjects st).2).2) ∧
    (∀ tex, theHit.texture = some tex →
      (rt.shadeHit M ray theScene theHit ⟨0, 0, 0⟩ st).1
        = (1 / 2 : K) * (rt.getLightColor M ray theScene theHit ⟨0, 0, 0⟩ st).1
          + (1 / 2 : K) * tex.getPixel (clamp theHit.u 0 1) (clamp theHit.v 0 1)) ∧
    (theHit.texture = none →
      (rt.shadeHit M ray theScene theHit ⟨0, 0, 0⟩ st).1
        = (rt.getLightColor M ray theScene theHit ⟨0, 0, 0⟩ st).1) ∧
    ((0 ≤ clamp theHit.u 0 1 ∧ clamp theHit.u 0 1 ≤ 1) ∧
      (0 ≤ clamp theHit.v 0 1 ∧ clamp theHit.v 0 1 ≤ 1)) ∧
    (∀ tex tex2 : Image K,
      (∀ u v, 0 ≤ u → u ≤ 1 → 0 ≤ v → v ≤ 1 → tex.getPixel u v = tex2.getPixel u v) →
      rt.shadeHit M ray theScene { theHit with texture := some tex } ⟨0, 0, 0⟩ st
        = rt.shadeHit M ray theScene { theHit with texture := some tex2 } ⟨0, 0, 0⟩ st) := by
  refine ⟨rfl, ?_, ?_, ⟨clamp_mem_unit _, clamp_mem_unit _⟩, ?_⟩
  · intro tex htex
    unfold RayTracer.shadeHit
    rw [htex]
    ext <;> simp <;> ring
  · intro htex
    unfold RayTracer.shadeHit
    rw [htex]
    ext <;> simp
  · intro tex tex2 hagree
    unfold RayTracer.shadeHit
    simp only [RayTracer.getLightColor_texture]
    rw [hagree _ _ (clamp_mem_unit _).1 (clamp_mem_unit _).2 (clamp_mem_unit _).1
      (clamp_mem_unit _).2]

/-- C26, run: a hit with texture coordinates (2, -1) in a scene without lights;
the texture is sampled at (1, 0) and the colour is `0.5 * (1, 0, 0)`. -/
theorem C26_texture_witness :
    exampleTexturedHit.texture = some exampleRampImage ∧
    exampleTexturedHit.u = 2 ∧ exampleTexturedHit.v = -1 ∧
    (exampleTracer.shadeHit ratOps exampleRay exampleScene exampleTexturedHit ⟨0, 0, 0⟩
      Statics.init).1 = ⟨1 / 2, 0, 0⟩ := by
  refine ⟨rfl, rfl, rfl, ?_⟩
  rw [(C26_texture_blend ratOps exampleTracer exampleRay exampleScene exampleTexturedHit
    Statics.init).2.1 exampleRampImage rfl]
  norm_num [RayTracer.getLightColor, exampleScene, exampleTexturedHit, exampleRampImage, clamp]
  ext <;> norm_num

theorem plane_onRay (p : IPlane K) (ray : Ray K) (hit : HitRecord K) :
    (p.findClosestIntersection ray hit).OnRay ray := by
  unfold HitRecord.OnRay IPlane.findClosestIntersection
  simp only
  split_ifs
  · intro h; exact absurd rfl h
  · intro h; exact absurd rfl h
  · intro _; rfl

theorem disk_onRay (M : MathOps K) (d : IDisk K) (ray : Ray K) (hit : HitRecord K) :
    (d.findClosestIntersection M ray hit).OnRay ray := by
  have hp := plane_onRay (IPlane.new M d.center d.n) ray hit
  unfold IDisk.findClosestIntersection
  simp only
  split_ifs
  · intro h; exact absurd rfl h
  · exact hp

theorem rect_onRay (r : IRect K) (ray : Ray K) (hit : HitRecord K) :
    (r.findClosestIntersection ray hit).OnRay ray := by
  have hp := plane_onRay r.plane ray hit
  unfold IRect.findClosestIntersection
  simp only
  split_ifs <;> first | exact hp | (intro h; exact absurd rfl h)

theorem box_onRay (b : IBox K) (ray : Ray K) (hit : HitRecord K) (hhit : hit.OnRay ray) :
    (b.findClosestIntersection ray hit).OnRay ray := by
  unfold IBox.findClosestIntersection
  generalize b.rects = rects
  induction rects generalizing hit with
  | nil => exact hhit
  | cons r rest ih =>
    simp only [List.foldl_cons]
    apply ih
    split_ifs
    · exact rect_onRay r ray _
    · exact hhit

theorem convexPolygon_onRay (p : IConvexPolygon K) (ray : Ray K) (hit : HitRecord K) :
    (p.findClosestIntersection ray hit).OnRay ray := by
  have hp := plane_onRay p.plane ray hit
  unfold IConvexPolygon.findClosestIntersection
  simp only
  split_ifs <;> first | exact hp | (intro h; exact (h rfl).elim)

theorem triangle_onRay (M : MathOps K) (tr : ITriangle K) (ray : Ray K) (hit : HitRecord K) :
    (tr.findClosestIntersection M ray hit).OnRay ray := by
  have hp := plane_onRay tr.plane ray hit
  unfold ITriangle.findClosestIntersection
  simp only
  split_ifs <;> first | exact hp | (intro h; exact (h rfl).elim)

theorem quadric_onRay (M : MathOps K) (q : IQuadricSurface K)
    (abc : Ray K → K × K × K) (ray : Ray K) (hit : HitRecord K) (hits : HitBuf K) :
    (q.findClosestIntersection M abc ray hit hits).1.OnRay ray := by
  rw [IQuadricSurface.findClosestIntersection_eq]
  cases (quadratic M (abc ray).1 (abc ray).2.1 (abc ray).2.2).find? (fun r => decide (0 < r)) with
  | none => intro h; exact absurd rfl h
  | some r => intro _; rfl

theorem cylinderY_onRay (M : MathOps K) (c : ICylinderY K) (ray : Ray K) (hit : HitRecord K)
    (hits : HitBuf K) : (c.findClosestIntersection M ray hit hits).1.OnRay ray := by
  unfold ICylinderY.findClosestIntersection
  simp only [IQuadricSurface.findIntersections_eq]
  rcases (quadratic M (c.toICylinder.computeAqBqCq ray).1 (c.toICylinder.computeAqBqCq ray).2.1
      (c.toICylinder.computeAqBqCq ray).2.2).filter (fun r => decide (0 < r)) with
    _ | ⟨r0, _ | ⟨r1, l⟩⟩
  · simp [HitRecord.OnRay]
  · simp only [find_range_one, HitBuf.get, if_true, HitRecord.withRoot]
    split_ifs <;> simp [HitRecord.OnRay]
  · simp only [find_range_two, HitBuf.get, if_true, HitRecord.withRoot, one_ne_zero, if_false]
    split_ifs <;> simp [HitRecord.OnRay]

theorem cylinderX_onRay (M : MathOps K) (c : ICylinderX K) (ray : Ray K) (hit : HitRecord K)
    (hits : HitBuf K) : (c.findClosestIntersection M ray hit hits).1.OnRay ray := by
  unfold ICylinderX.findClosestIntersection
  simp only [IQuadricSurface.findIntersections_eq]
  rcases (quadratic M (c.toICylinder.computeAqBqCq ray).1 (c.toICylinder.computeAqBqCq ray).2.1
      (c.toICylinder.computeAqBqCq ray).2.2).filter (fun r => decide (0 < r)) with
    _ | ⟨r0, _ | ⟨r1, l⟩⟩
  · simp [HitRecord.OnRay]
  · simp only [find_range_one, HitBuf.get, if_true, HitRecord.withRoot]
    split_ifs <;> simp [HitRecord.OnRay]
  · simp only [find_range_two, HitBuf.get, if_true, HitRecord.withRoot, one_ne_zero, if_false]
    split_ifs <;> simp [HitRecord.OnRay]

theorem coneY_onRay (M : MathOps K) (c : IConeY K) (ray : Ray K) (hit : HitRecord K)
    (hits : HitBuf K) (hhit : hit.OnRay ray) :
    (c.findClosestIntersection M ray hit hits).1.OnRay ray := by
  unfold IConeY.findClosestIntersection
  simp only [IQuadricSurface.findIntersections_eq]
  rcases (quadratic M (c.toIQuadricSurface.computeAqBqCq ray).1
      (c.toIQuadricSurface.computeAqBqCq ray).2.1
      (c.toIQuadricSurface.computeAqBqCq ray).2.2).filter (fun r => decide (0 < r)) with
    _ | ⟨r0, _ | ⟨r1, l⟩⟩
  · simp [HitRecord.OnRay]
  · simp only [find_range_one, HitBuf.get, if_true, HitRecord.withRoot]
    unfold HitRecord.OnRay at hhit ⊢
    by_cases h0 : r0 < hit.t <;> split_ifs <;>
      first | (simp [h0]; done) | (simpa [h0] using hhit)
  · simp only [find_range_two, HitBuf.get, if_true, HitRecord.withRoot, one_ne_zero, if_false]
    unfold HitRecord.OnRay at hhit ⊢
    by_cases h0 : r0 < hit.t <;> by_cases h1 : r1 < hit.t <;> split_ifs <;>
      first | (simp [h0, h1]; done) | (simpa [h0, h1] using hhit)

theorem closeCylinderY_onRay (M : MathOps K) (c : ICloseCylinderY K) (ray : Ray K)
    (hit : HitRecord K) (hits : HitBuf K) (hhit : hit.OnRay ray) :
    (c.findClosestIntersection M ray hit hits).1.OnRay ray := by
  have h1 := disk_onRay M c.topDisk ray HitRecord.new
  have h2 := disk_onRay M c.bottomDisk ray HitRecord.new
  have h3 := cylinderY_onRay M c.toICylinderY ray HitRecord.new hits
  unfold ICloseCylinderY.findClosestIntersection
  simp only
  split_ifs <;> assumption

theorem HitRecord.new_onRay (ray : Ray K) : (HitRecord.new : HitRecord K).OnRay ray :=
  fun h => absurd rfl h

/-- A hit reported by a shape for a fresh record lies on the ray, at parameter `t`. -/
theorem shape_onRay (M : MathOps K) (shape : IShape K) (ray : Ray K) (st : Statics K) :
    (shape.findClosestIntersection M ray HitRecord.new st).1.OnRay ray := by
  cases shape with
  | plane s => exact plane_onRay s ray _
  | disk s => exact disk_onRay M s ray _
  | rect s => exact rect_onRay s ray _
  | box s => exact box_onRay s ray _ (HitRecord.new_onRay ray)
  | convexPolygon s => exact convexPolygon_onRay s ray _
  | triangle s => exact triangle_onRay M s ray _
  | quadricSurface s => exact quadric_onRay M s _ ray _ _
  | sphere s => exact quadric_onRay M s.toIQuadricSurface _ ray _ _
  | ellipsoid s => exact quadric_onRay M s.toIQuadricSurface _ ray _ _
  | coneY s => exact coneY_onRay M s ray _ _ (HitRecord.new_onRay ray)
  | cylinderY s => exact cylinderY_onRay M s ray _ _
  | cylinderX s => exact cylinderX_onRay M s ray _ _
  | closeCylinderY s => exact closeCylinderY_onRay M s ray _ _ (HitRecord.new_onRay ray)

/-- The same for the record of a visible shape. -/
theorem VisibleIShape.report_onRay (M : MathOps K) (s : VisibleIShape K) (ray : Ray K) :
    (s.report M ray).OnRay ray := by
  have h := shape_onRay M s.shape ray Statics.init
  unfold VisibleIShape.report VisibleIShape.findClosestIntersection
  simp only
  split_ifs
  · exact h
  · exact h

/-- The loop of `VisibleIShape::findIntersection`: the surface whose record is
returned is the first one in the list with the returned `t`. -/
theorem VisibleIShape.findIntersection_first (M : MathOps K) (ray : Ray K) :
    ∀ (surfaces : List (VisibleIShape K)) (acc : HitRecord K × Statics K),
      (surfaces.foldl (VisibleIShape.findIntersectionStep M ray) acc).1 = acc.1 ∨
      ∃ pre s post, surfaces = pre ++ s :: post ∧
        (s.report M ray).t
          = (surfaces.foldl (VisibleIShape.findIntersectionStep M ray) acc).1.t ∧
        0 < (s.report M ray).t ∧ (s.report M ray).t < acc.1.t ∧
        (∀ s2 ∈ pre, (s2.report M ray).t
          ≠ (surfaces.foldl (VisibleIShape.findIntersectionStep M ray) acc).1.t) ∧
        (surfaces.foldl (VisibleIShape.findIntersectionStep M ray) acc).1.material
          = s.material ∧
        (surfaces.foldl (VisibleIShape.findIntersectionStep M ray) acc).1.texture
          = s.texture ∧
        (surfaces.foldl (VisibleIShape.findIntersectionStep M ray) acc).1.interceptPoint
          = (s.report M ray).interceptPoint := by
  intro surfaces
  induction surfaces with
  | nil => intro acc; exact Or.inl rfl
  | cons s rest ih =>
    intro acc
    obtain ⟨hsel, hnot⟩ := VisibleIShape.findIntersectionStep_spec M ray acc s
    simp only [List.foldl_cons]
    by_cases hcond : (s.report M ray).t < acc.1.t ∧ 0 < (s.report M ray).t
    · obtain ⟨e1, e2, -, e4, e5⟩ := hsel hcond
      right
      rcases ih (VisibleIShape.findIntersectionStep M ray acc s) with
        h | ⟨pre, s2, post, hl, f1, f2, f3, f4, f5, f6, f7⟩
      · refine ⟨[], s, rest, rfl, ?_, hcond.2, hcond.1, ?_, ?_, ?_, ?_⟩
        · rw [h, e1]
        · intro s2 hs2; exact absurd hs2 (List.not_mem_nil s2)
        · rw [h, e4]
        · rw [h, e5]
        · rw [h, e2]
      · rw [e1] at f3
        refine ⟨s :: pre, s2, post, by rw [hl]; rfl, f1, f2, lt_trans f3 hcond.1, ?_, f5, f6, f7⟩
        intro s3 hs3
        rcases List.mem_cons.mp hs3 with h | h
        · rw [h, ← f1]
          exact (ne_of_lt f3).symm
        · exact f4 s3 h
    · have hacc : (VisibleIShape.findIntersectionStep M ray acc s).1 = acc.1 := hnot hcond
      rcases ih (VisibleIShape.findIntersectionStep M ray acc s) with
        h | ⟨pre, s2, post, hl, f1, f2, f3, f4, f5, f6, f7⟩
      · exact Or.inl (by rw [h, hacc])
      · rw [hacc] at f3
        refine Or.inr ⟨s :: pre, s2, post, by rw [hl]; rfl, f1, f2, f3, ?_, f5, f6, f7⟩
        intro s3 hs3
        rcases List.mem_cons.mp hs3 with h | h
        · rw [h, ← f1]
          intro heq
          apply hcond
          rw [heq]
          exact ⟨f3, f2⟩
        · exact f4 s3 h

/-- The record returned by `VisibleIShape::findIntersection`: its `t` is at most
`FLT_MAX` and at most the positive `t` of every surface; it is the initial record
(`t = FLT_MAX`) or the record of the first surface in the list with that `t`. -/
theorem VisibleIShape.findIntersection_summary (M : MathOps K) (ray : Ray K)
    (l : List (VisibleIShape K)) (st : Statics K) :
    (∀ s ∈ l, 0 < (s.report M ray).t →
      (VisibleIShape.findIntersection M ray l st).1.t ≤ (s.report M ray).t) ∧
    (((VisibleIShape.findIntersection M ray l st).1.t = FLT_MAX ∧
        (VisibleIShape.findIntersection M ray l st).1.material
          = (HitRecord.new : HitRecord K).material) ∨
      ∃ pre s post, l = pre ++ s :: post ∧
        (s.report M ray).t = (VisibleIShape.findIntersection M ray l st).1.t ∧
        0 < (s.report M ray).t ∧ (s.report M ray).t < FLT_MAX ∧
        (∀ s2 ∈ pre, (s2.report M ray).t ≠ (VisibleIShape.findIntersection M ray l st).1.t) ∧
        (VisibleIShape.findIntersection M ray l st).1.material = s.material ∧
        (VisibleIShape.findIntersection M ray l st).1.interceptPoint
          = ray.origin + (VisibleIShape.findIntersection M ray l st).1.t * ray.direction) := by
  obtain ⟨-, hb, -⟩ := VisibleIShape.findIntersection_foldl M ray l
    ({ (HitRecord.new : HitRecord K) with t := FLT_MAX }, st)
  refine ⟨hb, ?_⟩
  rcases VisibleIShape.findIntersection_first M ray l
      ({ (HitRecord.new : HitRecord K) with t := FLT_MAX }, st) with
    h | ⟨pre, s, post, hl, f1, f2, f3, f4, f5, -, f7⟩
  · left
    unfold VisibleIShape.findIntersection
    rw [h]
    exact ⟨rfl, rfl⟩
  · right
    refine ⟨pre, s, post, hl, f1, f2, f3, f4, f5, ?_⟩
    unfold VisibleIShape.findIntersection
    rw [f7, ← f1]
    exact VisibleIShape.report_onRay M s ray (ne_of_lt f3)

/-- C28: the order of the surfaces does not affect the closest hit.  For two
lists of surfaces that are permutations of each other (and any contents of the
static buffers) `VisibleIShape::findIntersection` returns the same `t`, and, when
there is a hit, the same intercept point, the point of the ray at `t`.  The
record returned for a hit is that of the first surface in the list that is hit
at the returned `t`; so the reported materials differ only if two surfaces of
different material are both hit at exactly that `t`. -/
theorem C28_findIntersection_order_independent (M : MathOps K) (ray : Ray K)
    (l l2 : List (VisibleIShape K)) (st st2 : Statics K) (hperm : l.Perm l2) :
    (VisibleIShape.findIntersection M ray l st).1.t
      = (VisibleIShape.findIntersection M ray l2 st2).1.t ∧
    ((VisibleIShape.findIntersection M ray l st).1.t < FLT_MAX →
      (VisibleIShape.findIntersection M ray l st).1.interceptPoint
        = ray.origin + (VisibleIShape.findIntersection M ray l st).1.t * ray.direction ∧
      (VisibleIShape.findIntersection M ray l st).1.interceptPoint
        = (VisibleIShape.findIntersection M ray l2 st2).1.interceptPoint) ∧
    ((VisibleIShape.findIntersection M ray l st).1.t < FLT_MAX →
      ∃ pre s post, l = pre ++ s :: post ∧
        (s.report M ray).t = (VisibleIShape.findIntersection M ray l st).1.t ∧
        (∀ s2 ∈ pre, (s2.report M ray).t ≠ (VisibleIShape.findIntersection M ray l st).1.t) ∧
        (VisibleIShape.findIntersection M ray l st).1.material = s.material) ∧
    ((VisibleIShape.findIntersection M ray l st).1.material
        ≠ (VisibleIShape.findIntersection M ray l2 st2).1.material →
      ∃ s1 ∈ l, ∃ s2 ∈ l, s1.material ≠ s2.material ∧
        (s1.report M ray).t = (VisibleIShape.findIntersection M ray l st).1.t ∧
        (s2.report M ray).t = (VisibleIShape.findIntersection M ray l st).1.t ∧
        0 < (VisibleIShape.findIntersection M ray l st).1.t ∧
        (VisibleIShape.findIntersection M ray l st).1.t < FLT_MAX) := by
  obtain ⟨hb, hc⟩ := VisibleIShape.findIntersection_summary M ray l st
  obtain ⟨hb2, hc2⟩ := VisibleIShape.findIntersection_summary M ray l2 st2
  have hle : ∀ (la lb : List (VisibleIShape K)) (sa sb : Statics K),
      (∀ s, s ∈ la → s ∈ lb) →
      (VisibleIShape.findIntersection M ray lb sb).1.t
        ≤ (VisibleIShape.findIntersection M ray la sa).1.t := by
    intro la lb sa sb hsub
    obtain ⟨-, hca⟩ := VisibleIShape.findIntersection_summary M ray la sa
    obtain ⟨hbb, hcb⟩ := VisibleIShape.findIntersection_summary M ray lb sb
    rcases hca with ⟨h, -⟩ | ⟨pre, s, post, hl, f1, f2, f3, -⟩
    · rw [h]
      rcases hcb with ⟨h2, -⟩ | ⟨pre2, s2, post2, hl2, g1, g2, g3, -⟩
      · exact h2.le
      · rw [← g1]; exact g3.le
    · rw [← f1]
      exact hbb s (hsub s (by rw [hl]; simp)) f2
  have ht : (VisibleIShape.findIntersection M ray l st).1.t
      = (VisibleIShape.findIntersection M ray l2 st2).1.t :=
    le_antisymm (hle l2 l st2 st (fun s hs => hperm.mem_iff.mpr hs))
      (hle l l2 st st2 (fun s hs => hperm.mem_iff.mp hs))
  refine ⟨ht, ?_, ?_, ?_⟩
  · intro hlt
    rcases hc with ⟨h, -⟩ | ⟨pre, s, post, hl, f1, f2, f3, f4, f5, f6⟩
    · exact absurd hlt (by rw [h]; exact lt_irrefl _)
    · refine ⟨f6, ?_⟩
      rcases hc2 with ⟨h2, -⟩ | ⟨pre2, s2, post2, hl2, g1, g2, g3, g4, g5, g6⟩
      · rw [ht, h2] at hlt
        exact absurd hlt (lt_irrefl _)
      · rw [f6, g6, ht]
  · intro hlt
    rcases hc with ⟨h, -⟩ | ⟨pre, s, post, hl, f1, f2, f3, f4, f5, f6⟩
    · exact absurd hlt (by rw [h]; exact lt_irrefl _)
    · exact ⟨pre, s, post, hl, f1, f4, f5⟩
  · intro hne
    rcases hc with ⟨h, hm⟩ | ⟨pre, s, post, hl, f1, f2, f3, f4, f5, f6⟩
    · rcases hc2 with ⟨h2, hm2⟩ | ⟨pre2, s2, post2, hl2, g1, g2, g3, g4, g5, g6⟩
      · exact absurd (by rw [hm, hm2]) hne
      · rw [← ht, h] at g1
        exact absurd g1 (ne_of_lt g3)
    · rcases hc2 with ⟨h2, hm2⟩ | ⟨pre2, s2, post2, hl2, g1, g2, g3, g4, g5, g6⟩
      · rw [ht, h2] at f1
        exact absurd f1 (ne_of_lt f3)
      · refine ⟨s, by rw [hl]; simp, s2, hperm.mem_iff.mpr (by rw [hl2]; simp), ?_, f1,
          by rw [g1, ht], by rw [← f1]; exact f2, by rw [← f1]; exact f3⟩
        intro hmat
        exact hne (by rw [f5, g5, hmat])

/-- C28, run: the red and the gray plane `z = -2` are both hit at `t = 2` by the ray
from the origin along -z.  In both orders `findIntersection` returns `t = 2`; the
material is that of the surface that comes first. -/
theorem C28_findIntersection_witness :
    [exampleTransparent, exampleGrayNear].Perm [exampleGrayNear, exampleTransparent] ∧
    (VisibleIShape.findIntersection ratOps exampleRay [exampleTransparent, exampleGrayNear]
      Statics.init).1.t = 2 ∧
    (VisibleIShape.findIntersection ratOps exampleRay [exampleGrayNear, exampleTransparent]
      Statics.init).1.t = 2 ∧
    (VisibleIShape.findIntersection ratOps exampleRay [exampleTransparent, exampleGrayNear]
      Statics.init).1.material = exampleTransparent.material ∧
    (VisibleIShape.findIntersection ratOps exampleRay [exampleGrayNear, exampleTransparent]
      Statics.init).1.material = exampleGrayNear.material := by
  have hperm : [exampleTransparent, exampleGrayNear].Perm [exampleGrayNear, exampleTransparent] :=
    List.Perm.swap _ _ _
  have ht : (VisibleIShape.findIntersection ratOps exampleRay
      [exampleTransparent, exampleGrayNear] Statics.init).1.t = 2 := by
    rw [exampleRay_eq]
    norm_num [VisibleIShape.findIntersection, VisibleIShape.findIntersectionStep,
      exampleTransparent, exampleGrayNear, VisibleIShape.findClosestIntersection,
      VisibleIShape.new, IShape.findClosestIntersection, IPlane.findClosestIntersection,
      IPlane.new, normalize, dot, HitRecord.new, FLT_MAX, ratOps, ratSqrt_one, Ray.getPoint,
      IShape.getTexCoords]
  refine ⟨hperm, ht, ?_, ?_, ?_⟩
  · rw [← (C28_findIntersection_order_independent ratOps exampleRay _ _ Statics.init
      Statics.init hperm).1]
    exact ht
  · rw [exampleRay_eq]
    norm_num [VisibleIShape.findIntersection, VisibleIShape.findIntersectionStep,
      exampleTransparent, exampleGrayNear, VisibleIShape.findClosestIntersection,
      VisibleIShape.new, IShape.findClosestIntersection, IPlane.findClosestIntersection,
      IPlane.new, normalize, dot, HitRecord.new, FLT_MAX, ratOps, ratSqrt_one, Ray.getPoint,
      IShape.getTexCoords]
  · rw [exampleRay_eq]
    norm_num [VisibleIShape.findIntersection, VisibleIShape.findIntersectionStep,
      exampleTransparent, exampleGrayNear, VisibleIShape.findClosestIntersection,
      VisibleIShape.new, IShape.findClosestIntersection, IPlane.findClosestIntersection,
      IPlane.new, normalize, dot, HitRecord.new, FLT_MAX, ratOps, ratSqrt_one, Ray.getPoint,
      IShape.getTexCoords]

/-- The flags computed by the loop of `IConvexPolygon::isInside`. -/
theorem isInside_flags (D : Nat → K) :
    ∀ (L : List Nat) (f : Bool × Bool),
      L.foldl (fun (flags : Bool × Bool) i =>
          (if D i < 0 then false else flags.1, if D i > 0 then false else flags.2)) f
        = (f.1 && L.all (fun i => decide (0 ≤ D i)), f.2 && L.all (fun i => decide (D i ≤ 0))) := by
  intro L
  induction L with
  | nil => intro f; simp
  | cons i rest ih =>
    intro f
    simp only [List.foldl_cons, ih, List.all_cons]
    by_cases h1 : D i < 0
    · have h2 : ¬ D i > 0 := not_lt.mpr h1.le
      simp [h1, h2, h1.le, Bool.and_assoc]
    · by_cases h2 : D i > 0
      · simp [h1, h2, h2.le, Bool.and_assoc]
      · simp [h1, h2, not_lt.mp h1, not_lt.mp h2, Bool.and_assoc]

/-- The result of `IConvexPolygon::isInside`: no edge test is negative, or no edge
test is positive. -/
theorem IConvexPolygon.isInside_iff (p : IConvexPolygon K) (point : Vec3 K) :
    p.isInside point = true ↔
      (∀ i < p.v.length, 0 ≤ p.edgeTest point i) ∨
      (∀ i < p.v.length, p.edgeTest point i ≤ 0) := by
  have h : p.isInside point =
      (((List.range p.v.length).foldl (fun (flags : Bool × Bool) i =>
          (if p.edgeTest point i < 0 then false else flags.1,
           if p.edgeTest point i > 0 then false else flags.2)) (true, true)).1 ||
       ((List.range p.v.length).foldl (fun (flags : Bool × Bool) i =>
          (if p.edgeTest point i < 0 then false else flags.1,
           if p.edgeTest point i > 0 then false else flags.2)) (true, true)).2) := rfl
  rw [h, isInside_flags]
  simp only [Bool.true_and, Bool.or_eq_true, List.all_eq_true, List.mem_range,
    decide_eq_true_eq]

/-- Scaling the normal of a polygon by a non-zero factor does not change the
result of `IConvexPolygon::isInside`. -/
theorem IConvexPolygon.isInside_scale (p p2 : IConvexPolygon K) (s : K) (hs : s ≠ 0)
    (hv : p2.v = p.v) (hn : p2.n = s * p.n) (point : Vec3 K) :
    p2.isInside point = p.isInside point := by
  have hD : ∀ i, p2.edgeTest point i = s * p.edgeTest point i := by
    intro i
    unfold IConvexPolygon.edgeTest
    rw [hv, hn]
    simp only [dot, Vec3.smul_x, Vec3.smul_y, Vec3.smul_z]
    ring
  rw [Bool.eq_iff_iff, IConvexPolygon.isInside_iff, IConvexPolygon.isInside_iff, hv]
  simp only [hD]
  rcases lt_or_gt_of_ne hs with hneg | hpos
  · have e1 : ∀ x : K, 0 ≤ s * x ↔ x ≤ 0 := fun x =>
      ⟨fun h => by by_contra hx; nlinarith [not_le.mp hx], fun h => by nlinarith⟩
    have e2 : ∀ x : K, s * x ≤ 0 ↔ 0 ≤ x := fun x =>
      ⟨fun h => by by_contra hx; nlinarith [not_le.mp hx], fun h => by nlinarith⟩
    simp only [e1, e2]
    exact or_comm
  · have e1 : ∀ x : K, 0 ≤ s * x ↔ 0 ≤ x := fun x =>
      ⟨fun h => by by_contra hx; nlinarith [not_le.mp hx], fun h => by nlinarith⟩
    have e2 : ∀ x : K, s * x ≤ 0 ↔ x ≤ 0 := fun x =>
      ⟨fun h => by by_contra hx; nlinarith [not_le.mp hx], fun h => by nlinarith⟩
    simp only [e1, e2]

theorem reversedEdge_lt (k i : Nat) (hi : i < k) : reversedEdge k i < k := by
  unfold reversedEdge
  split_ifs <;> omega

theorem reversedEdge_involutive (k i : Nat) (hi : i < k) :
    reversedEdge k (reversedEdge k i) = i := by
  unfold reversedEdge
  split_ifs <;> omega

/-- Entry `i` of a reversed list. -/
theorem getD_reverse (vs : List (Vec3 K)) (i : Nat) (hi : i < vs.length) :
    vs.reverse.getD i 0 = vs.getD (vs.length - 1 - i) 0 := by
  simp [List.getD_eq_getElem?_getD, List.getElem?_reverse hi]

/-- The end points of the edge `i` of the reversed vertex list are those of the
edge `reversedEdge k i` of the list, exchanged. -/
theorem reversed_edge_ends (vs : List (Vec3 K)) (i : Nat) (hi : i < vs.length) :
    vs.reverse.getD i 0 = vs.getD ((reversedEdge vs.length i + 1) % vs.length) 0 ∧
    vs.reverse.getD ((i + 1) % vs.length) 0 = vs.getD (reversedEdge vs.length i) 0 := by
  unfold reversedEdge
  by_cases h : i + 1 < vs.length
  · rw [if_pos h, Nat.mod_eq_of_lt h, getD_reverse vs i hi, getD_reverse vs (i + 1) h]
    have e1 : (vs.length - 2 - i + 1) % vs.length = vs.length - 1 - i := by
      rw [Nat.mod_eq_of_lt (by omega)]
      omega
    have e2 : vs.length - 1 - (i + 1) = vs.length - 2 - i := by omega
    rw [e1, e2]
    exact ⟨rfl, rfl⟩
  · rw [if_neg h]
    have hi2 : i + 1 = vs.length := by omega
    have e1 : (vs.length - 1 + 1) % vs.length = 0 := by
      rw [Nat.sub_add_cancel (by omega), Nat.mod_self]
    have e2 : (i + 1) % vs.length = 0 := by rw [hi2, Nat.mod_self]
    rw [e1, e2, getD_reverse vs i hi, getD_reverse vs 0 (by omega)]
    have e3 : vs.length - 1 - i = 0 := by omega
    rw [e3]
    exact ⟨rfl, rfl⟩

/-- Reversing the vertex list of a polygon, with the same normal, does not change
the result of `IConvexPolygon::isInside`. -/
theorem IConvexPolygon.isInside_reverse (p p2 : IConvexPolygon K)
    (hv : p2.v = p.v.reverse) (hn : p2.n = p.n) (point : Vec3 K) :
    p2.isInside point = p.isInside point := by
  have hlen : p2.v.length = p.v.length := by rw [hv, List.length_reverse]
  have hD : ∀ i, i < p.v.length →
      p2.edgeTest point i = - p.edgeTest point (reversedEdge p.v.length i) := by
    intro i hi
    obtain ⟨e1, e2⟩ := reversed_edge_ends p.v i hi
    unfold IConvexPolygon.edgeTest
    rw [hlen, hv, hn, e1, e2]
    simp only [dot, cross, Vec3.sub_x, Vec3.sub_y, Vec3.sub_z]
    ring
  rw [Bool.eq_iff_iff, IConvexPolygon.isInside_iff, IConvexPolygon.isInside_iff, hlen]
  have key : ∀ (Q : K → Prop),
      (∀ i < p.v.length, Q (p.edgeTest point (reversedEdge p.v.length i))) ↔
      (∀ i < p.v.length, Q (p.edgeTest point i)) := by
    intro Q
    constructor
    · intro h i hi
      have := h (reversedEdge p.v.length i) (reversedEdge_lt _ _ hi)
      rwa [reversedEdge_involutive _ _ hi] at this
    · intro h i hi
      exact h _ (reversedEdge_lt _ _ hi)
  have f1 : (∀ i < p.v.length, 0 ≤ p2.edgeTest point i) ↔
      (∀ i < p.v.length, p.edgeTest point i ≤ 0) := by
    rw [← key (fun x => x ≤ 0)]
    constructor
    · intro h i hi
      have := h i hi
      rw [hD i hi] at this
      linarith
    · intro h i hi
      rw [hD i hi]
      have := h i hi
      simp only at this
      linarith
  have f2 : (∀ i < p.v.length, p2.edgeTest point i ≤ 0) ↔
      (∀ i < p.v.length, 0 ≤ p.edgeTest point i) := by
    rw [← key (fun x => 0 ≤ x)]
    constructor
    · intro h i hi
      have := h i hi
      rw [hD i hi] at this
      linarith
    · intro h i hi
      rw [hD i hi]
      have := h i hi
      simp only at this
      linarith
  rw [f1, f2]
  exact or_comm

/-- Two vectors orthogonal to `m` have a cross product parallel to `m`. -/
theorem cross_parallel (m f1 f2 : Vec3 K) (h1 : dot m f1 = 0) (h2 : dot m f2 = 0) :
    dot m m * cross f1 f2 = dot m (cross f1 f2) * m := by
  simp only [dot] at h1 h2
  ext
  · simp only [dot, cross, Vec3.smul_x]
    linear_combination (-(m.y * f1.z - f1.y * m.z)) * h2 + (m.y * f2.z - f2.y * m.z) * h1
  · simp only [dot, cross, Vec3.smul_y]
    linear_combination (-(m.z * f1.x - f1.z * m.x)) * h2 + (m.z * f2.x - f2.z * m.x) * h1
  · simp only [dot, cross, Vec3.smul_z]
    linear_combination (-(m.x * f1.y - f1.x * m.y)) * h2 + (m.x * f2.y - f2.x * m.y) * h1

/-- An entry of the reversed vertex list is a vertex. -/
theorem getD_reverse_mem (vs : List (Vec3 K)) (i : Nat) (hi : i < vs.length) :
    vs.reverse.getD i 0 ∈ vs := by
  rw [getD_reverse vs i hi, List.getD_eq_getElem vs 0 (by omega : vs.length - 1 - i < vs.length)]
  exact List.getElem_mem _

/-- For a planar polygon whose first three and last three vertices are not
collinear, the normal computed from the reversed vertex list is a non-zero
multiple of the normal computed from the vertex list. -/
theorem polygon_normals_parallel (M : MathOps K) (vs : List (Vec3 K)) (h3 : 3 ≤ vs.length)
    (hplanar : ∀ v ∈ vs,
      dot (cross (vs.getD 1 0 - vs.getD 0 0) (vs.getD 2 0 - vs.getD 0 0)) (v - vs.getD 0 0) = 0)
    (hfirst : cross (vs.getD 1 0 - vs.getD 0 0) (vs.getD 2 0 - vs.getD 0 0) ≠ 0)
    (hlast : cross (vs.reverse.getD 1 0 - vs.reverse.getD 0 0)
      (vs.reverse.getD 2 0 - vs.reverse.getD 0 0) ≠ 0)
    (hs1 : IsSqrtAt M (dot (cross (vs.getD 1 0 - vs.getD 0 0) (vs.getD 2 0 - vs.getD 0 0))
      (cross (vs.getD 1 0 - vs.getD 0 0) (vs.getD 2 0 - vs.getD 0 0))))
    (hs2 : IsSqrtAt M (dot (cross (vs.reverse.getD 1 0 - vs.reverse.getD 0 0)
        (vs.reverse.getD 2 0 - vs.reverse.getD 0 0))
      (cross (vs.reverse.getD 1 0 - vs.reverse.getD 0 0)
        (vs.reverse.getD 2 0 - vs.reverse.getD 0 0)))) :
    ∃ μ : K, μ ≠ 0 ∧ (IConvexPolygon.new M vs.reverse).n = μ * (IConvexPolygon.new M vs).n := by
  have hw0 := hplanar _ (getD_reverse_mem vs 0 (by omega))
  have hw1 := hplanar _ (getD_reverse_mem vs 1 (by omega))
  have hw2 := hplanar _ (getD_reverse_mem vs 2 (by omega))
  have hN1 := dot_self_pos _ hfirst
  have hN2 := dot_self_pos _ hlast
  obtain ⟨hl1, hq1⟩ := hs1 hN1.le
  obtain ⟨hl2, hq2⟩ := hs2 hN2.le
  have hne1 : M.sqrt (dot (cross (vs.getD 1 0 - vs.getD 0 0) (vs.getD 2 0 - vs.getD 0 0))
      (cross (vs.getD 1 0 - vs.getD 0 0) (vs.getD 2 0 - vs.getD 0 0))) ≠ 0 := by
    intro h0
    rw [h0, mul_zero] at hq1
    exact absurd hq1.symm hN1.ne'
  have hne2 : M.sqrt (dot (cross (vs.reverse.getD 1 0 - vs.reverse.getD 0 0)
        (vs.reverse.getD 2 0 - vs.reverse.getD 0 0))
      (cross (vs.reverse.getD 1 0 - vs.reverse.getD 0 0)
        (vs.reverse.getD 2 0 - vs.reverse.getD 0 0))) ≠ 0 := by
    intro h0
    rw [h0, mul_zero] at hq2
    exact absurd hq2.symm hN2.ne'
  generalize hc1 : cross (vs.getD 1 0 - vs.getD 0 0) (vs.getD 2 0 - vs.getD 0 0) = c1
    at hw0 hw1 hw2 hN1 hne1 hfirst
  generalize hw0e : vs.reverse.getD 0 0 = w0 at hw0 hlast hN2 hne2
  generalize hw1e : vs.reverse.getD 1 0 = w1 at hw1 hlast hN2 hne2
  generalize hw2e : vs.reverse.getD 2 0 = w2 at hw2 hlast hN2 hne2
  have h1 : dot c1 (w1 - w0) = 0 := by
    simp only [dot, Vec3.sub_x, Vec3.sub_y, Vec3.sub_z] at hw0 hw1 ⊢
    linear_combination hw1 - hw0
  have h2 : dot c1 (w2 - w0) = 0 := by
    simp only [dot, Vec3.sub_x, Vec3.sub_y, Vec3.sub_z] at hw0 hw2 ⊢
    linear_combination hw2 - hw0
  have hpar := cross_parallel c1 (w1 - w0) (w2 - w0) h1 h2
  generalize hc2 : cross (w1 - w0) (w2 - w0) = c2 at hpar hlast hN2 hne2
  have hlam : dot c1 c2 ≠ 0 := by
    intro h0
    rw [h0] at hpar
    apply hlast
    have hx := congrArg Vec3.x hpar
    have hy := congrArg Vec3.y hpar
    have hz := congrArg Vec3.z hpar
    simp only [Vec3.smul_x, Vec3.smul_y, Vec3.smul_z, zero_mul] at hx hy hz
    ext
    · simpa using (mul_eq_zero.mp hx).resolve_left hN1.ne'
    · simpa using (mul_eq_zero.mp hy).resolve_left hN1.ne'
    · simpa using (mul_eq_zero.mp hz).resolve_left hN1.ne'
  refine ⟨dot c1 c2 / dot c1 c1 * M.sqrt (dot c1 c1) / M.sqrt (dot c2 c2), ?_, ?_⟩
  · exact div_ne_zero (mul_ne_zero (div_ne_zero hlam hN1.ne') hne1) hne2
  · have hx := congrArg Vec3.x hpar
    have hy := congrArg Vec3.y hpar
    have hz := congrArg Vec3.z hpar
    simp only [Vec3.smul_x, Vec3.smul_y, Vec3.smul_z] at hx hy hz
    simp only [IConvexPolygon.new, normalFrom3Points, length, hc1, hw0e, hw1e, hw2e, hc2]
    ext
    · simp only [Vec3.divs_x, Vec3.smul_x]
      field_simp
      linear_combination (M.sqrt (dot c1 c1) * M.sqrt (dot c2 c2)) * hx
    · simp only [Vec3.divs_y, Vec3.smul_y]
      field_simp
      linear_combination (M.sqrt (dot c1 c1) * M.sqrt (dot c2 c2)) * hy
    · simp only [Vec3.divs_z, Vec3.smul_z]
      field_simp
      linear_combination (M.sqrt (dot c1 c1) * M.sqrt (dot c2 c2)) * hz

/-- Exchanging the second and the third vertex of a triangle does not change the
result of `ITriangle::inside`. -/
theorem ITriangle.inside_swap (M : MathOps K) (a b c pt : Vec3 K) :
    (ITriangle.new M a c b).inside M pt = (ITriangle.new M a b c).inside M pt := by
  have hlen : length M (cross (c - a) (b - a)) = length M (cross (b - a) (c - a)) := by
    unfold length
    congr 1
    simp only [dot, cross, Vec3.sub_x, Vec3.sub_y, Vec3.sub_z]
    ring
  have h1 : dot (cross (c - a) (b - a)) (cross (b - c) (pt - c))
      = dot (cross (b - a) (c - a)) (cross (c - b) (pt - b)) := by
    simp only [dot, cross, Vec3.sub_x, Vec3.sub_y, Vec3.sub_z]
    ring
  have h2 : dot (cross (c - a) (b - a)) (cross (a - b) (pt - b))
      = dot (cross (b - a) (c - a)) (cross (b - a) (pt - a)) := by
    simp only [dot, cross, Vec3.sub_x, Vec3.sub_y, Vec3.sub_z]
    ring
  have h3 : dot (cross (c - a) (b - a)) (cross (c - a) (pt - a))
      = dot (cross (b - a) (c - a)) (cross (a - c) (pt - c)) := by
    simp only [dot, cross, Vec3.sub_x, Vec3.sub_y, Vec3.sub_z]
    ring
  unfold ITriangle.inside
  simp only [ITriangle.new, hlen, h1, h2, h3]
  rw [Bool.and_comm (inRangeExclusive
    (dot (cross (b - a) (c - a)) (cross (b - a) (pt - a))
      / M.pow (length M (cross (b - a) (c - a))) 2) 0 1)]

/-- C30: both vertex orientations are accepted.  `ITriangle::inside` gives the
same answer for the triangle `(a, b, c)` and for `(a, c, b)`, for every point.
For a polygon with at least three vertices, all in the plane of the first three,
whose first three and last three vertices are not collinear (and with `sqrt`
exact at the squared lengths of the two normals), `IConvexPolygon::isInside`
gives the same answer for the vertex list and for the reversed vertex list, for
every point. -/
theorem C30_both_windings_accepted (M : MathOps K) (vs : List (Vec3 K))
    (h3 : 3 ≤ vs.length)
    (hplanar : ∀ v ∈ vs,
      dot (cross (vs.getD 1 0 - vs.getD 0 0) (vs.getD 2 0 - vs.getD 0 0)) (v - vs.getD 0 0) = 0)
    (hfirst : cross (vs.getD 1 0 - vs.getD 0 0) (vs.getD 2 0 - vs.getD 0 0) ≠ 0)
    (hlast : cross (vs.reverse.getD 1 0 - vs.reverse.getD 0 0)
      (vs.reverse.getD 2 0 - vs.reverse.getD 0 0) ≠ 0)
    (hs1 : IsSqrtAt M (dot (cross (vs.getD 1 0 - vs.getD 0 0) (vs.getD 2 0 - vs.getD 0 0))
      (cross (vs.getD 1 0 - vs.getD 0 0) (vs.getD 2 0 - vs.getD 0 0))))
    (hs2 : IsSqrtAt M (dot (cross (vs.reverse.getD 1 0 - vs.reverse.getD 0 0)
        (vs.reverse.getD 2 0 - vs.reverse.getD 0 0))
      (cross (vs.reverse.getD 1 0 - vs.reverse.getD 0 0)
        (vs.reverse.getD 2 0 - vs.reverse.getD 0 0)))) :
    (∀ a b c pt : Vec3 K,
      (ITriangle.new M a b c).inside M pt = (ITriangle.new M a c b).inside M pt) ∧
    (∀ pt : Vec3 K,
      (IConvexPolygon.new M vs).isInside pt = (IConvexPolygon.new M vs.reverse).isInside pt) := by
  refine ⟨fun a b c pt => (ITriangle.inside_swap M a b c pt).symm, ?_⟩
  intro pt
  obtain ⟨μ, hμ, hn⟩ := polygon_normals_parallel M vs h3 hplanar hfirst hlast hs1 hs2
  have e1 : (⟨(IConvexPolygon.new M vs).plane, vs.reverse, (IConvexPolygon.new M vs).n⟩ :
      IConvexPolygon K).isInside pt = (IConvexPolygon.new M vs).isInside pt :=
    IConvexPolygon.isInside_reverse (IConvexPolygon.new M vs)
      (⟨(IConvexPolygon.new M vs).plane, vs.reverse, (IConvexPolygon.new M vs).n⟩ :
        IConvexPolygon K) rfl rfl pt
  have e2 : (IConvexPolygon.new M vs.reverse).isInside pt
      = (⟨(IConvexPolygon.new M vs).plane, vs.reverse, (IConvexPolygon.new M vs).n⟩ :
          IConvexPolygon K).isInside pt :=
    IConvexPolygon.isInside_scale
      (⟨(IConvexPolygon.new M vs).plane, vs.reverse, (IConvexPolygon.new M vs).n⟩ :
        IConvexPolygon K) (IConvexPolygon.new M vs.reverse) μ hμ rfl hn pt
  rw [e2, e1]

/-- C30, run: for `exampleSquare` and its reversal the centre (1/2, 1/2, 0) is
inside and the point (2, 1/2, 0) is outside. -/
theorem C30_windings_witness :
    (IConvexPolygon.new ratOps exampleSquare).isInside ⟨1 / 2, 1 / 2, 0⟩ = true ∧
    (IConvexPolygon.new ratOps exampleSquare.reverse).isInside ⟨1 / 2, 1 / 2, 0⟩ = true ∧
    (IConvexPolygon.new ratOps exampleSquare).isInside ⟨2, 1 / 2, 0⟩ = false ∧
    (IConvexPolygon.new ratOps exampleSquare.reverse).isInside ⟨2, 1 / 2, 0⟩ = false := by
  have hrev : exampleSquare.reverse = [⟨0, 1, 0⟩, ⟨1, 1, 0⟩, ⟨1, 0, 0⟩, ⟨0, 0, 0⟩] := rfl
  have hc1 : cross (exampleSquare.getD 1 0 - exampleSquare.getD 0 0)
      (exampleSquare.getD 2 0 - exampleSquare.getD 0 0) = ⟨0, 0, 1⟩ := by
    simp only [exampleSquare, List.getD_cons_zero, List.getD_cons_succ, cross]
    ext <;> norm_num
  have hc2 : cross (exampleSquare.reverse.getD 1 0 - exampleSquare.reverse.getD 0 0)
      (exampleSquare.reverse.getD 2 0 - exampleSquare.reverse.getD 0 0) = ⟨0, 0, -1⟩ := by
    rw [hrev]
    simp only [List.getD_cons_zero, List.getD_cons_succ, cross]
    ext <;> norm_num
  have hne1 : (⟨0, 0, 1⟩ : Vec3 ℚ) ≠ 0 := by
    intro h
    have hz := congrArg Vec3.z h
    norm_num at hz
  have hne2 : (⟨0, 0, -1⟩ : Vec3 ℚ) ≠ 0 := by
    intro h
    have hz := congrArg Vec3.z h
    norm_num at hz
  have h := (C30_both_windings_accepted ratOps exampleSquare (by simp [exampleSquare])
    (by
      rw [hc1]
      intro v hv
      simp only [exampleSquare, List.mem_cons, List.mem_singleton, List.not_mem_nil,
        or_false] at hv
      rcases hv with h | h | h | h <;> rw [h] <;>
        norm_num [exampleSquare, dot])
    (by rw [hc1]; exact hne1) (by rw [hc2]; exact hne2)
    (by rw [hc1]; norm_num [IsSqrtAt, dot, ratOps, ratSqrt_one])
    (by rw [hc2]; norm_num [IsSqrtAt, dot, ratOps, ratSqrt_one])).2
  have hin : (IConvexPolygon.new ratOps exampleSquare).isInside ⟨1 / 2, 1 / 2, 0⟩ = true := by
    rw [IConvexPolygon.isInside_iff]
    left
    intro i hi
    have hi4 : i < 4 := hi
    unfold IConvexPolygon.edgeTest
    simp only [IConvexPolygon.new, normalFrom3Points, hc1]
    interval_cases i <;>
      norm_num [exampleSquare, dot, cross, length, ratOps, ratSqrt_one]
  have hout : (IConvexPolygon.new ratOps exampleSquare).isInside ⟨2, 1 / 2, 0⟩ = false := by
    rw [← Bool.not_eq_true, IConvexPolygon.isInside_iff]
    have hlen : (IConvexPolygon.new ratOps exampleSquare).v.length = 4 := rfl
    rw [hlen]
    rintro (hall | hall)
    · have := hall 1 (by norm_num)
      unfold IConvexPolygon.edgeTest at this
      simp only [IConvexPolygon.new, normalFrom3Points, hc1] at this
      norm_num [exampleSquare, dot, cross, length, ratOps, ratSqrt_one] at this
    · have := hall 0 (by norm_num)
      unfold IConvexPolygon.edgeTest at this
      simp only [IConvexPolygon.new, normalFrom3Points, hc1] at this
      norm_num [exampleSquare, dot, cross, length, ratOps, ratSqrt_one] at this
  exact ⟨hin, by rw [← h]; exact hin, hout, by rw [← h]; exact hout⟩

/-- Adding `black` to a colour does not change it. -/
theorem add_black (c : color K) : c + (black : color K) = c := by
  ext <;> simp [black]

/-- A light that is off contributes `black`. -/
theorem RayTracer.contribution_off (M : MathOps K) (theScene : IScene K) (theHit : HitRecord K)
    (light : Light K) (hoff : light.isOn = false) :
    RayTracer.contribution M theScene theHit light = black := by
  unfold RayTracer.contribution
  cases light with
  | positional p =>
    simp only [Light.isOn] at hoff
    simp [Light.illuminate, PositionalLight.illuminate, hoff]
  | spot s =>
    simp only [Light.isOn] at hoff
    simp [Light.illuminate, SpotLight.illuminate, hoff]

/-- C31: a light that is not on has no effect.  `PositionalLight::illuminate` and
`SpotLight::illuminate` return `black` for a light with `isOn = false`, for all
arguments (also with `inShadow = true`); the colour returned by `getLightColor`
is the same as for the scene without that light. -/
theorem C31_light_off_is_black (M : MathOps K) :
    (∀ (l : PositionalLight K) (p n : Vec3 K) (mat : Material K) (eyeFrame : Frame K)
        (inShadow : Bool), l.isOn = false →
      l.illuminate M p n mat eyeFrame inShadow = black) ∧
    (∀ (l : SpotLight K) (p n : Vec3 K) (mat : Material K) (eyeFrame : Frame K)
        (inShadow : Bool), l.isOn = false →
      l.illuminate M p n mat eyeFrame inShadow = black) ∧
    (∀ (light : Light K) (theScene : IScene K) (theHit : HitRecord K), light.isOn = false →
      RayTracer.contribution M theScene theHit light = black) ∧
    (∀ (light : Light K) (rt : RayTracer K) (ray : Ray K) (theScene : IScene K)
        (theHit : HitRecord K) (result : color K) (st : Statics K)
        (pre post : List (Light K)),
      light.isOn = false → theScene.lights = pre ++ light :: post →
      (rt.getLightColor M ray theScene theHit result st).1
        = (rt.getLightColor M ray { theScene with lights := pre ++ post } theHit result st).1) := by
  refine ⟨?_, ?_, fun light theScene theHit hoff =>
    RayTracer.contribution_off M theScene theHit light hoff, ?_⟩
  · intro l p n mat eyeFrame inShadow hoff
    simp [PositionalLight.illuminate, hoff]
  · intro l p n mat eyeFrame inShadow hoff
    simp [SpotLight.illuminate, hoff]
  · intro light rt ray theScene theHit result st pre post hoff hl
    unfold RayTracer.getLightColor
    rw [RayTracer.getLightColor_foldl, RayTracer.getLightColor_foldl, hl]
    have hc : ∀ l, RayTracer.contribution M { theScene with lights := pre ++ post } theHit l
        = RayTracer.contribution M theScene theHit l := fun _ => rfl
    simp only [hc, List.foldl_append, List.foldl_cons,
      RayTracer.contribution_off M theScene theHit light hoff, add_black]

/-- C31, run: `exampleSpot` switched off returns black for the hit at the origin,
in shadow or not, and `getLightColor` for `exampleShadowScene` with the light
switched off returns its argument `result`. -/
theorem C31_light_off_witness :
    (Light.spot { exampleSpot with isOn := false }).isOn = false ∧
    ({ exampleSpot with isOn := false } : SpotLight ℚ).illuminate ratOpsPi ⟨0, 0, 0⟩ ⟨0, 0, 1⟩
      exampleWhite exerciseFrame true = black ∧
    (exampleTracer.getLightColor ratOpsPi exampleRay
      { exampleShadowScene with lights := [Light.spot { exampleSpot with isOn := false }] }
      exampleFloorHit ⟨1 / 4, 1 / 4, 1 / 4⟩ Statics.init).1 = ⟨1 / 4, 1 / 4, 1 / 4⟩ := by
  refine ⟨rfl, (C31_light_off_is_black ratOpsPi).2.1 _ _ _ _ _ _ rfl, ?_⟩
  rw [(C31_light_off_is_black ratOpsPi).2.2.2 (Light.spot { exampleSpot with isOn := false })
    exampleTracer exampleRay
    { exampleShadowScene with lights := [Light.spot { exampleSpot with isOn := false }] }
    exampleFloorHit ⟨1 / 4, 1 / 4, 1 / 4⟩ Statics.init [] [] rfl rfl]
  rfl

/-- An exact square root of a positive number is positive. -/
theorem sqrt_pos_of_pos (M : MathOps K) (x : K) (hs : IsSqrtAt M x) (hx : 0 < x) :
    0 < M.sqrt x := by
  obtain ⟨h0, hq⟩ := hs hx.le
  rcases h0.lt_or_eq with h | h
  · exact h
  · rw [← h, mul_zero] at hq
    exact absurd hq.symm (ne_of_gt hx)

/-- An exact square root of `t*t` is `|t|`. -/
theorem sqrt_mul_self_eq_abs (M : MathOps K) (t : K) (hs : IsSqrtAt M (t * t)) :
    M.sqrt (t * t) = |t| := by
  obtain ⟨h0, hq⟩ := hs (mul_self_nonneg t)
  have h1 : M.sqrt (t * t) * M.sqrt (t * t) = |t| * |t| := by rw [hq, abs_mul_abs_self]
  exact (mul_self_inj h0 (abs_nonneg t)).mp h1

/-- A normalised non-zero vector has `dot v v = 1`. -/
theorem normalize_dot_self (M : MathOps K) (d : Vec3 K) (hs : IsSqrtAt M (dot d d))
    (hpos : 0 < dot d d) : dot (normalize M d) (normalize M d) = 1 := by
  have hsp := sqrt_pos_of_pos M _ hs hpos
  obtain ⟨-, hq⟩ := hs hpos.le
  unfold normalize
  generalize M.sqrt (dot d d) = s at hsp hq
  have hne : s ≠ 0 := ne_of_gt hsp
  simp only [dot, Vec3.muls_x, Vec3.muls_y, Vec3.muls_z] at hq ⊢
  field_simp
  linear_combination -hq

/-- C32: for a non-zero `rayDirection` (with `sqrt` exact at its squared length) the
constructor `Ray(rayOrigin, rayDirection)` stores the origin unchanged and the
direction `rayDirection / |rayDirection|`, which has `dot(direction, direction) = 1`;
`getPoint(t)` is `origin + t*direction`, at squared distance `t*t` from the
origin.  With `sqrt` exact at 1 and at `t*t`, the length of the direction is 1 and
the distance from the origin to `getPoint(t)` is `|t|`. -/
theorem C32_ray_unit_direction (M : MathOps K) (rayOrigin rayDirection : Vec3 K) (t : K)
    (hd : rayDirection ≠ 0) (hs : IsSqrtAt M (dot rayDirection rayDirection)) :
    (Ray.new M rayOrigin rayDirection).origin = rayOrigin ∧
    (Ray.new M rayOrigin rayDirection).direction = rayDirection / length M rayDirection ∧
    dot (Ray.new M rayOrigin rayDirection).direction
      (Ray.new M rayOrigin rayDirection).direction = 1 ∧
    (Ray.new M rayOrigin rayDirection).getPoint t
      = rayOrigin + t * (Ray.new M rayOrigin rayDirection).direction ∧
    dot ((Ray.new M rayOrigin rayDirection).getPoint t - rayOrigin)
      ((Ray.new M rayOrigin rayDirection).getPoint t - rayOrigin) = t * t ∧
    (IsSqrtAt M 1 → length M (Ray.new M rayOrigin rayDirection).direction = 1) ∧
    (IsSqrtAt M (t * t) →
      distance M rayOrigin ((Ray.new M rayOrigin rayDirection).getPoint t) = |t|) := by
  have hpos := dot_self_pos _ hd
  have hunit := normalize_dot_self M rayDirection hs hpos
  have hsq : dot ((Ray.new M rayOrigin rayDirection).getPoint t - rayOrigin)
      ((Ray.new M rayOrigin rayDirection).getPoint t - rayOrigin) = t * t := by
    have h1 : dot ((Ray.new M rayOrigin rayDirection).getPoint t - rayOrigin)
        ((Ray.new M rayOrigin rayDirection).getPoint t - rayOrigin)
        = t * t * dot (normalize M rayDirection) (normalize M rayDirection) := by
      simp only [Ray.new, Ray.getPoint, dot, Vec3.sub_x, Vec3.sub_y, Vec3.sub_z, Vec3.add_x,
        Vec3.add_y, Vec3.add_z, Vec3.smul_x, Vec3.smul_y, Vec3.smul_z]
      ring
    rw [h1, hunit, mul_one]
  refine ⟨rfl, ?_, hunit, rfl, hsq, ?_, ?_⟩
  · simp only [Ray.new, normalize, length]
    ext <;> simp [div_eq_mul_inv]
  · intro h1
    have h2 := sqrt_mul_self_eq_abs M 1 (by rwa [mul_one])
    rw [mul_one, abs_one] at h2
    unfold length
    change M.sqrt (dot (normalize M rayDirection) (normalize M rayDirection)) = 1
    rw [hunit, h2]
  · intro ht
    unfold distance length
    rw [hsq]
    exact sqrt_mul_self_eq_abs M t ht

/-- C32, run: the ray constructed from the origin (1, 0, 0) and the direction
(3, 4, 0) has the direction (3/5, 4/5, 0); its point at `t = -2` is at distance 2
from the origin. -/
theorem C32_ray_witness :
    (Ray.new ratOps ⟨1, 0, 0⟩ ⟨3, 4, 0⟩).direction = ⟨3 / 5, 4 / 5, 0⟩ ∧
    (Ray.new ratOps ⟨1, 0, 0⟩ ⟨3, 4, 0⟩).getPoint (-2) = ⟨-1 / 5, -8 / 5, 0⟩ ∧
    distance ratOps ⟨1, 0, 0⟩ ((Ray.new ratOps ⟨1, 0, 0⟩ ⟨3, 4, 0⟩).getPoint (-2)) = 2 := by
  have hs25 : ratSqrt 25 = 5 := by norm_num [ratSqrt, isqrtAux]
  have hs4 : ratSqrt 4 = 2 := by norm_num [ratSqrt, isqrtAux]
  have hdir : (Ray.new ratOps ⟨1, 0, 0⟩ ⟨3, 4, 0⟩).direction = ⟨3 / 5, 4 / 5, 0⟩ := by
    norm_num [Ray.new, normalize, dot, ratOps, hs25]
    ext <;> norm_num
  have hne : (⟨3, 4, 0⟩ : Vec3 ℚ) ≠ 0 := by
    intro h
    have hx := congrArg Vec3.x h
    norm_num at hx
  have h := C32_ray_unit_direction ratOps ⟨1, 0, 0⟩ ⟨3, 4, 0⟩ (-2) hne
    (by norm_num [IsSqrtAt, dot, ratOps, hs25])
  refine ⟨hdir, ?_, ?_⟩
  · rw [h.2.2.2.1, hdir]
    ext <;> norm_num
  · rw [h.2.2.2.2.2.2 (by norm_num [IsSqrtAt, ratOps, hs4])]
    norm_num

/-- An exact square root of 1 is 1. -/
theorem sqrt_one_of_exact (M : MathOps K) (hs : IsSqrtAt M 1) : M.sqrt 1 = 1 := by
  obtain ⟨h0, hq⟩ := hs zero_le_one
  have h1 : M.sqrt 1 * M.sqrt 1 = 1 * 1 := by rw [hq, mul_one]
  exact (mul_self_inj h0 zero_le_one).mp h1

/-- Two orthogonal unit vectors `w`, `u` and `cross w u` form a right-handed
orthonormal triple `(u, cross w u, w)`. -/
theorem cross_of_orthonormal (w u : Vec3 K) (hw : dot w w = 1) (hu : dot u u = 1)
    (huw : dot u w = 0) :
    dot (cross w u) (cross w u) = 1 ∧ dot u (cross w u) = 0 ∧ dot (cross w u) w = 0 ∧
    cross u (cross w u) = w := by
  simp only [dot] at hw hu huw
  refine ⟨?_, ?_, ?_, ?_⟩
  · simp only [dot, cross]
    linear_combination (u.x * u.x + u.y * u.y + u.z * u.z) * hw + hu
      - (u.x * w.x + u.y * w.y + u.z * w.z) * huw
  · simp only [dot, cross]
    ring
  · simp only [dot, cross]
    ring
  · ext
    · simp only [cross]
      linear_combination w.x * hu - u.x * huw
    · simp only [cross]
      linear_combination w.y * hu - u.y * huw
    · simp only [cross]
      linear_combination w.z * hu - u.z * huw

/-- C33: after `changeConfiguration(viewingPos, lookAtPt, up)` with
`lookAtPt ≠ viewingPos` and `up` not parallel to `lookAtPt - viewingPos` (their cross
product is not zero), and `sqrt` exact at the three squared lengths that are
normalised, the camera frame has origin `viewingPos`,
`w = -(lookAtPt - viewingPos) / |lookAtPt - viewingPos|`, the vectors `u`, `v`, `w` have
length 1 and are pairwise orthogonal, and `cross(u, v) = w`.  The other data members
of the camera are unchanged. -/
theorem C33_camera_frame_orthonormal (M : MathOps K) (cam : RaytracingCamera K)
    (viewingPos lookAtPt up : Vec3 K)
    (hd : lookAtPt ≠ viewingPos)
    (hup : cross up (lookAtPt - viewingPos) ≠ 0)
    (hs1 : IsSqrtAt M (dot (lookAtPt - viewingPos) (lookAtPt - viewingPos)))
    (hs2 : IsSqrtAt M (dot (cross up (normalize M (-(lookAtPt - viewingPos))))
      (cross up (normalize M (-(lookAtPt - viewingPos))))))
    (hs3 : IsSqrtAt M 1) :
    (cam.changeConfiguration M viewingPos lookAtPt up).cameraFrame.origin = viewingPos ∧
    (cam.changeConfiguration M viewingPos lookAtPt up).cameraFrame.w
      = -((lookAtPt - viewingPos) / length M (lookAtPt - viewingPos)) ∧
    dot (cam.changeConfiguration M viewingPos lookAtPt up).cameraFrame.u
      (cam.changeConfiguration M viewingPos lookAtPt up).cameraFrame.u = 1 ∧
    dot (cam.changeConfiguration M viewingPos lookAtPt up).cameraFrame.v
      (cam.changeConfiguration M viewingPos lookAtPt up).cameraFrame.v = 1 ∧
    dot (cam.changeConfiguration M viewingPos lookAtPt up).cameraFrame.w
      (cam.changeConfiguration M viewingPos lookAtPt up).cameraFrame.w = 1 ∧
    length M (cam.changeConfiguration M viewingPos lookAtPt up).cameraFrame.u = 1 ∧
    length M (cam.changeConfiguration M viewingPos lookAtPt up).cameraFrame.v = 1 ∧
    length M (cam.changeConfiguration M viewingPos lookAtPt up).cameraFrame.w = 1 ∧
    dot (cam.changeConfiguration M viewingPos lookAtPt up).cameraFrame.u
      (cam.changeConfiguration M viewingPos lookAtPt up).cameraFrame.v = 0 ∧
    dot (cam.changeConfiguration M viewingPos lookAtPt up).cameraFrame.u
      (cam.changeConfiguration M viewingPos lookAtPt up).cameraFrame.w = 0 ∧
    dot (cam.changeConfiguration M viewingPos lookAtPt up).cameraFrame.v
      (cam.changeConfiguration M viewingPos lookAtPt up).cameraFrame.w = 0 ∧
    cross (cam.changeConfiguration M viewingPos lookAtPt up).cameraFrame.u
      (cam.changeConfiguration M viewingPos lookAtPt up).cameraFrame.v
      = (cam.changeConfiguration M viewingPos lookAtPt up).cameraFrame.w ∧
    cam.changeConfiguration M viewingPos lookAtPt up
      = { cam with cameraFrame := (cam.changeConfiguration M viewingPos lookAtPt up).cameraFrame }
      := by
  have hdne : lookAtPt - viewingPos ≠ 0 := by
    intro h
    apply hd
    have hx := congrArg Vec3.x h
    have hy := congrArg Vec3.y h
    have hz := congrArg Vec3.z h
    simp only [Vec3.sub_x, Vec3.sub_y, Vec3.sub_z, Vec3.zero_x, Vec3.zero_y, Vec3.zero_z] at hx hy hz
    ext
    · linarith
    · linarith
    · linarith
  have hnegdot : dot (-(lookAtPt - viewingPos)) (-(lookAtPt - viewingPos))
      = dot (lookAtPt - viewingPos) (lookAtPt - viewingPos) := by
    simp only [dot, Vec3.neg_x, Vec3.neg_y, Vec3.neg_z]
    ring
  have hdpos := dot_self_pos _ hdne
  have hs1n : IsSqrtAt M (dot (-(lookAtPt - viewingPos)) (-(lookAtPt - viewingPos))) := by
    rw [hnegdot]
    exact hs1
  have hw : dot (normalize M (-(lookAtPt - viewingPos))) (normalize M (-(lookAtPt - viewingPos)))
      = 1 := normalize_dot_self M _ hs1n (by rw [hnegdot]; exact hdpos)
  have hsp := sqrt_pos_of_pos M _ hs1 hdpos
  -- `cross up w` is not zero
  have hcne : cross up (normalize M (-(lookAtPt - viewingPos))) ≠ 0 := by
    intro h
    apply hup
    have hx := congrArg Vec3.x h
    have hy := congrArg Vec3.y h
    have hz := congrArg Vec3.z h
    have hk : (1 : K) / M.sqrt (dot (lookAtPt - viewingPos) (lookAtPt - viewingPos)) ≠ 0 :=
      one_div_ne_zero (ne_of_gt hsp)
    simp only [cross, normalize, hnegdot, Vec3.muls_x, Vec3.muls_y, Vec3.muls_z, Vec3.neg_x,
      Vec3.neg_y, Vec3.neg_z, Vec3.zero_x, Vec3.zero_y, Vec3.zero_z, Vec3.sub_x, Vec3.sub_y,
      Vec3.sub_z] at hx hy hz
    generalize (1 : K) / M.sqrt (dot (lookAtPt - viewingPos) (lookAtPt - viewingPos)) = k
      at hx hy hz hk
    ext
    · simp only [cross, Vec3.sub_x, Vec3.sub_y, Vec3.sub_z, Vec3.zero_x]
      have : (up.y * (lookAtPt.z - viewingPos.z) - (lookAtPt.y - viewingPos.y) * up.z) * k = 0 := by
        linear_combination -hx
      rcases mul_eq_zero.mp this with h0 | h0
      · exact h0
      · exact (hk h0).elim
    · simp only [cross, Vec3.sub_x, Vec3.sub_y, Vec3.sub_z, Vec3.zero_y]
      have : (up.z * (lookAtPt.x - viewingPos.x) - (lookAtPt.z - viewingPos.z) * up.x) * k = 0 := by
        linear_combination -hy
      rcases mul_eq_zero.mp this with h0 | h0
      · exact h0
      · exact (hk h0).elim
    · simp only [cross, Vec3.sub_x, Vec3.sub_y, Vec3.sub_z, Vec3.zero_z]
      have : (up.x * (lookAtPt.y - viewingPos.y) - (lookAtPt.x - viewingPos.x) * up.y) * k = 0 := by
        linear_combination -hz
      rcases mul_eq_zero.mp this with h0 | h0
      · exact h0
      · exact (hk h0).elim
  have hu : dot (normalize M (cross up (normalize M (-(lookAtPt - viewingPos)))))
      (normalize M (cross up (normalize M (-(lookAtPt - viewingPos))))) = 1 :=
    normalize_dot_self M _ hs2 (dot_self_pos _ hcne)
  have huw : dot (normalize M (cross up (normalize M (-(lookAtPt - viewingPos)))))
      (normalize M (-(lookAtPt - viewingPos))) = 0 := by
    generalize normalize M (-(lookAtPt - viewingPos)) = w
    simp only [normalize, dot, cross, Vec3.muls_x, Vec3.muls_y, Vec3.muls_z]
    ring
  obtain ⟨hc1, hc2, hc3, hc4⟩ := cross_of_orthonormal _ _ hw hu huw
  have hone := sqrt_one_of_exact M hs3
  have hv : normalize M (cross (normalize M (-(lookAtPt - viewingPos)))
      (normalize M (cross up (normalize M (-(lookAtPt - viewingPos))))))
      = cross (normalize M (-(lookAtPt - viewingPos)))
        (normalize M (cross up (normalize M (-(lookAtPt - viewingPos))))) := by
    generalize cross (normalize M (-(lookAtPt - viewingPos)))
      (normalize M (cross up (normalize M (-(lookAtPt - viewingPos))))) = c at hc1
    unfold normalize
    rw [hc1, hone]
    ext <;> simp
  have hV : (cam.changeConfiguration M viewingPos lookAtPt up).cameraFrame.v
      = cross (normalize M (-(lookAtPt - viewingPos)))
        (normalize M (cross up (normalize M (-(lookAtPt - viewingPos))))) := hv
  have hU : (cam.changeConfiguration M viewingPos lookAtPt up).cameraFrame.u
      = normalize M (cross up (normalize M (-(lookAtPt - viewingPos)))) := rfl
  have hW : (cam.changeConfiguration M viewingPos lookAtPt up).cameraFrame.w
      = normalize M (-(lookAtPt - viewingPos)) := rfl
  rw [hV, hU, hW]
  refine ⟨rfl, ?_, hu, hc1, hw, ?_, ?_, ?_, hc2, huw, hc3, hc4, rfl⟩
  · simp only [normalize, length, hnegdot]
    ext <;> simp only [Vec3.muls_x, Vec3.muls_y, Vec3.muls_z, Vec3.neg_x, Vec3.neg_y,
      Vec3.neg_z, Vec3.divs_x, Vec3.divs_y, Vec3.divs_z] <;> ring
  · simp only [length]
    rw [hu, hone]
  · simp only [length]
    rw [hc1, hone]
  · simp only [length]
    rw [hw, hone]

/-- C33, run: a camera at (0, 0, 5) looking at the origin with up = (0, 1, 0) gets
the frame with origin (0, 0, 5), u = (1, 0, 0), v = (0, 1, 0), w = (0, 0, 1). -/
theorem C33_camera_witness :
    (exampleCamera.changeConfiguration ratOps ⟨0, 0, 5⟩ ⟨0, 0, 0⟩ ⟨0, 1, 0⟩).cameraFrame
      = ⟨⟨1, 0, 0⟩, ⟨0, 1, 0⟩, ⟨0, 0, 1⟩, ⟨0, 0, 5⟩⟩ ∧
    cross (exampleCamera.changeConfiguration ratOps ⟨0, 0, 5⟩ ⟨0, 0, 0⟩ ⟨0, 1, 0⟩).cameraFrame.u
      (exampleCamera.changeConfiguration ratOps ⟨0, 0, 5⟩ ⟨0, 0, 0⟩ ⟨0, 1, 0⟩).cameraFrame.v
      = (exampleCamera.changeConfiguration ratOps ⟨0, 0, 5⟩ ⟨0, 0, 0⟩ ⟨0, 1, 0⟩).cameraFrame.w := by
  have hs25 : ratSqrt 25 = 5 := by norm_num [ratSqrt, isqrtAux]
  have hs1 : ratSqrt 1 = 1 := by norm_num [ratSqrt, isqrtAux]
  have hw : normalize ratOps (-((⟨0, 0, 0⟩ : Vec3 ℚ) - ⟨0, 0, 5⟩)) = ⟨0, 0, 1⟩ := by
    unfold normalize
    ext <;> norm_num [dot, ratOps, hs25]
  have hc : cross (⟨0, 1, 0⟩ : Vec3 ℚ) ⟨0, 0, 1⟩ = ⟨1, 0, 0⟩ := by
    unfold cross
    ext <;> norm_num
  have hu : normalize ratOps (⟨1, 0, 0⟩ : Vec3 ℚ) = ⟨1, 0, 0⟩ := by
    unfold normalize
    ext <;> norm_num [dot, ratOps, hs1]
  have hc2 : cross (⟨0, 0, 1⟩ : Vec3 ℚ) ⟨1, 0, 0⟩ = ⟨0, 1, 0⟩ := by
    unfold cross
    ext <;> norm_num
  have hv : normalize ratOps (⟨0, 1, 0⟩ : Vec3 ℚ) = ⟨0, 1, 0⟩ := by
    unfold normalize
    ext <;> norm_num [dot, ratOps, hs1]
  refine ⟨?_, (C33_camera_frame_orthonormal ratOps exampleCamera ⟨0, 0, 5⟩ ⟨0, 0, 0⟩ ⟨0, 1, 0⟩
    (by decide)
    (by
      intro h
      have hx := congrArg Vec3.x h
      norm_num [cross] at hx)
    (by norm_num [IsSqrtAt, dot, ratOps, hs25])
    (by rw [hw, hc]; norm_num [IsSqrtAt, dot, ratOps, hs1])
    (by norm_num [IsSqrtAt, ratOps, hs1])).2.2.2.2.2.2.2.2.2.2.2.1⟩
  simp only [RaytracingCamera.changeConfiguration, Frame.setFrame, hw, hc, hu, hc2, hv]

/-- C34: the zero sets of the named parameter constructors.  For `R ≠ 0` (all
components of `sz` non-zero): `sphereQParams(R)` is `x^2 + y^2 + z^2 = R^2`,
`cylinderXQParams(R)` is `y^2 + z^2 = R^2`, `cylinderYQParams(R)` is
`x^2 + z^2 = R^2`, `cylinderZQParams(R)` is `x^2 + y^2 = R^2`, `ellipsoidQParams(sz)`
is `(x/sz.x)^2 + (y/sz.y)^2 + (z/sz.z)^2 = 1`, `coneYQParams(R)` is
`x^2 + z^2 = R^2 * y^2`; the default constructor gives the unit sphere. -/
theorem C34_named_quadrics (R : K) (sz p : Vec3 K) (hR : R ≠ 0)
    (hsz : sz.x ≠ 0 ∧ sz.y ≠ 0 ∧ sz.z ≠ 0) :
    ((QuadricParameters.sphereQParams R).eval p = 0 ↔ p.x ^ 2 + p.y ^ 2 + p.z ^ 2 = R ^ 2) ∧
    ((QuadricParameters.cylinderXQParams R).eval p = 0 ↔ p.y ^ 2 + p.z ^ 2 = R ^ 2) ∧
    ((QuadricParameters.cylinderYQParams R).eval p = 0 ↔ p.x ^ 2 + p.z ^ 2 = R ^ 2) ∧
    ((QuadricParameters.cylinderZQParams R).eval p = 0 ↔ p.x ^ 2 + p.y ^ 2 = R ^ 2) ∧
    ((QuadricParameters.ellipsoidQParams sz).eval p = 0 ↔
      (p.x / sz.x) ^ 2 + (p.y / sz.y) ^ 2 + (p.z / sz.z) ^ 2 = 1) ∧
    ((QuadricParameters.coneYQParams R).eval p = 0 ↔ p.x ^ 2 + p.z ^ 2 = R ^ 2 * p.y ^ 2) ∧
    ((QuadricParameters.default : QuadricParameters K).eval p = 0 ↔
      p.x ^ 2 + p.y ^ 2 + p.z ^ 2 = 1) := by
  obtain ⟨hx, hy, hz⟩ := hsz
  refine ⟨?_, ?_, ?_, ?_, ?_, ?_, ?_⟩
  · simp only [QuadricParameters.eval, QuadricParameters.sphereQParams]
    constructor <;> intro h <;> linear_combination h
  · simp only [QuadricParameters.eval, QuadricParameters.cylinderXQParams]
    constructor
    · intro h
      field_simp at h
      linear_combination h
    · intro h
      field_simp
      linear_combination h
  · simp only [QuadricParameters.eval, QuadricParameters.cylinderYQParams]
    constructor
    · intro h
      field_simp at h
      linear_combination h
    · intro h
      field_simp
      linear_combination h
  · simp only [QuadricParameters.eval, QuadricParameters.cylinderZQParams]
    constructor
    · intro h
      field_simp at h
      linear_combination h
    · intro h
      field_simp
      linear_combination h
  · have he : (QuadricParameters.ellipsoidQParams sz).eval p
        = (p.x / sz.x) ^ 2 + (p.y / sz.y) ^ 2 + (p.z / sz.z) ^ 2 - 1 := by
      simp only [QuadricParameters.eval, QuadricParameters.ellipsoidQParams]
      ring
    rw [he]
    constructor <;> intro h <;> linarith
  · simp only [QuadricParameters.eval, QuadricParameters.coneYQParams]
    constructor
    · intro h
      field_simp at h
      linear_combination h
    · intro h
      field_simp
      linear_combination h
  · simp only [QuadricParameters.eval, QuadricParameters.default]
    constructor <;> intro h <;> linear_combination h

/-- C34, run: the point (0, 2, 0) lies on `sphereQParams(2)` and on
`cylinderXQParams(2)`, the point (1, 0, 0) on the default quadric, the point
(2, 1, 0) on `coneYQParams(2)`. -/
theorem C34_named_quadrics_witness :
    (QuadricParameters.sphereQParams (2 : ℚ)).eval ⟨0, 2, 0⟩ = 0 ∧
    (QuadricParameters.cylinderXQParams (2 : ℚ)).eval ⟨0, 2, 0⟩ = 0 ∧
    (QuadricParameters.default : QuadricParameters ℚ).eval ⟨1, 0, 0⟩ = 0 ∧
    (QuadricParameters.coneYQParams (2 : ℚ)).eval ⟨2, 1, 0⟩ = 0 := by
  have h1 := C34_named_quadrics (2 : ℚ) ⟨1, 1, 1⟩ ⟨0, 2, 0⟩ (by norm_num)
    ⟨by norm_num, by norm_num, by norm_num⟩
  have h2 := C34_named_quadrics (2 : ℚ) ⟨1, 1, 1⟩ ⟨1, 0, 0⟩ (by norm_num)
    ⟨by norm_num, by norm_num, by norm_num⟩
  have h3 := C34_named_quadrics (2 : ℚ) ⟨1, 1, 1⟩ ⟨2, 1, 0⟩ (by norm_num)
    ⟨by norm_num, by norm_num, by norm_num⟩
  exact ⟨h1.1.mpr (by norm_num), h1.2.1.mpr (by norm_num), h2.2.2.2.2.2.2.mpr (by norm_num),
    h3.2.2.2.2.2.1.mpr (by norm_num)⟩

/-- C37: for a quadric surface constructed by `IQuadricSurface(params, position)`
and every ray and `t`, the coefficients of `computeAqBqCq` satisfy
`Aq*t^2 + Bq*t + Cq = F(origin + t*direction - center)`; so `t` is a root of the
quadratic exactly when the point of the ray at `t` lies on the surface. -/
theorem C37_quadratic_is_substitution (params : QuadricParameters K) (position : Vec3 K)
    (ray : Ray K) (t : K) :
    ((IQuadricSurface.new params position).computeAqBqCq ray).1 * t ^ 2
        + ((IQuadricSurface.new params position).computeAqBqCq ray).2.1 * t
        + ((IQuadricSurface.new params position).computeAqBqCq ray).2.2
      = params.eval (ray.origin + t * ray.direction - position) ∧
    (IsRoot ((IQuadricSurface.new params position).computeAqBqCq ray) t ↔
      params.eval (ray.getPoint t - position) = 0) := by
  have h : ((IQuadricSurface.new params position).computeAqBqCq ray).1 * t ^ 2
        + ((IQuadricSurface.new params position).computeAqBqCq ray).2.1 * t
        + ((IQuadricSurface.new params position).computeAqBqCq ray).2.2
      = params.eval (ray.origin + t * ray.direction - position) := by
    simp only [IQuadricSurface.computeAqBqCq, IQuadricSurface.new, QuadricParameters.eval,
      Vec3.sub_x, Vec3.sub_y, Vec3.sub_z, Vec3.add_x, Vec3.add_y, Vec3.add_z, Vec3.smul_x,
      Vec3.smul_y, Vec3.smul_z]
    ring
  refine ⟨h, ?_⟩
  unfold IsRoot Ray.getPoint
  rw [h]

/-- C37, run: for the unit sphere at (0, 0, -3) and the ray from the origin along
-z the quadratic is `t^2 - 6t + 8`; `t = 2` is a root and the point (0, 0, -2)
lies on the sphere. -/
theorem C37_quadratic_witness :
    (IQuadricSurface.new (QuadricParameters.default : QuadricParameters ℚ)
        ⟨0, 0, -3⟩).computeAqBqCq ⟨⟨0, 0, 0⟩, ⟨0, 0, -1⟩⟩ = (1, -6, 8) ∧
    IsRoot ((1, -6, 8) : ℚ × ℚ × ℚ) 2 ∧
    (QuadricParameters.default : QuadricParameters ℚ).eval
      ((⟨⟨0, 0, 0⟩, ⟨0, 0, -1⟩⟩ : Ray ℚ).getPoint 2 - ⟨0, 0, -3⟩) = 0 := by
  have habc : (IQuadricSurface.new (QuadricParameters.default : QuadricParameters ℚ)
      ⟨0, 0, -3⟩).computeAqBqCq ⟨⟨0, 0, 0⟩, ⟨0, 0, -1⟩⟩ = (1, -6, 8) := by
    norm_num [IQuadricSurface.computeAqBqCq, IQuadricSurface.new, QuadricParameters.default]
  have hroot : IsRoot ((1, -6, 8) : ℚ × ℚ × ℚ) 2 := by norm_num [IsRoot]
  refine ⟨habc, hroot, ?_⟩
  have h := (C37_quadratic_is_substitution (QuadricParameters.default : QuadricParameters ℚ)
    ⟨0, 0, -3⟩ ⟨⟨0, 0, 0⟩, ⟨0, 0, -1⟩⟩ 2).2
  rw [habc] at h
  exact h.mp hroot

/-- Mapping an updated store over addresses other than the updated one. -/
theorem map_update_of_not_mem {A : Type} (f : Nat → A) (p : Nat) (a : A) (l : List Nat)
    (hp : p ∉ l) : l.map (Function.update f p a) = l.map f := by
  apply List.map_congr_left
  intro q hq
  have hne : q ≠ p := fun e => hp (e ▸ hq)
  exact Function.update_noteq hne a f

/-- C35: scene building only appends.
`addObject(obj)` leaves the heap alone and appends `obj` to `visibleObjects`, the other
three members unchanged.  `addTransparentObject(obj, alpha)` changes the heap only at
`obj`, where it sets `material.alpha = alpha` and keeps every other member of the
object; it appends `obj` to `transparentObjects` and leaves the members
`visibleObjects`, `lights` and `camera` unchanged; the objects those members point to
are unchanged too (for `visibleObjects`: when `obj` is not already one of them).
`addObject(light)` appends to `lights` only and `changeCamera(cam)` replaces only
`camera`, both without touching the heap.  Entries already present keep their
positions. -/
theorem C35_scene_building_appends {K : Type} (s : IScenePtrs) (h : Heap K) (obj light cam : Nat)
    (alpha : K) :
    -- addObject
    (s.addObject h obj = (h, { s with visibleObjects := s.visibleObjects ++ [obj] }) ∧
      (∀ i, i < s.visibleObjects.length →
        (s.addObject h obj).2.visibleObjects.get? i = s.visibleObjects.get? i) ∧
      ((s.addObject h obj).2.deref (s.addObject h obj).1).visibleObjects
        = (s.deref h).visibleObjects ++ [h.shapes obj] ∧
      ((s.addObject h obj).2.deref (s.addObject h obj).1).lights = (s.deref h).lights ∧
      ((s.addObject h obj).2.deref (s.addObject h obj).1).transparentObjects
        = (s.deref h).transparentObjects ∧
      ((s.addObject h obj).2.deref (s.addObject h obj).1).camera = (s.deref h).camera) ∧
    -- addTransparentObject
    ((s.addTransparentObject h obj alpha).2
        = { s with transparentObjects := s.transparentObjects ++ [obj] } ∧
      (∀ i, i < s.transparentObjects.length →
        (s.addTransparentObject h obj alpha).2.transparentObjects.get? i
          = s.transparentObjects.get? i) ∧
      ((s.addTransparentObject h obj alpha).1.shapes obj).material.alpha = alpha ∧
      (s.addTransparentObject h obj alpha).1.shapes obj
        = { (h.shapes obj) with material := { (h.shapes obj).material with alpha := alpha } } ∧
      (∀ p, p ≠ obj → (s.addTransparentObject h obj alpha).1.shapes p = h.shapes p) ∧
      (s.addTransparentObject h obj alpha).1.lights = h.lights ∧
      (s.addTransparentObject h obj alpha).1.cameras = h.cameras ∧
      ((s.addTransparentObject h obj alpha).2.deref (s.addTransparentObject h obj alpha).1).lights
        = (s.deref h).lights ∧
      ((s.addTransparentObject h obj alpha).2.deref (s.addTransparentObject h obj alpha).1).camera
        = (s.deref h).camera ∧
      (obj ∉ s.visibleObjects →
        ((s.addTransparentObject h obj alpha).2.deref
          (s.addTransparentObject h obj alpha).1).visibleObjects = (s.deref h).visibleObjects) ∧
      (obj ∉ s.transparentObjects →
        ((s.addTransparentObject h obj alpha).2.deref
          (s.addTransparentObject h obj alpha).1).transparentObjects
          = (s.deref h).transparentObjects ++
            [{ (h.shapes obj) with
                material := { (h.shapes obj).material with alpha := alpha } }])) ∧
    -- addObject(light)
    (s.addObjectLight h light = (h, { s with lights := s.lights ++ [light] }) ∧
      (∀ i, i < s.lights.length →
        (s.addObjectLight h light).2.lights.get? i = s.lights.get? i) ∧
      ((s.addObjectLight h light).2.deref (s.addObjectLight h light).1).lights
        = (s.deref h).lights ++ [h.lights light] ∧
      ((s.addObjectLight h light).2.deref (s.addObjectLight h light).1).visibleObjects
        = (s.deref h).visibleObjects ∧
      ((s.addObjectLight h light).2.deref (s.addObjectLight h light).1).transparentObjects
        = (s.deref h).transparentObjects ∧
      ((s.addObjectLight h light).2.deref (s.addObjectLight h light).1).camera
        = (s.deref h).camera) ∧
    -- changeCamera
    (s.changeCamera h cam = (h, { s with camera := cam }) ∧
      ((s.changeCamera h cam).2.deref (s.changeCamera h cam).1).camera = h.cameras cam ∧
      ((s.changeCamera h cam).2.deref (s.changeCamera h cam).1).lights = (s.deref h).lights ∧
      ((s.changeCamera h cam).2.deref (s.changeCamera h cam).1).visibleObjects
        = (s.deref h).visibleObjects ∧
      ((s.changeCamera h cam).2.deref (s.changeCamera h cam).1).transparentObjects
        = (s.deref h).transparentObjects) := by
  refine ⟨⟨rfl, ?_, ?_, rfl, rfl, rfl⟩,
    ⟨rfl, ?_, ?_, ?_, ?_, rfl, rfl, rfl, rfl, ?_, ?_⟩,
    ⟨rfl, ?_, ?_, rfl, rfl, rfl⟩, ⟨rfl, rfl, rfl, rfl, rfl⟩⟩
  · intro i hi
    simp only [IScenePtrs.addObject, List.get?_eq_getElem?]
    exact List.getElem?_append_left hi
  · simp only [IScenePtrs.addObject, IScenePtrs.deref, List.map_append, List.map_cons,
      List.map_nil]
  · intro i hi
    simp only [IScenePtrs.addTransparentObject, List.get?_eq_getElem?]
    exact List.getElem?_append_left hi
  · simp only [IScenePtrs.addTransparentObject, Function.update_same]
  · simp only [IScenePtrs.addTransparentObject, Function.update_same]
  · intro p hp
    simp only [IScenePtrs.addTransparentObject]
    exact Function.update_noteq hp _ _
  · intro hobj
    simp only [IScenePtrs.addTransparentObject, IScenePtrs.deref]
    exact map_update_of_not_mem _ _ _ _ hobj
  · intro hobj
    simp only [IScenePtrs.addTransparentObject, IScenePtrs.deref, List.map_append,
      List.map_cons, List.map_nil, Function.update_same]
    rw [map_update_of_not_mem _ _ _ _ hobj]
  · intro i hi
    simp only [IScenePtrs.addObjectLight, List.get?_eq_getElem?]
    exact List.getElem?_append_left hi
  · simp only [IScenePtrs.addObjectLight, IScenePtrs.deref, List.map_append, List.map_cons,
      List.map_nil]

/-- C35, run: adding the shape at address 1 as a transparent object with alpha 1/4 to
a scene that shows the shape at address 0 gives the pointer lists `[0]` and `[1]`,
sets the alpha of shape 1 to 1/4 and leaves the visible object as it was. -/
theorem C35_scene_building_witness :
    (examplePtrs.addTransparentObject exampleHeap 1 (1 / 4)).2 = ⟨[], [0], [1], 0⟩ ∧
    ((examplePtrs.addTransparentObject exampleHeap 1 (1 / 4)).1.shapes 1).material.alpha
      = 1 / 4 ∧
    (1 : Nat) ∉ examplePtrs.visibleObjects ∧
    ((examplePtrs.addTransparentObject exampleHeap 1 (1 / 4)).2.deref
      (examplePtrs.addTransparentObject exampleHeap 1 (1 / 4)).1).visibleObjects
      = [exampleOpaque] ∧
    (examplePtrs.addObject exampleHeap 1).2 = ⟨[], [0, 1], [], 0⟩ := by
  have hmem : (1 : Nat) ∉ examplePtrs.visibleObjects := by decide
  obtain ⟨-, ⟨h1, -, h3, -, -, -, -, -, -, h10, -⟩, -, -⟩ :=
    C35_scene_building_appends examplePtrs exampleHeap 1 0 0 (1 / 4 : ℚ)
  refine ⟨h1, h3, hmem, ?_, rfl⟩
  rw [h10 hmem]
  rfl

/-- A quotient by zero is a NaN or an infinity. -/
theorem XFloat.div_zero_cases (negZero : Bool) (a : K) :
    XFloat.div negZero a 0 = .nan ∨ XFloat.div negZero a 0 = .pinf ∨
      XFloat.div negZero a 0 = .ninf := by
  unfold XFloat.div
  simp only [if_true]
  split_ifs
  · exact Or.inl rfl
  · exact Or.inr (Or.inr rfl)
  · exact Or.inr (Or.inl rfl)

/-- For `A ≠ 0` the solver with float semantics is the solver on numbers. -/
theorem quadraticArrX_of_ne (M : MathOps K) (negA : Bool) (A B C r0 r1 : K) (hA : A ≠ 0) :
    quadraticArrX M negA A B C (.fin r0, .fin r1)
      = ((quadraticArr M A B C (r0, r1)).1,
          (.fin (quadraticArr M A B C (r0, r1)).2.1, .fin (quadraticArr M A B C (r0, r1)).2.2)) := by
  have h2 : (2 : K) * A ≠ 0 := mul_ne_zero two_ne_zero hA
  unfold quadraticArrX quadraticArr XFloat.div XFloat.min XFloat.max XFloat.lt
  simp only [h2, if_false]
  split_ifs with h1 h3 h4 h5 h6
  all_goals first
    | rfl
    | (simp only [Prod.mk.injEq, XFloat.fin.injEq, true_and]
       simp only [decide_eq_true_eq] at *
       refine ⟨?_, ?_⟩ <;> simp [min_def, max_def] <;> split_ifs <;> first | rfl | linarith)

/-- An infinite `t` puts every coordinate of `origin + t*direction` outside every
finite range, for strict and for inclusive bounds. -/
theorem XFloat.offset_inf_outside (o d lo hi : K) :
    (XFloat.lt (XFloat.addFin o (XFloat.mulFin .pinf d)) (.fin hi) &&
      XFloat.lt (.fin lo) (XFloat.addFin o (XFloat.mulFin .pinf d))) = false ∧
    (XFloat.le (XFloat.addFin o (XFloat.mulFin .pinf d)) (.fin hi) &&
      XFloat.le (.fin lo) (XFloat.addFin o (XFloat.mulFin .pinf d))) = false := by
  unfold XFloat.mulFin
  split_ifs <;> simp [XFloat.addFin, XFloat.lt, XFloat.le]

/-- With `Aq = 0` the method `findIntersections` stores nothing but records with
`t = +inf`: it returns 0, or 1 with such a record in `hits[0]`, or 2 with such a
record in both entries. -/
theorem IQuadricSurface.findIntersectionsX_zero (M : MathOps K) (abc : Ray K → K × K × K)
    (negA : Bool) (ray : Ray K) (hits : XHit K × XHit K) (hA : (abc ray).1 = 0) :
    IQuadricSurface.findIntersectionsX M abc negA ray hits = (0, hits) ∨
    IQuadricSurface.findIntersectionsX M abc negA ray hits
      = (1, (XHit.atInfinity ray, hits.2)) ∨
    IQuadricSurface.findIntersectionsX M abc negA ray hits
      = (2, (XHit.atInfinity ray, XHit.atInfinity ray)) := by
  unfold IQuadricSurface.findIntersectionsX quadraticArrX
  simp only [hA, mul_zero, zero_mul, sub_zero]
  have hf := XFloat.div_zero_cases negA
    (-(abc ray).2.1 + M.sqrt ((abc ray).2.1 * (abc ray).2.1))
  have hs := XFloat.div_zero_cases negA
    (-(abc ray).2.1 - M.sqrt ((abc ray).2.1 * (abc ray).2.1))
  generalize XFloat.div negA (-(abc ray).2.1 + M.sqrt ((abc ray).2.1 * (abc ray).2.1)) 0 = f
    at hf ⊢
  generalize XFloat.div negA (-(abc ray).2.1 - M.sqrt ((abc ray).2.1 * (abc ray).2.1)) 0 = s
    at hs ⊢
  split_ifs with h1 h2
  · rcases hf with rfl | rfl | rfl <;> rcases hs with rfl | rfl | rfl <;>
      simp [XFloat.min, XFloat.max, XFloat.lt, List.range_succ,
        IQuadricSurface.findIntersectionsStepX, XHit.atInfinity]
  · rcases hf with rfl | rfl | rfl <;>
      simp [XFloat.lt, List.range_succ,
        IQuadricSurface.findIntersectionsStepX, XHit.atInfinity]
  · simp

/-- With `Aq = 0` the method `ICylinderY::findClosestIntersection` leaves `t = FLT_MAX`. -/
theorem cylinderYX_zero_leaves_FLT_MAX (M : MathOps K) (cy : ICylinderY K)
    (negA : Bool) (ray : Ray K) (hit : XHit K) (hits : XHit K × XHit K)
    (hA : (cy.toICylinder.computeAqBqCq ray).1 = 0) :
    (cy.findClosestIntersectionX M negA ray hit hits).1.t = .fin FLT_MAX := by
  have hy := fun lo hi => (XFloat.offset_inf_outside ray.origin.y ray.direction.y lo hi).1
  unfold ICylinderY.findClosestIntersectionX
  rcases IQuadricSurface.findIntersectionsX_zero M _ negA ray hits hA with h | h | h
  · simp [h]
  · simp only [h, find_range_one, XHit.get, if_true, XHit.atInfinity, hy]
    simp
  · simp only [h, find_range_two, XHit.get, if_true, one_ne_zero, if_false, XHit.atInfinity, hy]
    simp

/-- With `Aq = 0` the method `ICloseCylinderY::findClosestIntersection`, called with a
record whose `t` is `FLT_MAX`, reports the smaller `t` of its two caps, or `FLT_MAX`. -/
theorem closeCylinderYX_zero_reports_caps (M : MathOps K) (cc : ICloseCylinderY K)
    (negA : Bool) (ray : Ray K) (hit : XHit K) (hits : XHit K × XHit K)
    (hA : (cc.toICylinder.computeAqBqCq ray).1 = 0) (hfresh : hit.t = .fin FLT_MAX) :
    (cc.findClosestIntersectionX M negA ray hit hits).1.t
      = .fin (min (cc.bottomDisk.findClosestIntersection M ray HitRecord.new).t
          (min (cc.topDisk.findClosestIntersection M ray HitRecord.new).t FLT_MAX)) := by
  have h3 := cylinderYX_zero_leaves_FLT_MAX M cc.toICylinderY negA ray XHit.new hits hA
  unfold ICloseCylinderY.findClosestIntersectionX
  simp only [XHit.ofHitRecord, h3, hfresh]
  generalize (cc.topDisk.findClosestIntersection M ray HitRecord.new).t = t1
  generalize (cc.bottomDisk.findClosestIntersection M ray HitRecord.new).t = t2
  by_cases c1 : t1 < FLT_MAX
  · by_cases c2 : t2 < t1
    · have hm : min t2 (min t1 FLT_MAX) = t2 := by
        rw [min_eq_left c1.le, min_eq_left c2.le]
      have c3 : ¬ (FLT_MAX : K) < t2 := not_lt.mpr (c2.trans c1).le
      simp [XFloat.lt, c1, c2, c3, hm]
    · have hm : min t2 (min t1 FLT_MAX) = t1 := by
        rw [min_eq_left c1.le, min_eq_right (not_lt.mp c2)]
      have c3 : ¬ (FLT_MAX : K) < t1 := not_lt.mpr c1.le
      simp [XFloat.lt, c1, c2, c3, hm]
  · by_cases c2 : t2 < FLT_MAX
    · have hm : min t2 (min t1 FLT_MAX) = t2 := by
        rw [min_eq_right (not_lt.mp c1), min_eq_left c2.le]
      have c3 : ¬ (FLT_MAX : K) < t2 := not_lt.mpr c2.le
      simp [XFloat.lt, c1, c2, c3, hfresh, hm]
    · have hm : min t2 (min t1 FLT_MAX) = FLT_MAX := by
        rw [min_eq_right (not_lt.mp c1), min_eq_right (not_lt.mp c2)]
      simp [XFloat.lt, c1, c2, hfresh, hm]

/-- C38, counterexample: the ray from (0, 5, 0) along -y is parallel to the axis of
`exampleCloseCylinderY` (radius 1, length 2, about the y axis), so `Aq = 0` (and
`Bq = 0`).  Its lateral part reports no hit, but
`ICloseCylinderY::findClosestIntersection`, which is built on
`ICylinderY::findClosestIntersection`, reports the hit with the top cap at the finite
`t = 4`, whatever the sign of the zero `Aq`. -/
theorem C38_counterexample_closed_cylinder_hits_cap :
    exampleCloseCylinderY.toICylinder.computeAqBqCq ⟨⟨0, 5, 0⟩, ⟨0, -1, 0⟩⟩ = (0, 0, -1) ∧
    (exampleCloseCylinderY.topDisk.findClosestIntersection ratOps
      ⟨⟨0, 5, 0⟩, ⟨0, -1, 0⟩⟩ HitRecord.new).t = 4 ∧
    (exampleCloseCylinderY.bottomDisk.findClosestIntersection ratOps
      ⟨⟨0, 5, 0⟩, ⟨0, -1, 0⟩⟩ HitRecord.new).t = 6 ∧
    (exampleCloseCylinderY.toICylinderY.findClosestIntersectionX ratOps false
      ⟨⟨0, 5, 0⟩, ⟨0, -1, 0⟩⟩ XHit.new (XHit.new, XHit.new)).1.t = .fin FLT_MAX ∧
    (exampleCloseCylinderY.findClosestIntersectionX ratOps false
      ⟨⟨0, 5, 0⟩, ⟨0, -1, 0⟩⟩ XHit.new (XHit.new, XHit.new)).1.t = .fin 4 ∧
    (exampleCloseCylinderY.findClosestIntersectionX ratOps true
      ⟨⟨0, 5, 0⟩, ⟨0, -1, 0⟩⟩ XHit.new (XHit.new, XHit.new)).1.t = .fin 4 := by
  have hs0 : ratSqrt 0 = 0 := by norm_num [ratSqrt, isqrtAux]
  have habc : exampleCloseCylinderY.toICylinder.computeAqBqCq ⟨⟨0, 5, 0⟩, ⟨0, -1, 0⟩⟩
      = (0, 0, -1) := by
    norm_num [ICylinder.computeAqBqCq, exampleCloseCylinderY, ICloseCylinderY.new,
      ICylinderY.new, IQuadricSurface.new, QuadricParameters.cylinderYQParams]
  have hA : (exampleCloseCylinderY.toICylinder.computeAqBqCq ⟨⟨0, 5, 0⟩, ⟨0, -1, 0⟩⟩).1 = 0 := by
    rw [habc]
  have htop : (exampleCloseCylinderY.topDisk.findClosestIntersection ratOps
      ⟨⟨0, 5, 0⟩, ⟨0, -1, 0⟩⟩ HitRecord.new).t = 4 := by
    norm_num [exampleCloseCylinderY, ICloseCylinderY.new, ICylinderY.new, IQuadricSurface.new,
      IDisk.findClosestIntersection, IPlane.findClosestIntersection, IPlane.new,
      normalize, dot, distance, length, HitRecord.new, ratOps, ratSqrt_one, Ray.getPoint,
      FLT_MAX, hs0]
  have hbot : (exampleCloseCylinderY.bottomDisk.findClosestIntersection ratOps
      ⟨⟨0, 5, 0⟩, ⟨0, -1, 0⟩⟩ HitRecord.new).t = 6 := by
    norm_num [exampleCloseCylinderY, ICloseCylinderY.new, ICylinderY.new, IQuadricSurface.new,
      IDisk.findClosestIntersection, IPlane.findClosestIntersection, IPlane.new,
      normalize, dot, distance, length, HitRecord.new, ratOps, ratSqrt_one, Ray.getPoint,
      FLT_MAX, hs0]
  have hmin : min (6 : ℚ) (min 4 FLT_MAX) = 4 := by norm_num [FLT_MAX]
  refine ⟨habc, htop, hbot,
    cylinderYX_zero_leaves_FLT_MAX ratOps _ false _ _ _ hA, ?_, ?_⟩
  · rw [closeCylinderYX_zero_reports_caps ratOps _ false _ _ _ hA rfl, htop, hbot,
      hmin]
  · rw [closeCylinderYX_zero_reports_caps ratOps _ true _ _ _ hA rfl, htop, hbot,
      hmin]

/-- C38: when the ray makes `Aq` exactly zero (of either sign), both roots that
`quadratic` computes are quotients by zero, so NaN or infinite.  Then
`findIntersections` returns at most 2 and every record it counts has `t = +inf`;
`IQuadricSurface::findClosestIntersection` leaves `t = FLT_MAX` or `t = +inf`, never
another finite `t`, and the test `t < FLT_MAX` of its callers fails;
`IConeY`, `ICylinderY` and `ICylinderX::findClosestIntersection` reject every counted
record and leave `t = FLT_MAX`.  All of them return.  The lateral part of an
`ICloseCylinderY(pos, rad, len)` reports no hit either, and
`ICloseCylinderY::findClosestIntersection`, called with a record whose `t` is
`FLT_MAX`, reports what its two caps report: the smaller of their two `t`, or
`FLT_MAX` when neither is below it. -/
theorem C38_zero_leading_coefficient (M : MathOps K) (abc : Ray K → K × K × K)
    (cone : IConeY K) (cy : ICylinderY K) (cx : ICylinderX K) (pos : Vec3 K) (rad len : K)
    (negA : Bool) (ray : Ray K)
    (hit : XHit K) (hits : XHit K × XHit K) :
    ((abc ray).1 = 0 →
      (IQuadricSurface.findIntersectionsX M abc negA ray hits).1 ≤ 2 ∧
      (∀ i, i < (IQuadricSurface.findIntersectionsX M abc negA ray hits).1 →
        (XHit.get (IQuadricSurface.findIntersectionsX M abc negA ray hits).2 i).t = .pinf) ∧
      ((IQuadricSurface.findClosestIntersectionX M abc negA ray hit hits).1.t = .fin FLT_MAX ∨
        (IQuadricSurface.findClosestIntersectionX M abc negA ray hit hits).1.t = .pinf) ∧
      (∀ x, (IQuadricSurface.findClosestIntersectionX M abc negA ray hit hits).1.t = .fin x →
        x = FLT_MAX) ∧
      XFloat.lt (IQuadricSurface.findClosestIntersectionX M abc negA ray hit hits).1.t
        (.fin FLT_MAX) = false) ∧
    ((cone.toIQuadricSurface.computeAqBqCq ray).1 = 0 →
      (cone.findClosestIntersectionX M negA ray hit hits).1.t = .fin FLT_MAX) ∧
    ((cy.toICylinder.computeAqBqCq ray).1 = 0 →
      (cy.findClosestIntersectionX M negA ray hit hits).1.t = .fin FLT_MAX) ∧
    ((cx.toICylinder.computeAqBqCq ray).1 = 0 →
      (cx.findClosestIntersectionX M negA ray hit hits).1.t = .fin FLT_MAX) ∧
    (((ICloseCylinderY.new pos rad len).toICylinder.computeAqBqCq ray).1 = 0 →
      ((ICloseCylinderY.new pos rad len).toICylinderY.findClosestIntersectionX M negA ray XHit.new hits).1.t = .fin FLT_MAX ∧
      (hit.t = .fin FLT_MAX →
        ((ICloseCylinderY.new pos rad len).findClosestIntersectionX M negA ray hit hits).1.t
          = .fin (min ((ICloseCylinderY.new pos rad len).bottomDisk.findClosestIntersection M ray HitRecord.new).t
              (min ((ICloseCylinderY.new pos rad len).topDisk.findClosestIntersection M ray HitRecord.new).t FLT_MAX)))) := by
  have hy := fun lo hi => (XFloat.offset_inf_outside ray.origin.y ray.direction.y lo hi).1
  have hx := fun lo hi => (XFloat.offset_inf_outside ray.origin.x ray.direction.x lo hi).2
  refine ⟨?_, ?_, ?_, ?_, ?_⟩
  · intro hA
    have hcl : (IQuadricSurface.findClosestIntersectionX M abc negA ray hit hits).1.t
          = .fin FLT_MAX ∨
        (IQuadricSurface.findClosestIntersectionX M abc negA ray hit hits).1.t = .pinf := by
      unfold IQuadricSurface.findClosestIntersectionX
      rcases IQuadricSurface.findIntersectionsX_zero M abc negA ray hits hA with h | h | h <;>
        simp [h, XHit.atInfinity, XFloat.lt]
    refine ⟨?_, ?_, hcl, ?_, ?_⟩
    · rcases IQuadricSurface.findIntersectionsX_zero M abc negA ray hits hA with h | h | h <;>
        simp [h]
    · intro i hi
      rcases IQuadricSurface.findIntersectionsX_zero M abc negA ray hits hA with h | h | h
      · rw [h] at hi
        exact absurd hi (Nat.not_lt_zero i)
      · rw [h] at hi ⊢
        have hi0 : i = 0 := by omega
        subst hi0
        rfl
      · rw [h] at hi ⊢
        have hi0 : i = 0 ∨ i = 1 := by omega
        rcases hi0 with rfl | rfl <;> rfl
    · intro x hx
      rcases hcl with h | h
      · rw [h] at hx
        exact (XFloat.fin.inj hx).symm
      · rw [h] at hx
        exact absurd hx (by simp)
    · rcases hcl with h | h <;> simp [h, XFloat.lt]
  · intro hA
    unfold IConeY.findClosestIntersectionX
    rcases IQuadricSurface.findIntersectionsX_zero M _ negA ray hits hA with h | h | h
    · simp [h]
    · simp only [h, find_range_one, XHit.get, if_true, XHit.atInfinity, hy]
      simp
    · simp only [h, find_range_two, XHit.get, if_true, one_ne_zero, if_false, XHit.atInfinity, hy]
      simp
  · intro hA
    unfold ICylinderY.findClosestIntersectionX
    rcases IQuadricSurface.findIntersectionsX_zero M _ negA ray hits hA with h | h | h
    · simp [h]
    · simp only [h, find_range_one, XHit.get, if_true, XHit.atInfinity, hy]
      simp
    · simp only [h, find_range_two, XHit.get, if_true, one_ne_zero, if_false, XHit.atInfinity, hy]
      simp
  · intro hA
    unfold ICylinderX.findClosestIntersectionX
    rcases IQuadricSurface.findIntersectionsX_zero M _ negA ray hits hA with h | h | h
    · simp [h]
    · simp only [h, find_range_one, XHit.get, if_true, XHit.atInfinity, hx]
      simp
    · simp only [h, find_range_two, XHit.get, if_true, one_ne_zero, if_false, XHit.atInfinity, hx]
      simp
  · intro hA
    exact ⟨cylinderYX_zero_leaves_FLT_MAX M
        (ICloseCylinderY.new pos rad len).toICylinderY negA ray XHit.new hits hA,
      closeCylinderYX_zero_reports_caps M (ICloseCylinderY.new pos rad len) negA ray
        hit hits hA⟩

/-- C38, run: for the cone of radius 3/4 and a ray along one of its generator
directions `Aq = 0` and `Bq = -1`; the roots are `+inf` twice, `findIntersections`
returns 2, the general `findClosestIntersection` leaves `t = +inf`, and
`IConeY::findClosestIntersection` leaves `t = FLT_MAX`. -/
theorem C38_zero_leading_witness :
    exampleSlantCone.toIQuadricSurface.computeAqBqCq exampleGeneratorRay
      = (0, -1, -25 / 64) ∧
    IQuadricSurface.findIntersectionsX ratOps exampleSlantCone.toIQuadricSurface.computeAqBqCq
        false exampleGeneratorRay (XHit.new, XHit.new)
      = (2, (⟨.pinf, ⟨.pinf, .ninf, .nan⟩⟩, ⟨.pinf, ⟨.pinf, .ninf, .nan⟩⟩)) ∧
    (IQuadricSurface.findClosestIntersectionX ratOps
        exampleSlantCone.toIQuadricSurface.computeAqBqCq false exampleGeneratorRay XHit.new
        (XHit.new, XHit.new)).1.t = .pinf ∧
    (exampleSlantCone.findClosestIntersectionX ratOps false exampleGeneratorRay XHit.new
        (XHit.new, XHit.new)).1.t = .fin FLT_MAX := by
  have habc : exampleSlantCone.toIQuadricSurface.computeAqBqCq exampleGeneratorRay
      = (0, -1, -25 / 64) := by
    norm_num [IQuadricSurface.computeAqBqCq, exampleSlantCone, exampleGeneratorRay, IConeY.new,
      IQuadricSurface.new, QuadricParameters.coneYQParams]
  have hfind : IQuadricSurface.findIntersectionsX ratOps
      exampleSlantCone.toIQuadricSurface.computeAqBqCq false exampleGeneratorRay
        (XHit.new, XHit.new)
      = (2, (⟨.pinf, ⟨.pinf, .ninf, .nan⟩⟩, ⟨.pinf, ⟨.pinf, .ninf, .nan⟩⟩)) := by
    unfold IQuadricSurface.findIntersectionsX quadraticArrX
    rw [habc]
    have h2 : Int.toNat 2 = 2 := rfl
    norm_num [h2, List.range_zero, XFloat.div, XFloat.min, XFloat.max, XFloat.lt, ratOps, ratSqrt_one,
      List.range_succ, IQuadricSurface.findIntersectionsStepX, XFloat.mulFin, XFloat.addFin,
      exampleGeneratorRay]
  refine ⟨habc, hfind, ?_, ?_⟩
  · unfold IQuadricSurface.findClosestIntersectionX
    rw [hfind]
    simp [XFloat.lt]
  · exact (C38_zero_leading_coefficient ratOps (fun _ => (0, 0, 0)) exampleSlantCone
      exampleCylinderY (ICylinderX.new ⟨0, 0, 0⟩ 1 2) ⟨0, 0, 0⟩ 1 2
      false exampleGeneratorRay XHit.new
      (XHit.new, XHit.new)).2.1 (by rw [habc])

/-- The vector normalised by `IQuadricSurface::normal` for a surface constructed
by `IQuadricSurface(params, position)` is the gradient at `P - center`. -/
theorem IQuadricSurface.normal_eq (M : MathOps K) (params : QuadricParameters K)
    (position P : Vec3 K) :
    (IQuadricSurface.new params position).normal M P
      = normalize M (params.gradient (P - position)) := by
  unfold IQuadricSurface.normal QuadricParameters.gradient
  simp only [IQuadricSurface.new]

/-- C39: for a surface constructed by `IQuadricSurface(params, position)` and a
point `P` at which the gradient `g` of the quadric function (evaluated at
`P - center`) is non-zero, with `sqrt` exact at `dot(g, g)`:
`IQuadricSurface::normal(P)` is `k * g` for some `k > 0` and has
`dot(normal, normal) = 1` (length 1 when `sqrt` is exact at 1).  For an
`ISphere(position, R)` and `P ≠ position` (with `sqrt` exact at the squared
distance) the normal is `(P - position) / |P - position|`. -/
theorem C39_normal_is_unit_gradient (M : MathOps K) (params : QuadricParameters K)
    (position P : Vec3 K) (R : K)
    (hg : params.gradient (P - position) ≠ 0)
    (hs : IsSqrtAt M (dot (params.gradient (P - position)) (params.gradient (P - position)))) :
    (∃ k : K, 0 < k ∧
      (IQuadricSurface.new params position).normal M P = k * params.gradient (P - position)) ∧
    dot ((IQuadricSurface.new params position).normal M P)
      ((IQuadricSurface.new params position).normal M P) = 1 ∧
    (IsSqrtAt M 1 → length M ((IQuadricSurface.new params position).normal M P) = 1) ∧
    (P - position ≠ 0 → IsSqrtAt M (dot (P - position) (P - position)) →
      IsSqrtAt M (dot ((QuadricParameters.sphereQParams R).gradient (P - position))
        ((QuadricParameters.sphereQParams R).gradient (P - position))) →
      (ISphere.new position R).toIQuadricSurface.normal M P
        = (P - position) / length M (P - position)) := by
  have hpos := dot_self_pos _ hg
  have hsp := sqrt_pos_of_pos M _ hs hpos
  have hunit := normalize_dot_self M _ hs hpos
  refine ⟨⟨1 / M.sqrt (dot (params.gradient (P - position)) (params.gradient (P - position))),
    one_div_pos.mpr hsp, ?_⟩, ?_, ?_, ?_⟩
  · rw [IQuadricSurface.normal_eq]
    unfold normalize
    ext <;> simp only [Vec3.muls_x, Vec3.muls_y, Vec3.muls_z, Vec3.smul_x, Vec3.smul_y,
      Vec3.smul_z] <;> ring
  · rw [IQuadricSurface.normal_eq]
    exact hunit
  · intro h1
    have h2 := sqrt_mul_self_eq_abs M 1 (by rwa [mul_one])
    rw [mul_one, abs_one] at h2
    rw [IQuadricSurface.normal_eq]
    unfold length
    rw [hunit, h2]
  · intro hP hsP hsG
    have hPpos := dot_self_pos _ hP
    have hsPp := sqrt_pos_of_pos M _ hsP hPpos
    obtain ⟨-, hqP⟩ := hsP hPpos.le
    have hgrad : (QuadricParameters.sphereQParams R).gradient (P - position)
        = (2 : K) * (P - position) := by
      unfold QuadricParameters.gradient QuadricParameters.sphereQParams
      ext <;> simp
    have hdot : dot ((2 : K) * (P - position)) ((2 : K) * (P - position))
        = (2 * M.sqrt (dot (P - position) (P - position)))
          * (2 * M.sqrt (dot (P - position) (P - position))) := by
      have : dot ((2 : K) * (P - position)) ((2 : K) * (P - position))
          = 4 * dot (P - position) (P - position) := by
        simp only [dot, Vec3.smul_x, Vec3.smul_y, Vec3.smul_z]
        ring
      rw [this]
      linear_combination (-4 : K) * hqP
    rw [hgrad] at hsG
    have hG4 : 0 ≤ dot ((2 : K) * (P - position)) ((2 : K) * (P - position)) := by
      rw [hdot]
      exact mul_self_nonneg _
    obtain ⟨hG0, hGq⟩ := hsG hG4
    have hsqrt : M.sqrt (dot ((2 : K) * (P - position)) ((2 : K) * (P - position)))
        = 2 * M.sqrt (dot (P - position) (P - position)) := by
      have hGq2 := hGq.trans hdot
      exact (mul_self_inj hG0 (by positivity)).mp hGq2
    have hnew : (ISphere.new position R).toIQuadricSurface
        = IQuadricSurface.new (QuadricParameters.sphereQParams R) position := rfl
    rw [hnew, IQuadricSurface.normal_eq, hgrad]
    unfold normalize length
    rw [hsqrt]
    have hne : M.sqrt (dot (P - position) (P - position)) ≠ 0 := ne_of_gt hsPp
    ext <;> simp only [Vec3.muls_x, Vec3.muls_y, Vec3.muls_z, Vec3.smul_x, Vec3.smul_y,
      Vec3.smul_z, Vec3.divs_x, Vec3.divs_y, Vec3.divs_z] <;> field_simp <;> ring

/-- C39, run: on the sphere of radius 5 about the origin the normal at (0, 3, 4) is
(0, 3/5, 4/5). -/
theorem C39_normal_witness :
    (QuadricParameters.sphereQParams (5 : ℚ)).gradient ((⟨0, 3, 4⟩ : Vec3 ℚ) - ⟨0, 0, 0⟩)
      = ⟨0, 6, 8⟩ ∧
    (ISphere.new (⟨0, 0, 0⟩ : Vec3 ℚ) 5).toIQuadricSurface.normal ratOps ⟨0, 3, 4⟩
      = ⟨0, 3 / 5, 4 / 5⟩ := by
  have hs100 : ratSqrt 100 = 10 := by norm_num [ratSqrt, isqrtAux]
  have hs25 : ratSqrt 25 = 5 := by norm_num [ratSqrt, isqrtAux]
  have hgrad : (QuadricParameters.sphereQParams (5 : ℚ)).gradient
      ((⟨0, 3, 4⟩ : Vec3 ℚ) - ⟨0, 0, 0⟩) = ⟨0, 6, 8⟩ := by
    unfold QuadricParameters.gradient QuadricParameters.sphereQParams
    ext <;> norm_num
  have hsub : (⟨0, 3, 4⟩ : Vec3 ℚ) - ⟨0, 0, 0⟩ = ⟨0, 3, 4⟩ := by
    ext <;> norm_num
  have hne : ∀ a b : ℚ, b ≠ 0 → (⟨0, a, b⟩ : Vec3 ℚ) ≠ 0 := by
    intro a b hb h
    exact hb (congrArg Vec3.z h)
  refine ⟨hgrad, ?_⟩
  rw [(C39_normal_is_unit_gradient ratOps (QuadricParameters.sphereQParams (5 : ℚ))
    ⟨0, 0, 0⟩ ⟨0, 3, 4⟩ 5
    (by rw [hgrad]; exact hne 6 8 (by norm_num))
    (by rw [hgrad]; norm_num [IsSqrtAt, dot, ratOps, hs100])).2.2.2
    (by rw [hsub]; exact hne 3 4 (by norm_num))
    (by rw [hsub]; norm_num [IsSqrtAt, dot, ratOps, hs25])
    (by rw [hgrad]; norm_num [IsSqrtAt, dot, ratOps, hs100])]
  rw [hsub]
  norm_num [length, dot, ratOps, hs25]
  ext <;> norm_num

/-- C40: for the shapes built by the constructors `ISphere(position, R)`,
`ICylinderY(position, R, len)`, `ICylinderX(position, R, len)` and
`IEllipsoid(position, sz)`, the specialised `ISphere::computeAqBqCq`,
`ICylinder::computeAqBqCq` and `IEllipsoid::computeAqBqCq` return the same
`(Aq, Bq, Cq)` as the general `IQuadricSurface::computeAqBqCq`, for every ray. -/
theorem C40_specialised_coefficients (R len : K) (sz position : Vec3 K) (ray : Ray K) :
    (ISphere.new position R).computeAqBqCq ray
      = (ISphere.new position R).toIQuadricSurface.computeAqBqCq ray ∧
    (ICylinderY.new position R len).toICylinder.computeAqBqCq ray
      = (ICylinderY.new position R len).toIQuadricSurface.computeAqBqCq ray ∧
    (ICylinderX.new position R len).toICylinder.computeAqBqCq ray
      = (ICylinderX.new position R len).toIQuadricSurface.computeAqBqCq ray ∧
    (IEllipsoid.new position sz).computeAqBqCq ray
      = (IEllipsoid.new position sz).toIQuadricSurface.computeAqBqCq ray := by
  refine ⟨?_, ?_, ?_, ?_⟩
  · simp only [ISphere.computeAqBqCq, IQuadricSurface.computeAqBqCq, ISphere.new,
      IQuadricSurface.new, QuadricParameters.sphereQParams, Prod.mk.injEq]
    refine ⟨?_, ?_, ?_⟩ <;> ring
  · simp only [ICylinder.computeAqBqCq, IQuadricSurface.computeAqBqCq, ICylinderY.new,
      IQuadricSurface.new, QuadricParameters.cylinderYQParams, Prod.mk.injEq]
    refine ⟨?_, ?_, ?_⟩ <;> ring
  · simp only [ICylinder.computeAqBqCq, IQuadricSurface.computeAqBqCq, ICylinderX.new,
      IQuadricSurface.new, QuadricParameters.cylinderXQParams, Prod.mk.injEq]
    refine ⟨?_, ?_, ?_⟩ <;> ring
  · simp only [IEllipsoid.computeAqBqCq, IQuadricSurface.computeAqBqCq, IEllipsoid.new,
      IQuadricSurface.new, QuadricParameters.ellipsoidQParams, Prod.mk.injEq]
    refine ⟨?_, ?_, ?_⟩ <;> ring

/-- C40, run: for the sphere of radius 1 at (0, 0, -3) and the ray from the origin
along -z both routines give `(1, -6, 8)`. -/
theorem C40_specialised_witness :
    (ISphere.new (⟨0, 0, -3⟩ : Vec3 ℚ) 1).computeAqBqCq ⟨⟨0, 0, 0⟩, ⟨0, 0, -1⟩⟩ = (1, -6, 8) ∧
    (ISphere.new (⟨0, 0, -3⟩ : Vec3 ℚ) 1).toIQuadricSurface.computeAqBqCq
      ⟨⟨0, 0, 0⟩, ⟨0, 0, -1⟩⟩ = (1, -6, 8) := by
  have h : (ISphere.new (⟨0, 0, -3⟩ : Vec3 ℚ) 1).computeAqBqCq ⟨⟨0, 0, 0⟩, ⟨0, 0, -1⟩⟩
      = (1, -6, 8) := by
    norm_num [ISphere.computeAqBqCq, ISphere.new, IQuadricSurface.new,
      QuadricParameters.sphereQParams]
  refine ⟨h, ?_⟩
  rw [← (C40_specialised_coefficients (1 : ℚ) 0 ⟨1, 1, 1⟩ ⟨0, 0, -3⟩
    ⟨⟨0, 0, 0⟩, ⟨0, 0, -1⟩⟩).1]
  exact h

end Claims

end Raytrace
